import Mathlib

/-!
# Event unit (eu_mempool_v1_impl.cpp): shallow embedding and verified properties

The embedding follows `models/pulp/event_unit/eu_mempool_v1_impl.cpp`.

* Machine words (`uint32_t`) are natural numbers; the two operations that can
  leave the 32-bit range (`~x` and `1 << n`) are reduced modulo `2^32`.
* A request (`vp::io_req *`) is a handle (a natural number); the data buffer and
  the latency of the request live in the state, indexed by the handle.
* The calls made on output ports (`clock_itf.sync`, `irq_req_itf.sync`,
  `resp`) are recorded, in order, in the `out` trace of the state.
* The re-check cascade `clear_status -> Soc_event_unit::check_state ->
  trigger_event -> send_event -> Core_event_unit::check_state ->
  check_wait_mask -> clear_status` is recursive; it is embedded with a fuel
  counter. A result `none` means that the fuel ran out (or that a null
  `pending_req` was dereferenced); every theorem below proves that the
  operation returns `some` result.
-/

namespace EventUnit

/-! ## Constants and machine arithmetic -/

/-- Cycles charged to a wait request (`#define EU_WAKEUP_REQ_LATENCY 6`). -/
def EU_WAKEUP_REQ_LATENCY : Nat := 6

/-- Cycles between a wake-up decision and the clock coming back
(`#define EU_WAKEUP_LATENCY 2`). -/
def EU_WAKEUP_LATENCY : Nat := 2

/-- Bitwise complement of a `uint32_t` (`~x`). -/
def u32_not (x : Nat) : Nat := 2 ^ 32 - 1 - x % 2 ^ 32

/-- The word `1 << n` stored in a `uint32_t`. -/
def shl1 (n : Nat) : Nat := (1 <<< n) % 2 ^ 32

/-- Subtraction of two `uint64_t` offsets. -/
def u64_sub (a b : Nat) : Nat := (a % 2 ^ 64 + 2 ^ 64 - b % 2 ^ 64) % 2 ^ 64

/-- Count of the zero bits of `x` above its most significant set bit, among the
bits `n - 1` down to `0`. -/
def clz_scan : Nat → Nat → Nat
  | 0, _ => 0
  | n + 1, x => if x.testBit n = true then 0 else clz_scan n x + 1

/-- Count of leading zeros of a non-zero 32-bit word (`__builtin_clz`). -/
def builtin_clz (x : Nat) : Nat := clz_scan 32 (x % 2 ^ 32)

/-- Status of a request (`vp::io_req_status_e`). -/
inductive io_req_status_e where
  | IO_REQ_OK
  | IO_REQ_INVALID
  | IO_REQ_PENDING
  deriving DecidableEq, Repr

/-- Wait state of a core (`Event_unit_core_state_e`). -/
inductive Event_unit_core_state_e where
  | CORE_STATE_NONE
  | CORE_STATE_WAITING_EVENT
  | CORE_STATE_WAITING_BARRIER
  deriving DecidableEq, Repr

open io_req_status_e Event_unit_core_state_e

/-! ## Static configuration -/

/-- Register map of `archi/eu/eu_mempool_v1.h`. The header is not part of the
sources at hand, so its constants and address macros are parameters. -/
structure Archi where
  EU_CORE_MASK : Nat
  EU_CORE_MASK_AND : Nat
  EU_CORE_MASK_OR : Nat
  EU_CORE_MASK_IRQ : Nat
  EU_CORE_MASK_IRQ_AND : Nat
  EU_CORE_MASK_IRQ_OR : Nat
  EU_CORE_STATUS : Nat
  EU_CORE_BUFFER : Nat
  EU_CORE_BUFFER_MASKED : Nat
  EU_CORE_BUFFER_IRQ_MASKED : Nat
  EU_CORE_BUFFER_CLEAR : Nat
  EU_CORE_EVENT_WAIT : Nat
  EU_CORE_EVENT_WAIT_CLEAR : Nat
  EU_MASK_REG_SIZE : Nat
  EU_MUTEX_AREA_MUTEXID_GET : Nat → Nat
  EU_BARRIER_AREA_BARRIERID_GET : Nat → Nat
  EU_BARRIER_AREA_OFFSET_GET : Nat → Nat
  EU_HW_BARR_TRIGGER_MASK : Nat
  EU_HW_BARR_STATUS : Nat
  EU_HW_BARR_STATUS_SUMMARY : Nat
  EU_HW_BARR_TARGET_MASK : Nat
  EU_HW_BARR_TRIGGER : Nat
  EU_HW_BARR_TRIGGER_SELF : Nat
  EU_HW_BARR_TRIGGER_WAIT : Nat
  EU_HW_BARR_TRIGGER_WAIT_CLEAR : Nat
  EU_CORES_AREA_OFFSET : Nat
  EU_CORES_AREA_SIZE : Nat
  EU_CORE_AREA_COREID_GET : Nat → Nat
  EU_CORE_AREA_OFFSET_GET : Nat → Nat
  EU_SOC_EVENTS_AREA_OFFSET : Nat
  EU_SOC_EVENTS_AREA_SIZE : Nat
  EU_SOC_EVENTS_VALID_BIT : Nat
  EU_SW_EVENTS_AREA_BASE : Nat
  EU_SW_EVENTS_AREA_SIZE : Nat
  EU_BARRIER_AREA_OFFSET : Nat
  EU_BARRIER_AREA_SIZE : Nat
  EU_CORE_DEMUX_OFFSET : Nat
  EU_CORE_DEMUX_SIZE : Nat
  EU_MUTEX_DEMUX_OFFSET : Nat
  EU_MUTEX_DEMUX_SIZE : Nat
  EU_SW_EVENTS_DEMUX_OFFSET : Nat
  EU_SW_EVENTS_DEMUX_SIZE : Nat
  EU_BARRIER_DEMUX_OFFSET : Nat
  EU_BARRIER_DEMUX_SIZE : Nat
  EU_CORE_TRIGG_SW_EVENT : Nat
  EU_CORE_TRIGG_SW_EVENT_SIZE : Nat
  EU_CORE_TRIGG_SW_EVENT_WAIT : Nat
  EU_CORE_TRIGG_SW_EVENT_WAIT_SIZE : Nat
  EU_CORE_TRIGG_SW_EVENT_WAIT_CLEAR : Nat
  EU_CORE_TRIGG_SW_EVENT_WAIT_CLEAR_SIZE : Nat
  EU_CORE_TRIGG_SW_EVENT_WAIT_EVENT_GET : Nat → Nat

/-- Values read once from the configuration by the constructors
(`nb_core`, `nb_mutexes`, `events/mutex`, `nb_barriers`, `events/barrier`,
`nb_fifo_events`, `fifo_event`) together with the register map. -/
structure Config where
  archi : Archi
  nb_core : Nat
  nb_mutexes : Nat
  mutex_event : Nat
  nb_barriers : Nat
  barrier_event : Nat
  nb_fifo_events : Nat
  fifo_soc_event : Int

/-- Number of 32-bit words of a barrier mask register (`EU_MASK_REG_SIZE/4`). -/
def Config.mask_words (cfg : Config) : Nat := cfg.archi.EU_MASK_REG_SIZE / 4

/-! ## Data model -/

/-- Fields of `class Core_event_unit` (`is_active` is the `vp::reg_1`). -/
structure Core_event_unit where
  status : Nat
  evt_mask : Nat
  irq_mask : Nat
  clear_evt_mask : Nat
  sync_irq : Int
  state : Event_unit_core_state_e
  pending_req : Option Nat
  is_active : Bool
  deriving DecidableEq

/-- Fields of `class Mutex`. -/
structure Mutex where
  locked : Bool
  waiting_list : List Nat
  value : Nat
  waiting_reqs : Nat → Nat

/-- Fields of `class Barrier`: three arrays of `EU_MASK_REG_SIZE/4` words. -/
structure Barrier where
  core_mask : List Nat
  status : List Nat
  target_mask : List Nat
  deriving DecidableEq

/-- Mutable fields of `class Soc_event_unit`. -/
structure Soc_event_unit where
  nb_free_events : Int
  fifo_event_head : Int
  fifo_event_tail : Int
  fifo_event : Int → Int

/-- The two clock events owned by a core. -/
inductive Clock_event_kind where
  | wakeup_event
  | irq_wakeup_event
  deriving DecidableEq, Repr

/-- Modelled from the spec: an entry of the host engine's discrete-event queue
(`event_enqueue` is not under src/). The entry fires when the cycle
counter reaches `cycle`. -/
structure Clock_event where
  cycle : Nat
  core : Nat
  kind : Clock_event_kind
  deriving DecidableEq, Repr

/-- A call made on an output port. -/
inductive Output where
  | clock_sync (core : Nat) (value : Bool)
  | irq_req_sync (core : Nat) (irq : Int)
  | resp (core : Nat) (req : Nat) (data : Nat)
  deriving DecidableEq, Repr

/-- State of the whole unit, of the requests it has seen and of the engine's
event queue. -/
structure State where
  core_eu : Nat → Core_event_unit
  mutexes : Nat → Mutex
  barriers : Nat → Barrier
  soc_event_unit : Soc_event_unit
  req_data : Nat → Nat
  req_latency : Nat → Nat
  events : List Clock_event
  cycles : Nat
  out : List Output

/-- Replace the fields of one core. -/
def State.set_core (s : State) (core : Nat) (c : Core_event_unit) : State :=
  { s with core_eu := Function.update s.core_eu core c }

/-- Replace the fields of one mutex. -/
def State.set_mutex (s : State) (id : Nat) (m : Mutex) : State :=
  { s with mutexes := Function.update s.mutexes id m }

/-- Replace the fields of one barrier. -/
def State.set_barrier (s : State) (id : Nat) (b : Barrier) : State :=
  { s with barriers := Function.update s.barriers id b }

/-- Record a call on an output port. -/
def State.emit (s : State) (o : Output) : State :=
  { s with out := s.out ++ [o] }

/-- Write the data word of a request (`*data = v`). -/
def State.set_req_data (s : State) (req v : Nat) : State :=
  { s with req_data := Function.update s.req_data req v }

/-- Add cycles to a request (`req->inc_latency(n)`). -/
def State.inc_latency (s : State) (req n : Nat) : State :=
  { s with req_latency := Function.update s.req_latency req (s.req_latency req + n) }

/-- Modelled from the spec: `event->is_enqueued()` of the host engine, true when
an entry of that core and kind is in the queue. -/
def State.is_enqueued (s : State) (core : Nat) (kind : Clock_event_kind) : Bool :=
  s.events.any (fun e => decide (e.core = core ∧ e.kind = kind))

/-- Modelled from the spec: `top->event_enqueue(event, latency)` of the host
engine, the entry fires `latency` cycles after the current cycle. Every call
adds an entry. -/
def State.event_enqueue (s : State) (core : Nat) (kind : Clock_event_kind) (latency : Nat) :
    State :=
  { s with events := s.events ++ [⟨s.cycles + latency, core, kind⟩] }

/-! ## Core synchronisation state machine

The functions whose name ends in `_with` take the inner call of
`Core_event_unit::check_state` as an argument; `check_state_fuel` closes the
recursion. -/

/-- Body of `Core_event_unit::set_status`. -/
def Core_event_unit.set_status (c : Core_event_unit) (new_value : Nat) : Core_event_unit :=
  { c with status := new_value }

/-- Body of `Event_unit::send_event`: latch the bits, then re-check the core. -/
def send_event_with (cs : Nat → State → Option State) (core mask : Nat) (s : State) :
    Option State :=
  let eu := s.core_eu core
  cs core (s.set_core core (eu.set_status (eu.status ||| mask)))

/-- Body of `Event_unit::trigger_event`: for each core `i < nb_core` whose bit is
set in `core_mask`, `send_event(i, event_mask)`. -/
def trigger_event_with (cs : Nat → State → Option State) (cfg : Config) (event_mask : Nat)
    (core_mask : List Nat) (s : State) : Option State :=
  (List.range cfg.nb_core).foldlM
    (fun st i =>
      if core_mask.getD (i / 32) 0 &&& shl1 (i % 32) ≠ 0 then send_event_with cs i event_mask st
      else some st) s

/-- Body of `Soc_event_unit::check_state`: when a FIFO event is configured and
the FIFO is not empty, broadcast the FIFO event to all cores. -/
def Soc_event_unit.check_state_with (cs : Nat → State → Option State) (cfg : Config)
    (s : State) : Option State :=
  if cfg.fifo_soc_event ≠ -1 ∧ s.soc_event_unit.nb_free_events ≠ (cfg.nb_fifo_events : Int) then
    trigger_event_with cs cfg (shl1 cfg.fifo_soc_event.toNat)
      (List.replicate cfg.mask_words (2 ^ 32 - 1)) s
  else some s

/-- Body of `Core_event_unit::clear_status`. -/
def clear_status_with (cs : Nat → State → Option State) (cfg : Config) (core mask : Nat)
    (s : State) : Option State :=
  let c := s.core_eu core
  Soc_event_unit.check_state_with cs cfg
    (s.set_core core { c with status := c.status &&& u32_not mask })

/-- Body of `Core_event_unit::check_wait_mask`. -/
def check_wait_mask_with (cs : Nat → State → Option State) (cfg : Config) (core : Nat)
    (s : State) : Option State :=
  if (s.core_eu core).clear_evt_mask ≠ 0 then
    (clear_status_with cs cfg core (s.core_eu core).clear_evt_mask s).bind fun s1 =>
      some (s1.set_core core { s1.core_eu core with clear_evt_mask := 0 })
  else some s

/-- The value of `irq` in `Core_event_unit::check_state`: the index of the most
significant bit of `status & irq_mask`, or `-1`
(`status_irq_masked ? 31 - __builtin_clz(status_irq_masked) : -1`). -/
def Core_event_unit.pending_irq (c : Core_event_unit) : Int :=
  if c.status &&& c.irq_mask ≠ 0 then 31 - (builtin_clz (c.status &&& c.irq_mask) : Int) else -1

/-- Body of `Core_event_unit::check_state`. -/
def check_state_body (cs : Nat → State → Option State) (cfg : Config) (core : Nat)
    (s : State) : Option State :=
  let c := s.core_eu core
  let status_irq_masked := c.status &&& c.irq_mask
  let status_evt_masked := c.status &&& c.evt_mask
  let irq : Int := c.pending_irq
  if c.is_active = true then
    if irq ≠ c.sync_irq then
      some ((s.set_core core { c with sync_irq := irq }).emit (Output.irq_req_sync core irq))
    else some s
  else
    if status_irq_masked ≠ 0 ∧ status_evt_masked = 0 then
      if s.is_enqueued core Clock_event_kind.irq_wakeup_event = false then
        let s2 := s.event_enqueue core Clock_event_kind.irq_wakeup_event EU_WAKEUP_LATENCY
        some (s2.set_core core { s2.core_eu core with sync_irq := -1 })
      else some s
    else
      match c.state with
      | CORE_STATE_NONE => some s
      | _ =>
        if status_evt_masked ≠ 0 then
          (check_wait_mask_with cs cfg core
              (s.set_core core { c with state := CORE_STATE_NONE })).bind fun s3 =>
            if s3.is_enqueued core Clock_event_kind.wakeup_event = false then
              some (s3.event_enqueue core Clock_event_kind.wakeup_event EU_WAKEUP_LATENCY)
            else some s3
        else some s

/-- The recursion of `Core_event_unit::check_state` through the cascade, `fuel`
levels deep. -/
def check_state_fuel (cfg : Config) : Nat → Nat → State → Option State
  | 0 => fun _ _ => none
  | fuel + 1 => check_state_body (check_state_fuel cfg fuel) cfg

/-- Embedding of `Core_event_unit::check_state`. Each nested level of the cascade
is entered by a core that has just left a waiting state, so `nb_core + 1` levels
are enough (`check_state_frame`), and the result satisfies the recursive equation
of the source (`check_state_unfold`). -/
def Core_event_unit.check_state (cfg : Config) (core : Nat) (s : State) : Option State :=
  check_state_fuel cfg (cfg.nb_core + 1) core s

/-- Embedding of `Event_unit::send_event`. -/
def Event_unit.send_event (cfg : Config) (core mask : Nat) (s : State) : Option State :=
  send_event_with (Core_event_unit.check_state cfg) core mask s

/-- Embedding of `Event_unit::trigger_event`. -/
def Event_unit.trigger_event (cfg : Config) (event_mask : Nat) (core_mask : List Nat)
    (s : State) : Option State :=
  trigger_event_with (Core_event_unit.check_state cfg) cfg event_mask core_mask s

/-- Embedding of `Soc_event_unit::check_state`. -/
def Soc_event_unit.check_state (cfg : Config) (s : State) : Option State :=
  Soc_event_unit.check_state_with (Core_event_unit.check_state cfg) cfg s

/-- Embedding of `Core_event_unit::clear_status`. -/
def Core_event_unit.clear_status (cfg : Config) (core mask : Nat) (s : State) : Option State :=
  clear_status_with (Core_event_unit.check_state cfg) cfg core mask s

/-- Embedding of `Core_event_unit::check_wait_mask`. -/
def Core_event_unit.check_wait_mask (cfg : Config) (core : Nat) (s : State) : Option State :=
  check_wait_mask_with (Core_event_unit.check_state cfg) cfg core s

/-- Embedding of `Core_event_unit::put_to_sleep`. -/
def Core_event_unit.put_to_sleep (core req : Nat) (wait_state : Event_unit_core_state_e)
    (s : State) : io_req_status_e × State :=
  let s1 := s.set_core core { s.core_eu core with state := wait_state, is_active := false }
  let s2 := s1.emit (Output.clock_sync core false)
  (IO_REQ_PENDING, s2.set_core core { s2.core_eu core with pending_req := some req })

/-- Embedding of `Core_event_unit::wait_event`. -/
def Core_event_unit.wait_event (cfg : Config) (core req : Nat)
    (wait_state : Event_unit_core_state_e) (s : State) : Option (io_req_status_e × State) :=
  let s0 := s.inc_latency req EU_WAKEUP_REQ_LATENCY
  if (s0.core_eu core).evt_mask &&& (s0.core_eu core).status ≠ 0 then
    (Core_event_unit.check_wait_mask cfg core s0).bind fun s1 =>
      let s2 := s1.set_core core { s1.core_eu core with pending_req := some req }
      some (IO_REQ_PENDING,
        s2.event_enqueue core Clock_event_kind.wakeup_event EU_WAKEUP_LATENCY)
  else some (Core_event_unit.put_to_sleep core req wait_state s0)

/-- Embedding of `Core_event_unit::check_pending_req`: the response carries the
data word that is in the request's buffer at that moment. A null `pending_req`
cannot be dereferenced. -/
def Core_event_unit.check_pending_req (core : Nat) (s : State) : Option State :=
  match (s.core_eu core).pending_req with
  | some req => some (s.emit (Output.resp core req (s.req_data req)))
  | none => none

/-- Embedding of `Core_event_unit::wakeup_handler`. -/
def Core_event_unit.wakeup_handler (cfg : Config) (core : Nat) (s : State) : Option State :=
  let s1 := (s.set_core core { s.core_eu core with is_active := true }).emit
    (Output.clock_sync core true)
  (Core_event_unit.check_pending_req core s1).bind fun s2 =>
    Core_event_unit.check_state cfg core s2

/-- Embedding of `Core_event_unit::irq_wakeup_handler`. -/
def Core_event_unit.irq_wakeup_handler (cfg : Config) (core : Nat) (s : State) : Option State :=
  let s1 := (s.set_core core { s.core_eu core with is_active := true }).emit
    (Output.clock_sync core true)
  Core_event_unit.check_state cfg core s1

/-- Embedding of `Event_unit::in_event_sync`: `id` packs the receiving core in
its upper bits and the event in its 16 lower bits. -/
def Event_unit.in_event_sync (cfg : Config) (id : Nat) (s : State) : Option State :=
  let core_id := id >>> 16
  let event_id := id &&& 0xffff
  let eu := s.core_eu core_id
  Core_event_unit.check_state cfg core_id
    (s.set_core core_id (eu.set_status (eu.status ||| shl1 event_id)))

/-- Embedding of `Core_event_unit::req`, the per-core register block. The data
pointer of the source is the buffer of `req`. -/
def Core_event_unit.req (cfg : Config) (core req offset : Nat) (is_write : Bool) (s : State) :
    Option (io_req_status_e × State) :=
  let a := cfg.archi
  let c := s.core_eu core
  let data := s.req_data req
  if offset = a.EU_CORE_MASK then
    if is_write = false then some (IO_REQ_OK, s.set_req_data req c.evt_mask)
    else
      (Core_event_unit.check_state cfg core (s.set_core core { c with evt_mask := data })).bind
        fun s1 => some (IO_REQ_OK, s1)
  else if offset = a.EU_CORE_MASK_AND then
    if is_write = false then some (IO_REQ_INVALID, s)
    else
      (Core_event_unit.check_state cfg core
          (s.set_core core { c with evt_mask := c.evt_mask &&& u32_not data })).bind
        fun s1 => some (IO_REQ_OK, s1)
  else if offset = a.EU_CORE_MASK_OR then
    if is_write = false then some (IO_REQ_INVALID, s)
    else
      (Core_event_unit.check_state cfg core
          (s.set_core core { c with evt_mask := c.evt_mask ||| data })).bind
        fun s1 => some (IO_REQ_OK, s1)
  else if offset = a.EU_CORE_MASK_IRQ then
    if is_write = false then some (IO_REQ_OK, s.set_req_data req c.irq_mask)
    else
      (Core_event_unit.check_state cfg core (s.set_core core { c with irq_mask := data })).bind
        fun s1 => some (IO_REQ_OK, s1)
  else if offset = a.EU_CORE_MASK_IRQ_AND then
    if is_write = false then some (IO_REQ_INVALID, s)
    else
      (Core_event_unit.check_state cfg core
          (s.set_core core { c with irq_mask := c.irq_mask &&& u32_not data })).bind
        fun s1 => some (IO_REQ_OK, s1)
  else if offset = a.EU_CORE_MASK_IRQ_OR then
    if is_write = false then some (IO_REQ_INVALID, s)
    else
      (Core_event_unit.check_state cfg core
          (s.set_core core { c with irq_mask := c.irq_mask ||| data })).bind
        fun s1 => some (IO_REQ_OK, s1)
  else if offset = a.EU_CORE_STATUS then
    if is_write = true then some (IO_REQ_INVALID, s)
    else some (IO_REQ_OK, s.set_req_data req (if c.is_active then 1 else 0))
  else if offset = a.EU_CORE_BUFFER then
    if is_write = true then some (IO_REQ_INVALID, s)
    else some (IO_REQ_OK, s.set_req_data req c.status)
  else if offset = a.EU_CORE_BUFFER_MASKED then
    if is_write = true then some (IO_REQ_INVALID, s)
    else some (IO_REQ_OK, s.set_req_data req (c.status &&& c.evt_mask))
  else if offset = a.EU_CORE_BUFFER_IRQ_MASKED then
    if is_write = true then some (IO_REQ_INVALID, s)
    else some (IO_REQ_OK, s.set_req_data req (c.status &&& c.irq_mask))
  else if offset = a.EU_CORE_BUFFER_CLEAR then
    if is_write = false then some (IO_REQ_INVALID, s)
    else
      (Core_event_unit.clear_status cfg core data s).bind fun s1 =>
        (Core_event_unit.check_state cfg core s1).bind fun s2 => some (IO_REQ_OK, s2)
  else if offset = a.EU_CORE_EVENT_WAIT then
    if is_write = true then some (IO_REQ_INVALID, s)
    else
      (Core_event_unit.wait_event cfg core req CORE_STATE_WAITING_EVENT s).bind fun r =>
        let c1 := r.2.core_eu core
        some (r.1, r.2.set_req_data req (c1.evt_mask &&& c1.status))
  else if offset = a.EU_CORE_EVENT_WAIT_CLEAR then
    (Core_event_unit.wait_event cfg core req CORE_STATE_WAITING_EVENT
        (s.set_core core { c with clear_evt_mask := c.evt_mask })).bind fun r =>
      let c1 := r.2.core_eu core
      some (r.1, r.2.set_req_data req (c1.evt_mask &&& c1.status))
  else some (IO_REQ_INVALID, s)

/-! ## Frame of the re-check cascade -/

/-- What a re-check may change in one core: only `status` (where it can set no
bit outside `m`), `clear_evt_mask`, `sync_irq`, and `state`, which can only go
to `CORE_STATE_NONE` and only for an inactive core. -/
structure CoreFrame (m : Nat) (c c' : Core_event_unit) : Prop where
  evt_mask : c'.evt_mask = c.evt_mask
  irq_mask : c'.irq_mask = c.irq_mask
  pending_req : c'.pending_req = c.pending_req
  is_active : c'.is_active = c.is_active
  state : c'.state = c.state ∨ (c'.state = CORE_STATE_NONE ∧ c.is_active = false)
  status : ∀ b, c'.status.testBit b = true → c.status.testBit b = true ∨ m.testBit b = true

/-- What a re-check cascade may change in the unit: the cores as in
`CoreFrame`; it appends clock events that fire two cycles later (a generic
wake-up only for an inactive core that was waiting and had none enqueued) and it
appends IRQ line updates of active cores to the output trace. -/
structure Frame (m : Nat) (s s' : State) : Prop where
  mutexes : s'.mutexes = s.mutexes
  barriers : s'.barriers = s.barriers
  soc_event_unit : s'.soc_event_unit = s.soc_event_unit
  req_data : s'.req_data = s.req_data
  req_latency : s'.req_latency = s.req_latency
  cycles : s'.cycles = s.cycles
  core : ∀ i, CoreFrame m (s.core_eu i) (s'.core_eu i)
  events : ∃ added, s'.events = s.events ++ added ∧ ∀ e ∈ added,
    e.cycle = s.cycles + EU_WAKEUP_LATENCY ∧ (s.core_eu e.core).is_active = false ∧
    (e.kind = Clock_event_kind.wakeup_event →
      (s.core_eu e.core).state ≠ CORE_STATE_NONE ∧
      s.is_enqueued e.core Clock_event_kind.wakeup_event = false)
  out : ∃ added, s'.out = s.out ++ added ∧ ∀ o ∈ added,
    ∃ c irq, o = Output.irq_req_sync c irq ∧ (s.core_eu c).is_active = true

/-- The FIFO event word broadcast by `Soc_event_unit::check_state`
(`1 << fifo_soc_event`), or zero when no FIFO event is configured
(`fifo_soc_event == -1`) and nothing is ever broadcast. -/
def Config.fifo_mask (cfg : Config) : Nat :=
  if cfg.fifo_soc_event = -1 then 0 else shl1 cfg.fifo_soc_event.toNat

/-! ## Mutex unit -/

/-- Embedding of `Mutex_unit::enqueue_sleep`. -/
def Mutex_unit.enqueue_sleep (cfg : Config) (id req core_id : Nat) (s : State) :
    Option (io_req_status_e × State) :=
  let mutex := s.mutexes id
  let s1 := s.set_mutex id
    { mutex with
      waiting_reqs := Function.update mutex.waiting_reqs core_id req
      waiting_list := mutex.waiting_list ++ [core_id] }
  let s2 := s1.set_core core_id { s1.core_eu core_id with clear_evt_mask := shl1 cfg.mutex_event }
  Core_event_unit.wait_event cfg core_id req CORE_STATE_WAITING_EVENT s2

/-- Embedding of `Mutex_unit::req`. A read is a lock attempt, a write an unlock;
the payload of a write is the data word of `req`. -/
def Mutex_unit.req (cfg : Config) (req offset : Nat) (is_write : Bool) (core : Nat) (s : State) :
    Option (io_req_status_e × State) :=
  let id := cfg.archi.EU_MUTEX_AREA_MUTEXID_GET offset
  if id ≥ cfg.nb_mutexes then some (IO_REQ_INVALID, s)
  else
    let mutex := s.mutexes id
    if is_write = false then
      if mutex.locked = false then some (IO_REQ_OK, s.set_mutex id { mutex with locked := true })
      else Mutex_unit.enqueue_sleep cfg id req core s
    else
      let value := s.req_data req
      match mutex.waiting_list with
      | i :: rest =>
        let s1 := s.set_mutex id { mutex with value := value, waiting_list := rest }
        let waiting_req := mutex.waiting_reqs i
        let s2 := s1.set_req_data waiting_req value
        (Event_unit.send_event cfg i (shl1 cfg.mutex_event) s2).bind fun s3 =>
          some (IO_REQ_OK, s3)
      | [] => some (IO_REQ_OK, s.set_mutex id { mutex with value := value, locked := false })

/-! ## Barrier unit -/

/-- Embedding of `Barrier_unit::check_barrier`. -/
def Barrier_unit.check_barrier (cfg : Config) (barrier_id : Nat) (s : State) : Option State :=
  let barrier := s.barriers barrier_id
  if barrier.status = barrier.core_mask then
    Event_unit.trigger_event cfg (shl1 cfg.barrier_event) barrier.target_mask
      (s.set_barrier barrier_id
        { barrier with status := List.replicate barrier.status.length 0 })
  else some s

/-- Embedding of `Barrier_unit::req`. `core` is `-1` for an access that came
through the slave port. -/
def Barrier_unit.req (cfg : Config) (req offset0 : Nat) (is_write : Bool) (core : Int)
    (s : State) : Option (io_req_status_e × State) :=
  let a := cfg.archi
  let barrier_id := a.EU_BARRIER_AREA_BARRIERID_GET offset0
  let offset := u64_sub offset0 (a.EU_BARRIER_AREA_OFFSET_GET barrier_id)
  let internal_offset := (offset % a.EU_MASK_REG_SIZE) >>> 2
  let data := s.req_data req
  if barrier_id ≥ cfg.nb_barriers then some (IO_REQ_INVALID, s)
  else
    let barrier := s.barriers barrier_id
    if a.EU_HW_BARR_TRIGGER_MASK ≤ offset ∧ offset < a.EU_HW_BARR_TRIGGER_MASK + a.EU_MASK_REG_SIZE
    then
      if is_write = false then
        some (IO_REQ_OK, s.set_req_data req (barrier.core_mask.getD internal_offset 0))
      else
        (Barrier_unit.check_barrier cfg barrier_id
            (s.set_barrier barrier_id
              { barrier with core_mask := barrier.core_mask.set internal_offset data })).bind
          fun s1 => some (IO_REQ_OK, s1)
    else if a.EU_HW_BARR_STATUS ≤ offset ∧ offset < a.EU_HW_BARR_STATUS + a.EU_MASK_REG_SIZE then
      if is_write = false then
        some (IO_REQ_OK, s.set_req_data req (barrier.status.getD internal_offset 0))
      else
        (Barrier_unit.check_barrier cfg barrier_id
            (s.set_barrier barrier_id
              { barrier with status := barrier.status.set internal_offset data })).bind
          fun s1 => some (IO_REQ_OK, s1)
    else if a.EU_HW_BARR_STATUS_SUMMARY ≤ offset ∧
        offset < a.EU_HW_BARR_STATUS_SUMMARY + a.EU_MASK_REG_SIZE then
      if is_write = true then some (IO_REQ_INVALID, s)
      else
        some (IO_REQ_OK, s.set_req_data req
          ((List.range' 1 (cfg.nb_barriers - 1)).foldl
            (fun status i => status ||| (s.barriers i).status.getD internal_offset 0) 0))
    else if a.EU_HW_BARR_TARGET_MASK ≤ offset ∧
        offset < a.EU_HW_BARR_TARGET_MASK + a.EU_MASK_REG_SIZE then
      if is_write = false then
        some (IO_REQ_OK, s.set_req_data req (barrier.target_mask.getD internal_offset 0))
      else
        (Barrier_unit.check_barrier cfg barrier_id
            (s.set_barrier barrier_id
              { barrier with target_mask := barrier.target_mask.set internal_offset data })).bind
          fun s1 => some (IO_REQ_OK, s1)
    else if a.EU_HW_BARR_TRIGGER ≤ offset ∧ offset < a.EU_HW_BARR_TRIGGER + a.EU_MASK_REG_SIZE
    then
      if is_write = false then some (IO_REQ_INVALID, s)
      else
        (Barrier_unit.check_barrier cfg barrier_id
            (s.set_barrier barrier_id
              { barrier with
                status := barrier.status.set internal_offset
                  (barrier.status.getD internal_offset 0 ||| data) })).bind
          fun s1 => some (IO_REQ_OK, s1)
    else if offset = a.EU_HW_BARR_TRIGGER_SELF then
      if core = -1 then some (IO_REQ_INVALID, s)
      else
        let c := core.toNat
        (Barrier_unit.check_barrier cfg barrier_id
            (s.set_barrier barrier_id
              { barrier with
                status := barrier.status.set (c / 32)
                  (barrier.status.getD (c / 32) 0 ||| shl1 (c % 32)) })).bind
          fun s1 => some (IO_REQ_OK, s1)
    else if offset = a.EU_HW_BARR_TRIGGER_WAIT then
      if core = -1 then some (IO_REQ_INVALID, s)
      else
        let c := core.toNat
        let s1 :=
          if (s.core_eu c).state = CORE_STATE_WAITING_BARRIER then s
          else
            s.set_barrier barrier_id
              { barrier with
                status := barrier.status.set (c / 32)
                  (barrier.status.getD (c / 32) 0 ||| shl1 (c % 32)) }
        (Barrier_unit.check_barrier cfg barrier_id s1).bind fun s2 =>
          Core_event_unit.wait_event cfg c req CORE_STATE_WAITING_BARRIER s2
    else if offset = a.EU_HW_BARR_TRIGGER_WAIT_CLEAR then
      if core = -1 then some (IO_REQ_INVALID, s)
      else
        let c := core.toNat
        let s1 :=
          if (s.core_eu c).state = CORE_STATE_WAITING_BARRIER then s
          else
            s.set_barrier barrier_id
              { barrier with
                status := barrier.status.set (c / 32)
                  (barrier.status.getD (c / 32) 0 ||| shl1 (c % 32)) }
        let s2 := s1.set_core c { s1.core_eu c with clear_evt_mask := (s1.core_eu c).evt_mask }
        (Barrier_unit.check_barrier cfg barrier_id s2).bind fun s3 =>
          Core_event_unit.wait_event cfg c req CORE_STATE_WAITING_BARRIER s3
    else some (IO_REQ_INVALID, s)

/-! ## Engine clock -/

/-- The handler attached to each kind of clock event in `Core_event_unit::build`. -/
def Clock_event.fire (cfg : Config) (e : Clock_event) (s : State) : Option State :=
  match e.kind with
  | Clock_event_kind.wakeup_event => Core_event_unit.wakeup_handler cfg e.core s
  | Clock_event_kind.irq_wakeup_event => Core_event_unit.irq_wakeup_handler cfg e.core s

/-- Modelled from the spec: one tick of the host engine. The cycle counter
advances by one and the entries of the event queue that are due at the new
cycle are removed from the queue and fired in the order of their enqueuing. -/
def State.tick (cfg : Config) (s : State) : Option State :=
  let now := s.cycles + 1
  let due := s.events.filter (fun e => decide (e.cycle = now))
  let s1 := { s with cycles := now, events := s.events.filter (fun e => decide (e.cycle ≠ now)) }
  due.foldlM (fun st e => e.fire cfg st) s1

/-! ## Well-formed register maps and a concrete instance -/

/-- The offsets of the per-core register block, in the order in which
`Core_event_unit::req` compares them with the offset of the access. -/
def Archi.core_regs (a : Archi) : List Nat :=
  [a.EU_CORE_MASK, a.EU_CORE_MASK_AND, a.EU_CORE_MASK_OR, a.EU_CORE_MASK_IRQ,
    a.EU_CORE_MASK_IRQ_AND, a.EU_CORE_MASK_IRQ_OR, a.EU_CORE_STATUS, a.EU_CORE_BUFFER,
    a.EU_CORE_BUFFER_MASKED, a.EU_CORE_BUFFER_IRQ_MASKED, a.EU_CORE_BUFFER_CLEAR,
    a.EU_CORE_EVENT_WAIT, a.EU_CORE_EVENT_WAIT_CLEAR]

/-- A register map with word-spaced per-core registers, 64-byte per-core blocks,
32-byte barrier masks, 256-byte barrier blocks, one word per mutex and one word
per software event; used for the concrete instances of the theorems. -/
def demo_archi : Archi where
  EU_CORE_MASK := 0x00
  EU_CORE_MASK_AND := 0x04
  EU_CORE_MASK_OR := 0x08
  EU_CORE_MASK_IRQ := 0x0c
  EU_CORE_MASK_IRQ_AND := 0x10
  EU_CORE_MASK_IRQ_OR := 0x14
  EU_CORE_STATUS := 0x18
  EU_CORE_BUFFER := 0x1c
  EU_CORE_BUFFER_MASKED := 0x20
  EU_CORE_BUFFER_IRQ_MASKED := 0x24
  EU_CORE_BUFFER_CLEAR := 0x28
  EU_CORE_EVENT_WAIT := 0x38
  EU_CORE_EVENT_WAIT_CLEAR := 0x3c
  EU_MASK_REG_SIZE := 0x20
  EU_MUTEX_AREA_MUTEXID_GET := fun offset => offset >>> 2
  EU_BARRIER_AREA_BARRIERID_GET := fun offset => offset >>> 8
  EU_BARRIER_AREA_OFFSET_GET := fun barrier_id => barrier_id <<< 8
  EU_HW_BARR_TRIGGER_MASK := 0x00
  EU_HW_BARR_STATUS := 0x20
  EU_HW_BARR_STATUS_SUMMARY := 0x40
  EU_HW_BARR_TARGET_MASK := 0x60
  EU_HW_BARR_TRIGGER := 0x80
  EU_HW_BARR_TRIGGER_SELF := 0xa0
  EU_HW_BARR_TRIGGER_WAIT := 0xa4
  EU_HW_BARR_TRIGGER_WAIT_CLEAR := 0xa8
  EU_CORES_AREA_OFFSET := 0x0000
  EU_CORES_AREA_SIZE := 0x0400
  EU_CORE_AREA_COREID_GET := fun offset => offset >>> 6
  EU_CORE_AREA_OFFSET_GET := fun core_id => core_id <<< 6
  EU_SOC_EVENTS_AREA_OFFSET := 0x0700
  EU_SOC_EVENTS_AREA_SIZE := 0x0080
  EU_SOC_EVENTS_VALID_BIT := 31
  EU_SW_EVENTS_AREA_BASE := 0x0600
  EU_SW_EVENTS_AREA_SIZE := 0x0100
  EU_BARRIER_AREA_OFFSET := 0x0400
  EU_BARRIER_AREA_SIZE := 0x0200
  EU_CORE_DEMUX_OFFSET := 0x0000
  EU_CORE_DEMUX_SIZE := 0x0040
  EU_MUTEX_DEMUX_OFFSET := 0x00c0
  EU_MUTEX_DEMUX_SIZE := 0x0040
  EU_SW_EVENTS_DEMUX_OFFSET := 0x0100
  EU_SW_EVENTS_DEMUX_SIZE := 0x0100
  EU_BARRIER_DEMUX_OFFSET := 0x0200
  EU_BARRIER_DEMUX_SIZE := 0x0200
  EU_CORE_TRIGG_SW_EVENT := 0x00
  EU_CORE_TRIGG_SW_EVENT_SIZE := 0x20
  EU_CORE_TRIGG_SW_EVENT_WAIT := 0x40
  EU_CORE_TRIGG_SW_EVENT_WAIT_SIZE := 0x60
  EU_CORE_TRIGG_SW_EVENT_WAIT_CLEAR := 0x80
  EU_CORE_TRIGG_SW_EVENT_WAIT_CLEAR_SIZE := 0xa0
  EU_CORE_TRIGG_SW_EVENT_WAIT_EVENT_GET := fun offset => offset >>> 2

/-- A unit with four cores, two mutexes (event 1), two barriers (event 0) and a
two-entry FIFO (event 3). -/
def demo_cfg : Config where
  archi := demo_archi
  nb_core := 4
  nb_mutexes := 2
  mutex_event := 1
  nb_barriers := 2
  barrier_event := 0
  nb_fifo_events := 2
  fifo_soc_event := 3

/-- A core as `Core_event_unit::reset` leaves it, with its clock running and no
stored request. -/
def demo_core : Core_event_unit where
  status := 0
  evt_mask := 0
  irq_mask := 0
  clear_evt_mask := 0
  sync_irq := -1
  state := CORE_STATE_NONE
  pending_req := none
  is_active := true

/-- The state of `demo_cfg` after a reset: every core running, every mutex
free, every barrier cleared, the FIFO empty, nothing scheduled. -/
def demo_state : State where
  core_eu := fun _ => demo_core
  mutexes := fun _ => { locked := false, waiting_list := [], value := 0, waiting_reqs := fun _ => 0 }
  barriers := fun _ =>
    { core_mask := List.replicate 8 0, status := List.replicate 8 0,
      target_mask := List.replicate 8 0 }
  soc_event_unit :=
    { nb_free_events := 2, fifo_event_head := 0, fifo_event_tail := 0, fifo_event := fun _ => 0 }
  req_data := fun _ => 0
  req_latency := fun _ => 0
  events := []
  cycles := 0
  out := []

/-- The demo state in which core 0 has event bit 0 in its mask and latched in
its status. -/
def demo_state_event : State :=
  demo_state.set_core 0 { demo_core with status := 1, evt_mask := 1 }

/-! ## Observations used by the temporal properties -/

/-- The generic wake-up entries of a core that are in the event queue. -/
def State.wakeups_of (s : State) (core : Nat) : List Clock_event :=
  s.events.filter (fun e => decide (e.core = core ∧ e.kind = Clock_event_kind.wakeup_event))

/-- Is this output a response sent by the given core? -/
def Output.is_resp_of (core : Nat) : Output → Bool
  | Output.resp c _ _ => decide (c = core)
  | _ => false

/-- The responses that a core has sent so far, oldest first. -/
def State.resps_of (s : State) (core : Nat) : List Output :=
  s.out.filter (Output.is_resp_of core)

/-- A sequence of events `(core, mask)` delivered one after the other by
`Event_unit::send_event`. -/
def send_events (cfg : Config) (evs : List (Nat × Nat)) (s : State) : Option State :=
  evs.foldlM (fun st e => Event_unit.send_event cfg e.1 e.2 st) s

/-- A core that a wait has put to sleep with request `req` and that has not been
woken since: its clock is off, it is in a waiting state, no masked event is
latched, `req` is stored, and no generic wake-up of the core is in the queue. -/
def State.suspended (s : State) (core req : Nat) : Prop :=
  (s.core_eu core).is_active = false ∧
  (s.core_eu core).state ≠ CORE_STATE_NONE ∧
  (s.core_eu core).status &&& (s.core_eu core).evt_mask = 0 ∧
  (s.core_eu core).pending_req = some req ∧
  s.is_enqueued core Clock_event_kind.wakeup_event = false

/-- Every generic wake-up in the queue, and every sleeping core, has a stored
request to answer (`pending_req` is assigned before the wake-up is enqueued and
before the clock is gated, and is never reset by the unit). -/
def State.wakeups_have_request (s : State) : Prop :=
  (∀ e ∈ s.events, e.kind = Clock_event_kind.wakeup_event →
    (s.core_eu e.core).pending_req ≠ none) ∧
  (∀ j, (s.core_eu j).is_active = false → (s.core_eu j).state ≠ CORE_STATE_NONE →
    (s.core_eu j).pending_req ≠ none)

/-- What the firing of clock events may change: a core's active flag (only to
on) and its `sync_irq`, and the output trace. -/
structure HFrame (s s' : State) : Prop where
  mutexes : s'.mutexes = s.mutexes
  barriers : s'.barriers = s.barriers
  soc_event_unit : s'.soc_event_unit = s.soc_event_unit
  req_data : s'.req_data = s.req_data
  req_latency : s'.req_latency = s.req_latency
  cycles : s'.cycles = s.cycles
  events : s'.events = s.events
  status : ∀ i, (s'.core_eu i).status = (s.core_eu i).status
  evt_mask : ∀ i, (s'.core_eu i).evt_mask = (s.core_eu i).evt_mask
  irq_mask : ∀ i, (s'.core_eu i).irq_mask = (s.core_eu i).irq_mask
  clear_evt_mask : ∀ i, (s'.core_eu i).clear_evt_mask = (s.core_eu i).clear_evt_mask
  state : ∀ i, (s'.core_eu i).state = (s.core_eu i).state
  pending_req : ∀ i, (s'.core_eu i).pending_req = (s.core_eu i).pending_req
  is_active : ∀ i, (s.core_eu i).is_active = true → (s'.core_eu i).is_active = true

/-- A core whose wait has been decided and whose answer is on its way: the core
has left its waiting state, it still holds request `req`, exactly one generic
wake-up of the core is in the queue, due at cycle `t`, and the responses it has
sent so far are `sent`. -/
def State.in_flight (s : State) (core req t : Nat) (sent : List Output) : Prop :=
  (s.core_eu core).state = CORE_STATE_NONE ∧
  (s.core_eu core).pending_req = some req ∧
  s.wakeups_of core = [⟨t, core, Clock_event_kind.wakeup_event⟩] ∧
  s.resps_of core = sent ∧
  s.wakeups_have_request

/-- The demo state in which core 0 listens to event bit 0 and has no event
latched. -/
def demo_state_listening : State :=
  demo_state.set_core 0 { demo_core with evt_mask := 1 }

/-- The demo state after core 0, listening to event bit 0, has been put to sleep
by a wait with request 7. -/
def demo_state_suspended : State :=
  demo_state.set_core 0
    { demo_core with
      evt_mask := 1, state := CORE_STATE_WAITING_EVENT, is_active := false, pending_req := some 7 }

/-- The scenario of the specification: core 0 of the demo unit, with
`evt_mask = 0x1` and `status = 0`, reads its wait register with request 7; input
event 0 for core 0 arrives; the engine ticks once. The result is the state in
which the wake-up is about to fire. -/
def demo_wait_scenario_before_callback : Option State :=
  (Core_event_unit.req demo_cfg 0 7 demo_cfg.archi.EU_CORE_EVENT_WAIT false
      demo_state_listening).bind fun r =>
    (Event_unit.in_event_sync demo_cfg 0 r.2).bind fun s2 => s2.tick demo_cfg

/-- The scenario of the specification, up to and including the tick on which
the wake-up fires. -/
def demo_wait_scenario : Option State :=
  demo_wait_scenario_before_callback.bind fun s3 => s3.tick demo_cfg

/-- The demo state with mutex 0 held and nobody waiting for it. -/
def demo_state_locked : State :=
  demo_state.set_mutex 0 { demo_state.mutexes 0 with locked := true }

/-- The demo state with mutex 0 held, in which core 0 has event bit 0 in its
mask and latched in its status. -/
def demo_state_event_locked : State :=
  demo_state_event.set_mutex 0 { demo_state_event.mutexes 0 with locked := true }

/-- The demo state with mutex 0 held and core 2 asleep in its wait queue with
request 9. -/
def demo_state_contended : State :=
  (demo_state.set_mutex 0
    { locked := true, waiting_list := [2], value := 0,
      waiting_reqs := Function.update (fun _ => 0) 2 9 }).set_core 2
    { demo_core with
      clear_evt_mask := 2, state := CORE_STATE_WAITING_EVENT, is_active := false,
      pending_req := some 9 }

/-- Lock reads of the mutex at `offset`, issued one after the other; each entry
of `rs` is `(core, req)`. -/
def Mutex_unit.lock_reads (cfg : Config) (offset : Nat) (rs : List (Nat × Nat)) (s : State) :
    Option State :=
  rs.foldlM (fun st cr => (Mutex_unit.req cfg cr.2 offset false cr.1 st).map Prod.snd) s

/-- An unlock write of the mutex at `offset`: `w` is `(core, req, payload)`; the
initiator has put the payload in the data word of its request. -/
def Mutex_unit.unlock_write (cfg : Config) (offset : Nat) (w : Nat × Nat × Nat) (s : State) :
    Option State :=
  (Mutex_unit.req cfg w.2.1 offset true w.1 (s.set_req_data w.2.1 w.2.2)).map Prod.snd

/-- Unlock writes of the mutex at `offset`, issued one after the other. -/
def Mutex_unit.unlock_writes (cfg : Config) (offset : Nat) (ws : List (Nat × Nat × Nat))
    (s : State) : Option State :=
  ws.foldlM (fun st w => Mutex_unit.unlock_write cfg offset w st) s

/-- The cores of the unit whose bit is set in a mask register, in increasing
order (`core_mask[i/32] & (1 << (i % 32))` for `i < nb_core`). -/
def Config.cores_in (cfg : Config) (core_mask : List Nat) : List Nat :=
  (List.range cfg.nb_core).filter
    (fun i => decide (core_mask.getD (i / 32) 0 &&& shl1 (i % 32) ≠ 0))

/-- The demo state in which barrier 0 has participants 0 and 1, targets 0 and 2,
and both participants have arrived. -/
def demo_state_barrier_full : State :=
  demo_state.set_barrier 0
    { core_mask := [3, 0, 0, 0, 0, 0, 0, 0], status := [3, 0, 0, 0, 0, 0, 0, 0],
      target_mask := [5, 0, 0, 0, 0, 0, 0, 0] }

/-- The demo state in which barrier 0 has participants 0 and 1, targets 0 and 2,
and only participant 0 has arrived. -/
def demo_state_barrier_half : State :=
  demo_state.set_barrier 0
    { core_mask := [3, 0, 0, 0, 0, 0, 0, 0], status := [1, 0, 0, 0, 0, 0, 0, 0],
      target_mask := [5, 0, 0, 0, 0, 0, 0, 0] }

/-! ## External event FIFO -/

/-- The word `x` of type `int` stored in a `uint32_t`. -/
def u32_of_int (x : Int) : Nat := (x % 2 ^ 32).toNat

/-- Embedding of `Soc_event_unit::reset`. -/
def Soc_event_unit.reset (cfg : Config) (s : State) : State :=
  { s with
    soc_event_unit :=
      { s.soc_event_unit with
        nb_free_events := (cfg.nb_fifo_events : Int)
        fifo_event_head := 0
        fifo_event_tail := 0 } }

/-- Embedding of `Soc_event_unit::sync`, the arrival of an external event. -/
def Soc_event_unit.sync (cfg : Config) (event : Int) (s : State) : Option State :=
  let u := s.soc_event_unit
  if u.nb_free_events = 0 then some s
  else
    let head := u.fifo_event_head + 1
    Soc_event_unit.check_state cfg
      { s with
        soc_event_unit :=
          { u with
            nb_free_events := u.nb_free_events - 1
            fifo_event := Function.update u.fifo_event u.fifo_event_head event
            fifo_event_head := if head = (cfg.nb_fifo_events : Int) then 0 else head } }

/-- Embedding of `Soc_event_unit::ioReq`, the pop register of the FIFO. The data
pointer of the source is the buffer of `req`. The source does not test
`fifo_soc_event != -1` before the re-broadcast; the shift `1 << fifo_soc_event`
is then undefined in C++, and the properties that depend on the broadcast word
are stated for `0 ≤ fifo_soc_event < 32`. -/
def Soc_event_unit.ioReq (cfg : Config) (req : Nat) (is_write : Bool) (s : State) :
    Option (io_req_status_e × State) :=
  let u := s.soc_event_unit
  if is_write = true then some (IO_REQ_INVALID, s)
  else if u.nb_free_events = (cfg.nb_fifo_events : Int) then
    some (IO_REQ_OK, s.set_req_data req 0)
  else
    let s1 := s.set_req_data req
      (u32_of_int (Int.lor (2 ^ cfg.archi.EU_SOC_EVENTS_VALID_BIT) (u.fifo_event u.fifo_event_tail)))
    let tail := u.fifo_event_tail + 1
    let s2 : State :=
      { s1 with
        soc_event_unit :=
          { u with
            fifo_event_tail := if tail = (cfg.nb_fifo_events : Int) then 0 else tail
            nb_free_events := u.nb_free_events + 1 } }
    if s2.soc_event_unit.nb_free_events ≠ (cfg.nb_fifo_events : Int) then
      (Event_unit.trigger_event cfg (shl1 cfg.fifo_soc_event.toNat)
          (List.replicate cfg.mask_words (2 ^ 32 - 1)) s2).bind fun s3 => some (IO_REQ_OK, s3)
    else some (IO_REQ_OK, s2)

/-! ## Top level: resets, software events, routers, external signals -/

/-- Embedding of `Core_event_unit::reset`. -/
def Core_event_unit.reset (core : Nat) (s : State) : State :=
  (s.set_core core
    { s.core_eu core with
      status := 0, evt_mask := 0, irq_mask := 0, clear_evt_mask := 0, sync_irq := -1,
      state := CORE_STATE_NONE }).emit (Output.clock_sync core true)

/-- Embedding of `Mutex::reset`. -/
def Mutex.reset (m : Mutex) : Mutex :=
  { m with locked := false, waiting_list := [] }

/-- Embedding of `Mutex_unit::reset`. -/
def Mutex_unit.reset (cfg : Config) (s : State) : State :=
  (List.range cfg.nb_mutexes).foldl (fun st i => st.set_mutex i (st.mutexes i).reset) s

/-- Embedding of `Barrier_unit::reset`. -/
def Barrier_unit.reset (cfg : Config) (s : State) : State :=
  (List.range cfg.nb_barriers).foldl
    (fun st i =>
      st.set_barrier i
        { core_mask := List.replicate (st.barriers i).core_mask.length 0
          status := List.replicate (st.barriers i).status.length 0
          target_mask := List.replicate (st.barriers i).target_mask.length 0 }) s

/-- Embedding of `Event_unit::reset`. -/
def Event_unit.reset (cfg : Config) (active : Bool) (s : State) : State :=
  if active = true then
    let s1 := (List.range cfg.nb_core).foldl (fun st i => Core_event_unit.reset i st) s
    Soc_event_unit.reset cfg (Mutex_unit.reset cfg (Barrier_unit.reset cfg s1))
  else s

/-- The loop `for (i < nb_core) send_event(i, mask)` of `sw_events_req`. -/
def Event_unit.send_event_all (cfg : Config) (mask : Nat) (s : State) : Option State :=
  (List.range cfg.nb_core).foldlM (fun st i => Event_unit.send_event cfg i mask st) s

/-- Embedding of `Event_unit::sw_events_req`. `core` is `-1` for an access that
came through the slave port. The upper bounds of the second and third range are
the `_SIZE` constants alone, as in the source. -/
def Event_unit.sw_events_req (cfg : Config) (req offset : Nat) (is_write : Bool) (core : Int)
    (s : State) : Option (io_req_status_e × State) :=
  let a := cfg.archi
  let data := s.req_data req
  if a.EU_CORE_TRIGG_SW_EVENT ≤ offset ∧
      offset < a.EU_CORE_TRIGG_SW_EVENT + a.EU_CORE_TRIGG_SW_EVENT_SIZE then
    if is_write = false then some (IO_REQ_INVALID, s)
    else (Event_unit.send_event_all cfg data s).bind fun s1 => some (IO_REQ_OK, s1)
  else if a.EU_CORE_TRIGG_SW_EVENT_WAIT ≤ offset ∧ offset < a.EU_CORE_TRIGG_SW_EVENT_WAIT_SIZE
  then
    if is_write = true ∨ core = -1 ∨ core ≥ (cfg.nb_core : Int) then some (IO_REQ_INVALID, s)
    else
      let event := a.EU_CORE_TRIGG_SW_EVENT_WAIT_EVENT_GET
        (u64_sub offset a.EU_CORE_TRIGG_SW_EVENT_WAIT)
      let c := core.toNat
      (Event_unit.send_event_all cfg (shl1 event) s).bind fun s1 =>
        (Core_event_unit.wait_event cfg c req CORE_STATE_WAITING_EVENT s1).bind fun r =>
          let c1 := r.2.core_eu c
          some (r.1, r.2.set_req_data req (c1.evt_mask &&& c1.status))
  else if a.EU_CORE_TRIGG_SW_EVENT_WAIT_CLEAR ≤ offset ∧
      offset < a.EU_CORE_TRIGG_SW_EVENT_WAIT_CLEAR_SIZE then
    if is_write = true ∨ core = -1 ∨ core ≥ (cfg.nb_core : Int) then some (IO_REQ_INVALID, s)
    else
      let event := a.EU_CORE_TRIGG_SW_EVENT_WAIT_EVENT_GET
        (u64_sub offset a.EU_CORE_TRIGG_SW_EVENT_WAIT)
      let c := core.toNat
      (Event_unit.send_event_all cfg (shl1 event) s).bind fun s1 =>
        let s2 := s1.set_core c { s1.core_eu c with clear_evt_mask := (s1.core_eu c).evt_mask }
        (Core_event_unit.wait_event cfg c req CORE_STATE_WAITING_EVENT s2).bind fun r =>
          let c1 := r.2.core_eu c
          some (r.1, r.2.set_req_data req (c1.evt_mask &&& c1.status))
  else some (IO_REQ_INVALID, s)

/-- Embedding of `Event_unit::req`, the router of the slave port. `offset`, `size`
and `is_write` are the address, size and direction of the request `req`. -/
def Event_unit.req (cfg : Config) (req offset size : Nat) (is_write : Bool) (s : State) :
    Option (io_req_status_e × State) :=
  let a := cfg.archi
  if size ≠ 4 then some (IO_REQ_INVALID, s)
  else if a.EU_CORES_AREA_OFFSET ≤ offset ∧ offset < a.EU_CORES_AREA_OFFSET + a.EU_CORES_AREA_SIZE
  then
    let core_id := a.EU_CORE_AREA_COREID_GET (u64_sub offset a.EU_CORES_AREA_OFFSET) % 2 ^ 32
    if core_id ≥ cfg.nb_core then some (IO_REQ_INVALID, s)
    else
      Core_event_unit.req cfg core_id req (u64_sub offset (a.EU_CORE_AREA_OFFSET_GET core_id))
        is_write s
  else if a.EU_SOC_EVENTS_AREA_OFFSET ≤ offset ∧
      offset < a.EU_SOC_EVENTS_AREA_OFFSET + a.EU_SOC_EVENTS_AREA_SIZE then
    Soc_event_unit.ioReq cfg req is_write s
  else if a.EU_SW_EVENTS_AREA_BASE ≤ offset ∧
      offset < a.EU_SW_EVENTS_AREA_BASE + a.EU_SW_EVENTS_AREA_SIZE then
    Event_unit.sw_events_req cfg req (u64_sub offset a.EU_SW_EVENTS_AREA_BASE) is_write (-1) s
  else if a.EU_BARRIER_AREA_OFFSET ≤ offset ∧
      offset < a.EU_BARRIER_AREA_OFFSET + a.EU_BARRIER_AREA_SIZE then
    Barrier_unit.req cfg req (u64_sub offset a.EU_BARRIER_AREA_OFFSET) is_write (-1) s
  else some (IO_REQ_INVALID, s)

/-- Embedding of `Event_unit::demux_req`, the router of the port of core `core`. -/
def Event_unit.demux_req (cfg : Config) (core req offset size : Nat) (is_write : Bool)
    (s : State) : Option (io_req_status_e × State) :=
  let a := cfg.archi
  if size ≠ 4 then some (IO_REQ_INVALID, s)
  else if a.EU_CORE_DEMUX_OFFSET ≤ offset ∧ offset < a.EU_CORE_DEMUX_OFFSET + a.EU_CORE_DEMUX_SIZE
  then Core_event_unit.req cfg core req (u64_sub offset a.EU_CORE_DEMUX_OFFSET) is_write s
  else if a.EU_MUTEX_DEMUX_OFFSET ≤ offset ∧
      offset < a.EU_MUTEX_DEMUX_OFFSET + a.EU_MUTEX_DEMUX_SIZE then
    Mutex_unit.req cfg req (u64_sub offset a.EU_MUTEX_DEMUX_OFFSET) is_write core s
  else if a.EU_SW_EVENTS_DEMUX_OFFSET ≤ offset ∧
      offset < a.EU_SW_EVENTS_DEMUX_OFFSET + a.EU_SW_EVENTS_DEMUX_SIZE then
    Event_unit.sw_events_req cfg req (u64_sub offset a.EU_SW_EVENTS_DEMUX_OFFSET) is_write
      (core : Int) s
  else if a.EU_BARRIER_DEMUX_OFFSET ≤ offset ∧
      offset < a.EU_BARRIER_DEMUX_OFFSET + a.EU_BARRIER_DEMUX_SIZE then
    Barrier_unit.req cfg req (u64_sub offset a.EU_BARRIER_DEMUX_OFFSET) is_write (core : Int) s
  else some (IO_REQ_INVALID, s)

/-- Embedding of `Core_event_unit::irq_ack_sync`. -/
def Core_event_unit.irq_ack_sync (cfg : Config) (irq core : Nat) (s : State) : Option State :=
  (Core_event_unit.clear_status cfg core (shl1 irq) s).bind fun s1 =>
    Core_event_unit.check_state cfg core
      (s1.set_core core { s1.core_eu core with sync_irq := -1 })

/-! ## The unit as a transition system -/

/-- What can happen to the unit: an access on the slave port, an access on the
port of a core, an IRQ acknowledgement, an input event, an external event, a
reset, a tick of the engine. An access carries the handle of its request, its
offset, size and direction, and the data word found in the buffer of the
request when it arrives. -/
inductive Action where
  | req (req offset size : Nat) (is_write : Bool) (data : Nat)
  | demux_req (core req offset size : Nat) (is_write : Bool) (data : Nat)
  | irq_ack_sync (irq core : Nat)
  | in_event_sync (id : Nat)
  | soc_event (event : Int)
  | reset (active : Bool)
  | tick

/-- The inputs that the ports of the unit can deliver: the per-core ports exist
for the cores `0 .. nb_core - 1` only, and data words are 32 bits wide. -/
def Action.well_formed (cfg : Config) : Action → Prop
  | Action.req _ _ _ _ data => data < 2 ^ 32
  | Action.demux_req core _ _ _ _ data => core < cfg.nb_core ∧ data < 2 ^ 32
  | Action.irq_ack_sync _ core => core < cfg.nb_core
  | Action.in_event_sync id => id >>> 16 < cfg.nb_core
  | Action.soc_event _ => True
  | Action.reset _ => True
  | Action.tick => True

/-- The effect of an action on the state. -/
def Action.step (cfg : Config) (a : Action) (s : State) : Option State :=
  match a with
  | Action.req r offset size is_write data =>
    (Event_unit.req cfg r offset size is_write (s.set_req_data r data)).map Prod.snd
  | Action.demux_req core r offset size is_write data =>
    (Event_unit.demux_req cfg core r offset size is_write (s.set_req_data r data)).map
      Prod.snd
  | Action.irq_ack_sync irq core => Core_event_unit.irq_ack_sync cfg irq core s
  | Action.in_event_sync id => Event_unit.in_event_sync cfg id s
  | Action.soc_event event => Soc_event_unit.sync cfg event s
  | Action.reset active => some (Event_unit.reset cfg active s)
  | Action.tick => s.tick cfg

/-- A sequence of actions, applied one after the other. -/
def run (cfg : Config) (acts : List Action) (s : State) : Option State :=
  acts.foldlM (fun st a => a.step cfg st) s

/-- The state in which the unit is handed over by its constructors: the barrier
registers have `EU_MASK_REG_SIZE/4` words, the active register of every core has
its power-on value 1, and no clock event is in the queue. The other fields hold
whatever the allocation left in them. -/
def State.power_on (cfg : Config) (s : State) : Prop :=
  s.events = [] ∧ (∀ i, (s.core_eu i).is_active = true) ∧
  ∀ i, (s.barriers i).core_mask.length = cfg.mask_words ∧
    (s.barriers i).status.length = cfg.mask_words ∧
    (s.barriers i).target_mask.length = cfg.mask_words

/-- The states that the unit reaches from its reset by any sequence of accesses,
external signals, resets and ticks. -/
inductive Reachable (cfg : Config) : State → Prop where
  | init (s : State) : s.power_on cfg → Reachable cfg (Event_unit.reset cfg true s)
  | step (s s' : State) (a : Action) :
    Reachable cfg s → a.well_formed cfg → a.step cfg s = some s' → Reachable cfg s'

/-- The parts of the unit that the core state machine never touches are
unchanged: mutexes, barriers and the FIFO. -/
structure CoreOnly (s s' : State) : Prop where
  mutexes : s'.mutexes = s.mutexes
  barriers : s'.barriers = s.barriers
  soc_event_unit : s'.soc_event_unit = s.soc_event_unit

/-- The demo state with a full FIFO holding the events 11 and 12. -/
def demo_state_fifo_full : State :=
  { demo_state with
    soc_event_unit :=
      { nb_free_events := 0, fifo_event_head := 0, fifo_event_tail := 0,
        fifo_event := Function.update (Function.update (fun _ => 0) 0 11) 1 12 } }

/-- The demo state in which core 0 is awake with the IRQ bits 2 and 5 latched
and enabled, and bit 5 already signalled. -/
def demo_state_irq : State :=
  demo_state.set_core 0 { demo_core with status := 0x24, irq_mask := 0x3c, sync_irq := 2 }

/-- The demo state in which core 0 sleeps in a wait with request 7, listens to
event bit 0, and has the IRQ bit 2 latched and enabled. -/
def demo_state_sleeping_irq : State :=
  demo_state.set_core 0
    { demo_core with
      status := 4, evt_mask := 1, irq_mask := 4, state := CORE_STATE_WAITING_EVENT,
      is_active := false, pending_req := some 7 }

/-- The offset `x` lies in none of the five mask register ranges that
`Barrier_unit::req` tests first (participant mask, status, status summary,
target mask, trigger). -/
def Archi.outside_mask_regs (a : Archi) (x : Nat) : Prop :=
  ¬(a.EU_HW_BARR_TRIGGER_MASK ≤ x ∧ x < a.EU_HW_BARR_TRIGGER_MASK + a.EU_MASK_REG_SIZE) ∧
  ¬(a.EU_HW_BARR_STATUS ≤ x ∧ x < a.EU_HW_BARR_STATUS + a.EU_MASK_REG_SIZE) ∧
  ¬(a.EU_HW_BARR_STATUS_SUMMARY ≤ x ∧
    x < a.EU_HW_BARR_STATUS_SUMMARY + a.EU_MASK_REG_SIZE) ∧
  ¬(a.EU_HW_BARR_TARGET_MASK ≤ x ∧ x < a.EU_HW_BARR_TARGET_MASK + a.EU_MASK_REG_SIZE) ∧
  ¬(a.EU_HW_BARR_TRIGGER ≤ x ∧ x < a.EU_HW_BARR_TRIGGER + a.EU_MASK_REG_SIZE)

/-- The three single-word barrier registers (trigger-self, trigger-and-wait,
trigger-wait-clear) lie outside the mask register ranges and are distinct. -/
def Archi.barrier_regs_ok (a : Archi) : Prop :=
  a.outside_mask_regs a.EU_HW_BARR_TRIGGER_SELF ∧
  a.outside_mask_regs a.EU_HW_BARR_TRIGGER_WAIT ∧
  a.outside_mask_regs a.EU_HW_BARR_TRIGGER_WAIT_CLEAR ∧
  a.EU_HW_BARR_TRIGGER_WAIT ≠ a.EU_HW_BARR_TRIGGER_SELF ∧
  a.EU_HW_BARR_TRIGGER_WAIT_CLEAR ≠ a.EU_HW_BARR_TRIGGER_SELF ∧
  a.EU_HW_BARR_TRIGGER_WAIT_CLEAR ≠ a.EU_HW_BARR_TRIGGER_WAIT

/-- The arrival of core `c` at a barrier: bit `c % 32` of word `c / 32` is ORed
into the status (`barrier->status[core/32] |= 1 << (core % 32)`). -/
def Barrier.arrive (b : Barrier) (c : Nat) : Barrier :=
  { b with status := b.status.set (c / 32) (b.status.getD (c / 32) 0 ||| shl1 (c % 32)) }

/-- The invariant of the FIFO fields: the free count is between 0 and the
capacity, head and tail index the buffer, and the distance from tail to head is
the number of stored events, modulo the capacity. -/
def State.fifo_ok (cfg : Config) (s : State) : Prop :=
  0 ≤ s.soc_event_unit.nb_free_events ∧
  s.soc_event_unit.nb_free_events ≤ (cfg.nb_fifo_events : Int) ∧
  0 ≤ s.soc_event_unit.fifo_event_head ∧
  s.soc_event_unit.fifo_event_head < (cfg.nb_fifo_events : Int) ∧
  0 ≤ s.soc_event_unit.fifo_event_tail ∧
  s.soc_event_unit.fifo_event_tail < (cfg.nb_fifo_events : Int) ∧
  (s.soc_event_unit.fifo_event_head - s.soc_event_unit.fifo_event_tail) %
      (cfg.nb_fifo_events : Int) =
    ((cfg.nb_fifo_events : Int) - s.soc_event_unit.nb_free_events) % (cfg.nb_fifo_events : Int)

/-- The same invariant without the modulo: head is either `count` slots after
tail, or `count` slots after tail less one turn of the buffer, where `count` is
the capacity minus the free count. -/
def State.fifo_lin (cfg : Config) (s : State) : Prop :=
  0 ≤ s.soc_event_unit.nb_free_events ∧
  s.soc_event_unit.nb_free_events ≤ (cfg.nb_fifo_events : Int) ∧
  0 ≤ s.soc_event_unit.fifo_event_head ∧
  s.soc_event_unit.fifo_event_head < (cfg.nb_fifo_events : Int) ∧
  0 ≤ s.soc_event_unit.fifo_event_tail ∧
  s.soc_event_unit.fifo_event_tail < (cfg.nb_fifo_events : Int) ∧
  (s.soc_event_unit.fifo_event_head - s.soc_event_unit.fifo_event_tail =
      (cfg.nb_fifo_events : Int) - s.soc_event_unit.nb_free_events ∨
    s.soc_event_unit.fifo_event_head - s.soc_event_unit.fifo_event_tail =
      -s.soc_event_unit.nb_free_events)

/-- The `n` buffer entries read from index `t` on, the index advancing as
`fifo_event_tail` does in `Soc_event_unit::ioReq` (back to 0 at the capacity
`C`). -/
def fifo_list (C : Int) (buf : Int → Int) : Nat → Int → List Int
  | 0, _ => []
  | n + 1, t => buf t :: fifo_list C buf n (if t + 1 = C then 0 else t + 1)

/-- The FIFO of the state holds exactly the events `l`, oldest first. -/
def State.fifo_holds (cfg : Config) (s : State) (l : List Int) : Prop :=
  s.soc_event_unit.nb_free_events = (cfg.nb_fifo_events : Int) - (l.length : Int) ∧
  (l.length : Int) ≤ (cfg.nb_fifo_events : Int) ∧
  0 ≤ s.soc_event_unit.fifo_event_tail ∧
  s.soc_event_unit.fifo_event_tail < (cfg.nb_fifo_events : Int) ∧
  s.soc_event_unit.fifo_event_head =
    (if s.soc_event_unit.fifo_event_tail + (l.length : Int) < (cfg.nb_fifo_events : Int) then
      s.soc_event_unit.fifo_event_tail + (l.length : Int)
    else s.soc_event_unit.fifo_event_tail + (l.length : Int) - (cfg.nb_fifo_events : Int)) ∧
  fifo_list (cfg.nb_fifo_events : Int) s.soc_event_unit.fifo_event l.length
    s.soc_event_unit.fifo_event_tail = l

/-- A sequence of external events arriving one after the other
(`Soc_event_unit::sync` for each). -/
def Soc_event_unit.push_all (cfg : Config) (evs : List Int) (s : State) : Option State :=
  evs.foldlM (fun st e => Soc_event_unit.sync cfg e st) s

/-- A sequence of reads of the pop register, one per request of `reqs`; the
result lists the status and the data word returned by each read. -/
def Soc_event_unit.pop_all (cfg : Config) :
    List Nat → State → Option (List (io_req_status_e × Nat) × State)
  | [], s => some ([], s)
  | req :: reqs, s =>
    (Soc_event_unit.ioReq cfg req false s).bind fun r =>
      (Soc_event_unit.pop_all cfg reqs r.2).bind fun p =>
        some ((r.1, r.2.req_data req) :: p.1, p.2)

/-- The word returned by a pop of event `e`:
`(1 << EU_SOC_EVENTS_VALID_BIT) | e` stored in a `uint32_t`. -/
def Config.pop_word (cfg : Config) (e : Int) : Nat :=
  u32_of_int (Int.lor (2 ^ cfg.archi.EU_SOC_EVENTS_VALID_BIT) e)

/-- The barrier invariant: a status equal to the participant mask is
all-zero. -/
def State.barriers_ok (cfg : Config) (s : State) : Prop :=
  ∀ id, id < cfg.nb_barriers → (s.barriers id).status = (s.barriers id).core_mask →
    ∀ x ∈ (s.barriers id).status, x = 0

/-- What the cascade does to the FIFO event bit `n`: it leaves mutexes, barriers
and FIFO alone, and while a FIFO event is configured and the FIFO is not empty,
a core of the unit that has bit `n` latched still has it afterwards. -/
structure KeepsBit (cfg : Config) (n : Nat) (s s' : State) : Prop where
  core_only : CoreOnly s s'
  bit : cfg.fifo_soc_event ≠ -1 →
    s.soc_event_unit.nb_free_events ≠ (cfg.nb_fifo_events : Int) →
    ∀ i, i < cfg.nb_core → (s.core_eu i).status.testBit n = true →
      (s'.core_eu i).status.testBit n = true

/-- The demo state in which barrier 0 has participants and targets 0 and 1,
nobody has arrived, and cores 0 and 1 listen to the barrier event (bit 0). -/
def demo_state_rendezvous : State :=
  ((demo_state.set_barrier 0
    { core_mask := [3, 0, 0, 0, 0, 0, 0, 0], status := [0, 0, 0, 0, 0, 0, 0, 0],
      target_mask := [3, 0, 0, 0, 0, 0, 0, 0] }).set_core 0
    { demo_core with evt_mask := 1 }).set_core 1 { demo_core with evt_mask := 1 }

/-- The demo state in which core 0 has been woken from a wait with request 7 by
event bit 0 and its generic wake-up is scheduled for cycle 2. -/
def demo_state_in_flight : State :=
  { demo_state.set_core 0
      { demo_core with
        status := 1, evt_mask := 1, is_active := false, pending_req := some 7 } with
    events := [⟨2, 0, Clock_event_kind.wakeup_event⟩] }

/-- The mutex invariant: a mutex of the unit with a non-empty waiting list is
locked. -/
def State.mutexes_ok (cfg : Config) (s : State) : Prop :=
  ∀ id, id < cfg.nb_mutexes → (s.mutexes id).waiting_list ≠ [] → (s.mutexes id).locked = true

/-- What an operation may do to the stored requests: a stored request stays
stored; a core that is in a waiting state, or inactive, afterwards was so before
or has a stored request; a clock event in the queue afterwards was there before,
or belongs to a core that was waiting or inactive or that has a stored
request. -/
structure KeepsRequest (s s' : State) : Prop where
  pending : ∀ i, (s.core_eu i).pending_req ≠ none → (s'.core_eu i).pending_req ≠ none
  state : ∀ i, (s'.core_eu i).state ≠ CORE_STATE_NONE →
    (s.core_eu i).state ≠ CORE_STATE_NONE ∨ (s'.core_eu i).pending_req ≠ none
  active : ∀ i, (s'.core_eu i).is_active = false →
    (s.core_eu i).is_active = false ∨ (s'.core_eu i).pending_req ≠ none
  events : ∀ e ∈ s'.events, e ∈ s.events ∨ (s.core_eu e.core).state ≠ CORE_STATE_NONE ∨
    (s.core_eu e.core).is_active = false ∨ (s'.core_eu e.core).pending_req ≠ none

/-- The pending-request invariant: a core of the unit that is in a waiting
state, or inactive, or has a clock event (generic or IRQ wake-up) in the queue,
has a stored request. -/
def State.pending_ok (cfg : Config) (s : State) : Prop :=
  ∀ i, i < cfg.nb_core →
    ((s.core_eu i).state ≠ CORE_STATE_NONE ∨ (s.core_eu i).is_active = false ∨
      ∃ e ∈ s.events, e.core = i) →
    (s.core_eu i).pending_req ≠ none

/-- What the cascade does to the status of core `i` while that core is quiet
(its clock runs, or it is in `CORE_STATE_NONE`): the core stays quiet and no
bit of its status is cleared. -/
structure KeepsStatus (i : Nat) (s s' : State) : Prop where
  quiet : (s.core_eu i).is_active = true ∨ (s.core_eu i).state = CORE_STATE_NONE →
    (s'.core_eu i).is_active = true ∨ (s'.core_eu i).state = CORE_STATE_NONE
  bits : (s.core_eu i).is_active = true ∨ (s.core_eu i).state = CORE_STATE_NONE →
    ∀ b, (s.core_eu i).status.testBit b = true → (s'.core_eu i).status.testBit b = true

/-- The demo state with a full FIFO in which core 0 sleeps in a wait-and-clear on
the FIFO event (bit 3), which is latched. -/
def demo_state_fifo_wait : State :=
  demo_state_fifo_full.set_core 0
    { demo_core with
      status := 8, evt_mask := 8, clear_evt_mask := 8, state := CORE_STATE_WAITING_EVENT,
      is_active := false, pending_req := some 7 }

/-- The demo state with a full FIFO in which core 0, awake, has the FIFO event
(bit 3) and bit 0 latched. -/
def demo_state_fifo_latched : State :=
  demo_state_fifo_full.set_core 0 { demo_core with status := 9 }

/-- The number of cores of the unit that are in a waiting state. -/
def State.nb_waiting (cfg : Config) (s : State) : Nat :=
  (List.range cfg.nb_core).countP (fun j => decide ((s.core_eu j).state ≠ CORE_STATE_NONE))

/-- Core `i` has not missed an event: if it is asleep in a waiting state, no
masked event is latched in its status. -/
def State.sleep_ok_at (s : State) (i : Nat) : Prop :=
  (s.core_eu i).is_active = false → (s.core_eu i).state ≠ CORE_STATE_NONE →
    (s.core_eu i).status &&& (s.core_eu i).evt_mask = 0

/-- No core has missed an event. -/
def State.sleep_ok (s : State) : Prop := ∀ i, s.sleep_ok_at i

/-- The step from `s` to `s'` lets no core miss an event. -/
def KeepsSleep (s s' : State) : Prop := s.sleep_ok → s'.sleep_ok

/-! # Proofs -/

theorem CoreFrame.core_refl (m : Nat) (c : Core_event_unit) : CoreFrame m c c :=
  ⟨rfl, rfl, rfl, rfl, Or.inl rfl, fun _ h => Or.inl h⟩

theorem CoreFrame.core_trans {m : Nat} {a b c : Core_event_unit} (h1 : CoreFrame m a b)
    (h2 : CoreFrame m b c) : CoreFrame m a c := by
  refine ⟨h2.evt_mask.trans h1.evt_mask, h2.irq_mask.trans h1.irq_mask,
    h2.pending_req.trans h1.pending_req, h2.is_active.trans h1.is_active, ?_, ?_⟩
  · rcases h2.state with h | ⟨h, ha⟩
    · rcases h1.state with h' | ⟨h', ha'⟩
      · exact Or.inl (h.trans h')
      · exact Or.inr ⟨h.trans h', ha'⟩
    · exact Or.inr ⟨h, h1.is_active ▸ ha⟩
  · intro b hb
    rcases h2.status b hb with h | h
    · exact h1.status b h
    · exact Or.inr h

theorem Frame.refl (m : Nat) (s : State) : Frame m s s :=
  ⟨rfl, rfl, rfl, rfl, rfl, rfl, fun _ => CoreFrame.core_refl m _, ⟨[], by simp⟩, ⟨[], by simp⟩⟩

theorem State.is_enqueued_of_append {s s' : State} {added : List Clock_event}
    (h : s'.events = s.events ++ added) {core : Nat} {kind : Clock_event_kind}
    (hf : s'.is_enqueued core kind = false) : s.is_enqueued core kind = false := by
  unfold State.is_enqueued at hf ⊢
  rw [h, List.any_append] at hf
  simp only [Bool.or_eq_false_iff] at hf
  exact hf.1

theorem Frame.trans {m : Nat} {a b c : State} (h1 : Frame m a b) (h2 : Frame m b c) :
    Frame m a c := by
  obtain ⟨e1, he1, hp1⟩ := h1.events
  obtain ⟨e2, he2, hp2⟩ := h2.events
  obtain ⟨o1, ho1, hq1⟩ := h1.out
  obtain ⟨o2, ho2, hq2⟩ := h2.out
  refine ⟨h2.mutexes.trans h1.mutexes, h2.barriers.trans h1.barriers,
    h2.soc_event_unit.trans h1.soc_event_unit, h2.req_data.trans h1.req_data,
    h2.req_latency.trans h1.req_latency, h2.cycles.trans h1.cycles,
    fun i => (h1.core i).core_trans (h2.core i), ⟨e1 ++ e2, ?_, ?_⟩, ⟨o1 ++ o2, ?_, ?_⟩⟩
  · rw [he2, he1, List.append_assoc]
  · intro e he
    rcases List.mem_append.1 he with h | h
    · exact hp1 e h
    · obtain ⟨hc, hact, hk⟩ := hp2 e h
      refine ⟨by rw [hc, h1.cycles], by rw [← (h1.core e.core).is_active]; exact hact, ?_⟩
      intro hkind
      obtain ⟨hst, hnq⟩ := hk hkind
      refine ⟨?_, State.is_enqueued_of_append he1 hnq⟩
      rcases (h1.core e.core).state with h' | ⟨h', _⟩
      · rw [← h']; exact hst
      · exact absurd h' hst
  · rw [ho2, ho1, List.append_assoc]
  · intro o ho
    rcases List.mem_append.1 ho with h | h
    · exact hq1 o h
    · obtain ⟨c', irq, rfl, hact⟩ := hq2 o h
      exact ⟨c', irq, rfl, by rw [← (h1.core c').is_active]; exact hact⟩

theorem Frame.of_set_core {m : Nat} (s : State) (i : Nat) (c : Core_event_unit)
    (h : CoreFrame m (s.core_eu i) c) : Frame m s (s.set_core i c) := by
  refine ⟨rfl, rfl, rfl, rfl, rfl, rfl, ?_, ⟨[], by simp [State.set_core]⟩,
    ⟨[], by simp [State.set_core]⟩⟩
  intro j
  by_cases hj : j = i
  · subst hj; simpa [State.set_core] using h
  · simpa [State.set_core, Function.update_noteq hj] using CoreFrame.core_refl m (s.core_eu j)

theorem Frame.of_emit_irq {m : Nat} (s : State) (c : Nat) (irq : Int)
    (h : (s.core_eu c).is_active = true) : Frame m s (s.emit (Output.irq_req_sync c irq)) :=
  ⟨rfl, rfl, rfl, rfl, rfl, rfl, fun _ => CoreFrame.core_refl m _, ⟨[], by simp [State.emit]⟩,
    ⟨[Output.irq_req_sync c irq], by simp [State.emit], by simpa using h⟩⟩

theorem Frame.of_event_enqueue {m : Nat} (s : State) (core : Nat) (kind : Clock_event_kind)
    (hact : (s.core_eu core).is_active = false)
    (hk : kind = Clock_event_kind.wakeup_event →
      (s.core_eu core).state ≠ CORE_STATE_NONE ∧
      s.is_enqueued core Clock_event_kind.wakeup_event = false) :
    Frame m s (s.event_enqueue core kind EU_WAKEUP_LATENCY) :=
  ⟨rfl, rfl, rfl, rfl, rfl, rfl, fun _ => CoreFrame.core_refl m _,
    ⟨[⟨s.cycles + EU_WAKEUP_LATENCY, core, kind⟩], by simp [State.event_enqueue],
      by simpa using ⟨hact, hk⟩⟩,
    ⟨[], by simp [State.event_enqueue]⟩⟩

theorem Frame.then_enqueue {m : Nat} {s s3 : State} (h : Frame m s s3) (core : Nat)
    (kind : Clock_event_kind) (hact : (s.core_eu core).is_active = false)
    (hk : kind = Clock_event_kind.wakeup_event →
      (s.core_eu core).state ≠ CORE_STATE_NONE ∧
      s3.is_enqueued core Clock_event_kind.wakeup_event = false) :
    Frame m s (s3.event_enqueue core kind EU_WAKEUP_LATENCY) := by
  obtain ⟨e1, he1, hp1⟩ := h.events
  refine ⟨h.mutexes, h.barriers, h.soc_event_unit, h.req_data, h.req_latency, h.cycles, h.core,
    ⟨e1 ++ [⟨s3.cycles + EU_WAKEUP_LATENCY, core, kind⟩], ?_, ?_⟩, h.out⟩
  · simp [State.event_enqueue, he1]
  · intro e he
    rcases List.mem_append.1 he with h' | h'
    · exact hp1 e h'
    · rw [List.mem_singleton] at h'
      subst h'
      refine ⟨by simp [h.cycles], hact, fun hkind => ?_⟩
      exact ⟨(hk hkind).1, State.is_enqueued_of_append he1 (hk hkind).2⟩

theorem CoreFrame.core_mono {m m' : Nat} {c c' : Core_event_unit} (h : CoreFrame m c c')
    (hm : ∀ b, m.testBit b = true → m'.testBit b = true) : CoreFrame m' c c' :=
  ⟨h.evt_mask, h.irq_mask, h.pending_req, h.is_active, h.state,
    fun b hb => (h.status b hb).imp id (hm b)⟩

theorem Frame.mono {m m' : Nat} {s s' : State} (h : Frame m s s')
    (hm : ∀ b, m.testBit b = true → m'.testBit b = true) : Frame m' s s' :=
  ⟨h.mutexes, h.barriers, h.soc_event_unit, h.req_data, h.req_latency, h.cycles,
    fun i => (h.core i).core_mono hm, h.events, h.out⟩

/-! ## The cascade terminates and stays within its frame -/

theorem option_foldlM_spec {α : Type} (f : State → α → Option State)
    (R : State → State → Prop) (Pre : State → Prop)
    (hrefl : ∀ s, R s s) (htrans : ∀ a b c, R a b → R b c → R a c)
    (hpre : ∀ a b, Pre a → R a b → Pre b) (l : List α)
    (hf : ∀ j ∈ l, ∀ st, Pre st → ∃ st', f st j = some st' ∧ R st st') :
    ∀ s, Pre s → ∃ s', l.foldlM f s = some s' ∧ R s s' := by
  induction l with
  | nil => intro s _; exact ⟨s, by simp, hrefl s⟩
  | cons j l ih =>
    intro s hs
    obtain ⟨s1, h1, r1⟩ := hf j (List.mem_cons_self _ _) s hs
    obtain ⟨s2, h2, r2⟩ := ih (fun k hk => hf k (List.mem_cons_of_mem _ hk)) s1 (hpre _ _ hs r1)
    exact ⟨s2, by simp [List.foldlM_cons, h1, h2], htrans _ _ _ r1 r2⟩

section cascade

variable (cfg : Config) (cs : Nat → State → Option State) (M : Nat) (Pre : State → Prop)

theorem send_event_with_frame (m : Nat)
    (hm : ∀ b, m.testBit b = true → M.testBit b = true)
    (hpre : ∀ a b, Pre a → Frame M a b → Pre b)
    (hcs : ∀ j, j < cfg.nb_core → ∀ st, Pre st → ∃ st', cs j st = some st' ∧ Frame M st st')
    (j : Nat) (hj : j < cfg.nb_core) (s : State) (hs : Pre s) :
    ∃ s', send_event_with cs j m s = some s' ∧ Frame M s s' := by
  have hstep : Frame M s (s.set_core j ((s.core_eu j).set_status ((s.core_eu j).status ||| m))) := by
    apply Frame.of_set_core
    refine ⟨rfl, rfl, rfl, rfl, Or.inl rfl, ?_⟩
    intro b hb
    simp only [Core_event_unit.set_status, Nat.testBit_or, Bool.or_eq_true] at hb
    exact hb.imp id (hm b)
  obtain ⟨s', h, r⟩ := hcs j hj _ (hpre _ _ hs hstep)
  exact ⟨s', h, hstep.trans r⟩

theorem trigger_event_with_frame (m : Nat)
    (hm : ∀ b, m.testBit b = true → M.testBit b = true)
    (hpre : ∀ a b, Pre a → Frame M a b → Pre b)
    (hcs : ∀ j, j < cfg.nb_core → ∀ st, Pre st → ∃ st', cs j st = some st' ∧ Frame M st st')
    (core_mask : List Nat) (s : State) (hs : Pre s) :
    ∃ s', trigger_event_with cs cfg m core_mask s = some s' ∧ Frame M s s' := by
  unfold trigger_event_with
  refine option_foldlM_spec _ (Frame M) Pre (Frame.refl M) (fun _ _ _ => Frame.trans) hpre _ ?_ s hs
  intro j hj st hst
  split
  · exact send_event_with_frame cfg cs M Pre m hm hpre hcs j (List.mem_range.1 hj) st hst
  · exact ⟨st, rfl, Frame.refl M st⟩

theorem soc_check_state_with_frame
    (hm : ∀ b, cfg.fifo_mask.testBit b = true → M.testBit b = true)
    (hpre : ∀ a b, Pre a → Frame M a b → Pre b)
    (hcs : ∀ j, j < cfg.nb_core → ∀ st, Pre st → ∃ st', cs j st = some st' ∧ Frame M st st')
    (s : State) (hs : Pre s) :
    ∃ s', Soc_event_unit.check_state_with cs cfg s = some s' ∧ Frame M s s' := by
  unfold Soc_event_unit.check_state_with
  split
  · rename_i hc
    have hfm : cfg.fifo_mask = shl1 cfg.fifo_soc_event.toNat := by
      unfold Config.fifo_mask; rw [if_neg hc.1]
    exact trigger_event_with_frame cfg cs M Pre _ (hfm ▸ hm) hpre hcs _ s hs
  · exact ⟨s, rfl, Frame.refl M s⟩

theorem clear_status_with_frame
    (hm : ∀ b, cfg.fifo_mask.testBit b = true → M.testBit b = true)
    (hpre : ∀ a b, Pre a → Frame M a b → Pre b)
    (hcs : ∀ j, j < cfg.nb_core → ∀ st, Pre st → ∃ st', cs j st = some st' ∧ Frame M st st')
    (core mask : Nat) (s : State) (hs : Pre s) :
    ∃ s', clear_status_with cs cfg core mask s = some s' ∧ Frame M s s' := by
  have hstep : Frame M s (s.set_core core
      { s.core_eu core with status := (s.core_eu core).status &&& u32_not mask }) := by
    apply Frame.of_set_core
    refine ⟨rfl, rfl, rfl, rfl, Or.inl rfl, ?_⟩
    intro b hb
    simp only [Nat.testBit_and, Bool.and_eq_true] at hb
    exact Or.inl hb.1
  obtain ⟨s', h, r⟩ := soc_check_state_with_frame cfg cs M Pre hm hpre hcs _ (hpre _ _ hs hstep)
  exact ⟨s', h, hstep.trans r⟩

theorem check_wait_mask_with_frame
    (hm : ∀ b, cfg.fifo_mask.testBit b = true → M.testBit b = true)
    (hpre : ∀ a b, Pre a → Frame M a b → Pre b)
    (hcs : ∀ j, j < cfg.nb_core → ∀ st, Pre st → ∃ st', cs j st = some st' ∧ Frame M st st')
    (core : Nat) (s : State) (hs : Pre s) :
    ∃ s', check_wait_mask_with cs cfg core s = some s' ∧ Frame M s s' := by
  unfold check_wait_mask_with
  split
  · obtain ⟨s1, h, r⟩ := clear_status_with_frame cfg cs M Pre hm hpre hcs core
      (s.core_eu core).clear_evt_mask s hs
    refine ⟨_, by rw [h]; rfl, r.trans ?_⟩
    apply Frame.of_set_core
    exact ⟨rfl, rfl, rfl, rfl, Or.inl rfl, fun _ h => Or.inl h⟩
  · exact ⟨s, rfl, Frame.refl M s⟩

theorem check_state_body_frame
    (hm : ∀ b, cfg.fifo_mask.testBit b = true → M.testBit b = true)
    (hpre : ∀ a b, Pre a → Frame M a b → Pre b)
    (hcs : ∀ j, j < cfg.nb_core → ∀ st, Pre st → ∃ st', cs j st = some st' ∧ Frame M st st')
    (core : Nat) (s : State)
    (hs : (s.core_eu core).is_active = false → (s.core_eu core).state ≠ CORE_STATE_NONE →
      Pre (s.set_core core { s.core_eu core with state := CORE_STATE_NONE })) :
    ∃ s', check_state_body cs cfg core s = some s' ∧ Frame M s s' := by
  unfold check_state_body
  dsimp only
  by_cases hact : (s.core_eu core).is_active = true
  · rw [if_pos hact]
    split
    · refine ⟨_, rfl, Frame.trans (Frame.of_set_core s core _ ?_) (Frame.of_emit_irq _ core _ ?_)⟩
      · exact ⟨rfl, rfl, rfl, rfl, Or.inl rfl, fun _ h => Or.inl h⟩
      · simpa [State.set_core] using hact
    · exact ⟨s, rfl, Frame.refl M s⟩
  · have hact' : (s.core_eu core).is_active = false := by simpa using hact
    rw [if_neg hact]
    split
    · split
      · refine ⟨_, rfl, Frame.trans
          (Frame.of_event_enqueue s core Clock_event_kind.irq_wakeup_event hact' (by simp)) ?_⟩
        apply Frame.of_set_core
        exact ⟨rfl, rfl, rfl, rfl, Or.inl rfl, fun _ h => Or.inl h⟩
      · exact ⟨s, rfl, Frame.refl M s⟩
    · split
      · exact ⟨s, rfl, Frame.refl M s⟩
      · rename_i hst
        split
        · have hstep : Frame M s (s.set_core core
              { s.core_eu core with state := CORE_STATE_NONE }) := by
            apply Frame.of_set_core
            exact ⟨rfl, rfl, rfl, rfl, Or.inr ⟨rfl, hact'⟩, fun _ h => Or.inl h⟩
          obtain ⟨s3, h3, r3⟩ := check_wait_mask_with_frame cfg cs M Pre hm hpre hcs core _
            (hs hact' (by intro h; exact hst h))
          rw [h3]
          simp only [Option.some_bind]
          split
          · rename_i hq
            exact ⟨_, rfl, (hstep.trans r3).then_enqueue core _ hact' (fun _ => ⟨hst, hq⟩)⟩
          · exact ⟨s3, rfl, hstep.trans r3⟩
        · exact ⟨s, rfl, Frame.refl M s⟩

end cascade

/-- Termination of the cascade: when the cores that are in a waiting state all
belong to a set with fewer than `fuel` elements, the re-check returns, within
the frame of the cascade. -/
theorem check_state_fuel_frame (cfg : Config) : ∀ (fuel : Nat) (S : Finset Nat), S.card < fuel →
    ∀ (core : Nat) (s : State), core < cfg.nb_core →
    (∀ j, j < cfg.nb_core → (s.core_eu j).state ≠ CORE_STATE_NONE → j ∈ S) →
    ∃ s', check_state_fuel cfg fuel core s = some s' ∧ Frame cfg.fifo_mask s s' := by
  intro fuel
  induction fuel with
  | zero => intro S h; exact absurd h (Nat.not_lt_zero _)
  | succ n ih =>
    intro S hS core s hcore hsub
    show ∃ s', check_state_body (check_state_fuel cfg n) cfg core s = some s' ∧ _
    apply check_state_body_frame cfg (check_state_fuel cfg n) cfg.fifo_mask
      (fun st => core ∈ S ∧
        ∀ j, j < cfg.nb_core → (st.core_eu j).state ≠ CORE_STATE_NONE → j ∈ S.erase core)
      (fun _ h => h) ?_ ?_ core s ?_
    · intro a b ha hab
      refine ⟨ha.1, fun j hj hne => ha.2 j hj ?_⟩
      rcases (hab.core j).state with h | ⟨h, _⟩
      · rw [← h]; exact hne
      · exact absurd h hne
    · intro j hj st hst
      have hpos : 0 < S.card := Finset.card_pos.2 ⟨core, hst.1⟩
      exact ih (S.erase core) (by rw [Finset.card_erase_of_mem hst.1]; omega) j st hj hst.2
    · intro _ hne
      refine ⟨hsub core hcore hne, fun j hj hj' => ?_⟩
      by_cases hjc : j = core
      · subst hjc; simp [State.set_core] at hj'
      · rw [Finset.mem_erase]
        refine ⟨hjc, hsub j hj ?_⟩
        simpa [State.set_core, Function.update_noteq hjc] using hj'

/-- The re-check of a core of the unit returns, and stays within the frame of
the cascade. -/
theorem check_state_frame (cfg : Config) (core : Nat) (s : State) (hcore : core < cfg.nb_core) :
    ∃ s', Core_event_unit.check_state cfg core s = some s' ∧ Frame cfg.fifo_mask s s' := by
  apply check_state_fuel_frame cfg (cfg.nb_core + 1) (Finset.range cfg.nb_core) (by simp) core s
    hcore
  intro j hj _
  exact Finset.mem_range.2 hj

theorem send_event_frame (cfg : Config) (core mask : Nat) (s : State)
    (hcore : core < cfg.nb_core) :
    ∃ s', Event_unit.send_event cfg core mask s = some s' ∧
      Frame (mask ||| cfg.fifo_mask) s s' := by
  apply send_event_with_frame cfg _ (mask ||| cfg.fifo_mask) (fun _ => True) mask ?_
    (fun _ _ _ _ => trivial) ?_ core hcore s trivial
  · intro b hb; simp [Nat.testBit_or, hb]
  · intro j hj st _
    obtain ⟨s', h, r⟩ := check_state_frame cfg j st hj
    exact ⟨s', h, r.mono (by intro b hb; simp [Nat.testBit_or, hb])⟩

theorem trigger_event_frame (cfg : Config) (mask : Nat) (core_mask : List Nat) (s : State) :
    ∃ s', Event_unit.trigger_event cfg mask core_mask s = some s' ∧
      Frame (mask ||| cfg.fifo_mask) s s' := by
  apply trigger_event_with_frame cfg _ (mask ||| cfg.fifo_mask) (fun _ => True) mask ?_
    (fun _ _ _ _ => trivial) ?_ core_mask s trivial
  · intro b hb; simp [Nat.testBit_or, hb]
  · intro j hj st _
    obtain ⟨s', h, r⟩ := check_state_frame cfg j st hj
    exact ⟨s', h, r.mono (by intro b hb; simp [Nat.testBit_or, hb])⟩

theorem check_wait_mask_frame (cfg : Config) (core : Nat) (s : State) :
    ∃ s', Core_event_unit.check_wait_mask cfg core s = some s' ∧ Frame cfg.fifo_mask s s' :=
  check_wait_mask_with_frame cfg _ cfg.fifo_mask (fun _ => True) (fun _ h => h)
    (fun _ _ _ _ => trivial) (fun j hj st _ => check_state_frame cfg j st hj) core s trivial

theorem clear_status_frame (cfg : Config) (core mask : Nat) (s : State) :
    ∃ s', Core_event_unit.clear_status cfg core mask s = some s' ∧ Frame cfg.fifo_mask s s' :=
  clear_status_with_frame cfg _ cfg.fifo_mask (fun _ => True) (fun _ h => h)
    (fun _ _ _ _ => trivial) (fun j hj st _ => check_state_frame cfg j st hj) core mask s trivial

/-! ## Wait register -/

theorem core_regs_wait_ne {a : Archi} (h : a.core_regs.Nodup) :
    a.EU_CORE_EVENT_WAIT ≠ a.EU_CORE_MASK ∧ a.EU_CORE_EVENT_WAIT ≠ a.EU_CORE_MASK_AND ∧
    a.EU_CORE_EVENT_WAIT ≠ a.EU_CORE_MASK_OR ∧ a.EU_CORE_EVENT_WAIT ≠ a.EU_CORE_MASK_IRQ ∧
    a.EU_CORE_EVENT_WAIT ≠ a.EU_CORE_MASK_IRQ_AND ∧
    a.EU_CORE_EVENT_WAIT ≠ a.EU_CORE_MASK_IRQ_OR ∧ a.EU_CORE_EVENT_WAIT ≠ a.EU_CORE_STATUS ∧
    a.EU_CORE_EVENT_WAIT ≠ a.EU_CORE_BUFFER ∧ a.EU_CORE_EVENT_WAIT ≠ a.EU_CORE_BUFFER_MASKED ∧
    a.EU_CORE_EVENT_WAIT ≠ a.EU_CORE_BUFFER_IRQ_MASKED ∧
    a.EU_CORE_EVENT_WAIT ≠ a.EU_CORE_BUFFER_CLEAR := by
  simp only [Archi.core_regs, List.nodup_cons, List.mem_cons, List.mem_singleton, not_or] at h
  refine ⟨?_, ?_, ?_, ?_, ?_, ?_, ?_, ?_, ?_, ?_, ?_⟩ <;> intro e <;> simp_all

/-- A read of the wait register is `wait_event` followed by the write of the
masked status into the data word of the request. -/
theorem req_wait_eq (cfg : Config) (core req : Nat) (s : State)
    (hregs : cfg.archi.core_regs.Nodup) :
    Core_event_unit.req cfg core req cfg.archi.EU_CORE_EVENT_WAIT false s =
      (Core_event_unit.wait_event cfg core req CORE_STATE_WAITING_EVENT s).bind fun r =>
        some (r.1, r.2.set_req_data req
          ((r.2.core_eu core).evt_mask &&& (r.2.core_eu core).status)) := by
  obtain ⟨h1, h2, h3, h4, h5, h6, h7, h8, h9, h10, h11⟩ := core_regs_wait_ne hregs
  unfold Core_event_unit.req
  simp only [h1, h2, h3, h4, h5, h6, h7, h8, h9, h10, h11, if_false, if_true,
    Bool.false_eq_true]

/-- Without a masked event, `wait_event` charges the request and puts the core to
sleep. -/
theorem wait_event_sleep (cfg : Config) (core req : Nat) (ws : Event_unit_core_state_e)
    (s : State) (hmask : (s.core_eu core).status &&& (s.core_eu core).evt_mask = 0) :
    Core_event_unit.wait_event cfg core req ws s =
      some (Core_event_unit.put_to_sleep core req ws (s.inc_latency req EU_WAKEUP_REQ_LATENCY)) := by
  have hmask' : (s.core_eu core).evt_mask &&& (s.core_eu core).status = 0 := by
    rw [Nat.land_comm]; exact hmask
  simp [Core_event_unit.wait_event, State.inc_latency, hmask']

/-- C1: for every core and every state with `status & evt_mask == 0`, a read of
the wait register (`Core_event_unit::req` at `EU_CORE_EVENT_WAIT`, then
`wait_event`, then `put_to_sleep`) reports `IO_REQ_PENDING`, clears the active
flag, sets the state to `CORE_STATE_WAITING_EVENT`, stores the request as the
pending request of the core, and leaves `status`, `evt_mask` and `irq_mask` as
they were. The clock-gate output is driven low exactly once and the other cores
are not touched. -/
theorem C1_wait_without_event_suspends (cfg : Config) (core req : Nat) (s : State)
    (hregs : cfg.archi.core_regs.Nodup)
    (hmask : (s.core_eu core).status &&& (s.core_eu core).evt_mask = 0) :
    ∃ s', Core_event_unit.req cfg core req cfg.archi.EU_CORE_EVENT_WAIT false s =
        some (IO_REQ_PENDING, s') ∧
      (s'.core_eu core).is_active = false ∧
      (s'.core_eu core).state = CORE_STATE_WAITING_EVENT ∧
      (s'.core_eu core).pending_req = some req ∧
      (s'.core_eu core).status = (s.core_eu core).status ∧
      (s'.core_eu core).evt_mask = (s.core_eu core).evt_mask ∧
      (s'.core_eu core).irq_mask = (s.core_eu core).irq_mask ∧
      s'.out = s.out ++ [Output.clock_sync core false] ∧
      (∀ j, j ≠ core → s'.core_eu j = s.core_eu j) := by
  rw [req_wait_eq cfg core req s hregs, wait_event_sleep cfg core req _ s hmask]
  refine ⟨_, rfl, ?_⟩
  refine ⟨?_, ?_, ?_, ?_, ?_, ?_, ?_, ?_⟩ <;>
    simp [Core_event_unit.put_to_sleep, State.inc_latency, State.set_req_data, State.set_core,
      State.emit]
  intro j hj
  simp [Function.update_noteq hj]

/-- C1 at a concrete input: core 0 of the demo unit, with `status = 0` and
`evt_mask = 0`, reads its wait register with request 7. -/
theorem C1_wait_without_event_suspends_witness :
    ∃ s', Core_event_unit.req demo_cfg 0 7 demo_cfg.archi.EU_CORE_EVENT_WAIT false demo_state =
        some (IO_REQ_PENDING, s') ∧
      (s'.core_eu 0).is_active = false ∧
      (s'.core_eu 0).state = CORE_STATE_WAITING_EVENT ∧
      (s'.core_eu 0).pending_req = some 7 ∧
      (s'.core_eu 0).status = (demo_state.core_eu 0).status ∧
      (s'.core_eu 0).evt_mask = (demo_state.core_eu 0).evt_mask ∧
      (s'.core_eu 0).irq_mask = (demo_state.core_eu 0).irq_mask ∧
      s'.out = demo_state.out ++ [Output.clock_sync 0 false] ∧
      (∀ j, j ≠ 0 → s'.core_eu j = demo_state.core_eu j) :=
  C1_wait_without_event_suspends demo_cfg 0 7 demo_state (by decide) (by decide)

/-- With a masked event present, `wait_event` charges the request, runs
`check_wait_mask`, stores the request, enqueues the generic wake-up and reports
`IO_REQ_PENDING`. -/
theorem wait_event_present (cfg : Config) (core req : Nat) (ws : Event_unit_core_state_e)
    (s : State) (hmask : (s.core_eu core).status &&& (s.core_eu core).evt_mask ≠ 0) :
    ∃ s1, Core_event_unit.check_wait_mask cfg core (s.inc_latency req EU_WAKEUP_REQ_LATENCY) =
        some s1 ∧
      Frame cfg.fifo_mask (s.inc_latency req EU_WAKEUP_REQ_LATENCY) s1 ∧
      Core_event_unit.wait_event cfg core req ws s =
        some (IO_REQ_PENDING,
          (s1.set_core core { s1.core_eu core with pending_req := some req }).event_enqueue core
            Clock_event_kind.wakeup_event EU_WAKEUP_LATENCY) := by
  have hmask' : (s.core_eu core).evt_mask &&& (s.core_eu core).status ≠ 0 := by
    rw [Nat.land_comm]; exact hmask
  obtain ⟨s1, h1, r1⟩ := check_wait_mask_frame cfg core (s.inc_latency req EU_WAKEUP_REQ_LATENCY)
  refine ⟨s1, h1, r1, ?_⟩
  unfold Core_event_unit.wait_event
  have hc : ((s.inc_latency req EU_WAKEUP_REQ_LATENCY).core_eu core) = s.core_eu core := rfl
  simp only [hc, hmask', ne_eq, not_false_eq_true, if_true, h1, Option.some_bind]

/-- A read of the wait register with `status & evt_mask != 0`, in any state: the
access returns, the active flag is unchanged, no clock-gate output is driven (the
only outputs of the access are IRQ line updates), the latency of the request
grows by exactly 6 (`EU_WAKEUP_REQ_LATENCY`), and the wait state is unchanged if
the clock of the core runs or the core is in no waiting state. -/
theorem wait_with_event_spec (cfg : Config) (core req : Nat) (s : State)
    (hregs : cfg.archi.core_regs.Nodup)
    (hmask : (s.core_eu core).status &&& (s.core_eu core).evt_mask ≠ 0) :
    ∃ r s', Core_event_unit.req cfg core req cfg.archi.EU_CORE_EVENT_WAIT false s = some (r, s') ∧
      (s'.core_eu core).is_active = (s.core_eu core).is_active ∧
      (∃ added, s'.out = s.out ++ added ∧ ∀ c v, Output.clock_sync c v ∉ added) ∧
      s'.req_latency req = s.req_latency req + 6 ∧
      ((s.core_eu core).is_active = true ∨ (s.core_eu core).state = CORE_STATE_NONE →
        (s'.core_eu core).state = (s.core_eu core).state) := by
  obtain ⟨s1, _, r1, hw⟩ := wait_event_present cfg core req CORE_STATE_WAITING_EVENT s hmask
  rw [req_wait_eq cfg core req s hregs, hw]
  refine ⟨_, _, rfl, ?_, ?_, ?_, ?_⟩
  · simpa [State.set_req_data, State.event_enqueue, State.set_core, State.inc_latency] using
      (r1.core core).is_active
  · obtain ⟨added, ha, hp⟩ := r1.out
    refine ⟨added, by simpa [State.set_req_data, State.event_enqueue, State.set_core,
      State.inc_latency] using ha, ?_⟩
    intro c v hmem
    obtain ⟨c', irq, h, _⟩ := hp _ hmem
    exact Output.noConfusion h
  · have := r1.req_latency
    simp only [State.set_req_data, State.event_enqueue, State.set_core]
    rw [this]
    simp [State.inc_latency, EU_WAKEUP_REQ_LATENCY]
  · intro hrun
    have hst := (r1.core core).state
    have hs0 : ((s.inc_latency req EU_WAKEUP_REQ_LATENCY).core_eu core) = s.core_eu core := rfl
    rw [hs0] at hst
    simp only [State.set_req_data, State.event_enqueue, State.set_core, Function.update_same]
    rcases hst with h | ⟨h, ha⟩
    · exact h
    · rcases hrun with hr | hr
      · rw [hr] at ha; exact absurd ha (by decide)
      · rw [h, hr]

/-- C3 fails as stated: core 0 of the demo unit has `status & evt_mask = 1`, and
its read of the wait register is answered `IO_REQ_PENDING`, not `IO_REQ_OK`; the
generic wake-up is enqueued to answer it. -/
theorem C3_counterexample :
    (demo_state_event.core_eu 0).status &&& (demo_state_event.core_eu 0).evt_mask ≠ 0 ∧
    (Core_event_unit.req demo_cfg 0 7 demo_cfg.archi.EU_CORE_EVENT_WAIT false
        demo_state_event).map Prod.fst = some IO_REQ_PENDING ∧
    (Core_event_unit.req demo_cfg 0 7 demo_cfg.archi.EU_CORE_EVENT_WAIT false
        demo_state_event).map Prod.fst ≠ some IO_REQ_OK ∧
    (Core_event_unit.req demo_cfg 0 7 demo_cfg.archi.EU_CORE_EVENT_WAIT false
        demo_state_event).map (fun r => r.2.events) =
      some [⟨2, 0, Clock_event_kind.wakeup_event⟩] := by
  decide

theorem check_wait_mask_of_clear_zero (cfg : Config) (core : Nat) (s : State)
    (h : (s.core_eu core).clear_evt_mask = 0) :
    Core_event_unit.check_wait_mask cfg core s = some s := by
  simp [Core_event_unit.check_wait_mask, check_wait_mask_with, h]

/-- C3 as amended: for every core with `status & evt_mask != 0`, a read of the
wait register is not completed synchronously. It reports `IO_REQ_PENDING`,
stores the request as the pending request of the core and enqueues the generic
wake-up, which fires 2 cycles later, at the end of the event queue; the data
word written into the request is the masked status left after the deferred
clear, which is `status & evt_mask` itself when no deferred clear is armed. -/
theorem C3_wait_with_event_is_pending (cfg : Config) (core req : Nat) (s : State)
    (hregs : cfg.archi.core_regs.Nodup)
    (hmask : (s.core_eu core).status &&& (s.core_eu core).evt_mask ≠ 0) :
    ∃ s', Core_event_unit.req cfg core req cfg.archi.EU_CORE_EVENT_WAIT false s =
        some (IO_REQ_PENDING, s') ∧
      (s'.core_eu core).pending_req = some req ∧
      (∃ evs, s'.events =
        s.events ++ evs ++ [⟨s.cycles + 2, core, Clock_event_kind.wakeup_event⟩]) ∧
      s'.req_data req = (s'.core_eu core).evt_mask &&& (s'.core_eu core).status ∧
      ((s.core_eu core).clear_evt_mask = 0 →
        s'.req_data req = (s.core_eu core).evt_mask &&& (s.core_eu core).status) := by
  obtain ⟨s1, h1, r1, hw⟩ := wait_event_present cfg core req CORE_STATE_WAITING_EVENT s hmask
  rw [req_wait_eq cfg core req s hregs, hw]
  refine ⟨_, rfl, ?_, ?_, ?_, ?_⟩
  · simp [State.set_req_data, State.event_enqueue, State.set_core]
  · obtain ⟨evs, he, _⟩ := r1.events
    refine ⟨evs, ?_⟩
    simp only [State.set_req_data, State.event_enqueue, State.set_core, he, r1.cycles]
    simp [State.inc_latency, EU_WAKEUP_LATENCY]
  · simp [State.set_req_data, State.event_enqueue, State.set_core]
  · intro hz
    rw [check_wait_mask_of_clear_zero cfg core (s.inc_latency req EU_WAKEUP_REQ_LATENCY) hz]
      at h1
    cases h1
    simp [State.set_req_data, State.event_enqueue, State.set_core, State.inc_latency]

/-- C3 as amended, at a concrete input: core 0 of the demo unit with
`status = evt_mask = 1`. -/
theorem C3_wait_with_event_is_pending_witness :
    ∃ s', Core_event_unit.req demo_cfg 0 7 demo_cfg.archi.EU_CORE_EVENT_WAIT false
        demo_state_event = some (IO_REQ_PENDING, s') ∧
      (s'.core_eu 0).pending_req = some 7 ∧
      (∃ evs, s'.events = demo_state_event.events ++ evs ++
        [⟨demo_state_event.cycles + 2, 0, Clock_event_kind.wakeup_event⟩]) ∧
      s'.req_data 7 = (s'.core_eu 0).evt_mask &&& (s'.core_eu 0).status ∧
      ((demo_state_event.core_eu 0).clear_evt_mask = 0 →
        s'.req_data 7 =
          (demo_state_event.core_eu 0).evt_mask &&& (demo_state_event.core_eu 0).status) :=
  C3_wait_with_event_is_pending demo_cfg 0 7 demo_state_event (by decide) (by decide)

/-! ## More fuel does not change a result: the fixed-point equation -/

theorem option_foldlM_mono {α β : Type} (f g : β → α → Option β)
    (h : ∀ b a x, f b a = some x → g b a = some x) (l : List α) :
    ∀ b x, l.foldlM f b = some x → l.foldlM g b = some x := by
  induction l with
  | nil => intro b x hx; simpa using hx
  | cons a l ih =>
    intro b x hx
    simp only [List.foldlM_cons, Option.bind_eq_bind, Option.bind_eq_some] at hx ⊢
    obtain ⟨y, hy, hr⟩ := hx
    exact ⟨y, h b a y hy, ih y x hr⟩

section mono

variable (cfg : Config) (cs cs' : Nat → State → Option State)
  (hle : ∀ j st x, cs j st = some x → cs' j st = some x)

include hle

theorem send_event_with_mono (core mask : Nat) (s x : State)
    (h : send_event_with cs core mask s = some x) : send_event_with cs' core mask s = some x :=
  hle _ _ _ h

theorem trigger_event_with_mono (m : Nat) (core_mask : List Nat) (s x : State)
    (h : trigger_event_with cs cfg m core_mask s = some x) :
    trigger_event_with cs' cfg m core_mask s = some x := by
  unfold trigger_event_with at h ⊢
  refine option_foldlM_mono _ _ ?_ _ s x h
  intro b a y hy
  split at hy
  · rw [if_pos (by assumption)]; exact send_event_with_mono cs cs' hle a m b y hy
  · rw [if_neg (by assumption)]; exact hy

theorem soc_check_state_with_mono (s x : State)
    (h : Soc_event_unit.check_state_with cs cfg s = some x) :
    Soc_event_unit.check_state_with cs' cfg s = some x := by
  unfold Soc_event_unit.check_state_with at h ⊢
  split at h
  · rw [if_pos (by assumption)]; exact trigger_event_with_mono cfg cs cs' hle _ _ s x h
  · rw [if_neg (by assumption)]; exact h

theorem clear_status_with_mono (core mask : Nat) (s x : State)
    (h : clear_status_with cs cfg core mask s = some x) :
    clear_status_with cs' cfg core mask s = some x :=
  soc_check_state_with_mono cfg cs cs' hle _ x h

theorem check_wait_mask_with_mono (core : Nat) (s x : State)
    (h : check_wait_mask_with cs cfg core s = some x) :
    check_wait_mask_with cs' cfg core s = some x := by
  unfold check_wait_mask_with at h ⊢
  split at h
  · rw [if_pos (by assumption)]
    rw [Option.bind_eq_some] at h ⊢
    obtain ⟨y, hy, hr⟩ := h
    exact ⟨y, clear_status_with_mono cfg cs cs' hle core _ s y hy, hr⟩
  · rw [if_neg (by assumption)]; exact h

theorem check_state_body_mono (core : Nat) (s x : State)
    (h : check_state_body cs cfg core s = some x) :
    check_state_body cs' cfg core s = some x := by
  unfold check_state_body at h ⊢
  dsimp only at h ⊢
  split at h
  · rw [if_pos (by assumption)]; exact h
  · rw [if_neg (by assumption)]
    split at h
    · rw [if_pos (by assumption)]; exact h
    · rw [if_neg (by assumption)]
      generalize (s.core_eu core).state = st at h ⊢
      cases st
      · exact h
      all_goals
        dsimp only at h ⊢
        split at h
        · rename_i he
          rw [Option.bind_eq_some] at h
          obtain ⟨y, hy, hr⟩ := h
          rw [if_pos he, check_wait_mask_with_mono cfg cs cs' hle core _ y hy]
          exact hr
        · rename_i he
          rw [if_neg he]; exact h

end mono

theorem check_state_fuel_mono (cfg : Config) : ∀ (n : Nat) (core : Nat) (s x : State),
    check_state_fuel cfg n core s = some x → check_state_fuel cfg (n + 1) core s = some x := by
  intro n
  induction n with
  | zero => intro core s x h; exact absurd h (by simp [check_state_fuel])
  | succ n ih =>
    intro core s x h
    exact check_state_body_mono cfg (check_state_fuel cfg n) (check_state_fuel cfg (n + 1)) ih
      core s x h

/-- The embedding satisfies the recursive equation of the source: a re-check of
a core of the unit is the body of `check_state` in which the nested re-checks
are again full re-checks. -/
theorem check_state_unfold (cfg : Config) (core : Nat) (s : State) (hcore : core < cfg.nb_core) :
    Core_event_unit.check_state cfg core s =
      check_state_body (Core_event_unit.check_state cfg) cfg core s := by
  obtain ⟨s', h, _⟩ := check_state_frame cfg core s hcore
  rw [h]
  have h' : check_state_body (check_state_fuel cfg cfg.nb_core) cfg core s = some s' := h
  exact (check_state_body_mono cfg _ _ (check_state_fuel_mono cfg cfg.nb_core) core s s' h').symm

/-! ## The re-check, case by case -/

/-- Re-check of a core whose clock runs: only the IRQ line is updated. -/
theorem check_state_of_active (cfg : Config) (core : Nat) (s : State)
    (h : (s.core_eu core).is_active = true) :
    Core_event_unit.check_state cfg core s =
      some (if (s.core_eu core).pending_irq ≠ (s.core_eu core).sync_irq then
        (s.set_core core { s.core_eu core with sync_irq := (s.core_eu core).pending_irq }).emit
          (Output.irq_req_sync core (s.core_eu core).pending_irq)
      else s) := by
  show check_state_body _ cfg core s = _
  unfold check_state_body
  dsimp only
  rw [if_pos h]
  split <;> rfl

/-- Re-check of a sleeping core that waits and has a masked event: the core
leaves its waiting state, the deferred clear is applied, and the generic wake-up
is enqueued unless it already is. -/
theorem check_state_of_wake (cfg : Config) (core : Nat) (s : State)
    (hcore : core < cfg.nb_core) (hact : (s.core_eu core).is_active = false)
    (hst : (s.core_eu core).state ≠ CORE_STATE_NONE)
    (hev : (s.core_eu core).status &&& (s.core_eu core).evt_mask ≠ 0) :
    Core_event_unit.check_state cfg core s =
      (Core_event_unit.check_wait_mask cfg core
          (s.set_core core { s.core_eu core with state := CORE_STATE_NONE })).bind fun s3 =>
        if s3.is_enqueued core Clock_event_kind.wakeup_event = false then
          some (s3.event_enqueue core Clock_event_kind.wakeup_event EU_WAKEUP_LATENCY)
        else some s3 := by
  rw [check_state_unfold cfg core s hcore]
  unfold check_state_body Core_event_unit.check_wait_mask
  dsimp only
  rw [if_neg (by simp [hact]), if_neg (by simp [hev])]
  generalize hg : (s.core_eu core).state = st at hst
  cases st
  · exact absurd rfl hst
  all_goals
    dsimp only
    rw [if_pos hev]

/-! ## Wake-up after a wait -/

theorem land_ne_zero_of_lor (st m e : Nat) (h : m &&& e ≠ 0) : (st ||| m) &&& e ≠ 0 := by
  obtain ⟨i, hi⟩ := Nat.ne_zero_implies_bit_true h
  intro h0
  have : ((st ||| m) &&& e).testBit i = true := by
    simp only [Nat.testBit_and, Nat.testBit_or, Bool.and_eq_true, Bool.or_eq_true] at hi ⊢
    exact ⟨Or.inr hi.1, hi.2⟩
  rw [h0, Nat.zero_testBit] at this
  exact absurd this (by decide)

theorem State.is_enqueued_wakeup_iff (s : State) (core : Nat) :
    s.is_enqueued core Clock_event_kind.wakeup_event = false ↔ s.wakeups_of core = [] := by
  unfold State.is_enqueued State.wakeups_of
  rw [List.any_eq_false, List.filter_eq_nil_iff]

theorem Frame.wakeups_of_eq {m : Nat} {s s' : State} (h : Frame m s s') (c : Nat)
    (hc : (s.core_eu c).state = CORE_STATE_NONE) : s'.wakeups_of c = s.wakeups_of c := by
  obtain ⟨added, he, hp⟩ := h.events
  unfold State.wakeups_of
  rw [he, List.filter_append]
  have : added.filter
      (fun e => decide (e.core = c ∧ e.kind = Clock_event_kind.wakeup_event)) = [] := by
    rw [List.filter_eq_nil_iff]
    intro e he' hd
    simp only [decide_eq_true_eq] at hd
    obtain ⟨hcore, hk⟩ := hd
    have := ((hp e he').2.2 hk).1
    rw [hcore] at this
    exact this hc
  rw [this, List.append_nil]

theorem Frame.resps_of_eq {m : Nat} {s s' : State} (h : Frame m s s') (c : Nat) :
    s'.resps_of c = s.resps_of c := by
  obtain ⟨added, he, hp⟩ := h.out
  unfold State.resps_of
  rw [he, List.filter_append]
  have : added.filter (Output.is_resp_of c) = [] := by
    rw [List.filter_eq_nil_iff]
    intro o ho
    obtain ⟨c', irq, rfl, _⟩ := hp o ho
    simp [Output.is_resp_of]
  rw [this, List.append_nil]

theorem Frame.keeps_wakeups {m : Nat} {s s' : State} (h : Frame m s s')
    (hw : s.wakeups_have_request) : s'.wakeups_have_request := by
  obtain ⟨added, he, hp⟩ := h.events
  refine ⟨?_, ?_⟩
  · intro e hmem hk
    rw [(h.core e.core).pending_req]
    rw [he] at hmem
    rcases List.mem_append.1 hmem with h' | h'
    · exact hw.1 e h' hk
    · obtain ⟨_, hact, hk'⟩ := hp e h'
      exact hw.2 e.core hact (hk' hk).1
  · intro j hact hst
    rw [(h.core j).pending_req]
    rw [(h.core j).is_active] at hact
    refine hw.2 j hact ?_
    rcases (h.core j).state with h' | ⟨h', _⟩
    · rw [← h']; exact hst
    · exact absurd h' hst

theorem Frame.keeps_in_flight {m : Nat} {s s' : State} (h : Frame m s s') {c r t : Nat}
    {sent : List Output} (hi : s.in_flight c r t sent) : s'.in_flight c r t sent := by
  obtain ⟨hst, hp, hwk, hr, hw⟩ := hi
  refine ⟨?_, by rw [(h.core c).pending_req]; exact hp, by rw [h.wakeups_of_eq c hst]; exact hwk,
    by rw [h.resps_of_eq c]; exact hr, h.keeps_wakeups hw⟩
  rcases (h.core c).state with h' | ⟨h', _⟩
  · rw [h']; exact hst
  · exact h'

/-- The event that ends a wait: the sleeping core leaves its waiting state and
its generic wake-up is enqueued, once, two cycles ahead. -/
theorem send_event_suspended (cfg : Config) (c r m : Nat) (s : State) (hc : c < cfg.nb_core)
    (hs : s.suspended c r) (hw : s.wakeups_have_request)
    (hm : m &&& (s.core_eu c).evt_mask ≠ 0) :
    ∃ s2, Event_unit.send_event cfg c m s = some s2 ∧
      s2.in_flight c r (s.cycles + 2) (s.resps_of c) ∧ s2.cycles = s.cycles ∧
      s2.req_data = s.req_data ∧ (s2.core_eu c).is_active = false := by
  obtain ⟨hact, hst, _, hp, hq⟩ := hs
  let sa := s.set_core c ((s.core_eu c).set_status ((s.core_eu c).status ||| m))
  let sb := sa.set_core c { sa.core_eu c with state := CORE_STATE_NONE }
  have hsa : sa.core_eu c = (s.core_eu c).set_status ((s.core_eu c).status ||| m) := by
    simp [sa, State.set_core]
  have hsb : sb.core_eu c = { sa.core_eu c with state := CORE_STATE_NONE } := by
    simp [sb, State.set_core]
  have hwake := check_state_of_wake cfg c sa hc (by rw [hsa]; exact hact) (by rw [hsa]; exact hst)
    (by rw [hsa]; exact land_ne_zero_of_lor _ _ _ hm)
  obtain ⟨s3, h3, r3⟩ := check_wait_mask_frame cfg c sb
  have hsbw : sb.wakeups_have_request := by
    refine ⟨?_, ?_⟩
    · intro e he hk
      have := hw.1 e he hk
      by_cases hec : e.core = c
      · rw [hec, hsb, hsa]; simp [Core_event_unit.set_status, hp]
      · simpa [sb, sa, State.set_core, Function.update_noteq hec] using this
    · intro j hj hj'
      by_cases hjc : j = c
      · subst hjc; rw [hsb] at hj'; exact absurd rfl hj'
      · have hcore : sb.core_eu j = s.core_eu j := by
          simp [sb, sa, State.set_core, Function.update_noteq hjc]
        rw [hcore] at hj hj' ⊢
        exact hw.2 j hj hj'
  have hsb_in : sb.wakeups_of c = [] := (s.is_enqueued_wakeup_iff c).1 hq
  have hsbst : (sb.core_eu c).state = CORE_STATE_NONE := by rw [hsb]
  have h3w : s3.wakeups_of c = [] := by rw [r3.wakeups_of_eq c hsbst]; exact hsb_in
  have h3q : s3.is_enqueued c Clock_event_kind.wakeup_event = false :=
    (s3.is_enqueued_wakeup_iff c).2 h3w
  refine ⟨s3.event_enqueue c Clock_event_kind.wakeup_event EU_WAKEUP_LATENCY, ?_, ?_, ?_, ?_, ?_⟩
  · show Core_event_unit.check_state cfg c sa = _
    rw [hwake, h3]
    simp only [Option.some_bind, h3q, if_true]
  · have h3p : (s3.core_eu c).pending_req = some r := by
      rw [(r3.core c).pending_req, hsb, hsa]; simpa [Core_event_unit.set_status] using hp
    have h3wr := r3.keeps_wakeups hsbw
    refine ⟨?_, h3p, ?_, ?_, ?_, ?_⟩
    · rcases (r3.core c).state with h' | ⟨h', _⟩
      · simpa [State.event_enqueue, hsbst] using h'
      · exact h'
    · have hcy : s3.cycles = s.cycles := r3.cycles
      simp [State.wakeups_of, State.event_enqueue, List.filter_append, hcy,
        EU_WAKEUP_LATENCY] at h3w ⊢
      exact h3w
    · have := r3.resps_of_eq c
      simpa [State.resps_of, State.event_enqueue] using this
    · intro e he hk
      simp only [State.event_enqueue, List.mem_append, List.mem_singleton] at he
      rcases he with he | he
      · exact h3wr.1 e he hk
      · subst he; show (s3.core_eu c).pending_req ≠ none; rw [h3p]; simp
    · exact h3wr.2
  · exact r3.cycles
  · exact r3.req_data
  · show (s3.core_eu c).is_active = false
    rw [(r3.core c).is_active, hsb, hsa]; exact hact

theorem send_events_in_flight (cfg : Config) (c r t : Nat) (sent : List Output) :
    ∀ (evs : List (Nat × Nat)) (s : State), (∀ e ∈ evs, e.1 < cfg.nb_core) →
    s.in_flight c r t sent →
    ∃ s', send_events cfg evs s = some s' ∧ s'.in_flight c r t sent ∧ s'.cycles = s.cycles ∧
      s'.req_data = s.req_data := by
  intro evs
  induction evs with
  | nil => intro s _ hi; exact ⟨s, rfl, hi, rfl, rfl⟩
  | cons e evs ih =>
    intro s he hi
    obtain ⟨s1, h1, r1⟩ := send_event_frame cfg e.1 e.2 s (he e (List.mem_cons_self _ _))
    obtain ⟨s2, h2, hi2, hc2, hd2⟩ := ih s1 (fun x hx => he x (List.mem_cons_of_mem _ hx))
      (r1.keeps_in_flight hi)
    refine ⟨s2, ?_, hi2, hc2.trans r1.cycles, hd2.trans r1.req_data⟩
    unfold send_events at h2 ⊢
    simp only [List.foldlM_cons, Option.bind_eq_bind, h1, Option.some_bind]
    exact h2

theorem HFrame.hrefl (s : State) : HFrame s s :=
  ⟨rfl, rfl, rfl, rfl, rfl, rfl, rfl, fun _ => rfl, fun _ => rfl, fun _ => rfl, fun _ => rfl,
    fun _ => rfl, fun _ => rfl, fun _ h => h⟩

theorem HFrame.htrans {a b c : State} (h1 : HFrame a b) (h2 : HFrame b c) : HFrame a c :=
  ⟨h2.mutexes.trans h1.mutexes, h2.barriers.trans h1.barriers,
    h2.soc_event_unit.trans h1.soc_event_unit, h2.req_data.trans h1.req_data,
    h2.req_latency.trans h1.req_latency, h2.cycles.trans h1.cycles, h2.events.trans h1.events,
    fun i => (h2.status i).trans (h1.status i), fun i => (h2.evt_mask i).trans (h1.evt_mask i),
    fun i => (h2.irq_mask i).trans (h1.irq_mask i),
    fun i => (h2.clear_evt_mask i).trans (h1.clear_evt_mask i),
    fun i => (h2.state i).trans (h1.state i),
    fun i => (h2.pending_req i).trans (h1.pending_req i),
    fun i h => h2.is_active i (h1.is_active i h)⟩

/-- Re-check of a core whose clock runs, as a frame: only `sync_irq` and the IRQ
line change. -/
theorem check_state_active_hframe (cfg : Config) (core : Nat) (s : State)
    (h : (s.core_eu core).is_active = true) :
    ∃ s', Core_event_unit.check_state cfg core s = some s' ∧ HFrame s s' ∧
      ∀ c, s'.resps_of c = s.resps_of c := by
  rw [check_state_of_active cfg core s h]
  refine ⟨_, rfl, ?_⟩
  split
  · refine ⟨⟨rfl, rfl, rfl, rfl, rfl, rfl, rfl, ?_, ?_, ?_, ?_, ?_, ?_, ?_⟩, ?_⟩
    all_goals intro i
    all_goals by_cases hi : i = core
    all_goals
      first
      | (subst hi; simp [State.emit, State.set_core, State.resps_of, Output.is_resp_of])
      | simp [State.emit, State.set_core, State.resps_of, Output.is_resp_of,
          Function.update_noteq hi]
  · exact ⟨HFrame.hrefl s, fun _ => rfl⟩

/-- Firing a clock event: the core's clock is turned on, a generic wake-up
answers the stored request with the data word found in its buffer, and the core
is re-checked. -/
theorem fire_spec (cfg : Config) (e : Clock_event) (s : State)
    (hp : e.kind = Clock_event_kind.wakeup_event → (s.core_eu e.core).pending_req ≠ none) :
    ∃ s', e.fire cfg s = some s' ∧ HFrame s s' ∧
      ∀ c r, (s.core_eu c).pending_req = some r →
        s'.resps_of c = s.resps_of c ++
          (if e.core = c ∧ e.kind = Clock_event_kind.wakeup_event then
            [Output.resp c r (s.req_data r)] else []) := by
  let s1 := (s.set_core e.core { s.core_eu e.core with is_active := true }).emit
    (Output.clock_sync e.core true)
  have hf1 : HFrame s s1 := by
    refine ⟨rfl, rfl, rfl, rfl, rfl, rfl, rfl, ?_, ?_, ?_, ?_, ?_, ?_, ?_⟩
    all_goals intro i
    all_goals by_cases hi : i = e.core
    all_goals
      first
      | (subst hi; simp [s1, State.emit, State.set_core])
      | simp [s1, State.emit, State.set_core, Function.update_noteq hi]
  have hr1 : ∀ c, s1.resps_of c = s.resps_of c := by
    intro c; simp [s1, State.emit, State.set_core, State.resps_of, Output.is_resp_of]
  have hact1 : (s1.core_eu e.core).is_active = true := by simp [s1, State.emit, State.set_core]
  cases hk : e.kind
  · -- generic wake-up
    obtain ⟨r0, hr0⟩ := Option.ne_none_iff_exists'.1 (hp hk)
    let s2 := s1.emit (Output.resp e.core r0 (s1.req_data r0))
    have hact2 : (s2.core_eu e.core).is_active = true := hact1
    obtain ⟨s3, h3, f3, hr3⟩ := check_state_active_hframe cfg e.core s2 hact2
    have hf2 : HFrame s1 s2 :=
      ⟨rfl, rfl, rfl, rfl, rfl, rfl, rfl, fun _ => rfl, fun _ => rfl, fun _ => rfl,
        fun _ => rfl, fun _ => rfl, fun _ => rfl, fun _ h => h⟩
    refine ⟨s3, ?_, (hf1.htrans hf2).htrans f3, ?_⟩
    · have hp1 : (s1.core_eu e.core).pending_req = some r0 := by
        rw [hf1.pending_req]; exact hr0
      simp only [Clock_event.fire, hk, Core_event_unit.wakeup_handler,
        Core_event_unit.check_pending_req]
      show (match (s1.core_eu e.core).pending_req with
        | some req => some (s1.emit (Output.resp e.core req (s1.req_data req)))
        | none => none).bind _ = _
      rw [hp1]
      exact h3
    · intro c r hc
      rw [hr3 c]
      show (s1.out ++ [Output.resp e.core r0 (s1.req_data r0)]).filter _ = _
      rw [List.filter_append]
      show s1.resps_of c ++ _ = _
      rw [hr1 c]
      congr 1
      by_cases hec : e.core = c
      · subst hec
        rw [hr0] at hc
        cases hc
        simp [Output.is_resp_of, s1, State.emit, State.set_core]
      · simp [Output.is_resp_of, hec]
  · -- IRQ wake-up
    obtain ⟨s3, h3, f3, hr3⟩ := check_state_active_hframe cfg e.core s1 hact1
    refine ⟨s3, ?_, hf1.htrans f3, ?_⟩
    · simp only [Clock_event.fire, hk, Core_event_unit.irq_wakeup_handler]
      exact h3
    · intro c r _
      rw [hr3 c, hr1 c]
      simp

theorem fire_fold (cfg : Config) (c r : Nat) : ∀ (due : List Clock_event) (s : State),
    (s.core_eu c).pending_req = some r →
    (∀ e ∈ due, e.kind = Clock_event_kind.wakeup_event →
      (s.core_eu e.core).pending_req ≠ none) →
    ∃ s', due.foldlM (fun st e => e.fire cfg st) s = some s' ∧ HFrame s s' ∧
      s'.resps_of c = s.resps_of c ++
        (due.filter (fun e => decide (e.core = c ∧ e.kind = Clock_event_kind.wakeup_event))).map
          (fun _ => Output.resp c r (s.req_data r)) := by
  intro due
  induction due with
  | nil => intro s _ _; exact ⟨s, rfl, HFrame.hrefl s, by simp⟩
  | cons e due ih =>
    intro s hp hd
    obtain ⟨s1, h1, f1, hr1⟩ := fire_spec cfg e s (hd e (List.mem_cons_self _ _))
    obtain ⟨s2, h2, f2, hr2⟩ := ih s1 (by rw [f1.pending_req]; exact hp)
      (fun x hx hk => by rw [f1.pending_req]; exact hd x (List.mem_cons_of_mem _ hx) hk)
    refine ⟨s2, ?_, f1.htrans f2, ?_⟩
    · simp only [List.foldlM_cons, Option.bind_eq_bind, h1, Option.some_bind]
      exact h2
    · rw [hr2, hr1 c r hp, f1.req_data, List.filter_cons]
      by_cases hec : e.core = c ∧ e.kind = Clock_event_kind.wakeup_event
      · simp [hec]
      · simp [hec]

/-- One tick: the entries due at the new cycle leave the queue and fire; a core
answers once for each of its generic wake-ups that is due, with the data word
of its stored request. -/
theorem tick_spec (cfg : Config) (c r : Nat) (s : State) (hw : s.wakeups_have_request)
    (hp : (s.core_eu c).pending_req = some r) :
    ∃ s', s.tick cfg = some s' ∧ s'.cycles = s.cycles + 1 ∧
      s'.events = s.events.filter (fun e => decide (e.cycle ≠ s.cycles + 1)) ∧
      (∀ i, (s'.core_eu i).state = (s.core_eu i).state) ∧
      (∀ i, (s'.core_eu i).pending_req = (s.core_eu i).pending_req) ∧
      s'.req_data = s.req_data ∧
      s'.resps_of c = s.resps_of c ++
        ((s.wakeups_of c).filter (fun e => decide (e.cycle = s.cycles + 1))).map
          (fun _ => Output.resp c r (s.req_data r)) ∧
      s'.wakeups_have_request := by
  let s1 : State :=
    { s with cycles := s.cycles + 1
             events := s.events.filter (fun e => decide (e.cycle ≠ s.cycles + 1)) }
  obtain ⟨s2, h2, f2, hr2⟩ := fire_fold cfg c r
    (s.events.filter (fun e => decide (e.cycle = s.cycles + 1))) s1 hp
    (fun e he hk => hw.1 e (List.mem_filter.1 he).1 hk)
  refine ⟨s2, h2, f2.cycles, f2.events, f2.state, f2.pending_req, f2.req_data, ?_, ?_, ?_⟩
  · rw [hr2]
    show s.resps_of c ++ _ = _
    congr 1
    simp only [State.wakeups_of, List.filter_filter]
    congr 1
    congr 1
    funext e
    exact Bool.and_comm _ _
  · intro e he hk
    rw [f2.pending_req]
    rw [f2.events] at he
    exact hw.1 e (List.mem_filter.1 he).1 hk
  · intro j hact hst
    rw [f2.pending_req]
    rw [f2.state] at hst
    refine hw.2 j ?_ hst
    by_contra hne
    have := f2.is_active j (by simpa using hne)
    rw [hact] at this
    exact absurd this (by decide)

/-- A wait without a masked event leaves the core suspended with its request. -/
theorem req_wait_suspends (cfg : Config) (c req : Nat) (s0 : State)
    (hregs : cfg.archi.core_regs.Nodup)
    (hmask : (s0.core_eu c).status &&& (s0.core_eu c).evt_mask = 0)
    (hq : s0.is_enqueued c Clock_event_kind.wakeup_event = false) :
    ∃ s1, Core_event_unit.req cfg c req cfg.archi.EU_CORE_EVENT_WAIT false s0 =
        some (IO_REQ_PENDING, s1) ∧ s1.suspended c req ∧
      (s0.wakeups_have_request → s1.wakeups_have_request) := by
  rw [req_wait_eq cfg c req s0 hregs, wait_event_sleep cfg c req _ s0 hmask]
  refine ⟨_, rfl, ⟨?_, ?_, ?_, ?_, ?_⟩, ?_⟩
  · simp [Core_event_unit.put_to_sleep, State.set_req_data, State.set_core, State.emit,
      State.inc_latency]
  · simp [Core_event_unit.put_to_sleep, State.set_req_data, State.set_core, State.emit,
      State.inc_latency]
  · simpa [Core_event_unit.put_to_sleep, State.set_req_data, State.set_core, State.emit,
      State.inc_latency] using hmask
  · simp [Core_event_unit.put_to_sleep, State.set_req_data, State.set_core, State.emit,
      State.inc_latency]
  · exact hq
  · intro hw
    refine ⟨?_, ?_⟩
    · intro e he hk
      by_cases hec : e.core = c
      · rw [hec]
        simp [Core_event_unit.put_to_sleep, State.set_req_data, State.set_core, State.emit,
          State.inc_latency]
      · have := hw.1 e he hk
        simpa [Core_event_unit.put_to_sleep, State.set_req_data, State.set_core, State.emit,
          State.inc_latency, Function.update_noteq hec] using this
    · intro j hj hj'
      by_cases hjc : j = c
      · subst hjc
        simp [Core_event_unit.put_to_sleep, State.set_req_data, State.set_core, State.emit,
          State.inc_latency]
      · simp only [Core_event_unit.put_to_sleep, State.set_req_data, State.set_core, State.emit,
          State.inc_latency, Function.update_noteq hjc] at hj hj' ⊢
        exact hw.2 j hj hj'

/-- The course of a wake-up: the event that ends the wait, further events in the
same cycle, a tick, further events, and the tick on which the wake-up fires. -/
theorem wake_course (cfg : Config) (c req : Nat) (hc : c < cfg.nb_core) (s : State) (m : Nat)
    (evs1 evs2 : List (Nat × Nat)) (hs : s.suspended c req) (hw : s.wakeups_have_request)
    (hm : m &&& (s.core_eu c).evt_mask ≠ 0) (h1 : ∀ e ∈ evs1, e.1 < cfg.nb_core)
    (h2 : ∀ e ∈ evs2, e.1 < cfg.nb_core) :
    ∃ s2 s3 s4 s5 s6, Event_unit.send_event cfg c m s = some s2 ∧
      send_events cfg evs1 s2 = some s3 ∧ s3.tick cfg = some s4 ∧
      send_events cfg evs2 s4 = some s5 ∧ s5.tick cfg = some s6 ∧
      s2.wakeups_of c = [⟨s.cycles + 2, c, Clock_event_kind.wakeup_event⟩] ∧
      s3.wakeups_of c = [⟨s.cycles + 2, c, Clock_event_kind.wakeup_event⟩] ∧
      s5.wakeups_of c = [⟨s.cycles + 2, c, Clock_event_kind.wakeup_event⟩] ∧
      s5.cycles = s.cycles + 1 ∧ s5.resps_of c = s.resps_of c ∧
      s6.cycles = s.cycles + 2 ∧ s6.wakeups_of c = [] ∧
      s6.resps_of c = s.resps_of c ++ [Output.resp c req (s.req_data req)] := by
  obtain ⟨s2, e2, i2, c2, d2, _⟩ := send_event_suspended cfg c req m s hc hs hw hm
  obtain ⟨s3, e3, i3, c3, d3⟩ := send_events_in_flight cfg c req _ _ evs1 s2 h1 i2
  obtain ⟨st3, p3, w3, r3, wf3⟩ := i3
  obtain ⟨s4, e4, c4, ev4, st4, p4, d4, r4, wf4⟩ := tick_spec cfg c req s3 wf3 p3
  have hcy3 : s3.cycles = s.cycles := c3.trans c2
  have w4 : s4.wakeups_of c = [⟨s.cycles + 2, c, Clock_event_kind.wakeup_event⟩] := by
    unfold State.wakeups_of at w3 ⊢
    rw [ev4, List.filter_filter]
    have : (fun a : Clock_event =>
        (decide (a.core = c ∧ a.kind = Clock_event_kind.wakeup_event) &&
          decide (a.cycle ≠ s3.cycles + 1))) =
        fun a => (decide (a.cycle ≠ s3.cycles + 1) &&
          decide (a.core = c ∧ a.kind = Clock_event_kind.wakeup_event)) := by
      funext a; exact Bool.and_comm _ _
    rw [this, ← List.filter_filter, w3, hcy3]
    simp
  have i4 : s4.in_flight c req (s.cycles + 2) (s.resps_of c) := by
    refine ⟨by rw [st4]; exact st3, by rw [p4]; exact p3, w4, ?_, wf4⟩
    rw [r4, w3, hcy3, r3]
    simp
  obtain ⟨s5, e5, i5, c5, d5⟩ := send_events_in_flight cfg c req _ _ evs2 s4 h2 i4
  obtain ⟨st5, p5, w5, r5, wf5⟩ := i5
  obtain ⟨s6, e6, c6, ev6, _, _, _, r6, _⟩ := tick_spec cfg c req s5 wf5 p5
  have hcy5 : s5.cycles = s.cycles + 1 := by rw [c5, c4, hcy3]
  refine ⟨s2, s3, s4, s5, s6, e2, e3, e4, e5, e6, i2.2.2.1, w3, w5, hcy5, r5, ?_, ?_, ?_⟩
  · rw [c6, hcy5]
  · unfold State.wakeups_of at w5 ⊢
    rw [ev6, List.filter_filter]
    have : (fun a : Clock_event =>
        (decide (a.core = c ∧ a.kind = Clock_event_kind.wakeup_event) &&
          decide (a.cycle ≠ s5.cycles + 1))) =
        fun a => (decide (a.cycle ≠ s5.cycles + 1) &&
          decide (a.core = c ∧ a.kind = Clock_event_kind.wakeup_event)) := by
      funext a; exact Bool.and_comm _ _
    rw [this, ← List.filter_filter, w5, hcy5]
    simp
  · rw [r6, w5, hcy5, r5, d5, d4, d3, d2]
    simp

/-- C4, amended: a core put to sleep by a wait issued with
`status & evt_mask == 0` while no generic wake-up of the core is enqueued (first
part: such a wait leaves the core suspended with its request), and still
suspended when the event arrives, is resolved exactly once, two cycles after the
event. Second part: when `send_event` raises a bit of `evt_mask` in the status
of the suspended core at cycle `t` (every queued generic wake-up and every
sleeping waiting core having a stored request), one generic wake-up of the core
is enqueued for cycle `t + 2`; further events sent to any cores in cycle `t` and
in cycle `t + 1` add no second wake-up of the core and no response; nothing is
answered up to cycle `t + 1`; and the tick to cycle `t + 2` fires the wake-up,
which answers the stored request exactly once and leaves no wake-up of the core
in the queue. Third part: an input event (`in_event_sync`) is such a
`send_event`. -/
theorem C4_wait_resolved_once_two_cycles_after_event (cfg : Config) (c req : Nat)
    (hc : c < cfg.nb_core) (hregs : cfg.archi.core_regs.Nodup) :
    (∀ s0 : State, (s0.core_eu c).status &&& (s0.core_eu c).evt_mask = 0 →
      s0.is_enqueued c Clock_event_kind.wakeup_event = false →
      ∃ s1, Core_event_unit.req cfg c req cfg.archi.EU_CORE_EVENT_WAIT false s0 =
          some (IO_REQ_PENDING, s1) ∧ s1.suspended c req ∧
        (s0.wakeups_have_request → s1.wakeups_have_request)) ∧
    (∀ (s : State) (m : Nat) (evs1 evs2 : List (Nat × Nat)),
      s.suspended c req → s.wakeups_have_request → m &&& (s.core_eu c).evt_mask ≠ 0 →
      (∀ e ∈ evs1, e.1 < cfg.nb_core) → (∀ e ∈ evs2, e.1 < cfg.nb_core) →
      ∃ s2 s3 s4 s5 s6, Event_unit.send_event cfg c m s = some s2 ∧
        send_events cfg evs1 s2 = some s3 ∧ s3.tick cfg = some s4 ∧
        send_events cfg evs2 s4 = some s5 ∧ s5.tick cfg = some s6 ∧
        s2.wakeups_of c = [⟨s.cycles + 2, c, Clock_event_kind.wakeup_event⟩] ∧
        s3.wakeups_of c = [⟨s.cycles + 2, c, Clock_event_kind.wakeup_event⟩] ∧
        s5.wakeups_of c = [⟨s.cycles + 2, c, Clock_event_kind.wakeup_event⟩] ∧
        s5.cycles = s.cycles + 1 ∧ s5.resps_of c = s.resps_of c ∧
        s6.cycles = s.cycles + 2 ∧ s6.wakeups_of c = [] ∧
        s6.resps_of c = s.resps_of c ++ [Output.resp c req (s.req_data req)]) ∧
    (∀ (s : State) (id : Nat), Event_unit.in_event_sync cfg id s =
      Event_unit.send_event cfg (id >>> 16) (shl1 (id &&& 0xffff)) s) :=
  ⟨fun s0 hmask hq => req_wait_suspends cfg c req s0 hregs hmask hq,
    fun s m evs1 evs2 hs hw hm h1 h2 => wake_course cfg c req hc s m evs1 evs2 hs hw hm h1 h2,
    fun _ _ => rfl⟩

theorem demo_state_suspended_ok :
    demo_state_suspended.suspended 0 7 ∧ demo_state_suspended.wakeups_have_request := by
  refine ⟨by unfold State.suspended; decide, ?_, ?_⟩
  · intro e he; cases he
  · intro j hj _
    by_cases h0 : j = 0
    · subst h0; decide
    · simp [demo_state_suspended, State.set_core, Function.update_noteq h0, demo_state,
        demo_core] at hj

/-- C4 at a concrete input: core 0 of the demo unit listens to event bit 0. Its
wait with request 7 suspends it; then event bit 0 arrives, two more events are
sent in the same cycle and one in the next. -/
theorem C4_wait_resolved_once_two_cycles_after_event_witness :
    (∃ s1, Core_event_unit.req demo_cfg 0 7 demo_cfg.archi.EU_CORE_EVENT_WAIT false
        demo_state_listening = some (IO_REQ_PENDING, s1) ∧ s1.suspended 0 7 ∧
      (demo_state_listening.wakeups_have_request → s1.wakeups_have_request)) ∧
    (∃ s2 s3 s4 s5 s6, Event_unit.send_event demo_cfg 0 1 demo_state_suspended = some s2 ∧
      send_events demo_cfg [(0, 1), (1, 1)] s2 = some s3 ∧ s3.tick demo_cfg = some s4 ∧
      send_events demo_cfg [(0, 1)] s4 = some s5 ∧ s5.tick demo_cfg = some s6 ∧
      s2.wakeups_of 0 = [⟨demo_state_suspended.cycles + 2, 0, Clock_event_kind.wakeup_event⟩] ∧
      s3.wakeups_of 0 = [⟨demo_state_suspended.cycles + 2, 0, Clock_event_kind.wakeup_event⟩] ∧
      s5.wakeups_of 0 = [⟨demo_state_suspended.cycles + 2, 0, Clock_event_kind.wakeup_event⟩] ∧
      s5.cycles = demo_state_suspended.cycles + 1 ∧
      s5.resps_of 0 = demo_state_suspended.resps_of 0 ∧
      s6.cycles = demo_state_suspended.cycles + 2 ∧ s6.wakeups_of 0 = [] ∧
      s6.resps_of 0 = demo_state_suspended.resps_of 0 ++
        [Output.resp 0 7 (demo_state_suspended.req_data 7)]) :=
  ⟨(C4_wait_resolved_once_two_cycles_after_event demo_cfg 0 7 (by decide) (by decide)).1
      demo_state_listening (by decide) (by decide),
    (C4_wait_resolved_once_two_cycles_after_event demo_cfg 0 7 (by decide) (by decide)).2.1
      demo_state_suspended 1 [(0, 1), (1, 1)] [(0, 1)] demo_state_suspended_ok.1
      demo_state_suspended_ok.2 (by decide) (by decide) (by decide)⟩

/-- C5 fails as stated: in the scenario of the specification (core 0 with
`evt_mask = 0x1`, `status = 0` waits with request 7, then input event 0
arrives), the wake-up fires on the second tick; at that moment the masked status
of the core is `0x1`, but the response carries the data word `0`, which the
wait read stored in the request when it was issued. -/
theorem C5_counterexample :
    demo_wait_scenario_before_callback.map
        (fun s => ((s.core_eu 0).status &&& (s.core_eu 0).evt_mask, s.resps_of 0, s.cycles)) =
      some (1, [], 1) ∧
    demo_wait_scenario.map
        (fun s => ((s.core_eu 0).status &&& (s.core_eu 0).evt_mask, s.resps_of 0, s.cycles)) =
      some (1, [Output.resp 0 7 0], 2) := by
  decide

/-- What a wait read without a masked event leaves behind, besides the
suspension: the data word of the request is the masked status of that moment,
which is zero, and nothing has been answered. -/
theorem req_wait_sleep_data (cfg : Config) (c req : Nat) (s0 : State)
    (hregs : cfg.archi.core_regs.Nodup)
    (hmask : (s0.core_eu c).status &&& (s0.core_eu c).evt_mask = 0) :
    ∃ s1, Core_event_unit.req cfg c req cfg.archi.EU_CORE_EVENT_WAIT false s0 =
        some (IO_REQ_PENDING, s1) ∧ s1.req_data req = 0 ∧ s1.resps_of c = s0.resps_of c ∧
      s1.cycles = s0.cycles ∧ (s1.core_eu c).evt_mask = (s0.core_eu c).evt_mask := by
  have hmask' : (s0.core_eu c).evt_mask &&& (s0.core_eu c).status = 0 := by
    rw [Nat.land_comm]; exact hmask
  rw [req_wait_eq cfg c req s0 hregs, wait_event_sleep cfg c req _ s0 hmask]
  refine ⟨_, rfl, ?_, ?_, ?_, ?_⟩
  · simpa [Core_event_unit.put_to_sleep, State.set_req_data, State.set_core, State.emit,
      State.inc_latency] using hmask'
  · simp [Core_event_unit.put_to_sleep, State.set_req_data, State.set_core, State.emit,
      State.inc_latency, State.resps_of, Output.is_resp_of]
  · simp [Core_event_unit.put_to_sleep, State.set_req_data, State.set_core, State.emit,
      State.inc_latency]
  · simp [Core_event_unit.put_to_sleep, State.set_req_data, State.set_core, State.emit,
      State.inc_latency]

/-- C5 as amended. First part: the generic wake-up callback answers the stored
request with the data word that is in the buffer of the request at that moment;
it computes no result of its own. Second part: a wait read that puts the core to
sleep stores `status & evt_mask` of the moment of the read, which is `0`, in the
request; when an event of the mask later wakes the core, the response delivered
two cycles after the event carries that word `0`, whatever the masked status is
when the callback fires. -/
theorem C5_response_carries_word_stored_by_wait (cfg : Config) (c req : Nat)
    (hc : c < cfg.nb_core) (hregs : cfg.archi.core_regs.Nodup) :
    (∀ (s : State) (r : Nat), (s.core_eu c).pending_req = some r →
      ∃ s', Core_event_unit.wakeup_handler cfg c s = some s' ∧
        s'.resps_of c = s.resps_of c ++ [Output.resp c r (s.req_data r)] ∧
        s'.req_data = s.req_data) ∧
    (∀ (s0 : State) (m : Nat) (evs1 evs2 : List (Nat × Nat)),
      (s0.core_eu c).status &&& (s0.core_eu c).evt_mask = 0 →
      s0.is_enqueued c Clock_event_kind.wakeup_event = false → s0.wakeups_have_request →
      m &&& (s0.core_eu c).evt_mask ≠ 0 →
      (∀ e ∈ evs1, e.1 < cfg.nb_core) → (∀ e ∈ evs2, e.1 < cfg.nb_core) →
      ∃ s1 s2 s3 s4 s5 s6,
        Core_event_unit.req cfg c req cfg.archi.EU_CORE_EVENT_WAIT false s0 =
          some (IO_REQ_PENDING, s1) ∧
        s1.req_data req = 0 ∧
        Event_unit.send_event cfg c m s1 = some s2 ∧
        send_events cfg evs1 s2 = some s3 ∧ s3.tick cfg = some s4 ∧
        send_events cfg evs2 s4 = some s5 ∧ s5.tick cfg = some s6 ∧
        s5.resps_of c = s0.resps_of c ∧
        s6.cycles = s0.cycles + 2 ∧
        s6.resps_of c = s0.resps_of c ++ [Output.resp c req 0]) := by
  refine ⟨?_, ?_⟩
  · intro s r hp
    obtain ⟨s', h, f, hr⟩ := fire_spec cfg ⟨0, c, Clock_event_kind.wakeup_event⟩ s
      (by intro _; show (s.core_eu c).pending_req ≠ none; rw [hp]; simp)
    refine ⟨s', h, ?_, f.req_data⟩
    have := hr c r hp
    simpa using this
  · intro s0 m evs1 evs2 hmask hq hw hm h1 h2
    obtain ⟨s1, e1, hs1, hw1⟩ := req_wait_suspends cfg c req s0 hregs hmask hq
    obtain ⟨s1', e1', d1, r1, c1, m1⟩ := req_wait_sleep_data cfg c req s0 hregs hmask
    rw [e1] at e1'
    cases e1'
    obtain ⟨s2, s3, s4, s5, s6, e2, e3, e4, e5, e6, _, _, _, _, r5, c6, _, r6⟩ :=
      wake_course cfg c req hc s1 m evs1 evs2 hs1 (hw1 hw) (by rw [m1]; exact hm) h1 h2
    refine ⟨s1, s2, s3, s4, s5, s6, e1, d1, e2, e3, e4, e5, e6, ?_, ?_, ?_⟩
    · rw [r5, r1]
    · rw [c6, c1]
    · rw [r6, r1, d1]

theorem demo_state_listening_ok : demo_state_listening.wakeups_have_request := by
  refine ⟨?_, ?_⟩
  · intro e he; cases he
  · intro j hj _
    by_cases h0 : j = 0
    · subst h0; exact absurd hj (by decide)
    · simp [demo_state_listening, State.set_core, Function.update_noteq h0, demo_state,
        demo_core] at hj

/-- C5 as amended, at a concrete input: the scenario of the specification, core
0 of the demo unit with `evt_mask = 0x1` and `status = 0`, request 7, event
bit 0. The response carries `0`. -/
theorem C5_response_carries_word_stored_by_wait_witness :
    (∃ s', Core_event_unit.wakeup_handler demo_cfg 0 demo_state_suspended = some s' ∧
      s'.resps_of 0 = demo_state_suspended.resps_of 0 ++
        [Output.resp 0 7 (demo_state_suspended.req_data 7)] ∧
      s'.req_data = demo_state_suspended.req_data) ∧
    (∃ s1 s2 s3 s4 s5 s6,
      Core_event_unit.req demo_cfg 0 7 demo_cfg.archi.EU_CORE_EVENT_WAIT false
        demo_state_listening = some (IO_REQ_PENDING, s1) ∧
      s1.req_data 7 = 0 ∧
      Event_unit.send_event demo_cfg 0 1 s1 = some s2 ∧
      send_events demo_cfg [] s2 = some s3 ∧ s3.tick demo_cfg = some s4 ∧
      send_events demo_cfg [] s4 = some s5 ∧ s5.tick demo_cfg = some s6 ∧
      s5.resps_of 0 = demo_state_listening.resps_of 0 ∧
      s6.cycles = demo_state_listening.cycles + 2 ∧
      s6.resps_of 0 = demo_state_listening.resps_of 0 ++ [Output.resp 0 7 0]) :=
  ⟨(C5_response_carries_word_stored_by_wait demo_cfg 0 7 (by decide) (by decide)).1
      demo_state_suspended 7 (by decide),
    (C5_response_carries_word_stored_by_wait demo_cfg 0 7 (by decide) (by decide)).2
      demo_state_listening 1 [] [] (by decide) (by decide) demo_state_listening_ok (by decide)
      (by simp) (by simp)⟩

/-! ## Mutex unit -/

/-- C9: for every core and every unlocked mutex with a valid id, a lock read
returns `IO_REQ_OK` at once and sets `locked`; the wait queue, the carried
value, the other mutexes, every core (state, status, masks, active flag,
stored request), the event queue and the outputs are unchanged. -/
theorem C9_lock_of_free_mutex (cfg : Config) (req offset core : Nat) (s : State)
    (hid : cfg.archi.EU_MUTEX_AREA_MUTEXID_GET offset < cfg.nb_mutexes)
    (hfree : (s.mutexes (cfg.archi.EU_MUTEX_AREA_MUTEXID_GET offset)).locked = false) :
    ∃ s', Mutex_unit.req cfg req offset false core s = some (IO_REQ_OK, s') ∧
      (s'.mutexes (cfg.archi.EU_MUTEX_AREA_MUTEXID_GET offset)).locked = true ∧
      (s'.mutexes (cfg.archi.EU_MUTEX_AREA_MUTEXID_GET offset)).waiting_list =
        (s.mutexes (cfg.archi.EU_MUTEX_AREA_MUTEXID_GET offset)).waiting_list ∧
      (s'.mutexes (cfg.archi.EU_MUTEX_AREA_MUTEXID_GET offset)).value =
        (s.mutexes (cfg.archi.EU_MUTEX_AREA_MUTEXID_GET offset)).value ∧
      (∀ j, j ≠ cfg.archi.EU_MUTEX_AREA_MUTEXID_GET offset → s'.mutexes j = s.mutexes j) ∧
      s'.core_eu = s.core_eu ∧ s'.events = s.events ∧ s'.out = s.out ∧
      s'.req_data = s.req_data ∧ s'.req_latency = s.req_latency := by
  refine ⟨s.set_mutex (cfg.archi.EU_MUTEX_AREA_MUTEXID_GET offset)
    { s.mutexes (cfg.archi.EU_MUTEX_AREA_MUTEXID_GET offset) with locked := true },
    ?_, ?_, ?_, ?_, ?_, rfl, rfl, rfl, rfl, rfl⟩
  · unfold Mutex_unit.req
    simp only [ge_iff_le, Nat.not_le.2 hid, if_false, hfree, if_true]
  · simp [State.set_mutex]
  · simp [State.set_mutex]
  · simp [State.set_mutex]
  · intro j hj
    simp [State.set_mutex, Function.update_noteq hj]

/-- C9 at a concrete input: core 2 locks the free mutex 0 of the demo unit. -/
theorem C9_lock_of_free_mutex_witness :
    ∃ s', Mutex_unit.req demo_cfg 5 0 false 2 demo_state = some (IO_REQ_OK, s') ∧
      (s'.mutexes (demo_cfg.archi.EU_MUTEX_AREA_MUTEXID_GET 0)).locked = true ∧
      (s'.mutexes (demo_cfg.archi.EU_MUTEX_AREA_MUTEXID_GET 0)).waiting_list =
        (demo_state.mutexes (demo_cfg.archi.EU_MUTEX_AREA_MUTEXID_GET 0)).waiting_list ∧
      (s'.mutexes (demo_cfg.archi.EU_MUTEX_AREA_MUTEXID_GET 0)).value =
        (demo_state.mutexes (demo_cfg.archi.EU_MUTEX_AREA_MUTEXID_GET 0)).value ∧
      (∀ j, j ≠ demo_cfg.archi.EU_MUTEX_AREA_MUTEXID_GET 0 →
        s'.mutexes j = demo_state.mutexes j) ∧
      s'.core_eu = demo_state.core_eu ∧ s'.events = demo_state.events ∧
      s'.out = demo_state.out ∧ s'.req_data = demo_state.req_data ∧
      s'.req_latency = demo_state.req_latency :=
  C9_lock_of_free_mutex demo_cfg 5 0 2 demo_state (by decide) (by decide)

/-- A lock read of a held mutex is `enqueue_sleep`. -/
theorem mutex_read_locked_eq (cfg : Config) (req offset core : Nat) (s : State)
    (hid : cfg.archi.EU_MUTEX_AREA_MUTEXID_GET offset < cfg.nb_mutexes)
    (hlocked : (s.mutexes (cfg.archi.EU_MUTEX_AREA_MUTEXID_GET offset)).locked = true) :
    Mutex_unit.req cfg req offset false core s =
      Mutex_unit.enqueue_sleep cfg (cfg.archi.EU_MUTEX_AREA_MUTEXID_GET offset) req core s := by
  unfold Mutex_unit.req
  simp only [ge_iff_le, Nat.not_le.2 hid, if_false, hlocked, if_true, Bool.true_eq_false]

/-- A lock read of a held mutex by a core without a masked event: the state it
produces. -/
theorem mutex_read_locked_sleep (cfg : Config) (req offset core : Nat) (s : State)
    (hid : cfg.archi.EU_MUTEX_AREA_MUTEXID_GET offset < cfg.nb_mutexes)
    (hlocked : (s.mutexes (cfg.archi.EU_MUTEX_AREA_MUTEXID_GET offset)).locked = true)
    (hmask : (s.core_eu core).status &&& (s.core_eu core).evt_mask = 0) :
    ∃ s', Mutex_unit.req cfg req offset false core s = some (IO_REQ_PENDING, s') ∧
      s'.mutexes = Function.update s.mutexes (cfg.archi.EU_MUTEX_AREA_MUTEXID_GET offset)
        { s.mutexes (cfg.archi.EU_MUTEX_AREA_MUTEXID_GET offset) with
          waiting_reqs := Function.update
            (s.mutexes (cfg.archi.EU_MUTEX_AREA_MUTEXID_GET offset)).waiting_reqs core req
          waiting_list :=
            (s.mutexes (cfg.archi.EU_MUTEX_AREA_MUTEXID_GET offset)).waiting_list ++ [core] } ∧
      s'.core_eu = Function.update s.core_eu core
        { s.core_eu core with
          clear_evt_mask := shl1 cfg.mutex_event
          state := CORE_STATE_WAITING_EVENT
          is_active := false
          pending_req := some req } ∧
      s'.out = s.out ++ [Output.clock_sync core false] ∧ s'.events = s.events ∧
      s'.req_data = s.req_data ∧ s'.cycles = s.cycles ∧ s'.barriers = s.barriers ∧
      s'.soc_event_unit = s.soc_event_unit := by
  rw [mutex_read_locked_eq cfg req offset core s hid hlocked]
  unfold Mutex_unit.enqueue_sleep
  dsimp only
  rw [wait_event_sleep cfg core req _ _ (by simpa [State.set_core, State.set_mutex] using hmask)]
  refine ⟨_, rfl, ?_, ?_, ?_, ?_, ?_, ?_, ?_, ?_⟩ <;>
    simp [Core_event_unit.put_to_sleep, State.set_core, State.set_mutex, State.emit,
      State.inc_latency]

/-- C7 fails as stated: core 0 of the demo unit has a masked event latched
(`status = evt_mask = 1`) and reads the held mutex 0. The access is answered
`IO_REQ_PENDING` and the core is appended to the wait queue, but the core is not
put to sleep (its active flag stays set) and its `clear_evt_mask` ends as `0`,
not `1 << mutex_event = 2`. -/
theorem C7_counterexample :
    (demo_state_event_locked.mutexes (demo_cfg.archi.EU_MUTEX_AREA_MUTEXID_GET 0)).locked = true ∧
    (Mutex_unit.req demo_cfg 7 0 false 0 demo_state_event_locked).map
        (fun r => (r.1, (r.2.mutexes 0).waiting_list, (r.2.core_eu 0).is_active,
          (r.2.core_eu 0).clear_evt_mask)) =
      some (IO_REQ_PENDING, [0], true, 0) ∧
    shl1 demo_cfg.mutex_event = 2 := by
  decide

/-- C7 as amended: for every locked mutex and every core `c` that has no masked
event latched (`status & evt_mask == 0`), a lock read by `c` appends `c` at the
tail of the wait queue of the mutex (the entries before it unchanged), records
the request as the waiting request of `c` for that mutex, sets the
`clear_evt_mask` of `c` to exactly `1 << mutex_event`, reports
`IO_REQ_PENDING` and puts `c` to sleep (inactive, `CORE_STATE_WAITING_EVENT`,
request stored, clock gate driven low). The mutex stays locked, its value, the
other mutexes and the other cores are unchanged. -/
theorem C7_lock_of_held_mutex_enqueues (cfg : Config) (req offset core : Nat) (s : State)
    (hid : cfg.archi.EU_MUTEX_AREA_MUTEXID_GET offset < cfg.nb_mutexes)
    (hlocked : (s.mutexes (cfg.archi.EU_MUTEX_AREA_MUTEXID_GET offset)).locked = true)
    (hmask : (s.core_eu core).status &&& (s.core_eu core).evt_mask = 0) :
    ∃ s', Mutex_unit.req cfg req offset false core s = some (IO_REQ_PENDING, s') ∧
      (s'.mutexes (cfg.archi.EU_MUTEX_AREA_MUTEXID_GET offset)).waiting_list =
        (s.mutexes (cfg.archi.EU_MUTEX_AREA_MUTEXID_GET offset)).waiting_list ++ [core] ∧
      (s'.mutexes (cfg.archi.EU_MUTEX_AREA_MUTEXID_GET offset)).waiting_reqs core = req ∧
      (s'.mutexes (cfg.archi.EU_MUTEX_AREA_MUTEXID_GET offset)).locked = true ∧
      (s'.mutexes (cfg.archi.EU_MUTEX_AREA_MUTEXID_GET offset)).value =
        (s.mutexes (cfg.archi.EU_MUTEX_AREA_MUTEXID_GET offset)).value ∧
      (∀ j, j ≠ cfg.archi.EU_MUTEX_AREA_MUTEXID_GET offset → s'.mutexes j = s.mutexes j) ∧
      (s'.core_eu core).clear_evt_mask = shl1 cfg.mutex_event ∧
      (s'.core_eu core).is_active = false ∧
      (s'.core_eu core).state = CORE_STATE_WAITING_EVENT ∧
      (s'.core_eu core).pending_req = some req ∧
      (s'.core_eu core).status = (s.core_eu core).status ∧
      (∀ j, j ≠ core → s'.core_eu j = s.core_eu j) ∧
      s'.out = s.out ++ [Output.clock_sync core false] := by
  obtain ⟨s', h, hm, hc, ho, _⟩ := mutex_read_locked_sleep cfg req offset core s hid hlocked hmask
  refine ⟨s', h, ?_, ?_, ?_, ?_, ?_, ?_, ?_, ?_, ?_, ?_, ?_, ho⟩
  · rw [hm]; simp
  · rw [hm]; simp
  · rw [hm]; simpa using hlocked
  · rw [hm]; simp
  · intro j hj; rw [hm]; simp [Function.update_noteq hj]
  · rw [hc]; simp
  · rw [hc]; simp
  · rw [hc]; simp
  · rw [hc]; simp
  · rw [hc]; simp
  · intro j hj; rw [hc]; simp [Function.update_noteq hj]

/-- C7 as amended, at a concrete input: core 2 of the demo unit, with no event
latched, reads the held mutex 0 with request 9. -/
theorem C7_lock_of_held_mutex_enqueues_witness :
    ∃ s', Mutex_unit.req demo_cfg 9 0 false 2 demo_state_locked = some (IO_REQ_PENDING, s') ∧
      (s'.mutexes (demo_cfg.archi.EU_MUTEX_AREA_MUTEXID_GET 0)).waiting_list =
        (demo_state_locked.mutexes (demo_cfg.archi.EU_MUTEX_AREA_MUTEXID_GET 0)).waiting_list ++
          [2] ∧
      (s'.mutexes (demo_cfg.archi.EU_MUTEX_AREA_MUTEXID_GET 0)).waiting_reqs 2 = 9 ∧
      (s'.mutexes (demo_cfg.archi.EU_MUTEX_AREA_MUTEXID_GET 0)).locked = true ∧
      (s'.mutexes (demo_cfg.archi.EU_MUTEX_AREA_MUTEXID_GET 0)).value =
        (demo_state_locked.mutexes (demo_cfg.archi.EU_MUTEX_AREA_MUTEXID_GET 0)).value ∧
      (∀ j, j ≠ demo_cfg.archi.EU_MUTEX_AREA_MUTEXID_GET 0 →
        s'.mutexes j = demo_state_locked.mutexes j) ∧
      (s'.core_eu 2).clear_evt_mask = shl1 demo_cfg.mutex_event ∧
      (s'.core_eu 2).is_active = false ∧
      (s'.core_eu 2).state = CORE_STATE_WAITING_EVENT ∧
      (s'.core_eu 2).pending_req = some 9 ∧
      (s'.core_eu 2).status = (demo_state_locked.core_eu 2).status ∧
      (∀ j, j ≠ 2 → s'.core_eu j = demo_state_locked.core_eu j) ∧
      s'.out = demo_state_locked.out ++ [Output.clock_sync 2 false] :=
  C7_lock_of_held_mutex_enqueues demo_cfg 9 0 2 demo_state_locked (by decide) (by decide)
    (by decide)

/-- An event sent to a core of the unit: the bits are latched in that core, and
the rest is a re-check cascade. -/
theorem send_event_frame_fifo (cfg : Config) (core mask : Nat) (s : State)
    (hcore : core < cfg.nb_core) :
    ∃ s', Event_unit.send_event cfg core mask s = some s' ∧
      Frame cfg.fifo_mask
        (s.set_core core ((s.core_eu core).set_status ((s.core_eu core).status ||| mask))) s' :=
  check_state_frame cfg core _ hcore

/-- An unlock write when a core waits: the value is stored, the head of the
queue is removed, the value is copied into its request and the mutex event is
sent to it. -/
theorem mutex_write_transfer_eq (cfg : Config) (req offset core : Nat) (s : State) (w : Nat)
    (rest : List Nat) (hid : cfg.archi.EU_MUTEX_AREA_MUTEXID_GET offset < cfg.nb_mutexes)
    (hq : (s.mutexes (cfg.archi.EU_MUTEX_AREA_MUTEXID_GET offset)).waiting_list = w :: rest) :
    Mutex_unit.req cfg req offset true core s =
      (Event_unit.send_event cfg w (shl1 cfg.mutex_event)
        ((s.set_mutex (cfg.archi.EU_MUTEX_AREA_MUTEXID_GET offset)
          { s.mutexes (cfg.archi.EU_MUTEX_AREA_MUTEXID_GET offset) with
            value := s.req_data req, waiting_list := rest }).set_req_data
          ((s.mutexes (cfg.archi.EU_MUTEX_AREA_MUTEXID_GET offset)).waiting_reqs w)
          (s.req_data req))).bind fun s3 => some (IO_REQ_OK, s3) := by
  unfold Mutex_unit.req
  simp only [ge_iff_le, Nat.not_le.2 hid, if_false, Bool.true_eq_false, hq]

/-- An unlock write when nobody waits: the value is stored and the mutex is
released. -/
theorem mutex_write_release_eq (cfg : Config) (req offset core : Nat) (s : State)
    (hid : cfg.archi.EU_MUTEX_AREA_MUTEXID_GET offset < cfg.nb_mutexes)
    (hq : (s.mutexes (cfg.archi.EU_MUTEX_AREA_MUTEXID_GET offset)).waiting_list = []) :
    Mutex_unit.req cfg req offset true core s =
      some (IO_REQ_OK, s.set_mutex (cfg.archi.EU_MUTEX_AREA_MUTEXID_GET offset)
        { s.mutexes (cfg.archi.EU_MUTEX_AREA_MUTEXID_GET offset) with
          value := s.req_data req, locked := false }) := by
  unfold Mutex_unit.req
  simp only [ge_iff_le, Nat.not_le.2 hid, if_false, Bool.true_eq_false, hq]

/-- C8: for every mutex with a valid id and every unlock write, whose payload
is the data word of the request, the value of the mutex becomes the payload and
the access returns `IO_REQ_OK`. First part: if the wait queue is `w :: rest`
(`w` a core of the unit), the queue becomes `rest`, the payload is copied into
the data word of the request stored for `w`, `locked` keeps its value (a held
mutex stays held), and the state is the one `send_event(w, 1 << mutex_event)`
produces from the state with these updates; the other mutexes are unchanged.
Second part: if the wait queue is empty, `locked` becomes false and no core
changes at all. -/
theorem C8_unlock_write (cfg : Config) (req offset core : Nat) (s : State)
    (hid : cfg.archi.EU_MUTEX_AREA_MUTEXID_GET offset < cfg.nb_mutexes) :
    (∀ (w : Nat) (rest : List Nat),
      (s.mutexes (cfg.archi.EU_MUTEX_AREA_MUTEXID_GET offset)).waiting_list = w :: rest →
      w < cfg.nb_core →
      ∃ s', Mutex_unit.req cfg req offset true core s = some (IO_REQ_OK, s') ∧
        (s'.mutexes (cfg.archi.EU_MUTEX_AREA_MUTEXID_GET offset)).value = s.req_data req ∧
        (s'.mutexes (cfg.archi.EU_MUTEX_AREA_MUTEXID_GET offset)).waiting_list = rest ∧
        s'.req_data ((s.mutexes (cfg.archi.EU_MUTEX_AREA_MUTEXID_GET offset)).waiting_reqs w) =
          s.req_data req ∧
        (s'.mutexes (cfg.archi.EU_MUTEX_AREA_MUTEXID_GET offset)).locked =
          (s.mutexes (cfg.archi.EU_MUTEX_AREA_MUTEXID_GET offset)).locked ∧
        (∀ j, j ≠ cfg.archi.EU_MUTEX_AREA_MUTEXID_GET offset → s'.mutexes j = s.mutexes j) ∧
        Event_unit.send_event cfg w (shl1 cfg.mutex_event)
          ((s.set_mutex (cfg.archi.EU_MUTEX_AREA_MUTEXID_GET offset)
            { s.mutexes (cfg.archi.EU_MUTEX_AREA_MUTEXID_GET offset) with
              value := s.req_data req, waiting_list := rest }).set_req_data
            ((s.mutexes (cfg.archi.EU_MUTEX_AREA_MUTEXID_GET offset)).waiting_reqs w)
            (s.req_data req)) = some s') ∧
    ((s.mutexes (cfg.archi.EU_MUTEX_AREA_MUTEXID_GET offset)).waiting_list = [] →
      ∃ s', Mutex_unit.req cfg req offset true core s = some (IO_REQ_OK, s') ∧
        (s'.mutexes (cfg.archi.EU_MUTEX_AREA_MUTEXID_GET offset)).value = s.req_data req ∧
        (s'.mutexes (cfg.archi.EU_MUTEX_AREA_MUTEXID_GET offset)).locked = false ∧
        (s'.mutexes (cfg.archi.EU_MUTEX_AREA_MUTEXID_GET offset)).waiting_list = [] ∧
        (∀ j, j ≠ cfg.archi.EU_MUTEX_AREA_MUTEXID_GET offset → s'.mutexes j = s.mutexes j) ∧
        s'.core_eu = s.core_eu ∧ s'.events = s.events ∧ s'.out = s.out ∧
        s'.req_data = s.req_data) := by
  refine ⟨?_, ?_⟩
  · intro w rest hq hw
    obtain ⟨s', h, f⟩ := send_event_frame_fifo cfg w (shl1 cfg.mutex_event)
      ((s.set_mutex (cfg.archi.EU_MUTEX_AREA_MUTEXID_GET offset)
        { s.mutexes (cfg.archi.EU_MUTEX_AREA_MUTEXID_GET offset) with
          value := s.req_data req, waiting_list := rest }).set_req_data
        ((s.mutexes (cfg.archi.EU_MUTEX_AREA_MUTEXID_GET offset)).waiting_reqs w)
        (s.req_data req)) hw
    refine ⟨s', ?_, ?_, ?_, ?_, ?_, ?_, h⟩
    · rw [mutex_write_transfer_eq cfg req offset core s w rest hid hq, h]; rfl
    · rw [f.mutexes]; simp [State.set_core, State.set_mutex, State.set_req_data]
    · rw [f.mutexes]; simp [State.set_core, State.set_mutex, State.set_req_data]
    · rw [f.req_data]; simp [State.set_core, State.set_mutex, State.set_req_data]
    · rw [f.mutexes]; simp [State.set_core, State.set_mutex, State.set_req_data]
    · intro j hj
      rw [f.mutexes]
      simp [State.set_core, State.set_mutex, State.set_req_data, Function.update_noteq hj]
  · intro hq
    refine ⟨_, mutex_write_release_eq cfg req offset core s hid hq, ?_, ?_, ?_, ?_, rfl, rfl,
      rfl, rfl⟩
    · simp [State.set_mutex]
    · simp [State.set_mutex]
    · simpa [State.set_mutex] using hq
    · intro j hj
      simp [State.set_mutex, Function.update_noteq hj]

/-- C8 at concrete inputs: in the demo unit, an unlock write of mutex 0 while
core 2 waits with request 9, and an unlock write of mutex 0 while nobody
waits. -/
theorem C8_unlock_write_witness :
    (∃ s', Mutex_unit.req demo_cfg 5 0 true 1 demo_state_contended = some (IO_REQ_OK, s') ∧
      (s'.mutexes 0).value = demo_state_contended.req_data 5 ∧
      (s'.mutexes 0).waiting_list = [] ∧
      s'.req_data 9 = demo_state_contended.req_data 5 ∧
      (s'.mutexes 0).locked = true) ∧
    (∃ s', Mutex_unit.req demo_cfg 5 0 true 1 demo_state_locked = some (IO_REQ_OK, s') ∧
      (s'.mutexes 0).value = demo_state_locked.req_data 5 ∧
      (s'.mutexes 0).locked = false ∧
      s'.core_eu = demo_state_locked.core_eu) := by
  obtain ⟨s', h1, h2, h3, h4, h5, _⟩ :=
    (C8_unlock_write demo_cfg 5 0 1 demo_state_contended (by decide)).1 2 [] (by decide)
      (by decide)
  obtain ⟨s'', g1, g2, g3, _, _, g6, _⟩ :=
    (C8_unlock_write demo_cfg 5 0 1 demo_state_locked (by decide)).2 (by decide)
  exact ⟨⟨s', h1, h2, h3, h4, h5⟩, ⟨s'', g1, g2, g3, g6⟩⟩

/-- An unlock write while core `c` heads the wait queue elects `c`: the payload
is copied into the request stored for `c`, the mutex event is sent to `c` and to
nobody else, and in the other cores only the FIFO event can be newly latched. -/
theorem unlock_write_elects (cfg : Config) (offset : Nat) (w : Nat × Nat × Nat) (sB : State)
    (c : Nat) (rest : List Nat)
    (hid : cfg.archi.EU_MUTEX_AREA_MUTEXID_GET offset < cfg.nb_mutexes)
    (hq : (sB.mutexes (cfg.archi.EU_MUTEX_AREA_MUTEXID_GET offset)).waiting_list = c :: rest)
    (hc : c < cfg.nb_core) :
    ∃ mid sC, Mutex_unit.unlock_write cfg offset w sB = some sC ∧
      mid.core_eu = sB.core_eu ∧ mid.events = sB.events ∧ mid.out = sB.out ∧
      mid.cycles = sB.cycles ∧
      Event_unit.send_event cfg c (shl1 cfg.mutex_event) mid = some sC ∧
      (sC.mutexes (cfg.archi.EU_MUTEX_AREA_MUTEXID_GET offset)).waiting_list = rest ∧
      (sC.mutexes (cfg.archi.EU_MUTEX_AREA_MUTEXID_GET offset)).waiting_reqs =
        (sB.mutexes (cfg.archi.EU_MUTEX_AREA_MUTEXID_GET offset)).waiting_reqs ∧
      (sC.mutexes (cfg.archi.EU_MUTEX_AREA_MUTEXID_GET offset)).locked =
        (sB.mutexes (cfg.archi.EU_MUTEX_AREA_MUTEXID_GET offset)).locked ∧
      (sC.mutexes (cfg.archi.EU_MUTEX_AREA_MUTEXID_GET offset)).value = w.2.2 ∧
      sC.req_data ((sB.mutexes (cfg.archi.EU_MUTEX_AREA_MUTEXID_GET offset)).waiting_reqs c) =
        w.2.2 ∧
      (∀ j, j ≠ c → ∀ b, (sC.core_eu j).status.testBit b = true →
        (sB.core_eu j).status.testBit b = true ∨ cfg.fifo_mask.testBit b = true) := by
  have hpay : (sB.set_req_data w.2.1 w.2.2).req_data w.2.1 = w.2.2 := by
    simp [State.set_req_data]
  have heq := mutex_write_transfer_eq cfg w.2.1 offset w.1 (sB.set_req_data w.2.1 w.2.2) c rest
    hid hq
  rw [hpay] at heq
  obtain ⟨sC, h, f⟩ := send_event_frame_fifo cfg c (shl1 cfg.mutex_event)
    (((sB.set_req_data w.2.1 w.2.2).set_mutex (cfg.archi.EU_MUTEX_AREA_MUTEXID_GET offset)
      { (sB.set_req_data w.2.1 w.2.2).mutexes (cfg.archi.EU_MUTEX_AREA_MUTEXID_GET offset) with
        value := w.2.2, waiting_list := rest }).set_req_data
      (((sB.set_req_data w.2.1 w.2.2).mutexes
        (cfg.archi.EU_MUTEX_AREA_MUTEXID_GET offset)).waiting_reqs c) w.2.2) hc
  refine ⟨_, sC, ?_, ?_, ?_, ?_, ?_, h, ?_, ?_, ?_, ?_, ?_, ?_⟩
  · unfold Mutex_unit.unlock_write
    rw [heq, h]; rfl
  · rfl
  · rfl
  · rfl
  · rfl
  · rw [f.mutexes]; simp [State.set_core, State.set_mutex, State.set_req_data]
  · rw [f.mutexes]; simp [State.set_core, State.set_mutex, State.set_req_data]
  · rw [f.mutexes]; simp [State.set_core, State.set_mutex, State.set_req_data]
  · rw [f.mutexes]; simp [State.set_core, State.set_mutex, State.set_req_data]
  · rw [f.req_data]; simp [State.set_core, State.set_mutex, State.set_req_data]
  · intro j hj b hb
    have := (f.core j).status b hb
    simpa [State.set_core, State.set_mutex, State.set_req_data, Function.update_noteq hj]
      using this

/-- Lock reads of a held mutex by distinct cores without masked events: the
cores are appended to the wait queue in the order of their reads, each with its
request, and fall asleep. -/
theorem lock_reads_spec (cfg : Config) (offset : Nat)
    (hid : cfg.archi.EU_MUTEX_AREA_MUTEXID_GET offset < cfg.nb_mutexes) :
    ∀ (rs : List (Nat × Nat)) (s : State),
    (s.mutexes (cfg.archi.EU_MUTEX_AREA_MUTEXID_GET offset)).locked = true →
    (rs.map Prod.fst).Nodup →
    (∀ cr ∈ rs, (s.core_eu cr.1).status &&& (s.core_eu cr.1).evt_mask = 0) →
    ∃ sA, Mutex_unit.lock_reads cfg offset rs s = some sA ∧
      (sA.mutexes (cfg.archi.EU_MUTEX_AREA_MUTEXID_GET offset)).waiting_list =
        (s.mutexes (cfg.archi.EU_MUTEX_AREA_MUTEXID_GET offset)).waiting_list ++
          rs.map Prod.fst ∧
      (sA.mutexes (cfg.archi.EU_MUTEX_AREA_MUTEXID_GET offset)).locked = true ∧
      (∀ cr ∈ rs,
        (sA.mutexes (cfg.archi.EU_MUTEX_AREA_MUTEXID_GET offset)).waiting_reqs cr.1 = cr.2) ∧
      (∀ c, c ∉ rs.map Prod.fst →
        (sA.mutexes (cfg.archi.EU_MUTEX_AREA_MUTEXID_GET offset)).waiting_reqs c =
          (s.mutexes (cfg.archi.EU_MUTEX_AREA_MUTEXID_GET offset)).waiting_reqs c ∧
        sA.core_eu c = s.core_eu c) ∧
      (∀ cr ∈ rs, (sA.core_eu cr.1).is_active = false ∧
        (sA.core_eu cr.1).pending_req = some cr.2) := by
  intro rs
  induction rs with
  | nil =>
    intro s hl _ _
    exact ⟨s, rfl, by simp, hl, by simp, by simp, by simp⟩
  | cons cr rs ih =>
    intro s hl hnd hm
    obtain ⟨s1, h1, hmx, hce, _⟩ := mutex_read_locked_sleep cfg cr.2 offset cr.1 s hid hl
      (hm cr (List.mem_cons_self _ _))
    rw [List.map_cons, List.nodup_cons] at hnd
    have hl1 : (s1.mutexes (cfg.archi.EU_MUTEX_AREA_MUTEXID_GET offset)).locked = true := by
      rw [hmx]; simpa using hl
    have hm1 : ∀ x ∈ rs, (s1.core_eu x.1).status &&& (s1.core_eu x.1).evt_mask = 0 := by
      intro x hx
      have hne : x.1 ≠ cr.1 := by
        intro h; exact hnd.1 (h ▸ List.mem_map_of_mem Prod.fst hx)
      rw [hce, Function.update_noteq hne]
      exact hm x (List.mem_cons_of_mem _ hx)
    obtain ⟨sA, hA, hwl, hlk, hwr, hother, hsl⟩ := ih s1 hl1 hnd.2 hm1
    have hcr := hother cr.1 hnd.1
    refine ⟨sA, ?_, ?_, hlk, ?_, ?_, ?_⟩
    · unfold Mutex_unit.lock_reads at hA ⊢
      simp only [List.foldlM_cons, Option.bind_eq_bind, h1, Option.map_some', Option.some_bind]
      exact hA
    · rw [hwl, hmx]; simp
    · intro x hx
      rcases List.mem_cons.1 hx with hx | hx
      · subst hx; rw [hcr.1, hmx]; simp
      · exact hwr x hx
    · intro c hc
      rw [List.map_cons, List.mem_cons, not_or] at hc
      obtain ⟨h1', h2'⟩ := hother c hc.2
      refine ⟨?_, ?_⟩
      · rw [h1', hmx]; simp [Function.update_noteq hc.1]
      · rw [h2', hce, Function.update_noteq hc.1]
    · intro x hx
      rcases List.mem_cons.1 hx with hx | hx
      · subst hx; rw [hcr.2, hce]; simp
      · exact hsl x hx

/-- Unlock writes while enough cores wait: each removes the head of the queue;
the stored requests and `locked` are not touched. -/
theorem unlock_writes_spec (cfg : Config) (offset : Nat)
    (hid : cfg.archi.EU_MUTEX_AREA_MUTEXID_GET offset < cfg.nb_mutexes) :
    ∀ (ws : List (Nat × Nat × Nat)) (q : List Nat) (sA : State),
    (sA.mutexes (cfg.archi.EU_MUTEX_AREA_MUTEXID_GET offset)).waiting_list = q →
    ws.length ≤ q.length → (∀ c ∈ q, c < cfg.nb_core) →
    ∃ sB, Mutex_unit.unlock_writes cfg offset ws sA = some sB ∧
      (sB.mutexes (cfg.archi.EU_MUTEX_AREA_MUTEXID_GET offset)).waiting_list =
        q.drop ws.length ∧
      (sB.mutexes (cfg.archi.EU_MUTEX_AREA_MUTEXID_GET offset)).waiting_reqs =
        (sA.mutexes (cfg.archi.EU_MUTEX_AREA_MUTEXID_GET offset)).waiting_reqs ∧
      (sB.mutexes (cfg.archi.EU_MUTEX_AREA_MUTEXID_GET offset)).locked =
        (sA.mutexes (cfg.archi.EU_MUTEX_AREA_MUTEXID_GET offset)).locked := by
  intro ws
  induction ws with
  | nil => intro q sA hq _ _; exact ⟨sA, rfl, by simpa using hq, rfl, rfl⟩
  | cons w ws ih =>
    intro q sA hq hlen hcores
    cases q with
    | nil => simp at hlen
    | cons c rest =>
      obtain ⟨_, sC, hC, _, _, _, _, _, hwl, hwr, hlk, _⟩ :=
        unlock_write_elects cfg offset w sA c rest hid hq (hcores c (List.mem_cons_self _ _))
      obtain ⟨sB, hB, hwl', hwr', hlk'⟩ := ih rest sC hwl
        (by simpa using hlen) (fun x hx => hcores x (List.mem_cons_of_mem _ hx))
      refine ⟨sB, ?_, by simpa using hwl', hwr'.trans hwr, hlk'.trans hlk⟩
      unfold Mutex_unit.unlock_writes at hB ⊢
      simp only [List.foldlM_cons, Option.bind_eq_bind, hC, Option.some_bind]
      exact hB

/-- C6: mutex FIFO fairness. Take a mutex that is held, with an empty wait
queue, and distinct cores of the unit, none with a masked event latched, that
read the mutex one after the other, the `k`-th with request `r`. The queue is
then the list of these cores in the order of their reads. When unlock writes
follow, the `k`-th unlock, with payload `v`, finds the `k`-th core at the head
of the queue and elects exactly that core: the payload `v` is written into the
data word of its stored request `r`, the mutex event is sent to it by
`send_event`, the queue loses its head, the mutex stays held, and the mutex
event bit is raised in the status of no other core (the FIFO event being a
different event). -/
theorem C6_mutex_fifo_fairness (cfg : Config) (offset : Nat) (s : State)
    (rs : List (Nat × Nat)) (ws : List (Nat × Nat × Nat))
    (hid : cfg.archi.EU_MUTEX_AREA_MUTEXID_GET offset < cfg.nb_mutexes)
    (hlocked : (s.mutexes (cfg.archi.EU_MUTEX_AREA_MUTEXID_GET offset)).locked = true)
    (hempty : (s.mutexes (cfg.archi.EU_MUTEX_AREA_MUTEXID_GET offset)).waiting_list = [])
    (hnd : (rs.map Prod.fst).Nodup)
    (hcores : ∀ cr ∈ rs, cr.1 < cfg.nb_core ∧
      (s.core_eu cr.1).status &&& (s.core_eu cr.1).evt_mask = 0)
    (hfifo : cfg.fifo_mask.testBit cfg.mutex_event = false) :
    ∃ sA, Mutex_unit.lock_reads cfg offset rs s = some sA ∧
      (sA.mutexes (cfg.archi.EU_MUTEX_AREA_MUTEXID_GET offset)).waiting_list =
        rs.map Prod.fst ∧
      ∀ (k c r : Nat) (w : Nat × Nat × Nat), rs[k]? = some (c, r) → ws[k]? = some w →
        ∃ sB mid sC, Mutex_unit.unlock_writes cfg offset (ws.take k) sA = some sB ∧
          (sB.mutexes (cfg.archi.EU_MUTEX_AREA_MUTEXID_GET offset)).waiting_list =
            c :: (rs.drop (k + 1)).map Prod.fst ∧
          Mutex_unit.unlock_write cfg offset w sB = some sC ∧
          mid.core_eu = sB.core_eu ∧
          Event_unit.send_event cfg c (shl1 cfg.mutex_event) mid = some sC ∧
          sC.req_data r = w.2.2 ∧
          (sC.mutexes (cfg.archi.EU_MUTEX_AREA_MUTEXID_GET offset)).waiting_list =
            (rs.drop (k + 1)).map Prod.fst ∧
          (sC.mutexes (cfg.archi.EU_MUTEX_AREA_MUTEXID_GET offset)).locked = true ∧
          (∀ j, j ≠ c → (sC.core_eu j).status.testBit cfg.mutex_event = true →
            (sB.core_eu j).status.testBit cfg.mutex_event = true) := by
  obtain ⟨sA, hA, hwl, hlk, hwr, _, _⟩ := lock_reads_spec cfg offset hid rs s hlocked hnd
    (fun cr hcr => (hcores cr hcr).2)
  rw [hempty, List.nil_append] at hwl
  refine ⟨sA, hA, hwl, ?_⟩
  intro k c r w hrs hws
  obtain ⟨hk, hrk⟩ := List.getElem?_eq_some.1 hrs
  obtain ⟨hk', _⟩ := List.getElem?_eq_some.1 hws
  have hmem : (c, r) ∈ rs := List.getElem?_mem hrs
  have hcore : ∀ x ∈ rs.map Prod.fst, x < cfg.nb_core := by
    intro x hx
    obtain ⟨cr, hcr, rfl⟩ := List.mem_map.1 hx
    exact (hcores cr hcr).1
  have htake : (ws.take k).length = k := by
    rw [List.length_take]; exact Nat.min_eq_left (Nat.le_of_lt hk')
  obtain ⟨sB, hB, hwlB, hwrB, hlkB⟩ := unlock_writes_spec cfg offset hid (ws.take k)
    (rs.map Prod.fst) sA hwl (by rw [htake, List.length_map]; exact Nat.le_of_lt hk) hcore
  have hdrop : (rs.map Prod.fst).drop k = c :: (rs.drop (k + 1)).map Prod.fst := by
    rw [← List.map_drop, List.drop_eq_getElem_cons hk, List.map_cons, hrk]
  rw [htake, hdrop] at hwlB
  obtain ⟨mid, sC, hC, hmc, _, _, _, hsend, hwlC, _, hlkC, _, hdata, hbits⟩ :=
    unlock_write_elects cfg offset w sB c ((rs.drop (k + 1)).map Prod.fst) hid hwlB
      (hcores (c, r) hmem).1
  refine ⟨sB, mid, sC, hB, hwlB, hC, hmc, hsend, ?_, hwlC, ?_, ?_⟩
  · rw [hwrB, hwr (c, r) hmem] at hdata
    exact hdata
  · rw [hlkC, hlkB]; exact hlk
  · intro j hj hb
    rcases hbits j hj _ hb with h | h
    · exact h
    · rw [hfifo] at h; exact absurd h (by decide)

/-- C6 at a concrete input: mutex 0 of the demo unit is held; cores 2 and 3 read
it with requests 9 and 10; two unlock writes follow with payloads 100 and
200. -/
theorem C6_mutex_fifo_fairness_witness :
    ∃ sA, Mutex_unit.lock_reads demo_cfg 0 [(2, 9), (3, 10)] demo_state_locked = some sA ∧
      (sA.mutexes (demo_cfg.archi.EU_MUTEX_AREA_MUTEXID_GET 0)).waiting_list =
        [(2, 9), (3, 10)].map Prod.fst ∧
      ∀ (k c r : Nat) (w : Nat × Nat × Nat), [(2, 9), (3, 10)][k]? = some (c, r) →
        [(0, 5, 100), (2, 6, 200)][k]? = some w →
        ∃ sB mid sC,
          Mutex_unit.unlock_writes demo_cfg 0 ([(0, 5, 100), (2, 6, 200)].take k) sA = some sB ∧
          (sB.mutexes (demo_cfg.archi.EU_MUTEX_AREA_MUTEXID_GET 0)).waiting_list =
            c :: ([(2, 9), (3, 10)].drop (k + 1)).map Prod.fst ∧
          Mutex_unit.unlock_write demo_cfg 0 w sB = some sC ∧
          mid.core_eu = sB.core_eu ∧
          Event_unit.send_event demo_cfg c (shl1 demo_cfg.mutex_event) mid = some sC ∧
          sC.req_data r = w.2.2 ∧
          (sC.mutexes (demo_cfg.archi.EU_MUTEX_AREA_MUTEXID_GET 0)).waiting_list =
            ([(2, 9), (3, 10)].drop (k + 1)).map Prod.fst ∧
          (sC.mutexes (demo_cfg.archi.EU_MUTEX_AREA_MUTEXID_GET 0)).locked = true ∧
          (∀ j, j ≠ c → (sC.core_eu j).status.testBit demo_cfg.mutex_event = true →
            (sB.core_eu j).status.testBit demo_cfg.mutex_event = true) :=
  C6_mutex_fifo_fairness demo_cfg 0 demo_state_locked [(2, 9), (3, 10)]
    [(0, 5, 100), (2, 6, 200)] (by decide) (by decide) (by decide) (by decide) (by decide)
    (by decide)

/-! ## Barrier unit -/

theorem foldlM_if_eq_filter {α β : Type} (f : β → α → Option β) (p : α → Prop)
    [DecidablePred p] (l : List α) :
    ∀ b, l.foldlM (fun st i => if p i then f st i else some st) b =
      (l.filter (fun i => decide (p i))).foldlM f b := by
  induction l with
  | nil => intro b; rfl
  | cons a l ih =>
    intro b
    by_cases h : p a
    · simp only [List.foldlM_cons, if_pos h, List.filter_cons, decide_eq_true h, if_true]
      congr 1
      funext x
      exact ih x
    · simp only [List.foldlM_cons, if_neg h, List.filter_cons, decide_eq_false h,
        Bool.false_eq_true, if_false]
      exact ih b

/-- The function `trigger_event` sends the event once to each core of the unit
whose bit is set in the mask, in increasing order of the cores. -/
theorem trigger_event_eq_send_events (cfg : Config) (m : Nat) (core_mask : List Nat)
    (s : State) :
    Event_unit.trigger_event cfg m core_mask s =
      send_events cfg ((cfg.cores_in core_mask).map fun i => (i, m)) s := by
  unfold Event_unit.trigger_event trigger_event_with send_events Config.cores_in
  rw [foldlM_if_eq_filter (fun st i => send_event_with (Core_event_unit.check_state cfg) i m st)
    (fun i => core_mask.getD (i / 32) 0 &&& shl1 (i % 32) ≠ 0)]
  generalize (List.range cfg.nb_core).filter _ = l
  induction l generalizing s with
  | nil => rfl
  | cons a l ih =>
    simp only [List.map_cons, List.foldlM_cons]
    congr 1
    funext x
    exact ih x

theorem cores_in_spec (cfg : Config) (core_mask : List Nat) :
    (cfg.cores_in core_mask).Nodup ∧
    ∀ i, i ∈ cfg.cores_in core_mask ↔
      i < cfg.nb_core ∧ core_mask.getD (i / 32) 0 &&& shl1 (i % 32) ≠ 0 := by
  refine ⟨(List.nodup_range cfg.nb_core).filter _, ?_⟩
  intro i
  simp [Config.cores_in, List.mem_filter, List.mem_range]

/-- Every access that `Barrier_unit::req` accepts for a valid barrier either
changes no barrier and no core (a read, or a write it rejects), or runs
`check_barrier` on the state it has mutated, and then returns or enters
`wait_event`. -/
theorem barrier_req_checks (cfg : Config) (req offset0 : Nat) (is_write : Bool) (core : Int)
    (s : State) (r : io_req_status_e × State)
    (h : Barrier_unit.req cfg req offset0 is_write core s = some r) :
    (r.2.barriers = s.barriers ∧ r.2.core_eu = s.core_eu ∧ r.2.events = s.events ∧
      r.2.out = s.out) ∨
    ∃ s_mut s2,
      (∀ j, j ≠ cfg.archi.EU_BARRIER_AREA_BARRIERID_GET offset0 →
        s_mut.barriers j = s.barriers j) ∧
      Barrier_unit.check_barrier cfg (cfg.archi.EU_BARRIER_AREA_BARRIERID_GET offset0) s_mut =
        some s2 ∧
      (r = (IO_REQ_OK, s2) ∨
        Core_event_unit.wait_event cfg core.toNat req CORE_STATE_WAITING_BARRIER s2 = some r) := by
  unfold Barrier_unit.req at h
  dsimp only at h
  have key : ∀ (s_mut : State),
      (∀ j, j ≠ cfg.archi.EU_BARRIER_AREA_BARRIERID_GET offset0 →
        s_mut.barriers j = s.barriers j) →
      ((Barrier_unit.check_barrier cfg (cfg.archi.EU_BARRIER_AREA_BARRIERID_GET offset0)
          s_mut).bind fun s1 => some (IO_REQ_OK, s1)) = some r →
      ∃ s_mut s2,
        (∀ j, j ≠ cfg.archi.EU_BARRIER_AREA_BARRIERID_GET offset0 →
          s_mut.barriers j = s.barriers j) ∧
        Barrier_unit.check_barrier cfg (cfg.archi.EU_BARRIER_AREA_BARRIERID_GET offset0) s_mut =
          some s2 ∧
        (r = (IO_REQ_OK, s2) ∨
          Core_event_unit.wait_event cfg core.toNat req CORE_STATE_WAITING_BARRIER s2 =
            some r) := by
    intro s_mut hm hb
    rw [Option.bind_eq_some] at hb
    obtain ⟨s2, h2, hr⟩ := hb
    exact ⟨s_mut, s2, hm, h2, Or.inl (Option.some.inj hr).symm⟩
  have key2 : ∀ (s_mut : State),
      (∀ j, j ≠ cfg.archi.EU_BARRIER_AREA_BARRIERID_GET offset0 →
        s_mut.barriers j = s.barriers j) →
      ((Barrier_unit.check_barrier cfg (cfg.archi.EU_BARRIER_AREA_BARRIERID_GET offset0)
          s_mut).bind fun s2 =>
        Core_event_unit.wait_event cfg core.toNat req CORE_STATE_WAITING_BARRIER s2) = some r →
      ∃ s_mut s2,
        (∀ j, j ≠ cfg.archi.EU_BARRIER_AREA_BARRIERID_GET offset0 →
          s_mut.barriers j = s.barriers j) ∧
        Barrier_unit.check_barrier cfg (cfg.archi.EU_BARRIER_AREA_BARRIERID_GET offset0) s_mut =
          some s2 ∧
        (r = (IO_REQ_OK, s2) ∨
          Core_event_unit.wait_event cfg core.toNat req CORE_STATE_WAITING_BARRIER s2 =
            some r) := by
    intro s_mut hm hb
    rw [Option.bind_eq_some] at hb
    obtain ⟨s2, h2, hr⟩ := hb
    exact ⟨s_mut, s2, hm, h2, Or.inr hr⟩
  have upd : ∀ (b : Barrier) (j : Nat), j ≠ cfg.archi.EU_BARRIER_AREA_BARRIERID_GET offset0 →
      (s.set_barrier (cfg.archi.EU_BARRIER_AREA_BARRIERID_GET offset0) b).barriers j =
        s.barriers j := by
    intro b j hj
    simp [State.set_barrier, Function.update_noteq hj]
  have quiet : ∀ (st : io_req_status_e) (v : Nat), some (st, s.set_req_data req v) = some r →
      r.2.barriers = s.barriers ∧ r.2.core_eu = s.core_eu ∧ r.2.events = s.events ∧
        r.2.out = s.out := by
    intro st v hr
    cases hr
    exact ⟨rfl, rfl, rfl, rfl⟩
  have quiet0 : ∀ (st : io_req_status_e), some (st, s) = some r →
      r.2.barriers = s.barriers ∧ r.2.core_eu = s.core_eu ∧ r.2.events = s.events ∧
        r.2.out = s.out := by
    intro st hr
    cases hr
    exact ⟨rfl, rfl, rfl, rfl⟩
  have updif : ∀ (P : Prop) [Decidable P] (b : Barrier) (j : Nat),
      j ≠ cfg.archi.EU_BARRIER_AREA_BARRIERID_GET offset0 →
      (if P then s
        else s.set_barrier (cfg.archi.EU_BARRIER_AREA_BARRIERID_GET offset0) b).barriers j =
        s.barriers j := by
    intro P _ b j hj
    split
    · rfl
    · exact upd b j hj
  have updifc : ∀ (P : Prop) [Decidable P] (b : Barrier) (c : Nat) (x : Core_event_unit)
      (j : Nat), j ≠ cfg.archi.EU_BARRIER_AREA_BARRIERID_GET offset0 →
      ((if P then s
        else s.set_barrier (cfg.archi.EU_BARRIER_AREA_BARRIERID_GET offset0) b).set_core c
          x).barriers j = s.barriers j := by
    intro P _ b c x j hj
    exact updif P b j hj
  generalize u64_sub offset0 (cfg.archi.EU_BARRIER_AREA_OFFSET_GET
    (cfg.archi.EU_BARRIER_AREA_BARRIERID_GET offset0)) = off at h
  generalize (off % cfg.archi.EU_MASK_REG_SIZE) >>> 2 = io at h
  by_cases h0 : cfg.archi.EU_BARRIER_AREA_BARRIERID_GET offset0 ≥ cfg.nb_barriers
  · rw [if_pos h0] at h; exact Or.inl (quiet0 _ h)
  rw [if_neg h0] at h
  by_cases hw : is_write = false
  · subst hw
    simp only [if_true, Bool.false_eq_true, if_false] at h
    by_cases h1 : cfg.archi.EU_HW_BARR_TRIGGER_MASK ≤ off ∧
        off < cfg.archi.EU_HW_BARR_TRIGGER_MASK + cfg.archi.EU_MASK_REG_SIZE
    · rw [if_pos h1] at h; exact Or.inl (quiet _ _ h)
    rw [if_neg h1] at h
    by_cases h2 : cfg.archi.EU_HW_BARR_STATUS ≤ off ∧
        off < cfg.archi.EU_HW_BARR_STATUS + cfg.archi.EU_MASK_REG_SIZE
    · rw [if_pos h2] at h; exact Or.inl (quiet _ _ h)
    rw [if_neg h2] at h
    by_cases h3 : cfg.archi.EU_HW_BARR_STATUS_SUMMARY ≤ off ∧
        off < cfg.archi.EU_HW_BARR_STATUS_SUMMARY + cfg.archi.EU_MASK_REG_SIZE
    · rw [if_pos h3] at h; exact Or.inl (quiet _ _ h)
    rw [if_neg h3] at h
    by_cases h4 : cfg.archi.EU_HW_BARR_TARGET_MASK ≤ off ∧
        off < cfg.archi.EU_HW_BARR_TARGET_MASK + cfg.archi.EU_MASK_REG_SIZE
    · rw [if_pos h4] at h; exact Or.inl (quiet _ _ h)
    rw [if_neg h4] at h
    by_cases h5 : cfg.archi.EU_HW_BARR_TRIGGER ≤ off ∧
        off < cfg.archi.EU_HW_BARR_TRIGGER + cfg.archi.EU_MASK_REG_SIZE
    · rw [if_pos h5] at h; exact Or.inl (quiet0 _ h)
    rw [if_neg h5] at h
    by_cases h6 : off = cfg.archi.EU_HW_BARR_TRIGGER_SELF
    · rw [if_pos h6] at h
      by_cases hc : core = -1
      · rw [if_pos hc] at h; exact Or.inl (quiet0 _ h)
      · rw [if_neg hc] at h; exact Or.inr (key _ (upd _) h)
    rw [if_neg h6] at h
    by_cases h7 : off = cfg.archi.EU_HW_BARR_TRIGGER_WAIT
    · rw [if_pos h7] at h
      by_cases hc : core = -1
      · rw [if_pos hc] at h; exact Or.inl (quiet0 _ h)
      · rw [if_neg hc] at h; exact Or.inr (key2 _ (updif _ _) h)
    rw [if_neg h7] at h
    by_cases h8 : off = cfg.archi.EU_HW_BARR_TRIGGER_WAIT_CLEAR
    · rw [if_pos h8] at h
      by_cases hc : core = -1
      · rw [if_pos hc] at h; exact Or.inl (quiet0 _ h)
      · rw [if_neg hc] at h
        exact Or.inr (key2 _ (updifc _ _ _ _) h)
    rw [if_neg h8] at h
    exact Or.inl (quiet0 _ h)
  · have hw' : is_write = true := by simpa using hw
    subst hw'
    simp only [if_true, Bool.true_eq_false, if_false] at h
    by_cases h1 : cfg.archi.EU_HW_BARR_TRIGGER_MASK ≤ off ∧
        off < cfg.archi.EU_HW_BARR_TRIGGER_MASK + cfg.archi.EU_MASK_REG_SIZE
    · rw [if_pos h1] at h; exact Or.inr (key _ (upd _) h)
    rw [if_neg h1] at h
    by_cases h2 : cfg.archi.EU_HW_BARR_STATUS ≤ off ∧
        off < cfg.archi.EU_HW_BARR_STATUS + cfg.archi.EU_MASK_REG_SIZE
    · rw [if_pos h2] at h; exact Or.inr (key _ (upd _) h)
    rw [if_neg h2] at h
    by_cases h3 : cfg.archi.EU_HW_BARR_STATUS_SUMMARY ≤ off ∧
        off < cfg.archi.EU_HW_BARR_STATUS_SUMMARY + cfg.archi.EU_MASK_REG_SIZE
    · rw [if_pos h3] at h; exact Or.inl (quiet0 _ h)
    rw [if_neg h3] at h
    by_cases h4 : cfg.archi.EU_HW_BARR_TARGET_MASK ≤ off ∧
        off < cfg.archi.EU_HW_BARR_TARGET_MASK + cfg.archi.EU_MASK_REG_SIZE
    · rw [if_pos h4] at h; exact Or.inr (key _ (upd _) h)
    rw [if_neg h4] at h
    by_cases h5 : cfg.archi.EU_HW_BARR_TRIGGER ≤ off ∧
        off < cfg.archi.EU_HW_BARR_TRIGGER + cfg.archi.EU_MASK_REG_SIZE
    · rw [if_pos h5] at h; exact Or.inr (key _ (upd _) h)
    rw [if_neg h5] at h
    by_cases h6 : off = cfg.archi.EU_HW_BARR_TRIGGER_SELF
    · rw [if_pos h6] at h
      by_cases hc : core = -1
      · rw [if_pos hc] at h; exact Or.inl (quiet0 _ h)
      · rw [if_neg hc] at h; exact Or.inr (key _ (upd _) h)
    rw [if_neg h6] at h
    by_cases h7 : off = cfg.archi.EU_HW_BARR_TRIGGER_WAIT
    · rw [if_pos h7] at h
      by_cases hc : core = -1
      · rw [if_pos hc] at h; exact Or.inl (quiet0 _ h)
      · rw [if_neg hc] at h; exact Or.inr (key2 _ (updif _ _) h)
    rw [if_neg h7] at h
    by_cases h8 : off = cfg.archi.EU_HW_BARR_TRIGGER_WAIT_CLEAR
    · rw [if_pos h8] at h
      by_cases hc : core = -1
      · rw [if_pos hc] at h; exact Or.inl (quiet0 _ h)
      · rw [if_neg hc] at h
        exact Or.inr (key2 _ (updifc _ _ _ _) h)
    rw [if_neg h8] at h
    exact Or.inl (quiet0 _ h)

/-- C10: the barrier check. First part: when the arrived status of a barrier
equals its participant mask word for word, `check_barrier` returns; the arrived
status is then all-zero, the two masks are unchanged, and the state is the one
produced by sending the barrier event `1 << barrier_event` by `send_event`
once to each core of the list `cores_in target_mask`, taken from the state
with the status zeroed. That list has no repetition and holds exactly the cores
`i < nb_core` whose bit `i` is set in the target mask; the participant mask
plays no part in it. Second part: when the two vectors differ, `check_barrier`
leaves the whole state as it is, so the status is kept and no event is sent.
Third part: every access to `Barrier_unit::req` that changes a barrier or a
core (a write of the participant mask, of the status or of the target mask, a
trigger, a trigger-self, a trigger-and-wait) runs `check_barrier` on the
mutated state before it returns or waits. -/
theorem C10_barrier_check (cfg : Config) (barrier_id : Nat) (s : State) :
    ((s.barriers barrier_id).status = (s.barriers barrier_id).core_mask →
      ∃ s', Barrier_unit.check_barrier cfg barrier_id s = some s' ∧
        (s'.barriers barrier_id).status =
          List.replicate (s.barriers barrier_id).status.length 0 ∧
        (s'.barriers barrier_id).core_mask = (s.barriers barrier_id).core_mask ∧
        (s'.barriers barrier_id).target_mask = (s.barriers barrier_id).target_mask ∧
        send_events cfg
          ((cfg.cores_in (s.barriers barrier_id).target_mask).map
            fun i => (i, shl1 cfg.barrier_event))
          (s.set_barrier barrier_id
            { s.barriers barrier_id with
              status := List.replicate (s.barriers barrier_id).status.length 0 }) = some s' ∧
        (cfg.cores_in (s.barriers barrier_id).target_mask).Nodup ∧
        ∀ i, i ∈ cfg.cores_in (s.barriers barrier_id).target_mask ↔
          i < cfg.nb_core ∧
            (s.barriers barrier_id).target_mask.getD (i / 32) 0 &&& shl1 (i % 32) ≠ 0) ∧
    ((s.barriers barrier_id).status ≠ (s.barriers barrier_id).core_mask →
      Barrier_unit.check_barrier cfg barrier_id s = some s) ∧
    (∀ (req offset0 : Nat) (is_write : Bool) (core : Int) (r : io_req_status_e × State),
      Barrier_unit.req cfg req offset0 is_write core s = some r →
      (r.2.barriers = s.barriers ∧ r.2.core_eu = s.core_eu ∧ r.2.events = s.events ∧
        r.2.out = s.out) ∨
      ∃ s_mut s2,
        (∀ j, j ≠ cfg.archi.EU_BARRIER_AREA_BARRIERID_GET offset0 →
          s_mut.barriers j = s.barriers j) ∧
        Barrier_unit.check_barrier cfg (cfg.archi.EU_BARRIER_AREA_BARRIERID_GET offset0) s_mut =
          some s2 ∧
        (r = (IO_REQ_OK, s2) ∨
          Core_event_unit.wait_event cfg core.toNat req CORE_STATE_WAITING_BARRIER s2 =
            some r)) := by
  refine ⟨?_, ?_, ?_⟩
  · intro heq
    obtain ⟨s', h, f⟩ := trigger_event_frame cfg (shl1 cfg.barrier_event)
      (s.barriers barrier_id).target_mask
      (s.set_barrier barrier_id
        { s.barriers barrier_id with
          status := List.replicate (s.barriers barrier_id).status.length 0 })
    have hcb : Barrier_unit.check_barrier cfg barrier_id s = some s' := by
      unfold Barrier_unit.check_barrier
      dsimp only
      rw [if_pos heq]
      exact h
    refine ⟨s', hcb, ?_, ?_, ?_, ?_, (cores_in_spec cfg _).1, (cores_in_spec cfg _).2⟩
    · rw [f.barriers]; simp [State.set_barrier]
    · rw [f.barriers]; simp [State.set_barrier]
    · rw [f.barriers]; simp [State.set_barrier]
    · rw [← trigger_event_eq_send_events]; exact h
  · intro hne
    unfold Barrier_unit.check_barrier
    dsimp only
    rw [if_neg hne]
  · intro req offset0 is_write core r h
    exact barrier_req_checks cfg req offset0 is_write core s r h

theorem demo_trigger_self_returns :
    (Barrier_unit.req demo_cfg 3 0xa0 false 1 demo_state_barrier_half).isSome = true := by
  decide

/-- C10 at concrete inputs: barrier 0 of the demo unit with participants 0 and 1
and targets 0 and 2; with both participants arrived; with only participant 0
arrived; and the trigger-self access of core 1 that completes the barrier. -/
theorem C10_barrier_check_witness :
    (∃ s', Barrier_unit.check_barrier demo_cfg 0 demo_state_barrier_full = some s' ∧
      (s'.barriers 0).status = [0, 0, 0, 0, 0, 0, 0, 0] ∧
      send_events demo_cfg [(0, 1), (2, 1)]
        (demo_state_barrier_full.set_barrier 0
          { demo_state_barrier_full.barriers 0 with
            status := List.replicate (demo_state_barrier_full.barriers 0).status.length 0 }) =
        some s') ∧
    Barrier_unit.check_barrier demo_cfg 0 demo_state_barrier_half =
      some demo_state_barrier_half ∧
    (∃ r, Barrier_unit.req demo_cfg 3 0xa0 false 1 demo_state_barrier_half = some r ∧
      ((r.2.barriers = demo_state_barrier_half.barriers ∧
          r.2.core_eu = demo_state_barrier_half.core_eu ∧
          r.2.events = demo_state_barrier_half.events ∧
          r.2.out = demo_state_barrier_half.out) ∨
        ∃ s_mut s2,
          (∀ j, j ≠ demo_cfg.archi.EU_BARRIER_AREA_BARRIERID_GET 0xa0 →
            s_mut.barriers j = demo_state_barrier_half.barriers j) ∧
          Barrier_unit.check_barrier demo_cfg (demo_cfg.archi.EU_BARRIER_AREA_BARRIERID_GET 0xa0)
            s_mut = some s2 ∧
          (r = (IO_REQ_OK, s2) ∨
            Core_event_unit.wait_event demo_cfg (1 : Int).toNat 3 CORE_STATE_WAITING_BARRIER s2 =
              some r))) := by
  obtain ⟨s', h1, h2, _, _, h5, _⟩ :=
    (C10_barrier_check demo_cfg 0 demo_state_barrier_full).1 (by decide)
  refine ⟨⟨s', h1, h2, h5⟩,
    (C10_barrier_check demo_cfg 0 demo_state_barrier_half).2.1 (by decide),
    ⟨(Barrier_unit.req demo_cfg 3 0xa0 false 1 demo_state_barrier_half).get
        demo_trigger_self_returns, (Option.some_get _).symm, ?_⟩⟩
  exact (C10_barrier_check demo_cfg 0 demo_state_barrier_half).2.2 3 0xa0 false 1 _
    (Option.some_get _).symm

/-! ## FIFO overflow -/

/-- C14: for every external event received while the FIFO is full
(`nb_free_events == 0`), `Soc_event_unit::sync` returns the state it was given:
free count, head, tail and buffer are unchanged, no event is raised, no core
changes. -/
theorem C14_fifo_overflow_drops (cfg : Config) (event : Int) (s : State)
    (hfull : s.soc_event_unit.nb_free_events = 0) :
    Soc_event_unit.sync cfg event s = some s := by
  unfold Soc_event_unit.sync
  dsimp only
  rw [if_pos hfull]

/-- C14 at a concrete input: event 13 arrives at the full FIFO of the demo
unit. -/
theorem C14_fifo_overflow_drops_witness :
    Soc_event_unit.sync demo_cfg 13 demo_state_fifo_full = some demo_state_fifo_full :=
  C14_fifo_overflow_drops demo_cfg 13 demo_state_fifo_full (by decide)

/-! ## IRQ priority -/

theorem clz_scan_spec : ∀ (n x : Nat), x ≠ 0 → x < 2 ^ n →
    ∃ k, k < n ∧ clz_scan n x = n - 1 - k ∧ x.testBit k = true ∧
      ∀ j, k < j → x.testBit j = false := by
  intro n
  induction n with
  | zero => intro x hx h; simp at h; exact absurd h hx
  | succ n ih =>
    intro x hx h
    by_cases hb : x.testBit n = true
    · refine ⟨n, Nat.lt_succ_self n, ?_, hb, ?_⟩
      · show (if x.testBit n = true then 0 else clz_scan n x + 1) = _
        rw [if_pos hb]; omega
      · intro j hj
        exact Nat.testBit_lt_two_pow (lt_of_lt_of_le h (Nat.pow_le_pow_right (by decide) hj))
    · have hb' : x.testBit n = false := by simpa using hb
      have hlt : x < 2 ^ n := by
        apply Nat.lt_pow_two_of_testBit
        intro i hi
        rcases Nat.eq_or_lt_of_le hi with h' | h'
        · rw [← h']; exact hb'
        · exact Nat.testBit_lt_two_pow (lt_of_lt_of_le h (Nat.pow_le_pow_right (by decide) h'))
      obtain ⟨k, hk, hc, ht, hj⟩ := ih x hx hlt
      refine ⟨k, Nat.lt_succ_of_lt hk, ?_, ht, hj⟩
      show (if x.testBit n = true then 0 else clz_scan n x + 1) = _
      rw [if_neg hb, hc]
      omega

/-- The index computed by `check_state` for a non-zero 32-bit word is the index
of its most significant set bit. -/
theorem pending_irq_spec (c : Core_event_unit) (hne : c.status &&& c.irq_mask ≠ 0)
    (hword : c.status &&& c.irq_mask < 2 ^ 32) :
    ∃ k : Nat, c.pending_irq = (k : Int) ∧ (c.status &&& c.irq_mask).testBit k = true ∧
      ∀ j, k < j → (c.status &&& c.irq_mask).testBit j = false := by
  unfold Core_event_unit.pending_irq builtin_clz
  rw [if_pos hne, Nat.mod_eq_of_lt hword]
  obtain ⟨k, hk, hc, ht, hj⟩ := clz_scan_spec 32 _ hne hword
  refine ⟨k, ?_, ht, hj⟩
  rw [hc]
  omega

/-- C18: IRQ priority. For every core whose clock runs, the re-check leaves
`sync_irq` equal to the index computed from `status & irq_mask`: `-1` when the
word is zero, and otherwise the index of its most significant set bit (the word
is a `uint32_t`). The IRQ request line is driven during the re-check, once and
with that index, when the index differs from the previous `sync_irq`; when it
does not differ the re-check changes nothing and drives nothing. -/
theorem C18_irq_priority (cfg : Config) (core : Nat) (s : State)
    (hact : (s.core_eu core).is_active = true)
    (hword : (s.core_eu core).status &&& (s.core_eu core).irq_mask < 2 ^ 32) :
    ∃ s', Core_event_unit.check_state cfg core s = some s' ∧
      (s'.core_eu core).sync_irq = (s.core_eu core).pending_irq ∧
      ((s.core_eu core).status &&& (s.core_eu core).irq_mask = 0 →
        (s.core_eu core).pending_irq = -1) ∧
      ((s.core_eu core).status &&& (s.core_eu core).irq_mask ≠ 0 →
        ∃ k : Nat, (s.core_eu core).pending_irq = (k : Int) ∧
          ((s.core_eu core).status &&& (s.core_eu core).irq_mask).testBit k = true ∧
          ∀ j, k < j → ((s.core_eu core).status &&& (s.core_eu core).irq_mask).testBit j = false) ∧
      ((s.core_eu core).pending_irq ≠ (s.core_eu core).sync_irq →
        s'.out = s.out ++ [Output.irq_req_sync core (s.core_eu core).pending_irq]) ∧
      ((s.core_eu core).pending_irq = (s.core_eu core).sync_irq → s' = s) := by
  rw [check_state_of_active cfg core s hact]
  refine ⟨_, rfl, ?_, ?_, ?_, ?_, ?_⟩
  · by_cases h : (s.core_eu core).pending_irq ≠ (s.core_eu core).sync_irq
    · rw [if_pos h]; simp [State.emit, State.set_core]
    · rw [if_neg h]; exact (not_not.1 h).symm
  · intro h0
    unfold Core_event_unit.pending_irq
    rw [if_neg (by simp [h0])]
  · intro hne
    exact pending_irq_spec _ hne hword
  · intro h
    rw [if_pos h]; simp [State.emit, State.set_core]
  · intro h
    rw [if_neg (by simp [h])]

/-- C18 at a concrete input: core 0 of the demo unit, awake, with IRQ bits 2 and
5 latched and enabled and index 2 signalled before. -/
theorem C18_irq_priority_witness :
    ∃ s', Core_event_unit.check_state demo_cfg 0 demo_state_irq = some s' ∧
      (s'.core_eu 0).sync_irq = 5 ∧
      s'.out = demo_state_irq.out ++ [Output.irq_req_sync 0 5] := by
  obtain ⟨s', h, h1, _, _, h4, _⟩ :=
    C18_irq_priority demo_cfg 0 demo_state_irq (by decide) (by decide)
  exact ⟨s', h, h1.trans (by decide), (h4 (by decide)).trans (by decide)⟩

/-! ## IRQ wake-up -/

/-- Re-check of a sleeping core with an enabled IRQ and no masked event: the IRQ
wake-up is enqueued unless it already is. -/
theorem check_state_of_irq (cfg : Config) (core : Nat) (s : State)
    (hact : (s.core_eu core).is_active = false)
    (hirq : (s.core_eu core).status &&& (s.core_eu core).irq_mask ≠ 0)
    (hev : (s.core_eu core).status &&& (s.core_eu core).evt_mask = 0) :
    Core_event_unit.check_state cfg core s =
      some (if s.is_enqueued core Clock_event_kind.irq_wakeup_event = false then
        (s.event_enqueue core Clock_event_kind.irq_wakeup_event EU_WAKEUP_LATENCY).set_core core
          { s.core_eu core with sync_irq := -1 }
      else s) := by
  show check_state_body _ cfg core s = _
  unfold check_state_body
  dsimp only
  rw [if_neg (by simp [hact]), if_pos ⟨hirq, hev⟩]
  split <;> rfl

/-- C19: for every sleeping core with `status & irq_mask != 0` and
`status & evt_mask == 0`, whatever its wait state, the re-check enqueues the IRQ
wake-up for two cycles later when none of the core is in the queue, and enqueues
nothing when one is. The re-check changes neither the wait state of the core,
nor its stored request, status, masks or active flag, and drives no output. The
IRQ wake-up callback, run on the resulting state, sets the active flag and
re-runs the re-check: it changes neither the wait state, nor the stored request,
status or masks, nor the event queue, and no core sends a response. -/
theorem C19_irq_wakeup_keeps_wait (cfg : Config) (core : Nat) (s : State)
    (hact : (s.core_eu core).is_active = false)
    (hirq : (s.core_eu core).status &&& (s.core_eu core).irq_mask ≠ 0)
    (hev : (s.core_eu core).status &&& (s.core_eu core).evt_mask = 0) :
    ∃ s1, Core_event_unit.check_state cfg core s = some s1 ∧
      (s.is_enqueued core Clock_event_kind.irq_wakeup_event = false →
        s1.events = s.events ++
          [⟨s.cycles + 2, core, Clock_event_kind.irq_wakeup_event⟩]) ∧
      (s.is_enqueued core Clock_event_kind.irq_wakeup_event = true → s1.events = s.events) ∧
      (s1.core_eu core).state = (s.core_eu core).state ∧
      (s1.core_eu core).pending_req = (s.core_eu core).pending_req ∧
      (s1.core_eu core).status = (s.core_eu core).status ∧
      (s1.core_eu core).evt_mask = (s.core_eu core).evt_mask ∧
      (s1.core_eu core).irq_mask = (s.core_eu core).irq_mask ∧
      (s1.core_eu core).is_active = false ∧
      s1.out = s.out ∧
      ∃ s2, Core_event_unit.irq_wakeup_handler cfg core s1 = some s2 ∧
        (s2.core_eu core).is_active = true ∧
        (s2.core_eu core).state = (s.core_eu core).state ∧
        (s2.core_eu core).pending_req = (s.core_eu core).pending_req ∧
        (s2.core_eu core).status = (s.core_eu core).status ∧
        (s2.core_eu core).evt_mask = (s.core_eu core).evt_mask ∧
        (s2.core_eu core).irq_mask = (s.core_eu core).irq_mask ∧
        s2.events = s1.events ∧
        ∀ c, s2.resps_of c = s.resps_of c := by
  have key : ∀ s1 : State,
      (s1.core_eu core).state = (s.core_eu core).state →
      (s1.core_eu core).pending_req = (s.core_eu core).pending_req →
      (s1.core_eu core).status = (s.core_eu core).status →
      (s1.core_eu core).evt_mask = (s.core_eu core).evt_mask →
      (s1.core_eu core).irq_mask = (s.core_eu core).irq_mask →
      s1.out = s.out →
      ∃ s2, Core_event_unit.irq_wakeup_handler cfg core s1 = some s2 ∧
        (s2.core_eu core).is_active = true ∧
        (s2.core_eu core).state = (s.core_eu core).state ∧
        (s2.core_eu core).pending_req = (s.core_eu core).pending_req ∧
        (s2.core_eu core).status = (s.core_eu core).status ∧
        (s2.core_eu core).evt_mask = (s.core_eu core).evt_mask ∧
        (s2.core_eu core).irq_mask = (s.core_eu core).irq_mask ∧
        s2.events = s1.events ∧
        ∀ c, s2.resps_of c = s.resps_of c := by
    intro s1 h1 h2 h3 h4 h5 h6
    obtain ⟨s2, e2, f2, r2⟩ := fire_spec cfg ⟨0, core, Clock_event_kind.irq_wakeup_event⟩ s1
      (by intro h; exact Clock_event_kind.noConfusion h)
    have hact2 : (s2.core_eu core).is_active = true := by
      obtain ⟨s3, e3, f3, _⟩ := check_state_active_hframe cfg core
        ((s1.set_core core { s1.core_eu core with is_active := true }).emit
          (Output.clock_sync core true)) (by simp [State.emit, State.set_core])
      have : Core_event_unit.irq_wakeup_handler cfg core s1 = some s3 := e3
      have e2' : Core_event_unit.irq_wakeup_handler cfg core s1 = some s2 := e2
      rw [this] at e2'
      cases e2'
      exact f3.is_active core (by simp [State.emit, State.set_core])
    refine ⟨s2, e2, hact2, (f2.state core).trans h1, (f2.pending_req core).trans h2,
      (f2.status core).trans h3, (f2.evt_mask core).trans h4, (f2.irq_mask core).trans h5,
      f2.events, ?_⟩
    intro c
    have hout : s1.resps_of c = s.resps_of c := by unfold State.resps_of; rw [h6]
    cases hp : (s1.core_eu c).pending_req with
    | none =>
      -- the response list only grows for generic wake-ups
      obtain ⟨s3, e3, _, r3⟩ := check_state_active_hframe cfg core
        ((s1.set_core core { s1.core_eu core with is_active := true }).emit
          (Output.clock_sync core true)) (by simp [State.emit, State.set_core])
      have : Core_event_unit.irq_wakeup_handler cfg core s1 = some s3 := e3
      have e2' : Core_event_unit.irq_wakeup_handler cfg core s1 = some s2 := e2
      rw [this] at e2'
      cases e2'
      rw [r3 c, ← hout]
      simp [State.resps_of, State.emit, State.set_core, Output.is_resp_of]
    | some r =>
      have := r2 c r hp
      simp only [and_false, if_false, List.append_nil, reduceCtorEq] at this
      rw [this, hout]
  rw [check_state_of_irq cfg core s hact hirq hev]
  by_cases hq : s.is_enqueued core Clock_event_kind.irq_wakeup_event = false
  · rw [if_pos hq]
    refine ⟨_, rfl, ?_, ?_, ?_, ?_, ?_, ?_, ?_, ?_, ?_, ?_⟩
    · intro _; simp [State.event_enqueue, State.set_core, EU_WAKEUP_LATENCY]
    · intro h; rw [hq] at h; exact absurd h (by decide)
    · simp [State.event_enqueue, State.set_core]
    · simp [State.event_enqueue, State.set_core]
    · simp [State.event_enqueue, State.set_core]
    · simp [State.event_enqueue, State.set_core]
    · simp [State.event_enqueue, State.set_core]
    · simpa [State.event_enqueue, State.set_core] using hact
    · simp [State.event_enqueue, State.set_core]
    · apply key <;> simp [State.event_enqueue, State.set_core]
  · rw [if_neg hq]
    refine ⟨s, rfl, ?_, ?_, rfl, rfl, rfl, rfl, rfl, hact, rfl, ?_⟩
    · intro h; exact absurd h hq
    · intro _; rfl
    · exact key s rfl rfl rfl rfl rfl rfl

/-- C19 at a concrete input: core 0 of the demo unit sleeps in a wait with
request 7 and has IRQ bit 2 latched and enabled. -/
theorem C19_irq_wakeup_keeps_wait_witness :
    ∃ s1, Core_event_unit.check_state demo_cfg 0 demo_state_sleeping_irq = some s1 ∧
      s1.events = [⟨2, 0, Clock_event_kind.irq_wakeup_event⟩] ∧
      (s1.core_eu 0).state = CORE_STATE_WAITING_EVENT ∧
      (s1.core_eu 0).pending_req = some 7 ∧
      s1.out = demo_state_sleeping_irq.out ∧
      ∃ s2, Core_event_unit.irq_wakeup_handler demo_cfg 0 s1 = some s2 ∧
        (s2.core_eu 0).is_active = true ∧
        (s2.core_eu 0).state = CORE_STATE_WAITING_EVENT ∧
        (s2.core_eu 0).pending_req = some 7 ∧
        ∀ c, s2.resps_of c = demo_state_sleeping_irq.resps_of c := by
  obtain ⟨s1, h, h1, _, h3, h4, _, _, _, _, h9, s2, g, g1, g2, g3, _, _, _, _, g8⟩ :=
    C19_irq_wakeup_keeps_wait demo_cfg 0 demo_state_sleeping_irq (by decide) (by decide)
      (by decide)
  exact ⟨s1, h, h1 (by decide), h3, h4, h9, s2, g, g1, g2, g3, g8⟩

/-! ## Parts of the unit that an operation leaves alone -/

theorem CoreOnly.co_refl (s : State) : CoreOnly s s := ⟨rfl, rfl, rfl⟩

theorem CoreOnly.co_trans {a b c : State} (h1 : CoreOnly a b) (h2 : CoreOnly b c) :
    CoreOnly a c :=
  ⟨h2.mutexes.trans h1.mutexes, h2.barriers.trans h1.barriers,
    h2.soc_event_unit.trans h1.soc_event_unit⟩

theorem Frame.core_only {m : Nat} {s s' : State} (h : Frame m s s') : CoreOnly s s' :=
  ⟨h.mutexes, h.barriers, h.soc_event_unit⟩

theorem HFrame.hcore_only {s s' : State} (h : HFrame s s') : CoreOnly s s' :=
  ⟨h.mutexes, h.barriers, h.soc_event_unit⟩

/-- The wait primitive returns, and touches neither mutexes, barriers nor
FIFO. -/
theorem wait_event_total (cfg : Config) (core req : Nat) (ws : Event_unit_core_state_e)
    (s : State) :
    ∃ r, Core_event_unit.wait_event cfg core req ws s = some r ∧ CoreOnly s r.2 := by
  by_cases hmask : (s.core_eu core).status &&& (s.core_eu core).evt_mask = 0
  · rw [wait_event_sleep cfg core req ws s hmask]
    exact ⟨_, rfl, ⟨rfl, rfl, rfl⟩⟩
  · obtain ⟨s1, _, f, h⟩ := wait_event_present cfg core req ws s hmask
    rw [h]
    exact ⟨_, rfl, ⟨f.mutexes, f.barriers, f.soc_event_unit⟩⟩

/-- The barrier check returns; afterwards a status equal to the participant mask
is all-zero. Only the status of the checked barrier can change. -/
theorem check_barrier_total (cfg : Config) (id : Nat) (s : State) :
    ∃ s', Barrier_unit.check_barrier cfg id s = some s' ∧
      s'.mutexes = s.mutexes ∧ s'.soc_event_unit = s.soc_event_unit ∧
      (∀ j, j ≠ id → s'.barriers j = s.barriers j) ∧
      (s'.barriers id).core_mask = (s.barriers id).core_mask ∧
      (s'.barriers id).target_mask = (s.barriers id).target_mask ∧
      (s'.barriers id).status.length = (s.barriers id).status.length ∧
      ((s'.barriers id).status = (s'.barriers id).core_mask →
        ∀ x ∈ (s'.barriers id).status, x = 0) := by
  unfold Barrier_unit.check_barrier
  dsimp only
  by_cases heq : (s.barriers id).status = (s.barriers id).core_mask
  · rw [if_pos heq]
    obtain ⟨s', h, f⟩ := trigger_event_frame cfg (shl1 cfg.barrier_event)
      (s.barriers id).target_mask
      (s.set_barrier id
        { s.barriers id with status := List.replicate (s.barriers id).status.length 0 })
    refine ⟨s', h, f.mutexes, f.soc_event_unit, ?_, ?_, ?_, ?_, ?_⟩
    · intro j hj; rw [f.barriers]; simp [State.set_barrier, Function.update_noteq hj]
    · rw [f.barriers]; simp [State.set_barrier]
    · rw [f.barriers]; simp [State.set_barrier]
    · rw [f.barriers]; simp [State.set_barrier]
    · intro _ x hx
      rw [f.barriers] at hx
      simp only [State.set_barrier, Function.update_same] at hx
      exact (List.mem_replicate.1 hx).2
  · rw [if_neg heq]
    exact ⟨s, rfl, rfl, rfl, fun _ _ => rfl, rfl, rfl, rfl, fun h => absurd h heq⟩

/-! ## Barrier trigger-and-wait -/

theorem barrier_req_wait_eq (cfg : Config) (req offset0 : Nat) (is_write : Bool) (c : Nat)
    (s : State) (hregs : cfg.archi.barrier_regs_ok)
    (hid : cfg.archi.EU_BARRIER_AREA_BARRIERID_GET offset0 < cfg.nb_barriers)
    (hoff : u64_sub offset0 (cfg.archi.EU_BARRIER_AREA_OFFSET_GET
      (cfg.archi.EU_BARRIER_AREA_BARRIERID_GET offset0)) = cfg.archi.EU_HW_BARR_TRIGGER_WAIT) :
    Barrier_unit.req cfg req offset0 is_write (c : Int) s =
      (Barrier_unit.check_barrier cfg (cfg.archi.EU_BARRIER_AREA_BARRIERID_GET offset0)
        (if (s.core_eu c).state = CORE_STATE_WAITING_BARRIER then s
          else s.set_barrier (cfg.archi.EU_BARRIER_AREA_BARRIERID_GET offset0)
            ((s.barriers (cfg.archi.EU_BARRIER_AREA_BARRIERID_GET offset0)).arrive c))).bind
        fun s2 => Core_event_unit.wait_event cfg c req CORE_STATE_WAITING_BARRIER s2 := by
  obtain ⟨_, ⟨h1, h2, h3, h4, h5⟩, _, h6, _, _⟩ := hregs
  have hc : ((c : Int) = -1) = False := by
    apply propext; constructor
    · intro h; omega
    · intro h; exact h.elim
  unfold Barrier_unit.req
  dsimp only
  rw [hoff, if_neg (Nat.not_le.2 hid), if_neg h1, if_neg h2, if_neg h3, if_neg h4, if_neg h5,
    if_neg h6, if_pos rfl]
  simp only [hc, if_false, Int.toNat_ofNat, Barrier.arrive]

theorem barrier_req_wait_clear_eq (cfg : Config) (req offset0 : Nat) (is_write : Bool) (c : Nat)
    (s : State) (hregs : cfg.archi.barrier_regs_ok)
    (hid : cfg.archi.EU_BARRIER_AREA_BARRIERID_GET offset0 < cfg.nb_barriers)
    (hoff : u64_sub offset0 (cfg.archi.EU_BARRIER_AREA_OFFSET_GET
      (cfg.archi.EU_BARRIER_AREA_BARRIERID_GET offset0)) =
        cfg.archi.EU_HW_BARR_TRIGGER_WAIT_CLEAR) :
    Barrier_unit.req cfg req offset0 is_write (c : Int) s =
      (Barrier_unit.check_barrier cfg (cfg.archi.EU_BARRIER_AREA_BARRIERID_GET offset0)
        ((if (s.core_eu c).state = CORE_STATE_WAITING_BARRIER then s
          else s.set_barrier (cfg.archi.EU_BARRIER_AREA_BARRIERID_GET offset0)
            ((s.barriers (cfg.archi.EU_BARRIER_AREA_BARRIERID_GET offset0)).arrive c)).set_core c
          { s.core_eu c with clear_evt_mask := (s.core_eu c).evt_mask })).bind
        fun s2 => Core_event_unit.wait_event cfg c req CORE_STATE_WAITING_BARRIER s2 := by
  obtain ⟨_, _, ⟨h1, h2, h3, h4, h5⟩, _, h6, h7⟩ := hregs
  have hc : ((c : Int) = -1) = False := by
    apply propext; constructor
    · intro h; omega
    · intro h; exact h.elim
  unfold Barrier_unit.req
  dsimp only
  rw [hoff, if_neg (Nat.not_le.2 hid), if_neg h1, if_neg h2, if_neg h3, if_neg h4, if_neg h5,
    if_neg h6, if_neg h7, if_pos rfl]
  simp only [hc, if_false, Int.toNat_ofNat, Barrier.arrive]
  congr 2
  split <;> rfl

/-- C12: barrier trigger-and-wait and trigger-wait-clear by core `c` through its
own port. The access returns. The state `s_chk` handed to `check_barrier`
differs from the state of the access in this only: if the state of `c` is
already `CORE_STATE_WAITING_BARRIER` the status of the barrier is the one found
(the bit-set step does not touch it); otherwise bit `c % 32` is ORed into word
`c / 32` of the status and no other word changes; for trigger-wait-clear the
`clear_evt_mask` of `c` is set to its `evt_mask`. After the check the core
enters `wait_event` with wait state `CORE_STATE_WAITING_BARRIER`, whose result
is the result of the access. -/
theorem C12_barrier_trigger_wait (cfg : Config) (req offset0 : Nat) (is_write : Bool) (c : Nat)
    (s : State) (hregs : cfg.archi.barrier_regs_ok)
    (hid : cfg.archi.EU_BARRIER_AREA_BARRIERID_GET offset0 < cfg.nb_barriers)
    (hoff :
      u64_sub offset0 (cfg.archi.EU_BARRIER_AREA_OFFSET_GET
        (cfg.archi.EU_BARRIER_AREA_BARRIERID_GET offset0)) =
          cfg.archi.EU_HW_BARR_TRIGGER_WAIT ∨
      u64_sub offset0 (cfg.archi.EU_BARRIER_AREA_OFFSET_GET
        (cfg.archi.EU_BARRIER_AREA_BARRIERID_GET offset0)) =
          cfg.archi.EU_HW_BARR_TRIGGER_WAIT_CLEAR) :
    ∃ s_chk s2 r,
      Barrier_unit.check_barrier cfg (cfg.archi.EU_BARRIER_AREA_BARRIERID_GET offset0) s_chk =
        some s2 ∧
      Core_event_unit.wait_event cfg c req CORE_STATE_WAITING_BARRIER s2 = some r ∧
      Barrier_unit.req cfg req offset0 is_write (c : Int) s = some r ∧
      ((s.core_eu c).state = CORE_STATE_WAITING_BARRIER → s_chk.barriers = s.barriers) ∧
      ((s.core_eu c).state ≠ CORE_STATE_WAITING_BARRIER →
        (s_chk.barriers (cfg.archi.EU_BARRIER_AREA_BARRIERID_GET offset0)).status =
          (s.barriers (cfg.archi.EU_BARRIER_AREA_BARRIERID_GET offset0)).status.set (c / 32)
            ((s.barriers (cfg.archi.EU_BARRIER_AREA_BARRIERID_GET offset0)).status.getD
              (c / 32) 0 ||| shl1 (c % 32)) ∧
        (s_chk.barriers (cfg.archi.EU_BARRIER_AREA_BARRIERID_GET offset0)).core_mask =
          (s.barriers (cfg.archi.EU_BARRIER_AREA_BARRIERID_GET offset0)).core_mask ∧
        (s_chk.barriers (cfg.archi.EU_BARRIER_AREA_BARRIERID_GET offset0)).target_mask =
          (s.barriers (cfg.archi.EU_BARRIER_AREA_BARRIERID_GET offset0)).target_mask ∧
        ∀ j, j ≠ cfg.archi.EU_BARRIER_AREA_BARRIERID_GET offset0 →
          s_chk.barriers j = s.barriers j) ∧
      (u64_sub offset0 (cfg.archi.EU_BARRIER_AREA_OFFSET_GET
        (cfg.archi.EU_BARRIER_AREA_BARRIERID_GET offset0)) =
          cfg.archi.EU_HW_BARR_TRIGGER_WAIT → s_chk.core_eu = s.core_eu) ∧
      (u64_sub offset0 (cfg.archi.EU_BARRIER_AREA_OFFSET_GET
        (cfg.archi.EU_BARRIER_AREA_BARRIERID_GET offset0)) =
          cfg.archi.EU_HW_BARR_TRIGGER_WAIT_CLEAR →
        s_chk.core_eu = Function.update s.core_eu c
          { s.core_eu c with clear_evt_mask := (s.core_eu c).evt_mask }) ∧
      s_chk.mutexes = s.mutexes ∧ s_chk.soc_event_unit = s.soc_event_unit ∧
      s_chk.events = s.events ∧ s_chk.out = s.out ∧ s_chk.req_data = s.req_data := by
  have hne : cfg.archi.EU_HW_BARR_TRIGGER_WAIT_CLEAR ≠ cfg.archi.EU_HW_BARR_TRIGGER_WAIT :=
    hregs.2.2.2.2.2
  obtain ⟨s1, hs1⟩ : ∃ s1 : State, s1 =
      (if (s.core_eu c).state = CORE_STATE_WAITING_BARRIER then s
        else s.set_barrier (cfg.archi.EU_BARRIER_AREA_BARRIERID_GET offset0)
          ((s.barriers (cfg.archi.EU_BARRIER_AREA_BARRIERID_GET offset0)).arrive c)) := ⟨_, rfl⟩
  have hrest : s1.core_eu = s.core_eu ∧ s1.mutexes = s.mutexes ∧
      s1.soc_event_unit = s.soc_event_unit ∧ s1.events = s.events ∧ s1.out = s.out ∧
      s1.req_data = s.req_data := by
    rw [hs1]; split <;> exact ⟨rfl, rfl, rfl, rfl, rfl, rfl⟩
  obtain ⟨e1, e2, e3, e4, e5, e6⟩ := hrest
  have hre : (s.core_eu c).state = CORE_STATE_WAITING_BARRIER → s1.barriers = s.barriers := by
    intro h; rw [hs1, if_pos h]
  have hnew : (s.core_eu c).state ≠ CORE_STATE_WAITING_BARRIER →
      (s1.barriers (cfg.archi.EU_BARRIER_AREA_BARRIERID_GET offset0)).status =
          (s.barriers (cfg.archi.EU_BARRIER_AREA_BARRIERID_GET offset0)).status.set (c / 32)
            ((s.barriers (cfg.archi.EU_BARRIER_AREA_BARRIERID_GET offset0)).status.getD
              (c / 32) 0 ||| shl1 (c % 32)) ∧
        (s1.barriers (cfg.archi.EU_BARRIER_AREA_BARRIERID_GET offset0)).core_mask =
          (s.barriers (cfg.archi.EU_BARRIER_AREA_BARRIERID_GET offset0)).core_mask ∧
        (s1.barriers (cfg.archi.EU_BARRIER_AREA_BARRIERID_GET offset0)).target_mask =
          (s.barriers (cfg.archi.EU_BARRIER_AREA_BARRIERID_GET offset0)).target_mask ∧
        ∀ j, j ≠ cfg.archi.EU_BARRIER_AREA_BARRIERID_GET offset0 →
          s1.barriers j = s.barriers j := by
    intro h
    have hb : s1.barriers = Function.update s.barriers
        (cfg.archi.EU_BARRIER_AREA_BARRIERID_GET offset0)
        ((s.barriers (cfg.archi.EU_BARRIER_AREA_BARRIERID_GET offset0)).arrive c) := by
      rw [hs1, if_neg h]; rfl
    rw [hb]
    refine ⟨by simp [Barrier.arrive], by simp [Barrier.arrive], by simp [Barrier.arrive], ?_⟩
    intro j hj; simp [Function.update_noteq hj]
  rcases hoff with hoff | hoff
  · obtain ⟨s2, h2, _⟩ := check_barrier_total cfg
      (cfg.archi.EU_BARRIER_AREA_BARRIERID_GET offset0) s1
    obtain ⟨r, hr, _⟩ := wait_event_total cfg c req CORE_STATE_WAITING_BARRIER s2
    refine ⟨s1, s2, r, h2, hr, ?_, hre, hnew, fun _ => e1, ?_, e2, e3, e4, e5, e6⟩
    · rw [barrier_req_wait_eq cfg req offset0 is_write c s hregs hid hoff, ← hs1, h2]
      exact hr
    · intro h; rw [hoff] at h; exact absurd h.symm hne
  · obtain ⟨s2, h2, _⟩ := check_barrier_total cfg
      (cfg.archi.EU_BARRIER_AREA_BARRIERID_GET offset0)
      (s1.set_core c { s.core_eu c with clear_evt_mask := (s.core_eu c).evt_mask })
    obtain ⟨r, hr, _⟩ := wait_event_total cfg c req CORE_STATE_WAITING_BARRIER s2
    refine ⟨_, s2, r, h2, hr, ?_, hre, hnew, ?_, ?_, e2, e3, e4, e5, e6⟩
    · rw [barrier_req_wait_clear_eq cfg req offset0 is_write c s hregs hid hoff, ← hs1, h2]
      exact hr
    · intro h; rw [hoff] at h; exact absurd h hne
    · intro _
      show Function.update s1.core_eu c _ = _
      rw [e1]

/-- C12 at a concrete input: core 1 of the demo unit, running, issues
trigger-and-wait (offset `0xa4`) on barrier 0, at which core 0 has arrived. -/
theorem C12_barrier_trigger_wait_witness :
    ∃ s_chk s2 r,
      Barrier_unit.check_barrier demo_cfg 0 s_chk = some s2 ∧
      Core_event_unit.wait_event demo_cfg 1 3 CORE_STATE_WAITING_BARRIER s2 = some r ∧
      Barrier_unit.req demo_cfg 3 0xa4 false (1 : Nat) demo_state_barrier_half = some r ∧
      (s_chk.barriers 0).status = [3, 0, 0, 0, 0, 0, 0, 0] := by
  obtain ⟨s_chk, s2, r, h1, h2, h3, _, h5, _⟩ :=
    C12_barrier_trigger_wait demo_cfg 3 0xa4 false 1 demo_state_barrier_half
      (by unfold Archi.barrier_regs_ok Archi.outside_mask_regs; decide) (by decide)
      (Or.inl (by decide))
  exact ⟨s_chk, s2, r, h1, h2, h3, (h5 (by decide)).1.trans (by decide)⟩

/-! ## Whatever the cascade returns, it has left mutexes, barriers and FIFO alone -/

theorem option_foldlM_keeps {α : Type} (f : State → α → Option State)
    (R : State → State → Prop) (hrefl : ∀ s, R s s) (htrans : ∀ a b c, R a b → R b c → R a c)
    (l : List α) (hf : ∀ j ∈ l, ∀ st st', f st j = some st' → R st st') :
    ∀ s s', l.foldlM f s = some s' → R s s' := by
  induction l with
  | nil =>
    intro s s' h
    simp only [List.foldlM_nil, Option.pure_def, Option.some.injEq] at h
    subst h; exact hrefl s
  | cons j l ih =>
    intro s s' h
    simp only [List.foldlM_cons, Option.bind_eq_bind, Option.bind_eq_some] at h
    obtain ⟨s1, h1, h2⟩ := h
    exact htrans _ _ _ (hf j (List.mem_cons_self _ _) s s1 h1)
      (ih (fun k hk => hf k (List.mem_cons_of_mem _ hk)) s1 s' h2)

theorem CoreOnly.co_set_core (s : State) (i : Nat) (c : Core_event_unit) :
    CoreOnly s (s.set_core i c) := ⟨rfl, rfl, rfl⟩

section keeps

variable (cfg : Config) (cs : Nat → State → Option State)

theorem send_event_with_keeps (hcs : ∀ j st st', cs j st = some st' → CoreOnly st st')
    (j m : Nat) (s s' : State) (h : send_event_with cs j m s = some s') : CoreOnly s s' :=
  (CoreOnly.co_set_core s j _).co_trans (hcs j _ s' h)

theorem trigger_event_with_keeps (hcs : ∀ j st st', cs j st = some st' → CoreOnly st st')
    (m : Nat) (core_mask : List Nat) (s s' : State)
    (h : trigger_event_with cs cfg m core_mask s = some s') : CoreOnly s s' := by
  unfold trigger_event_with at h
  refine option_foldlM_keeps _ CoreOnly CoreOnly.co_refl (fun _ _ _ => CoreOnly.co_trans) _ ?_
    s s' h
  intro j _ st st' hst
  split at hst
  · exact send_event_with_keeps cs hcs j m st st' hst
  · cases hst; exact CoreOnly.co_refl st

theorem soc_check_state_with_keeps (hcs : ∀ j st st', cs j st = some st' → CoreOnly st st')
    (s s' : State) (h : Soc_event_unit.check_state_with cs cfg s = some s') : CoreOnly s s' := by
  unfold Soc_event_unit.check_state_with at h
  split at h
  · exact trigger_event_with_keeps cfg cs hcs _ _ s s' h
  · cases h; exact CoreOnly.co_refl s

theorem clear_status_with_keeps (hcs : ∀ j st st', cs j st = some st' → CoreOnly st st')
    (core mask : Nat) (s s' : State) (h : clear_status_with cs cfg core mask s = some s') :
    CoreOnly s s' :=
  (CoreOnly.co_set_core s core _).co_trans (soc_check_state_with_keeps cfg cs hcs _ s' h)

theorem check_wait_mask_with_keeps (hcs : ∀ j st st', cs j st = some st' → CoreOnly st st')
    (core : Nat) (s s' : State) (h : check_wait_mask_with cs cfg core s = some s') :
    CoreOnly s s' := by
  unfold check_wait_mask_with at h
  split at h
  · rw [Option.bind_eq_some] at h
    obtain ⟨s1, h1, h2⟩ := h
    cases h2
    exact (clear_status_with_keeps cfg cs hcs core _ s s1 h1).co_trans
      (CoreOnly.co_set_core s1 core _)
  · cases h; exact CoreOnly.co_refl s

theorem check_state_body_keeps (hcs : ∀ j st st', cs j st = some st' → CoreOnly st st')
    (core : Nat) (s s' : State) (h : check_state_body cs cfg core s = some s') :
    CoreOnly s s' := by
  unfold check_state_body at h
  dsimp only at h
  split at h
  · split at h <;> cases h
    · exact ⟨rfl, rfl, rfl⟩
    · exact CoreOnly.co_refl s
  · split at h
    · split at h <;> cases h
      · exact ⟨rfl, rfl, rfl⟩
      · exact CoreOnly.co_refl s
    · split at h
      · cases h; exact CoreOnly.co_refl s
      · split at h
        · rw [Option.bind_eq_some] at h
          obtain ⟨s3, h3, h4⟩ := h
          have k := (CoreOnly.co_set_core s core _).co_trans
            (check_wait_mask_with_keeps cfg cs hcs core _ s3 h3)
          split at h4 <;> cases h4
          · exact ⟨k.mutexes, k.barriers, k.soc_event_unit⟩
          · exact k
        · cases h; exact CoreOnly.co_refl s

end keeps

theorem check_state_fuel_keeps (cfg : Config) : ∀ (fuel core : Nat) (s s' : State),
    check_state_fuel cfg fuel core s = some s' → CoreOnly s s' := by
  intro fuel
  induction fuel with
  | zero => intro core s s' h; cases h
  | succ n ih =>
    intro core s s' h
    exact check_state_body_keeps cfg (check_state_fuel cfg n) (fun j => ih j) core s s' h

theorem check_state_keeps (cfg : Config) (core : Nat) (s s' : State)
    (h : Core_event_unit.check_state cfg core s = some s') : CoreOnly s s' :=
  check_state_fuel_keeps cfg _ core s s' h

theorem send_event_keeps (cfg : Config) (core m : Nat) (s s' : State)
    (h : Event_unit.send_event cfg core m s = some s') : CoreOnly s s' :=
  send_event_with_keeps _ (check_state_keeps cfg) core m s s' h

theorem trigger_event_keeps (cfg : Config) (m : Nat) (core_mask : List Nat) (s s' : State)
    (h : Event_unit.trigger_event cfg m core_mask s = some s') : CoreOnly s s' :=
  trigger_event_with_keeps cfg _ (check_state_keeps cfg) m core_mask s s' h

theorem soc_check_state_keeps (cfg : Config) (s s' : State)
    (h : Soc_event_unit.check_state cfg s = some s') : CoreOnly s s' :=
  soc_check_state_with_keeps cfg _ (check_state_keeps cfg) s s' h

theorem clear_status_keeps (cfg : Config) (core m : Nat) (s s' : State)
    (h : Core_event_unit.clear_status cfg core m s = some s') : CoreOnly s s' :=
  clear_status_with_keeps cfg _ (check_state_keeps cfg) core m s s' h

theorem check_wait_mask_keeps (cfg : Config) (core : Nat) (s s' : State)
    (h : Core_event_unit.check_wait_mask cfg core s = some s') : CoreOnly s s' :=
  check_wait_mask_with_keeps cfg _ (check_state_keeps cfg) core s s' h

theorem wait_event_keeps (cfg : Config) (core req : Nat) (ws : Event_unit_core_state_e)
    (s : State) (r : io_req_status_e × State)
    (h : Core_event_unit.wait_event cfg core req ws s = some r) : CoreOnly s r.2 := by
  obtain ⟨r', h', k⟩ := wait_event_total cfg core req ws s
  rw [h] at h'; cases h'; exact k

theorem ret_ite {α : Type} (P : α → Prop) (c : Prop) [Decidable c] (a b : Option α)
    (ha : ∀ r, a = some r → P r) (hb : ∀ r, b = some r → P r) :
    ∀ r, (if c then a else b) = some r → P r := by
  intro r h
  split at h
  · exact ha r h
  · exact hb r h

theorem ret_bind {α β : Type} (Q : α → Prop) (P : β → Prop) (x : Option α) (f : α → Option β)
    (hx : ∀ a, x = some a → Q a) (hf : ∀ a, Q a → ∀ r, f a = some r → P r) :
    ∀ r, x.bind f = some r → P r := by
  intro r h
  rw [Option.bind_eq_some] at h
  obtain ⟨a, h1, h2⟩ := h
  exact hf a (hx a h1) r h2

theorem ret_some {α : Type} (P : α → Prop) (a : α) (h : P a) : ∀ r, some a = some r → P r := by
  intro r hr; cases hr; exact h

/-- Whatever an access to the register block of a core returns, it has left
mutexes, barriers and FIFO alone. -/
theorem core_req_keeps (cfg : Config) (core req offset : Nat) (is_write : Bool) (s : State) :
    ∀ r, Core_event_unit.req cfg core req offset is_write s = some r → CoreOnly s r.2 := by
  have kb : ∀ (t : State) (x : Option State) (st : io_req_status_e), CoreOnly s t →
      (∀ s1, x = some s1 → CoreOnly t s1) →
      ∀ r, (x.bind fun s1 => some (st, s1)) = some r → CoreOnly s r.2 := by
    intro t x st ht hx
    exact ret_bind (CoreOnly s) _ _ _ (fun a ha => ht.co_trans (hx a ha))
      (fun a ha => ret_some _ _ ha)
  have kw : ∀ (t : State) (ws : Event_unit_core_state_e), CoreOnly s t →
      ∀ r, ((Core_event_unit.wait_event cfg core req ws t).bind fun r =>
        some (r.1, r.2.set_req_data req
          ((r.2.core_eu core).evt_mask &&& (r.2.core_eu core).status))) = some r →
      CoreOnly s r.2 := by
    intro t ws ht
    refine ret_bind (fun r => CoreOnly s r.2) _ _ _
      (fun a ha => ht.co_trans (wait_event_keeps cfg core req ws t a ha)) ?_
    intro a k
    exact ret_some _ _ ⟨k.mutexes, k.barriers, k.soc_event_unit⟩
  unfold Core_event_unit.req
  dsimp only
  repeat' apply ret_ite
  all_goals first
    | exact ret_some _ _ ⟨rfl, rfl, rfl⟩
    | exact kb _ _ _ (CoreOnly.co_set_core s core _) (fun s1 => check_state_keeps cfg core _ s1)
    | exact kw _ _ (CoreOnly.co_refl s)
    | exact kw _ _ (CoreOnly.co_set_core s core _)
    | exact ret_bind (CoreOnly s) _ _ _ (clear_status_keeps cfg core _ s)
        (fun a ha => kb a _ _ ha (fun s1 => check_state_keeps cfg core _ s1))

/-- Whatever an access to the mutex block returns, it has left barriers and
FIFO alone. -/
theorem mutex_req_keeps (cfg : Config) (req offset : Nat) (is_write : Bool) (core : Nat)
    (s : State) :
    ∀ r, Mutex_unit.req cfg req offset is_write core s = some r →
      r.2.barriers = s.barriers ∧ r.2.soc_event_unit = s.soc_event_unit := by
  unfold Mutex_unit.req
  dsimp only
  apply ret_ite
  · exact ret_some _ _ ⟨rfl, rfl⟩
  apply ret_ite
  · apply ret_ite
    · exact ret_some _ _ ⟨rfl, rfl⟩
    · intro r h
      have k := wait_event_keeps cfg _ _ _ _ r h
      exact ⟨k.barriers, k.soc_event_unit⟩
  · intro r h
    split at h
    · rw [Option.bind_eq_some] at h
      obtain ⟨s3, h3, h4⟩ := h
      cases h4
      have k := send_event_keeps cfg _ _ _ s3 h3
      exact ⟨k.barriers, k.soc_event_unit⟩
    · cases h; exact ⟨rfl, rfl⟩

theorem send_event_all_keeps (cfg : Config) (m : Nat) (s s' : State)
    (h : Event_unit.send_event_all cfg m s = some s') : CoreOnly s s' :=
  option_foldlM_keeps _ CoreOnly CoreOnly.co_refl (fun _ _ _ => CoreOnly.co_trans) _
    (fun j _ st st' hst => send_event_keeps cfg j m st st' hst) s s' h

/-- Whatever an access to the software event block returns, it has left
mutexes, barriers and FIFO alone. -/
theorem sw_events_req_keeps (cfg : Config) (req offset : Nat) (is_write : Bool) (core : Int)
    (s : State) :
    ∀ r, Event_unit.sw_events_req cfg req offset is_write core s = some r →
      CoreOnly s r.2 := by
  have kw : ∀ (t : State), CoreOnly s t →
      ∀ r, ((Core_event_unit.wait_event cfg core.toNat req CORE_STATE_WAITING_EVENT t).bind
        fun r => some (r.1, r.2.set_req_data req
          ((r.2.core_eu core.toNat).evt_mask &&& (r.2.core_eu core.toNat).status))) = some r →
      CoreOnly s r.2 := by
    intro t ht
    refine ret_bind (fun r => CoreOnly s r.2) _ _ _
      (fun a ha => ht.co_trans (wait_event_keeps cfg _ req _ t a ha)) ?_
    intro a k
    exact ret_some _ _ ⟨k.mutexes, k.barriers, k.soc_event_unit⟩
  unfold Event_unit.sw_events_req
  dsimp only
  repeat' apply ret_ite
  all_goals first
    | exact ret_some _ _ ⟨rfl, rfl, rfl⟩
    | exact ret_bind (CoreOnly s) _ _ _ (send_event_all_keeps cfg _ s)
        (fun a ha => ret_some _ _ ha)
    | exact ret_bind (CoreOnly s) _ _ _ (send_event_all_keeps cfg _ s)
        (fun a ha => kw a ha)
    | exact ret_bind (CoreOnly s) _ _ _ (send_event_all_keeps cfg _ s)
        (fun a ha => kw _ (ha.co_trans (CoreOnly.co_set_core a _ _)))

theorem irq_ack_sync_keeps (cfg : Config) (irq core : Nat) (s s' : State)
    (h : Core_event_unit.irq_ack_sync cfg irq core s = some s') : CoreOnly s s' := by
  unfold Core_event_unit.irq_ack_sync at h
  rw [Option.bind_eq_some] at h
  obtain ⟨s1, h1, h2⟩ := h
  exact ((clear_status_keeps cfg core _ s s1 h1).co_trans (CoreOnly.co_set_core s1 core _)).co_trans
    (check_state_keeps cfg core _ s' h2)

theorem in_event_sync_keeps (cfg : Config) (id : Nat) (s s' : State)
    (h : Event_unit.in_event_sync cfg id s = some s') : CoreOnly s s' :=
  (CoreOnly.co_set_core s _ _).co_trans (check_state_keeps cfg _ _ s' h)

theorem fire_keeps (cfg : Config) (e : Clock_event) (s s' : State)
    (h : e.fire cfg s = some s') : CoreOnly s s' := by
  unfold Clock_event.fire at h
  split at h
  · unfold Core_event_unit.wakeup_handler at h
    dsimp only at h
    rw [Option.bind_eq_some] at h
    obtain ⟨s2, h2, h3⟩ := h
    unfold Core_event_unit.check_pending_req at h2
    split at h2
    · cases h2
      have k := check_state_keeps cfg _ _ s' h3
      exact ⟨k.mutexes, k.barriers, k.soc_event_unit⟩
    · cases h2
  · have k := check_state_keeps cfg _ _ s' h
    exact ⟨k.mutexes, k.barriers, k.soc_event_unit⟩

theorem tick_keeps (cfg : Config) (s s' : State) (h : s.tick cfg = some s') : CoreOnly s s' := by
  unfold State.tick at h
  dsimp only at h
  have k := option_foldlM_keeps _ CoreOnly CoreOnly.co_refl (fun _ _ _ => CoreOnly.co_trans) _
    (fun e _ st st' hst => fire_keeps cfg e st st' hst) _ s' h
  exact ⟨k.mutexes, k.barriers, k.soc_event_unit⟩

theorem check_barrier_keeps (cfg : Config) (id : Nat) (s s' : State)
    (h : Barrier_unit.check_barrier cfg id s = some s') :
    s'.mutexes = s.mutexes ∧ s'.soc_event_unit = s.soc_event_unit := by
  obtain ⟨s2, h2, hm, hs, _⟩ := check_barrier_total cfg id s
  rw [h] at h2; cases h2; exact ⟨hm, hs⟩

/-- Whatever an access to the barrier block returns, it has left mutexes and
FIFO alone. -/
theorem barrier_req_keeps (cfg : Config) (req offset0 : Nat) (is_write : Bool) (core : Int)
    (s : State) :
    ∀ r, Barrier_unit.req cfg req offset0 is_write core s = some r →
      r.2.mutexes = s.mutexes ∧ r.2.soc_event_unit = s.soc_event_unit := by
  have kb : ∀ (t : State) (st : io_req_status_e),
      t.mutexes = s.mutexes ∧ t.soc_event_unit = s.soc_event_unit →
      ∀ r, ((Barrier_unit.check_barrier cfg (cfg.archi.EU_BARRIER_AREA_BARRIERID_GET offset0)
        t).bind fun s1 => some (st, s1)) = some r →
      r.2.mutexes = s.mutexes ∧ r.2.soc_event_unit = s.soc_event_unit := by
    intro t st ht
    refine ret_bind (fun u => u.mutexes = s.mutexes ∧ u.soc_event_unit = s.soc_event_unit)
      _ _ _ ?_ (fun a ha => ret_some _ _ ha)
    intro a ha
    have k := check_barrier_keeps cfg _ t a ha
    exact ⟨k.1.trans ht.1, k.2.trans ht.2⟩
  have kw : ∀ (t : State), t.mutexes = s.mutexes ∧ t.soc_event_unit = s.soc_event_unit →
      ∀ r, ((Barrier_unit.check_barrier cfg (cfg.archi.EU_BARRIER_AREA_BARRIERID_GET offset0)
        t).bind fun s2 =>
          Core_event_unit.wait_event cfg core.toNat req CORE_STATE_WAITING_BARRIER s2) = some r →
      r.2.mutexes = s.mutexes ∧ r.2.soc_event_unit = s.soc_event_unit := by
    intro t ht
    refine ret_bind (fun u => u.mutexes = s.mutexes ∧ u.soc_event_unit = s.soc_event_unit)
      _ _ _ ?_ ?_
    · intro a ha
      have k := check_barrier_keeps cfg _ t a ha
      exact ⟨k.1.trans ht.1, k.2.trans ht.2⟩
    · intro a ha r hr
      have k := wait_event_keeps cfg _ _ _ a r hr
      exact ⟨k.mutexes.trans ha.1, k.soc_event_unit.trans ha.2⟩
  have hsel : ∀ (p : Prop) [Decidable p] (t : State),
      t.mutexes = s.mutexes ∧ t.soc_event_unit = s.soc_event_unit →
      (if p then s else t).mutexes = s.mutexes ∧
        (if p then s else t).soc_event_unit = s.soc_event_unit := by
    intro p _ t ht
    split
    · exact ⟨rfl, rfl⟩
    · exact ht
  unfold Barrier_unit.req
  dsimp only
  repeat' apply ret_ite
  all_goals first
    | exact ret_some _ _ ⟨rfl, rfl⟩
    | exact kb _ _ ⟨rfl, rfl⟩
    | exact kw _ (hsel _ _ ⟨rfl, rfl⟩)

/-- The FIFO broadcast returns, within the frame of the cascade. -/
theorem soc_check_state_frame (cfg : Config) (s : State) :
    ∃ s', Soc_event_unit.check_state cfg s = some s' ∧ Frame cfg.fifo_mask s s' :=
  soc_check_state_with_frame cfg _ cfg.fifo_mask (fun _ => True) (fun _ h => h)
    (fun _ _ _ _ => trivial) (fun j hj st _ => check_state_frame cfg j st hj) s trivial

/-- A push into a FIFO that is not full: the event is stored at head, head
advances with wrap, the free count drops by one; nothing else of the FIFO,
no mutex and no barrier changes. -/
theorem sync_push (cfg : Config) (event : Int) (s : State)
    (hfree : s.soc_event_unit.nb_free_events ≠ 0) :
    ∃ s', Soc_event_unit.sync cfg event s = some s' ∧
      s'.soc_event_unit =
        { s.soc_event_unit with
          nb_free_events := s.soc_event_unit.nb_free_events - 1
          fifo_event := Function.update s.soc_event_unit.fifo_event
            s.soc_event_unit.fifo_event_head event
          fifo_event_head :=
            if s.soc_event_unit.fifo_event_head + 1 = (cfg.nb_fifo_events : Int) then 0
            else s.soc_event_unit.fifo_event_head + 1 } ∧
      s'.mutexes = s.mutexes ∧ s'.barriers = s.barriers ∧ s'.req_data = s.req_data := by
  unfold Soc_event_unit.sync
  dsimp only
  rw [if_neg hfree]
  obtain ⟨s', h, f⟩ := soc_check_state_frame cfg
    { s with
      soc_event_unit :=
        { s.soc_event_unit with
          nb_free_events := s.soc_event_unit.nb_free_events - 1
          fifo_event := Function.update s.soc_event_unit.fifo_event
            s.soc_event_unit.fifo_event_head event
          fifo_event_head :=
            if s.soc_event_unit.fifo_event_head + 1 = (cfg.nb_fifo_events : Int) then 0
            else s.soc_event_unit.fifo_event_head + 1 } }
  exact ⟨s', h, f.soc_event_unit, f.mutexes, f.barriers, f.req_data⟩

/-- A pop of a FIFO that is not empty returns OK with the word of the event at
tail; tail advances with wrap and the free count grows by one; nothing else of
the FIFO, no mutex and no barrier changes. -/
theorem ioReq_pop (cfg : Config) (req : Nat) (s : State)
    (hfree : s.soc_event_unit.nb_free_events ≠ (cfg.nb_fifo_events : Int)) :
    ∃ s', Soc_event_unit.ioReq cfg req false s = some (IO_REQ_OK, s') ∧
      s'.soc_event_unit =
        { s.soc_event_unit with
          fifo_event_tail :=
            if s.soc_event_unit.fifo_event_tail + 1 = (cfg.nb_fifo_events : Int) then 0
            else s.soc_event_unit.fifo_event_tail + 1
          nb_free_events := s.soc_event_unit.nb_free_events + 1 } ∧
      s'.req_data req =
        cfg.pop_word (s.soc_event_unit.fifo_event s.soc_event_unit.fifo_event_tail) ∧
      s'.mutexes = s.mutexes ∧ s'.barriers = s.barriers := by
  unfold Soc_event_unit.ioReq
  dsimp only
  rw [if_neg (by simp), if_neg hfree]
  split
  · obtain ⟨s', h, f⟩ := trigger_event_frame cfg (shl1 cfg.fifo_soc_event.toNat)
      (List.replicate cfg.mask_words (2 ^ 32 - 1))
      { s.set_req_data req
          (u32_of_int (Int.lor (2 ^ cfg.archi.EU_SOC_EVENTS_VALID_BIT)
            (s.soc_event_unit.fifo_event s.soc_event_unit.fifo_event_tail))) with
        soc_event_unit :=
          { s.soc_event_unit with
            fifo_event_tail :=
              if s.soc_event_unit.fifo_event_tail + 1 = (cfg.nb_fifo_events : Int) then 0
              else s.soc_event_unit.fifo_event_tail + 1
            nb_free_events := s.soc_event_unit.nb_free_events + 1 } }
    rw [h]
    refine ⟨s', rfl, f.soc_event_unit, ?_, f.mutexes, f.barriers⟩
    rw [f.req_data]
    simp [State.set_req_data, Config.pop_word]
  · refine ⟨_, rfl, rfl, ?_, rfl, rfl⟩
    simp [State.set_req_data, Config.pop_word]

/-- A pop of an empty FIFO returns OK with the word 0 and changes nothing else. -/
theorem ioReq_empty (cfg : Config) (req : Nat) (s : State)
    (hfree : s.soc_event_unit.nb_free_events = (cfg.nb_fifo_events : Int)) :
    Soc_event_unit.ioReq cfg req false s = some (IO_REQ_OK, s.set_req_data req 0) := by
  unfold Soc_event_unit.ioReq
  dsimp only
  rw [if_neg (by simp), if_pos hfree]

/-- Whatever an access to the pop register returns, it has left mutexes and
barriers alone and kept the invariant of the FIFO fields. -/
theorem ioReq_keeps (cfg : Config) (req : Nat) (is_write : Bool) (s : State) :
    ∀ r, Soc_event_unit.ioReq cfg req is_write s = some r →
      r.2.mutexes = s.mutexes ∧ r.2.barriers = s.barriers ∧ (s.fifo_lin cfg → r.2.fifo_lin cfg) := by
  intro r h
  cases is_write
  · by_cases hfree : s.soc_event_unit.nb_free_events = (cfg.nb_fifo_events : Int)
    · rw [ioReq_empty cfg req s hfree] at h
      cases h
      exact ⟨rfl, rfl, fun k => k⟩
    · obtain ⟨s', h', hs, _, hm, hb⟩ := ioReq_pop cfg req s hfree
      rw [h] at h'
      cases h'
      refine ⟨hm, hb, ?_⟩
      intro k
      unfold State.fifo_lin at k ⊢
      rw [hs]
      dsimp only
      obtain ⟨k1, k2, k3, k4, k5, k6, k7⟩ := k
      split <;> omega
  · unfold Soc_event_unit.ioReq at h
    simp only [if_true] at h
    cases h
    exact ⟨rfl, rfl, fun k => k⟩

/-- Whatever the arrival of an external event returns, it has left mutexes and
barriers alone and kept the invariant of the FIFO fields. -/
theorem sync_keeps (cfg : Config) (event : Int) (s s' : State)
    (h : Soc_event_unit.sync cfg event s = some s') :
    s'.mutexes = s.mutexes ∧ s'.barriers = s.barriers ∧ (s.fifo_lin cfg → s'.fifo_lin cfg) := by
  by_cases hfree : s.soc_event_unit.nb_free_events = 0
  · unfold Soc_event_unit.sync at h
    dsimp only at h
    rw [if_pos hfree] at h
    cases h
    exact ⟨rfl, rfl, fun k => k⟩
  · obtain ⟨s2, h2, hs, hm, hb, _⟩ := sync_push cfg event s hfree
    rw [h] at h2
    cases h2
    refine ⟨hm, hb, ?_⟩
    intro k
    unfold State.fifo_lin at k ⊢
    rw [hs]
    dsimp only
    obtain ⟨k1, k2, k3, k4, k5, k6, k7⟩ := k
    split <;> omega

theorem State.fifo_lin_ok (cfg : Config) (s : State) (h : s.fifo_lin cfg) : s.fifo_ok cfg := by
  obtain ⟨k1, k2, k3, k4, k5, k6, k7⟩ := h
  refine ⟨k1, k2, k3, k4, k5, k6, ?_⟩
  rcases k7 with k | k
  · rw [k]
  · rw [k, sub_eq_add_neg, add_comm, Int.add_emod_self]

theorem fifo_list_snoc (C : Int) (buf : Int → Int) (ev : Int) : ∀ (n : Nat) (t h : Int),
    0 ≤ t → t < C → (n : Int) < C →
    h = (if t + (n : Int) < C then t + (n : Int) else t + (n : Int) - C) →
    fifo_list C (Function.update buf h ev) (n + 1) t = fifo_list C buf n t ++ [ev] := by
  intro n
  induction n with
  | zero =>
    intro t h h0 hC _ hh
    have : h = t := by rw [hh]; simp [hC]
    subst this
    simp [fifo_list]
  | succ n ih =>
    intro t h h0 hC hn hh
    have ht : t ≠ h := by
      rw [hh]; push_cast at hn ⊢; split <;> omega
    show Function.update buf h ev t :: _ = (buf t :: _) ++ [ev]
    rw [Function.update_noteq ht, List.cons_append]
    congr 1
    apply ih
    · split <;> omega
    · split <;> omega
    · push_cast at hn; omega
    · rw [hh]; push_cast at hn ⊢
      split_ifs <;> omega

/-- A push into a FIFO that holds `l` and is not full returns, and the FIFO
then holds `l` followed by the new event. -/
theorem sync_holds (cfg : Config) (event : Int) (s : State) (l : List Int)
    (hl : s.fifo_holds cfg l) (hroom : (l.length : Int) < (cfg.nb_fifo_events : Int)) :
    ∃ s', Soc_event_unit.sync cfg event s = some s' ∧ s'.fifo_holds cfg (l ++ [event]) := by
  obtain ⟨k1, k2, k3, k4, k5, k6⟩ := hl
  obtain ⟨s', h, hs, _⟩ := sync_push cfg event s (by omega)
  refine ⟨s', h, ?_⟩
  unfold State.fifo_holds
  rw [hs]
  dsimp only
  rw [List.length_append, List.length_singleton]
  refine ⟨by push_cast; omega, by push_cast; omega, k3, k4, ?_, ?_⟩
  · rw [k5]; push_cast; split_ifs <;> omega
  · rw [fifo_list_snoc _ _ _ _ _ _ k3 k4 hroom k5, k6]

/-- A pop of a FIFO that holds `x :: l` returns OK with the word of `x`, and the
FIFO then holds `l`. -/
theorem ioReq_holds (cfg : Config) (req : Nat) (s : State) (x : Int) (l : List Int)
    (hl : s.fifo_holds cfg (x :: l)) :
    ∃ s', Soc_event_unit.ioReq cfg req false s = some (IO_REQ_OK, s') ∧
      s'.req_data req = cfg.pop_word x ∧ s'.fifo_holds cfg l := by
  obtain ⟨k1, k2, k3, k4, k5, k6⟩ := hl
  rw [List.length_cons] at k1 k2 k5 k6
  push_cast at k1 k2 k5
  obtain ⟨s', h, hs, hd, _⟩ := ioReq_pop cfg req s (by omega)
  have k6' : s.soc_event_unit.fifo_event s.soc_event_unit.fifo_event_tail :: _ = x :: l := k6
  rw [List.cons.injEq] at k6'
  refine ⟨s', h, by rw [hd, k6'.1], ?_⟩
  unfold State.fifo_holds
  rw [hs]
  dsimp only
  refine ⟨by omega, by omega, by split <;> omega, by split <;> omega, ?_, k6'.2⟩
  rw [k5]
  split_ifs <;> omega

/-- Pushing `evs` into a FIFO that holds `l` and has room for them. -/
theorem push_all_holds (cfg : Config) : ∀ (evs : List Int) (s : State) (l : List Int),
    s.fifo_holds cfg l → (l.length : Int) + (evs.length : Int) ≤ (cfg.nb_fifo_events : Int) →
    ∃ s', Soc_event_unit.push_all cfg evs s = some s' ∧ s'.fifo_holds cfg (l ++ evs) := by
  intro evs
  induction evs with
  | nil => intro s l hl _; exact ⟨s, rfl, by rwa [List.append_nil]⟩
  | cons e evs ih =>
    intro s l hl hroom
    rw [List.length_cons] at hroom
    push_cast at hroom
    obtain ⟨s1, h1, hl1⟩ := sync_holds cfg e s l hl (by omega)
    obtain ⟨s2, h2, hl2⟩ := ih s1 (l ++ [e]) hl1
      (by rw [List.length_append, List.length_singleton]; push_cast; omega)
    refine ⟨s2, ?_, by rwa [List.append_assoc] at hl2⟩
    unfold Soc_event_unit.push_all at h2 ⊢
    rw [List.foldlM_cons, h1]
    exact h2

/-- Popping a FIFO that holds `l` once per request of `reqs`. -/
theorem pop_all_holds (cfg : Config) : ∀ (l : List Int) (reqs : List Nat) (s : State),
    s.fifo_holds cfg l → reqs.length = l.length →
    ∃ s', Soc_event_unit.pop_all cfg reqs s =
        some (l.map (fun e => (IO_REQ_OK, cfg.pop_word e)), s') ∧
      s'.fifo_holds cfg [] := by
  intro l
  induction l with
  | nil =>
    intro reqs s hl hlen
    rw [List.length_nil, List.length_eq_zero] at hlen
    subst hlen
    exact ⟨s, rfl, hl⟩
  | cons x l ih =>
    intro reqs s hl hlen
    cases reqs with
    | nil => simp at hlen
    | cons req reqs =>
      obtain ⟨s1, h1, hd, hl1⟩ := ioReq_holds cfg req s x l hl
      obtain ⟨s2, h2, hl2⟩ := ih reqs s1 hl1 (by simpa using hlen)
      refine ⟨s2, ?_, hl2⟩
      show (Option.bind (Soc_event_unit.ioReq cfg req false s) _) = _
      rw [h1]
      simp only [Option.some_bind]
      rw [h2]
      simp only [Option.some_bind, List.map_cons, hd]

theorem pop_word_nat (cfg : Config) (e : Int) (h0 : 0 ≤ e) (h32 : e < 2 ^ 32)
    (hv : cfg.archi.EU_SOC_EVENTS_VALID_BIT < 32) :
    cfg.pop_word e = 2 ^ cfg.archi.EU_SOC_EVENTS_VALID_BIT ||| e.toNat := by
  obtain ⟨m, rfl⟩ := Int.eq_ofNat_of_zero_le h0
  have hm : m < 2 ^ 32 := by exact_mod_cast h32
  have hp : 2 ^ cfg.archi.EU_SOC_EVENTS_VALID_BIT < 2 ^ 32 :=
    Nat.pow_lt_pow_right (by norm_num) hv
  have hor : 2 ^ cfg.archi.EU_SOC_EVENTS_VALID_BIT ||| m < 2 ^ 32 := Nat.or_lt_two_pow hp hm
  have : Int.lor (2 ^ cfg.archi.EU_SOC_EVENTS_VALID_BIT) (m : Int) =
      ((2 ^ cfg.archi.EU_SOC_EVENTS_VALID_BIT ||| m : Nat) : Int) := by
    have : (2 ^ cfg.archi.EU_SOC_EVENTS_VALID_BIT : Int) =
        ((2 ^ cfg.archi.EU_SOC_EVENTS_VALID_BIT : Nat) : Int) := by push_cast; rfl
    rw [this]; rfl
  unfold Config.pop_word u32_of_int
  rw [this]
  have h2 : ((2 : Int) ^ 32) = ((2 ^ 32 : Nat) : Int) := by norm_num
  rw [h2, ← Int.ofNat_emod, Int.toNat_ofNat, Nat.mod_eq_of_lt hor, Int.toNat_ofNat]

theorem KeepsBit.kb_refl (cfg : Config) (n : Nat) (s : State) : KeepsBit cfg n s s :=
  ⟨CoreOnly.co_refl s, fun _ _ _ _ h => h⟩

theorem KeepsBit.kb_trans {cfg : Config} {n : Nat} {a b c : State} (h1 : KeepsBit cfg n a b)
    (h2 : KeepsBit cfg n b c) : KeepsBit cfg n a c :=
  ⟨h1.core_only.co_trans h2.core_only, fun hf hne i hi hb =>
    h2.bit hf (by rw [h1.core_only.soc_event_unit]; exact hne) i hi (h1.bit hf hne i hi hb)⟩

theorem KeepsBit.of_same_status {cfg : Config} {n : Nat} {s s' : State} (h : CoreOnly s s')
    (hst : ∀ i, (s'.core_eu i).status = (s.core_eu i).status) : KeepsBit cfg n s s' :=
  ⟨h, fun _ _ i _ hb => by rw [hst i]; exact hb⟩

theorem shl1_testBit (n : Nat) (hn : n < 32) : (shl1 n).testBit n = true := by
  unfold shl1
  rw [Nat.testBit_mod_two_pow]
  simp [hn, Nat.shiftLeft_eq, Nat.testBit_two_pow_self]

theorem all_ones_bit (w i : Nat) (hi : i / 32 < w) :
    (List.replicate w (2 ^ 32 - 1)).getD (i / 32) 0 &&& shl1 (i % 32) ≠ 0 := by
  rw [List.getD_eq_getElem _ _ (by simpa using hi), List.getElem_replicate]
  intro h
  have h1 := congrArg (fun x => x.testBit (i % 32)) h
  have hlt : i % 32 < 32 := Nat.mod_lt _ (by norm_num)
  simp only [Nat.testBit_and, shl1_testBit _ hlt, Nat.zero_testBit, Bool.and_true] at h1
  have h2 : (2 ^ 32 - 1).testBit (i % 32) = true := by
    rw [Nat.testBit_two_pow_sub_one]; simpa using hlt
  rw [h2] at h1
  exact Bool.noConfusion h1

section fifo_bit

variable (cfg : Config) (cs : Nat → State → Option State) (n : Nat)

theorem send_event_with_bit (hcs : ∀ j st st', cs j st = some st' → KeepsBit cfg n st st')
    (j m : Nat) (s s' : State) (h : send_event_with cs j m s = some s') :
    KeepsBit cfg n s s' ∧
      (m.testBit n = true → cfg.fifo_soc_event ≠ -1 →
        s.soc_event_unit.nb_free_events ≠ (cfg.nb_fifo_events : Int) → j < cfg.nb_core →
        (s'.core_eu j).status.testBit n = true) := by
  have k := hcs j _ s' h
  have k0 : KeepsBit cfg n s
      (s.set_core j ((s.core_eu j).set_status ((s.core_eu j).status ||| m))) := by
    refine ⟨CoreOnly.co_set_core s j _, fun _ _ i _ hb => ?_⟩
    by_cases hij : i = j
    · subst hij
      simp [State.set_core, Core_event_unit.set_status, Nat.testBit_or, hb]
    · simpa [State.set_core, Function.update_noteq hij] using hb
  refine ⟨k0.kb_trans k, fun hm hf hne hj => k.bit hf hne j hj ?_⟩
  simp [State.set_core, Core_event_unit.set_status, Nat.testBit_or, hm]

theorem trigger_event_with_bit (hcs : ∀ j st st', cs j st = some st' → KeepsBit cfg n st st')
    (m : Nat) (core_mask : List Nat) (s s' : State)
    (h : trigger_event_with cs cfg m core_mask s = some s') : KeepsBit cfg n s s' := by
  unfold trigger_event_with at h
  refine option_foldlM_keeps _ (KeepsBit cfg n) (KeepsBit.kb_refl cfg n)
    (fun _ _ _ => KeepsBit.kb_trans) _ ?_ s s' h
  intro j _ st st' hst
  split at hst
  · exact (send_event_with_bit cfg cs n hcs j m st st' hst).1
  · cases hst; exact KeepsBit.kb_refl cfg n st

theorem broadcast_with_bit (hcs : ∀ j st st', cs j st = some st' → KeepsBit cfg n st st')
    (m : Nat) (hm : m.testBit n = true) (hf : cfg.fifo_soc_event ≠ -1)
    (hcov : cfg.nb_core ≤ 32 * cfg.mask_words) :
    ∀ (l : List Nat) (s s' : State), (∀ j ∈ l, j < cfg.nb_core) →
      s.soc_event_unit.nb_free_events ≠ (cfg.nb_fifo_events : Int) →
      l.foldlM (fun st i =>
        if (List.replicate cfg.mask_words (2 ^ 32 - 1)).getD (i / 32) 0 &&& shl1 (i % 32) ≠ 0
        then send_event_with cs i m st else some st) s = some s' →
      ∀ i ∈ l, (s'.core_eu i).status.testBit n = true := by
  intro l
  induction l with
  | nil => intro s s' _ _ _ i hi; cases hi
  | cons j l ih =>
    intro s s' hl hne h i hi
    simp only [List.foldlM_cons, Option.bind_eq_bind, Option.bind_eq_some] at h
    obtain ⟨s1, h1, h2⟩ := h
    have hj : j < cfg.nb_core := hl j (List.mem_cons_self _ _)
    rw [if_pos (all_ones_bit _ _ (by omega))] at h1
    obtain ⟨k1, b1⟩ := send_event_with_bit cfg cs n hcs j m s s1 h1
    have hne1 : s1.soc_event_unit.nb_free_events ≠ (cfg.nb_fifo_events : Int) := by
      rw [k1.core_only.soc_event_unit]; exact hne
    have hl' : ∀ j ∈ l, j < cfg.nb_core := fun k hk => hl k (List.mem_cons_of_mem _ hk)
    by_cases hil : i ∈ l
    · exact ih s1 s' hl' hne1 h2 i hil
    · have hij : i = j := by
        rcases List.mem_cons.1 hi with h | h
        · exact h
        · exact absurd h hil
      subst hij
      have k2 : KeepsBit cfg n s1 s' := by
        refine option_foldlM_keeps _ (KeepsBit cfg n) (KeepsBit.kb_refl cfg n)
          (fun _ _ _ => KeepsBit.kb_trans) _ ?_ s1 s' h2
        intro j _ st st' hst
        split at hst
        · exact (send_event_with_bit cfg cs n hcs j m st st' hst).1
        · cases hst; exact KeepsBit.kb_refl cfg n st
      exact k2.bit hf hne1 i hj (b1 hm hf hne hj)

theorem soc_check_state_with_bit (hcs : ∀ j st st', cs j st = some st' → KeepsBit cfg n st st')
    (hn : n = cfg.fifo_soc_event.toNat) (hn32 : n < 32)
    (hcov : cfg.nb_core ≤ 32 * cfg.mask_words)
    (s s' : State) (h : Soc_event_unit.check_state_with cs cfg s = some s') :
    CoreOnly s s' ∧ (cfg.fifo_soc_event ≠ -1 →
      s.soc_event_unit.nb_free_events ≠ (cfg.nb_fifo_events : Int) →
      ∀ i, i < cfg.nb_core → (s'.core_eu i).status.testBit n = true) := by
  unfold Soc_event_unit.check_state_with at h
  split at h
  · rename_i hc
    refine ⟨(trigger_event_with_bit cfg cs n hcs _ _ s s' h).core_only, fun hf hne i hi => ?_⟩
    unfold trigger_event_with at h
    exact broadcast_with_bit cfg cs n hcs _ (by rw [← hn]; exact shl1_testBit n hn32) hf hcov
      (List.range cfg.nb_core) s s' (fun j hj => List.mem_range.1 hj) hne h i
      (List.mem_range.2 hi)
  · rename_i hc
    cases h
    exact ⟨CoreOnly.co_refl s, fun hf hne => absurd ⟨hf, hne⟩ hc⟩

theorem clear_status_with_bit (hcs : ∀ j st st', cs j st = some st' → KeepsBit cfg n st st')
    (hn : n = cfg.fifo_soc_event.toNat) (hn32 : n < 32)
    (hcov : cfg.nb_core ≤ 32 * cfg.mask_words)
    (core mask : Nat) (s s' : State) (h : clear_status_with cs cfg core mask s = some s') :
    KeepsBit cfg n s s' := by
  obtain ⟨k, b⟩ := soc_check_state_with_bit cfg cs n hcs hn hn32 hcov _ s' h
  exact ⟨(CoreOnly.co_set_core s core _).co_trans k, fun hf hne i hi _ => b hf hne i hi⟩

theorem check_wait_mask_with_bit (hcs : ∀ j st st', cs j st = some st' → KeepsBit cfg n st st')
    (hn : n = cfg.fifo_soc_event.toNat) (hn32 : n < 32)
    (hcov : cfg.nb_core ≤ 32 * cfg.mask_words)
    (core : Nat) (s s' : State) (h : check_wait_mask_with cs cfg core s = some s') :
    KeepsBit cfg n s s' := by
  unfold check_wait_mask_with at h
  split at h
  · rw [Option.bind_eq_some] at h
    obtain ⟨s1, h1, h2⟩ := h
    cases h2
    refine (clear_status_with_bit cfg cs n hcs hn hn32 hcov core _ s s1 h1).kb_trans
      (KeepsBit.of_same_status (CoreOnly.co_set_core s1 core _) ?_)
    intro i
    by_cases hi : i = core
    · subst hi; simp [State.set_core]
    · simp [State.set_core, Function.update_noteq hi]
  · cases h; exact KeepsBit.kb_refl cfg n s

theorem KeepsBit.of_set_core_status {cfg : Config} {n : Nat} (s : State) (i : Nat)
    (c : Core_event_unit) (h : c.status = (s.core_eu i).status) :
    KeepsBit cfg n s (s.set_core i c) := by
  refine KeepsBit.of_same_status (CoreOnly.co_set_core s i c) ?_
  intro j
  by_cases hj : j = i
  · subst hj; simp [State.set_core, h]
  · simp [State.set_core, Function.update_noteq hj]

theorem check_state_body_bit (hcs : ∀ j st st', cs j st = some st' → KeepsBit cfg n st st')
    (hn : n = cfg.fifo_soc_event.toNat) (hn32 : n < 32)
    (hcov : cfg.nb_core ≤ 32 * cfg.mask_words)
    (core : Nat) (s s' : State) (h : check_state_body cs cfg core s = some s') :
    KeepsBit cfg n s s' := by
  have henq : ∀ (t : State) (k : Clock_event_kind) (l : Nat),
      KeepsBit cfg n t (t.event_enqueue core k l) :=
    fun t k l => KeepsBit.of_same_status ⟨rfl, rfl, rfl⟩ (fun _ => rfl)
  unfold check_state_body at h
  dsimp only at h
  split at h
  · split at h <;> cases h
    · exact (KeepsBit.of_set_core_status s core _ (by rfl)).kb_trans
        (KeepsBit.of_same_status ⟨rfl, rfl, rfl⟩ (fun _ => rfl))
    · exact KeepsBit.kb_refl cfg n s
  · split at h
    · split at h <;> cases h
      · exact (henq s _ _).kb_trans (KeepsBit.of_set_core_status _ core _ (by rfl))
      · exact KeepsBit.kb_refl cfg n s
    · split at h
      · cases h; exact KeepsBit.kb_refl cfg n s
      · split at h
        · rw [Option.bind_eq_some] at h
          obtain ⟨s3, h3, h4⟩ := h
          have k := (KeepsBit.of_set_core_status s core _ (by rfl)).kb_trans
            (check_wait_mask_with_bit cfg cs n hcs hn hn32 hcov core _ s3 h3)
          split at h4 <;> cases h4
          · exact k.kb_trans (henq s3 _ _)
          · exact k
        · cases h; exact KeepsBit.kb_refl cfg n s

end fifo_bit

theorem check_state_fuel_bit (cfg : Config) (n : Nat) (hn : n = cfg.fifo_soc_event.toNat)
    (hn32 : n < 32) (hcov : cfg.nb_core ≤ 32 * cfg.mask_words) :
    ∀ (fuel core : Nat) (s s' : State),
      check_state_fuel cfg fuel core s = some s' → KeepsBit cfg n s s' := by
  intro fuel
  induction fuel with
  | zero => intro core s s' h; cases h
  | succ k ih =>
    intro core s s' h
    exact check_state_body_bit cfg (check_state_fuel cfg k) n (fun j => ih j) hn hn32 hcov
      core s s' h

/-- The broadcast of the FIFO event to all cores, with a FIFO that is not empty,
leaves every core of the unit with the FIFO event bit latched. -/
theorem fifo_broadcast_sets (cfg : Config) (hf0 : 0 ≤ cfg.fifo_soc_event)
    (hf32 : cfg.fifo_soc_event < 32) (hcov : cfg.nb_core ≤ 32 * cfg.mask_words)
    (s s' : State) (hne : s.soc_event_unit.nb_free_events ≠ (cfg.nb_fifo_events : Int))
    (h : Event_unit.trigger_event cfg (shl1 cfg.fifo_soc_event.toNat)
      (List.replicate cfg.mask_words (2 ^ 32 - 1)) s = some s') :
    ∀ i, i < cfg.nb_core → (s'.core_eu i).status.testBit cfg.fifo_soc_event.toNat = true := by
  have hn32 : cfg.fifo_soc_event.toNat < 32 := by omega
  intro i hi
  unfold Event_unit.trigger_event trigger_event_with at h
  exact broadcast_with_bit cfg _ _
    (check_state_fuel_bit cfg _ rfl hn32 hcov _) _ (shl1_testBit _ hn32) (by omega) hcov
    (List.range cfg.nb_core) s s' (fun j hj => List.mem_range.1 hj) hne h i
    (List.mem_range.2 hi)

theorem cores_in_all_ones (cfg : Config) (hcov : cfg.nb_core ≤ 32 * cfg.mask_words) :
    cfg.cores_in (List.replicate cfg.mask_words (2 ^ 32 - 1)) = List.range cfg.nb_core := by
  unfold Config.cores_in
  rw [List.filter_eq_self]
  intro i hi
  have hi' := List.mem_range.1 hi
  exact decide_eq_true (all_ones_bit _ _ (by omega))

/-- C15: FIFO order round trip. Starting from an empty FIFO whose tail indexes
the buffer (so the capacity `C` is positive), the pushes of `k ≤ C` events (`Soc_event_unit::sync`) all return; the `k`
pops that follow (`Soc_event_unit::ioReq`) return OK with the events in push
order, each as the word `(1 << EU_SOC_EVENTS_VALID_BIT) | event`; one more pop
returns OK with the word 0 and changes nothing but the data word of its request
(the FIFO fields are unchanged). For an event id that fits 32 bits with a valid
bit below 32 the popped word is the id with the valid bit ORed in. -/
theorem C15_fifo_round_trip (cfg : Config) (s : State) (evs : List Int) (reqs : List Nat)
    (req : Nat)
    (hfree : s.soc_event_unit.nb_free_events = (cfg.nb_fifo_events : Int))
    (hht : s.soc_event_unit.fifo_event_head = s.soc_event_unit.fifo_event_tail)
    (ht0 : 0 ≤ s.soc_event_unit.fifo_event_tail)
    (htC : s.soc_event_unit.fifo_event_tail < (cfg.nb_fifo_events : Int))
    (hk : evs.length ≤ cfg.nb_fifo_events) (hlen : reqs.length = evs.length) :
    ∃ s1 s2,
      Soc_event_unit.push_all cfg evs s = some s1 ∧
      Soc_event_unit.pop_all cfg reqs s1 =
        some (evs.map (fun e => (IO_REQ_OK, cfg.pop_word e)), s2) ∧
      Soc_event_unit.ioReq cfg req false s2 = some (IO_REQ_OK, s2.set_req_data req 0) ∧
      (s2.set_req_data req 0).req_data req = 0 ∧
      (s2.set_req_data req 0).soc_event_unit = s2.soc_event_unit ∧
      ∀ e ∈ evs, 0 ≤ e → e < 2 ^ 32 → cfg.archi.EU_SOC_EVENTS_VALID_BIT < 32 →
        cfg.pop_word e = 2 ^ cfg.archi.EU_SOC_EVENTS_VALID_BIT ||| e.toNat := by
  have h0 : s.fifo_holds cfg [] := by
    refine ⟨by simpa using hfree, by simp, ht0, htC, ?_, rfl⟩
    simp [hht, htC]
  obtain ⟨s1, h1, hl1⟩ := push_all_holds cfg evs s [] h0 (by simpa using hk)
  rw [List.nil_append] at hl1
  obtain ⟨s2, h2, hl2⟩ := pop_all_holds cfg evs reqs s1 hl1 hlen
  refine ⟨s1, s2, h1, h2, ioReq_empty cfg req s2 (by simpa using hl2.1), ?_, rfl, ?_⟩
  · simp [State.set_req_data]
  · intro e _ he0 he32 hv
    exact pop_word_nat cfg e he0 he32 hv

/-- C15 at a concrete input: the events 11 and 12 pushed into the empty FIFO of
the demo unit (capacity 2, valid bit 31) come back as `0x8000000b` and
`0x8000000c`, and a third pop returns 0. -/
theorem C15_fifo_round_trip_witness :
    ∃ s1 s2,
      Soc_event_unit.push_all demo_cfg [11, 12] demo_state = some s1 ∧
      Soc_event_unit.pop_all demo_cfg [5, 6] s1 =
        some ([(IO_REQ_OK, 0x8000000b), (IO_REQ_OK, 0x8000000c)], s2) ∧
      Soc_event_unit.ioReq demo_cfg 7 false s2 = some (IO_REQ_OK, s2.set_req_data 7 0) := by
  obtain ⟨s1, s2, h1, h2, h3, _, _, h6⟩ :=
    C15_fifo_round_trip demo_cfg demo_state [11, 12] [5, 6] 7 (by decide) (by decide)
      (by decide) (by decide) (by decide) (by decide)
  refine ⟨s1, s2, h1, ?_, h3⟩
  rw [h2]
  have e1 := h6 11 (by simp) (by norm_num) (by norm_num) (by decide)
  have e2 := h6 12 (by simp) (by norm_num) (by norm_num) (by decide)
  simp only [List.map_cons, List.map_nil, e1, e2]
  rfl

/-- C16: a pop read of the FIFO, with the FIFO event configured as bit
`fifo_soc_event` of the status words. If events remain after the dequeue, the
pop sends the FIFO event to every core of the unit, in the order of the cores,
and every core has the bit latched when the pop returns. If the dequeue empties
the FIFO, or the FIFO was empty, the pop returns OK and changes no core, no
scheduled wake-up and no output: no event is raised. -/
theorem C16_pop_rebroadcast (cfg : Config) (req : Nat) (s : State)
    (hf0 : 0 ≤ cfg.fifo_soc_event) (hf32 : cfg.fifo_soc_event < 32)
    (hcov : cfg.nb_core ≤ 32 * cfg.mask_words) :
    (s.soc_event_unit.nb_free_events ≠ (cfg.nb_fifo_events : Int) →
      s.soc_event_unit.nb_free_events + 1 ≠ (cfg.nb_fifo_events : Int) →
      ∃ s_pop s',
        s_pop.core_eu = s.core_eu ∧ s_pop.events = s.events ∧ s_pop.out = s.out ∧
        s_pop.soc_event_unit.nb_free_events = s.soc_event_unit.nb_free_events + 1 ∧
        send_events cfg
          ((List.range cfg.nb_core).map fun i => (i, shl1 cfg.fifo_soc_event.toNat)) s_pop =
            some s' ∧
        Soc_event_unit.ioReq cfg req false s = some (IO_REQ_OK, s') ∧
        ∀ i, i < cfg.nb_core →
          (s'.core_eu i).status.testBit cfg.fifo_soc_event.toNat = true) ∧
    (s.soc_event_unit.nb_free_events = (cfg.nb_fifo_events : Int) ∨
      s.soc_event_unit.nb_free_events + 1 = (cfg.nb_fifo_events : Int) →
      ∃ s', Soc_event_unit.ioReq cfg req false s = some (IO_REQ_OK, s') ∧
        s'.core_eu = s.core_eu ∧ s'.events = s.events ∧ s'.out = s.out) := by
  constructor
  · intro hne hrem
    have hio : Soc_event_unit.ioReq cfg req false s =
        (Event_unit.trigger_event cfg (shl1 cfg.fifo_soc_event.toNat)
          (List.replicate cfg.mask_words (2 ^ 32 - 1))
          { s.set_req_data req
              (u32_of_int (Int.lor (2 ^ cfg.archi.EU_SOC_EVENTS_VALID_BIT)
                (s.soc_event_unit.fifo_event s.soc_event_unit.fifo_event_tail))) with
            soc_event_unit :=
              { s.soc_event_unit with
                fifo_event_tail :=
                  if s.soc_event_unit.fifo_event_tail + 1 = (cfg.nb_fifo_events : Int) then 0
                  else s.soc_event_unit.fifo_event_tail + 1
                nb_free_events := s.soc_event_unit.nb_free_events + 1 } }).bind
          fun s3 => some (IO_REQ_OK, s3) := by
      unfold Soc_event_unit.ioReq
      dsimp only
      rw [if_neg (by simp), if_neg hne, if_pos hrem]
    obtain ⟨sp, hsp⟩ : ∃ sp : State, sp =
        { s.set_req_data req
            (u32_of_int (Int.lor (2 ^ cfg.archi.EU_SOC_EVENTS_VALID_BIT)
              (s.soc_event_unit.fifo_event s.soc_event_unit.fifo_event_tail))) with
          soc_event_unit :=
            { s.soc_event_unit with
              fifo_event_tail :=
                if s.soc_event_unit.fifo_event_tail + 1 = (cfg.nb_fifo_events : Int) then 0
                else s.soc_event_unit.fifo_event_tail + 1
              nb_free_events := s.soc_event_unit.nb_free_events + 1 } } := ⟨_, rfl⟩
    rw [← hsp] at hio
    have hfree : sp.soc_event_unit.nb_free_events = s.soc_event_unit.nb_free_events + 1 := by
      rw [hsp]
    obtain ⟨s', h, _⟩ := trigger_event_frame cfg (shl1 cfg.fifo_soc_event.toNat)
      (List.replicate cfg.mask_words (2 ^ 32 - 1)) sp
    refine ⟨sp, s', by rw [hsp]; rfl, by rw [hsp]; rfl, by rw [hsp]; rfl, hfree, ?_,
      by rw [hio, h]; rfl, ?_⟩
    · rw [← cores_in_all_ones cfg hcov, ← trigger_event_eq_send_events]
      exact h
    · exact fifo_broadcast_sets cfg hf0 hf32 hcov sp s' (by rw [hfree]; exact hrem) h
  · intro hcase
    by_cases hfree : s.soc_event_unit.nb_free_events = (cfg.nb_fifo_events : Int)
    · exact ⟨_, ioReq_empty cfg req s hfree, rfl, rfl, rfl⟩
    · have hlast : s.soc_event_unit.nb_free_events + 1 = (cfg.nb_fifo_events : Int) :=
        hcase.resolve_left hfree
      obtain ⟨sp, hsp⟩ : ∃ sp : State, sp =
          { s.set_req_data req
              (u32_of_int (Int.lor (2 ^ cfg.archi.EU_SOC_EVENTS_VALID_BIT)
                (s.soc_event_unit.fifo_event s.soc_event_unit.fifo_event_tail))) with
            soc_event_unit :=
              { s.soc_event_unit with
                fifo_event_tail :=
                  if s.soc_event_unit.fifo_event_tail + 1 = (cfg.nb_fifo_events : Int) then 0
                  else s.soc_event_unit.fifo_event_tail + 1
                nb_free_events := s.soc_event_unit.nb_free_events + 1 } } := ⟨_, rfl⟩
      have hio : Soc_event_unit.ioReq cfg req false s = some (IO_REQ_OK, sp) := by
        unfold Soc_event_unit.ioReq
        dsimp only
        rw [if_neg (by simp), if_neg hfree, if_neg (by simpa using hlast), hsp]
      exact ⟨sp, hio, by rw [hsp]; rfl, by rw [hsp]; rfl, by rw [hsp]; rfl⟩

/-- C16 at a concrete input: a pop of the full FIFO of the demo unit (capacity
2) leaves one event behind and latches the FIFO event, bit 3, on the four
cores. -/
theorem C16_pop_rebroadcast_witness :
    ∃ s', Soc_event_unit.ioReq demo_cfg 5 false demo_state_fifo_full = some (IO_REQ_OK, s') ∧
      ∀ i, i < 4 → (s'.core_eu i).status.testBit 3 = true := by
  obtain ⟨_, s', _, _, _, _, _, h, hb⟩ :=
    (C16_pop_rebroadcast demo_cfg 5 demo_state_fifo_full (by decide) (by decide)
      (by decide)).1 (by decide) (by decide)
  exact ⟨s', h, hb⟩

/-! ## Invariants of the reachable states -/

theorem ret_ite_cond {α : Type} (P : α → Prop) (c : Prop) [Decidable c] (a b : Option α)
    (ha : c → ∀ r, a = some r → P r) (hb : ¬c → ∀ r, b = some r → P r) :
    ∀ r, (if c then a else b) = some r → P r := by
  intro r h
  split at h
  · rename_i hc; exact ha hc r h
  · rename_i hc; exact hb hc r h

/-- The accesses routed by `Event_unit::req`: rejected at once, or handed to the
register block of a core of the unit, to the pop register, to the software
events or to the barriers. -/
theorem event_unit_req_cases (cfg : Config) (req offset size : Nat) (is_write : Bool)
    (s : State) (P : io_req_status_e × State → Prop)
    (hinv : P (IO_REQ_INVALID, s))
    (hcore : ∀ c off r, c < cfg.nb_core →
      Core_event_unit.req cfg c req off is_write s = some r → P r)
    (hio : ∀ r, Soc_event_unit.ioReq cfg req is_write s = some r → P r)
    (hsw : ∀ off core r, Event_unit.sw_events_req cfg req off is_write core s = some r → P r)
    (hbar : ∀ off core r, Barrier_unit.req cfg req off is_write core s = some r → P r) :
    ∀ r, Event_unit.req cfg req offset size is_write s = some r → P r := by
  unfold Event_unit.req
  dsimp only
  apply ret_ite
  · exact ret_some _ _ hinv
  apply ret_ite
  · apply ret_ite_cond
    · exact fun _ => ret_some _ _ hinv
    · intro hc r h
      exact hcore _ _ r (Nat.lt_of_not_le hc) h
  apply ret_ite
  · exact hio
  apply ret_ite
  · exact hsw _ _
  apply ret_ite
  · exact hbar _ _
  · exact ret_some _ _ hinv

/-- The accesses routed by `Event_unit::demux_req` for the port of `core`. -/
theorem demux_req_cases (cfg : Config) (core req offset size : Nat) (is_write : Bool)
    (s : State) (P : io_req_status_e × State → Prop)
    (hinv : P (IO_REQ_INVALID, s))
    (hcore : ∀ off r, Core_event_unit.req cfg core req off is_write s = some r → P r)
    (hmut : ∀ off r, Mutex_unit.req cfg req off is_write core s = some r → P r)
    (hsw : ∀ off r, Event_unit.sw_events_req cfg req off is_write (core : Int) s = some r → P r)
    (hbar : ∀ off r, Barrier_unit.req cfg req off is_write (core : Int) s = some r → P r) :
    ∀ r, Event_unit.demux_req cfg core req offset size is_write s = some r → P r := by
  unfold Event_unit.demux_req
  dsimp only
  apply ret_ite
  · exact ret_some _ _ hinv
  apply ret_ite
  · exact hcore _
  apply ret_ite
  · exact hmut _
  apply ret_ite
  · exact hsw _
  apply ret_ite
  · exact hbar _
  · exact ret_some _ _ hinv

theorem State.fifo_lin_of_eq (cfg : Config) {s s' : State}
    (h : s'.soc_event_unit = s.soc_event_unit) (k : s.fifo_lin cfg) : s'.fifo_lin cfg := by
  unfold State.fifo_lin at k ⊢
  rw [h]; exact k

theorem State.barriers_ok_of_eq (cfg : Config) {s s' : State}
    (h : s'.barriers = s.barriers) (k : s.barriers_ok cfg) : s'.barriers_ok cfg := by
  unfold State.barriers_ok at k ⊢
  rw [h]; exact k

/-- Whatever an access to the barrier block returns, it has kept the barrier
invariant. -/
theorem barrier_req_barriers_ok (cfg : Config) (req offset0 : Nat) (is_write : Bool)
    (core : Int) (s : State) (r : io_req_status_e × State)
    (h : Barrier_unit.req cfg req offset0 is_write core s = some r) (k : s.barriers_ok cfg) :
    r.2.barriers_ok cfg := by
  rcases barrier_req_checks cfg req offset0 is_write core s r h with hsame | ⟨sm, s2, hm, hc, hr⟩
  · exact State.barriers_ok_of_eq cfg hsame.1 k
  · obtain ⟨s2', hc', _, _, hoth, _, _, _, hz⟩ := check_barrier_total cfg
      (cfg.archi.EU_BARRIER_AREA_BARRIERID_GET offset0) sm
    rw [hc] at hc'
    cases hc'
    have k2 : s2.barriers_ok cfg := by
      intro id hid heq
      by_cases hj : id = cfg.archi.EU_BARRIER_AREA_BARRIERID_GET offset0
      · subst hj; exact hz heq
      · rw [hoth id hj, hm id hj] at heq ⊢
        exact k id hid heq
    rcases hr with hr | hr
    · rw [hr]; exact k2
    · exact State.barriers_ok_of_eq cfg (wait_event_keeps cfg _ _ _ s2 r hr).barriers k2

theorem foldl_keeps {α : Type} (f : State → α → State) (R : State → State → Prop)
    (hrefl : ∀ s, R s s) (htrans : ∀ a b c, R a b → R b c → R a c)
    (hf : ∀ st j, R st (f st j)) : ∀ (l : List α) (s : State), R s (l.foldl f s) := by
  intro l
  induction l with
  | nil => intro s; exact hrefl s
  | cons j l ih => intro s; exact htrans _ _ _ (hf s j) (ih (f s j))

theorem barrier_reset_zero (cfg : Config) (s : State) (id : Nat) (hid : id < cfg.nb_barriers) :
    ∀ x ∈ ((Barrier_unit.reset cfg s).barriers id).status, x = 0 := by
  unfold Barrier_unit.reset
  have key : ∀ (l : List Nat) (st : State),
      (id ∈ l ∨ ∀ x ∈ (st.barriers id).status, x = 0) →
      ∀ x ∈ ((l.foldl
        (fun st i =>
          st.set_barrier i
            { core_mask := List.replicate (st.barriers i).core_mask.length 0
              status := List.replicate (st.barriers i).status.length 0
              target_mask := List.replicate (st.barriers i).target_mask.length 0 })
        st).barriers id).status, x = 0 := by
    intro l
    induction l with
    | nil =>
      intro st h
      rcases h with h | h
      · cases h
      · exact h
    | cons j l ih =>
      intro st h
      rw [List.foldl_cons]
      apply ih
      by_cases hj : id = j
      · right
        subst hj
        intro x hx
        simp only [State.set_barrier, Function.update_same] at hx
        exact (List.mem_replicate.1 hx).2
      · rcases h with h | h
        · left
          rcases List.mem_cons.1 h with h | h
          · exact absurd h hj
          · exact h
        · right
          simpa [State.set_barrier, Function.update_noteq hj] using h
  exact key _ s (Or.inl (List.mem_range.2 hid))

/-- After a reset the FIFO is empty with head and tail at 0, and the status of
every barrier of the unit is all-zero. -/
theorem reset_true_spec (cfg : Config) (s : State) :
    (Event_unit.reset cfg true s).soc_event_unit.nb_free_events = (cfg.nb_fifo_events : Int) ∧
    (Event_unit.reset cfg true s).soc_event_unit.fifo_event_head = 0 ∧
    (Event_unit.reset cfg true s).soc_event_unit.fifo_event_tail = 0 ∧
    ∀ id, id < cfg.nb_barriers →
      ∀ x ∈ ((Event_unit.reset cfg true s).barriers id).status, x = 0 := by
  refine ⟨rfl, rfl, rfl, ?_⟩
  intro id hid
  have hb : ∀ t : State, (Soc_event_unit.reset cfg (Mutex_unit.reset cfg t)).barriers =
      t.barriers := by
    intro t
    show (Mutex_unit.reset cfg t).barriers = t.barriers
    unfold Mutex_unit.reset
    exact foldl_keeps (fun st i => st.set_mutex i (st.mutexes i).reset)
      (fun a b => b.barriers = a.barriers) (fun _ => rfl)
      (fun _ _ _ h1 h2 => h2.trans h1) (fun _ _ => rfl) _ t
  show ∀ x ∈ ((Soc_event_unit.reset cfg (Mutex_unit.reset cfg (Barrier_unit.reset cfg _))).barriers
    id).status, x = 0
  rw [hb]
  exact barrier_reset_zero cfg _ id hid

theorem reset_invariants (cfg : Config) (active : Bool) (s : State) :
    ((0 < cfg.nb_fifo_events → s.fifo_lin cfg) → 0 < cfg.nb_fifo_events →
      (Event_unit.reset cfg active s).fifo_lin cfg) ∧
    (s.barriers_ok cfg → (Event_unit.reset cfg active s).barriers_ok cfg) := by
  cases active
  · exact ⟨fun h hC => h hC, fun h => h⟩
  · obtain ⟨h1, h2, h3, h4⟩ := reset_true_spec cfg s
    refine ⟨fun _ hC => ?_, fun _ id hid _ => h4 id hid⟩
    unfold State.fifo_lin
    rw [h1, h2, h3]
    have : (0 : Int) < (cfg.nb_fifo_events : Int) := by exact_mod_cast hC
    omega

/-- Every action keeps the invariant of the FIFO fields (for a positive
capacity) and the barrier invariant. -/
theorem step_invariants (cfg : Config) (a : Action) (s s' : State)
    (h : a.step cfg s = some s') :
    ((0 < cfg.nb_fifo_events → s.fifo_lin cfg) → 0 < cfg.nb_fifo_events → s'.fifo_lin cfg) ∧
      (s.barriers_ok cfg → s'.barriers_ok cfg) := by
  have of_pair : ∀ {t t' : State}, (t.fifo_lin cfg → t'.fifo_lin cfg) →
      (t.barriers_ok cfg → t'.barriers_ok cfg) →
      ((0 < cfg.nb_fifo_events → t.fifo_lin cfg) → 0 < cfg.nb_fifo_events → t'.fifo_lin cfg) ∧
        (t.barriers_ok cfg → t'.barriers_ok cfg) :=
    fun f b => ⟨fun p hC => f (p hC), b⟩
  have of_core : ∀ {t t' : State}, CoreOnly t t' →
      ((0 < cfg.nb_fifo_events → t.fifo_lin cfg) → 0 < cfg.nb_fifo_events → t'.fifo_lin cfg) ∧
        (t.barriers_ok cfg → t'.barriers_ok cfg) :=
    fun k => of_pair (State.fifo_lin_of_eq cfg k.soc_event_unit)
      (State.barriers_ok_of_eq cfg k.barriers)
  cases a with
  | req r offset size is_write data =>
    simp only [Action.step, Option.map_eq_some'] at h
    obtain ⟨x, hx, rfl⟩ := h
    obtain ⟨s0, hs0⟩ : ∃ s0 : State, s0 = s.set_req_data r data := ⟨_, rfl⟩
    rw [← hs0] at hx
    have k0 : CoreOnly s s0 := by rw [hs0]; exact ⟨rfl, rfl, rfl⟩
    have key : (s0.fifo_lin cfg → x.2.fifo_lin cfg) ∧
        (s0.barriers_ok cfg → x.2.barriers_ok cfg) := by
      refine event_unit_req_cases cfg r offset size is_write s0
        (fun x => (s0.fifo_lin cfg → x.2.fifo_lin cfg) ∧
          (s0.barriers_ok cfg → x.2.barriers_ok cfg))
        ⟨fun k => k, fun k => k⟩ ?_ ?_ ?_ ?_ x hx
      · intro c off x _ hx
        have k := core_req_keeps cfg c r off is_write _ x hx
        exact ⟨State.fifo_lin_of_eq cfg k.soc_event_unit, State.barriers_ok_of_eq cfg k.barriers⟩
      · intro x hx
        obtain ⟨_, hb, hf⟩ := ioReq_keeps cfg r is_write _ x hx
        exact ⟨hf, State.barriers_ok_of_eq cfg hb⟩
      · intro off core x hx
        have k := sw_events_req_keeps cfg r off is_write core _ x hx
        exact ⟨State.fifo_lin_of_eq cfg k.soc_event_unit, State.barriers_ok_of_eq cfg k.barriers⟩
      · intro off core x hx
        exact ⟨State.fifo_lin_of_eq cfg (barrier_req_keeps cfg r off is_write core _ x hx).2,
          barrier_req_barriers_ok cfg r off is_write core _ x hx⟩
    exact of_pair
      (fun k => key.1 (State.fifo_lin_of_eq cfg k0.soc_event_unit k))
      (fun k => key.2 (State.barriers_ok_of_eq cfg k0.barriers k))
  | demux_req core r offset size is_write data =>
    simp only [Action.step, Option.map_eq_some'] at h
    obtain ⟨x, hx, rfl⟩ := h
    obtain ⟨s0, hs0⟩ : ∃ s0 : State, s0 = s.set_req_data r data := ⟨_, rfl⟩
    rw [← hs0] at hx
    have k0 : CoreOnly s s0 := by rw [hs0]; exact ⟨rfl, rfl, rfl⟩
    have key : (s0.fifo_lin cfg → x.2.fifo_lin cfg) ∧
        (s0.barriers_ok cfg → x.2.barriers_ok cfg) := by
      refine demux_req_cases cfg core r offset size is_write s0
        (fun x => (s0.fifo_lin cfg → x.2.fifo_lin cfg) ∧
          (s0.barriers_ok cfg → x.2.barriers_ok cfg))
        ⟨fun k => k, fun k => k⟩ ?_ ?_ ?_ ?_ x hx
      · intro off x hx
        have k := core_req_keeps cfg core r off is_write _ x hx
        exact ⟨State.fifo_lin_of_eq cfg k.soc_event_unit, State.barriers_ok_of_eq cfg k.barriers⟩
      · intro off x hx
        obtain ⟨hb, hf⟩ := mutex_req_keeps cfg r off is_write core _ x hx
        exact ⟨State.fifo_lin_of_eq cfg hf, State.barriers_ok_of_eq cfg hb⟩
      · intro off x hx
        have k := sw_events_req_keeps cfg r off is_write core _ x hx
        exact ⟨State.fifo_lin_of_eq cfg k.soc_event_unit, State.barriers_ok_of_eq cfg k.barriers⟩
      · intro off x hx
        exact ⟨State.fifo_lin_of_eq cfg (barrier_req_keeps cfg r off is_write core _ x hx).2,
          barrier_req_barriers_ok cfg r off is_write core _ x hx⟩
    exact of_pair
      (fun k => key.1 (State.fifo_lin_of_eq cfg k0.soc_event_unit k))
      (fun k => key.2 (State.barriers_ok_of_eq cfg k0.barriers k))
  | irq_ack_sync irq core => exact of_core (irq_ack_sync_keeps cfg irq core s s' h)
  | in_event_sync id => exact of_core (in_event_sync_keeps cfg id s s' h)
  | soc_event event =>
    obtain ⟨_, hb, hf⟩ := sync_keeps cfg event s s' h
    exact of_pair hf (State.barriers_ok_of_eq cfg hb)
  | reset active =>
    simp only [Action.step, Option.some.injEq] at h
    subst h
    exact reset_invariants cfg active s
  | tick => exact of_core (tick_keeps cfg s s' h)

/-- In every reachable state the FIFO fields satisfy their invariant (for a
positive capacity) and the barriers theirs. -/
theorem reachable_invariants (cfg : Config) (s : State) (h : Reachable cfg s) :
    (0 < cfg.nb_fifo_events → s.fifo_lin cfg) ∧ s.barriers_ok cfg := by
  induction h with
  | init s0 _ =>
    obtain ⟨h1, h2, h3, h4⟩ := reset_true_spec cfg s0
    refine ⟨fun hC => ?_, fun id hid _ => h4 id hid⟩
    unfold State.fifo_lin
    rw [h1, h2, h3]
    have : (0 : Int) < (cfg.nb_fifo_events : Int) := by exact_mod_cast hC
    omega
  | step s1 s2 a _ _ hstep ih =>
    exact ⟨(step_invariants cfg a s1 s2 hstep).1 ih.1,
      (step_invariants cfg a s1 s2 hstep).2 ih.2⟩

theorem reachable_run (cfg : Config) : ∀ (acts : List Action) (s s' : State),
    Reachable cfg s → (∀ a ∈ acts, a.well_formed cfg) → run cfg acts s = some s' →
    Reachable cfg s' := by
  intro acts
  induction acts with
  | nil =>
    intro s s' hr _ h
    simp only [run, List.foldlM_nil, Option.pure_def, Option.some.injEq] at h
    subst h; exact hr
  | cons a acts ih =>
    intro s s' hr hw h
    simp only [run, List.foldlM_cons, Option.bind_eq_bind, Option.bind_eq_some] at h
    obtain ⟨s1, h1, h2⟩ := h
    exact ih s1 s' (Reachable.step s s1 a hr (hw a (List.mem_cons_self _ _)) h1)
      (fun b hb => hw b (List.mem_cons_of_mem _ hb)) h2

theorem demo_state_power_on : demo_state.power_on demo_cfg :=
  ⟨rfl, fun _ => rfl, fun _ => ⟨rfl, rfl, rfl⟩⟩

/-- C17: FIFO state invariant. For a capacity `C > 0`, in every state that the
unit reaches from its reset by pushes, pops, resets and any other action,
`0 ≤ nb_free_events ≤ C`, head and tail are in `[0, C)`, and
`(head - tail) mod C = (C - nb_free_events) mod C`. -/
theorem C17_fifo_invariant (cfg : Config) (s : State) (hC : 0 < cfg.nb_fifo_events)
    (h : Reachable cfg s) :
    0 ≤ s.soc_event_unit.nb_free_events ∧
    s.soc_event_unit.nb_free_events ≤ (cfg.nb_fifo_events : Int) ∧
    0 ≤ s.soc_event_unit.fifo_event_head ∧
    s.soc_event_unit.fifo_event_head < (cfg.nb_fifo_events : Int) ∧
    0 ≤ s.soc_event_unit.fifo_event_tail ∧
    s.soc_event_unit.fifo_event_tail < (cfg.nb_fifo_events : Int) ∧
    (s.soc_event_unit.fifo_event_head - s.soc_event_unit.fifo_event_tail) %
        (cfg.nb_fifo_events : Int) =
      ((cfg.nb_fifo_events : Int) - s.soc_event_unit.nb_free_events) %
        (cfg.nb_fifo_events : Int) :=
  State.fifo_lin_ok cfg s ((reachable_invariants cfg s h).1 hC)

/-- C11: barrier invariant. In every state that the unit reaches from its reset
by any sequence of register accesses, external signals, resets and ticks, a
barrier of the unit whose status equals its participant mask has an all-zero
status. -/
theorem C11_barrier_invariant (cfg : Config) (s : State) (h : Reachable cfg s) (id : Nat)
    (hid : id < cfg.nb_barriers)
    (heq : (s.barriers id).status = (s.barriers id).core_mask) :
    ∀ x ∈ (s.barriers id).status, x = 0 :=
  (reachable_invariants cfg s h).2 id hid heq

/-- C17 at a concrete input: the demo unit (capacity 2) after a reset, two
pushes. -/
theorem C17_fifo_invariant_witness :
    ∃ s, run demo_cfg
        [Action.soc_event 11, Action.soc_event 12]
        (Event_unit.reset demo_cfg true demo_state) = some s ∧
      s.soc_event_unit.nb_free_events = 0 ∧
      0 ≤ s.soc_event_unit.fifo_event_head ∧ s.soc_event_unit.fifo_event_head < 2 ∧
      0 ≤ s.soc_event_unit.fifo_event_tail ∧ s.soc_event_unit.fifo_event_tail < 2 := by
  have hsome : (run demo_cfg
      [Action.soc_event 11, Action.soc_event 12]
      (Event_unit.reset demo_cfg true demo_state)).map
        (fun s => s.soc_event_unit.nb_free_events) = some 0 := by decide
  rw [Option.map_eq_some'] at hsome
  obtain ⟨s, hs, hfree⟩ := hsome
  have hr : Reachable demo_cfg s := by
    refine reachable_run demo_cfg _ _ s (Reachable.init demo_state demo_state_power_on) ?_ hs
    intro a ha
    simp only [List.mem_cons, List.mem_singleton, List.not_mem_nil, or_false] at ha
    rcases ha with rfl | rfl <;> simp [Action.well_formed]
  obtain ⟨_, _, h3, h4, h5, h6, _⟩ := C17_fifo_invariant demo_cfg s (by decide) hr
  exact ⟨s, hs, hfree, h3, h4, h5, h6⟩

/-- C11 at a concrete input: the demo unit after a reset, a write of the
participant mask of barrier 0 (core 0 alone), the arrival of core 0, and a write
that empties the participant mask again. -/
theorem C11_barrier_invariant_witness :
    ∃ s, run demo_cfg
        [Action.req 5 0x400 4 true 1, Action.demux_req 0 6 0x2a0 4 true 0,
          Action.req 5 0x400 4 true 0]
        (Event_unit.reset demo_cfg true demo_state) = some s ∧
      (s.barriers 0).status = (s.barriers 0).core_mask ∧
      ∀ x ∈ (s.barriers 0).status, x = 0 := by
  have hsome : (run demo_cfg
      [Action.req 5 0x400 4 true 1, Action.demux_req 0 6 0x2a0 4 true 0,
        Action.req 5 0x400 4 true 0]
      (Event_unit.reset demo_cfg true demo_state)).map
        (fun s => decide ((s.barriers 0).status = (s.barriers 0).core_mask)) = some true := by
    decide
  rw [Option.map_eq_some'] at hsome
  obtain ⟨s, hs, heq⟩ := hsome
  have hr : Reachable demo_cfg s := by
    refine reachable_run demo_cfg _ _ s (Reachable.init demo_state demo_state_power_on) ?_ hs
    intro a ha
    simp only [List.mem_cons, List.mem_singleton, List.not_mem_nil, or_false] at ha
    rcases ha with rfl | rfl | rfl <;> simp [Action.well_formed, demo_cfg]
  exact ⟨s, hs, of_decide_eq_true heq,
    C11_barrier_invariant demo_cfg s hr 0 (by decide) (of_decide_eq_true heq)⟩

/-! ## Wake-up uniqueness -/

theorem run_snoc (cfg : Config) (acts : List Action) (a : Action) (s : State) :
    run cfg (acts ++ [a]) s = (run cfg acts s).bind (a.step cfg) := by
  unfold run
  rw [List.foldlM_append]
  cases List.foldlM (fun st a => a.step cfg st) s acts with
  | none => rfl
  | some s1 => simp [List.foldlM_cons, List.foldlM_nil]

/-- A wait (or any operation ending in `wait_event`) of a core that has a masked
event latched enqueues the generic wake-up of the core without looking at the
queue: the wake-ups of the core that were in the queue are still there, and one
more follows them. -/
theorem wait_event_enqueues_again (cfg : Config) (core req : Nat)
    (ws : Event_unit_core_state_e) (s : State)
    (hmask : (s.core_eu core).status &&& (s.core_eu core).evt_mask ≠ 0) :
    ∃ r, Core_event_unit.wait_event cfg core req ws s = some r ∧
      ∃ more, r.2.wakeups_of core = s.wakeups_of core ++ more ∧ 1 ≤ more.length := by
  obtain ⟨s1, _, f, h⟩ := wait_event_present cfg core req ws s hmask
  obtain ⟨added, he, _⟩ := f.events
  refine ⟨_, h, added.filter
      (fun e => decide (e.core = core ∧ e.kind = Clock_event_kind.wakeup_event)) ++
    [⟨s1.cycles + EU_WAKEUP_LATENCY, core, Clock_event_kind.wakeup_event⟩], ?_, by simp⟩
  have hev : s1.events = s.events ++ added := he
  simp [State.wakeups_of, State.event_enqueue, State.set_core, hev, List.filter_append]

/-- C20, refuted: a state that the demo unit reaches from its reset in which a
wait enqueues the generic wake-up of core 0 while that wake-up is already
enqueued. Core 0 enables event 0 and IRQ 1; event 0 arrives; core 0 reads its
wait register (the event is latched, so `wait_event` enqueues the wake-up for
cycle 2); IRQ 1 arrives and is signalled to the running core; core 0 replays
the wait. `wait_event` enqueues the wake-up again without the `is_enqueued()`
test that `check_state` makes, and the queue holds two generic wake-ups of
core 0. -/
theorem C20_wait_enqueues_wakeup_twice :
    ∃ s s',
      run demo_cfg
        [Action.demux_req 0 7 0x00 4 true 1, Action.demux_req 0 7 0x0c 4 true 2,
          Action.in_event_sync 0, Action.demux_req 0 7 0x38 4 false 0,
          Action.in_event_sync 1]
        (Event_unit.reset demo_cfg true demo_state) = some s ∧
      Reachable demo_cfg s ∧
      s.is_enqueued 0 Clock_event_kind.wakeup_event = true ∧
      (Action.demux_req 0 7 0x38 4 false 0).well_formed demo_cfg ∧
      (Action.demux_req 0 7 0x38 4 false 0).step demo_cfg s = some s' ∧
      Reachable demo_cfg s' ∧
      (s'.wakeups_of 0).map (fun e => e.cycle) = [2, 2] := by
  have h6 : (run demo_cfg
      ([Action.demux_req 0 7 0x00 4 true 1, Action.demux_req 0 7 0x0c 4 true 2,
        Action.in_event_sync 0, Action.demux_req 0 7 0x38 4 false 0,
        Action.in_event_sync 1] ++ [Action.demux_req 0 7 0x38 4 false 0])
      (Event_unit.reset demo_cfg true demo_state)).map
        (fun s => (s.wakeups_of 0).map (fun e => e.cycle)) = some [2, 2] := by decide
  have h5 : (run demo_cfg
      [Action.demux_req 0 7 0x00 4 true 1, Action.demux_req 0 7 0x0c 4 true 2,
        Action.in_event_sync 0, Action.demux_req 0 7 0x38 4 false 0,
        Action.in_event_sync 1]
      (Event_unit.reset demo_cfg true demo_state)).map
        (fun s => s.is_enqueued 0 Clock_event_kind.wakeup_event) = some true := by decide
  rw [Option.map_eq_some'] at h5 h6
  obtain ⟨s, hs, hq⟩ := h5
  obtain ⟨s', hs', hw⟩ := h6
  rw [run_snoc, hs] at hs'
  have hwf : (Action.demux_req 0 7 0x38 4 false 0).well_formed demo_cfg := by
    simp [Action.well_formed, demo_cfg]
  have hr : Reachable demo_cfg s := by
    refine reachable_run demo_cfg _ _ s (Reachable.init demo_state demo_state_power_on) ?_ hs
    intro a ha
    simp only [List.mem_cons, List.mem_singleton, List.not_mem_nil, or_false] at ha
    rcases ha with rfl | rfl | rfl | rfl | rfl <;> simp [Action.well_formed, demo_cfg]
  exact ⟨s, s', hs, hr, hq, hwf, hs', Reachable.step s s' _ hr hwf hs', hw⟩

/-! ## Barrier rendezvous -/

theorem three_land_shl1 (i : Nat) (h2 : 2 ≤ i) (h32 : i < 32) : 3 &&& shl1 i = 0 := by
  interval_cases i <;> decide

theorem cores_in_three (cfg : Config) (k : Nat) (hn : 2 ≤ cfg.nb_core) :
    cfg.cores_in (3 :: List.replicate k 0) = [0, 1] := by
  unfold Config.cores_in
  obtain ⟨n, hn'⟩ : ∃ n, cfg.nb_core = 2 + n := ⟨cfg.nb_core - 2, by omega⟩
  rw [hn', List.range_add, List.filter_append]
  have h1 : (List.range 2).filter
      (fun i => decide ((3 :: List.replicate k 0).getD (i / 32) 0 &&& shl1 (i % 32) ≠ 0)) =
      [0, 1] := by
    have : List.range 2 = [0, 1] := rfl
    rw [this]
    simp [List.filter_cons, shl1]
  have h2 : ((List.range n).map (fun x => 2 + x)).filter
      (fun i => decide ((3 :: List.replicate k 0).getD (i / 32) 0 &&& shl1 (i % 32) ≠ 0)) =
      [] := by
    rw [List.filter_eq_nil_iff]
    intro i hi
    rw [List.mem_map] at hi
    obtain ⟨x, _, rfl⟩ := hi
    simp only [ne_eq, decide_not, Bool.not_eq_true', decide_eq_false_iff_not, not_not,
      Bool.not_eq_true, Bool.not_eq_false', decide_eq_true_eq]
    by_cases hx : (2 + x) / 32 = 0
    · have hlt : 2 + x < 32 := by omega
      rw [hx, Nat.mod_eq_of_lt hlt]
      exact three_land_shl1 _ (by omega) hlt
    · obtain ⟨j, hj⟩ : ∃ j, (2 + x) / 32 = j + 1 := ⟨(2 + x) / 32 - 1, by omega⟩
      rw [hj]
      have : (3 :: List.replicate k 0).getD (j + 1) 0 = 0 := by
        rw [List.getD_cons_succ]
        by_cases hjk : j < k
        · rw [List.getD_eq_getElem _ _ (by simpa using hjk), List.getElem_replicate]
        · rw [List.getD_eq_default _ _ (by simpa using hjk)]
      rw [this, Nat.zero_and]
  rw [h1, h2, List.append_nil]

/-- An event sent to a sleeping core that waits and listens to it: the core
leaves its waiting state and its generic wake-up is in the queue. -/
theorem send_event_wakes (cfg : Config) (c m : Nat) (s : State) (hc : c < cfg.nb_core)
    (hact : (s.core_eu c).is_active = false) (hst : (s.core_eu c).state ≠ CORE_STATE_NONE)
    (hm : m &&& (s.core_eu c).evt_mask ≠ 0) :
    ∃ s', Event_unit.send_event cfg c m s = some s' ∧
      Frame (m ||| cfg.fifo_mask) s s' ∧
      (s'.core_eu c).state = CORE_STATE_NONE ∧
      s'.is_enqueued c Clock_event_kind.wakeup_event = true := by
  obtain ⟨s', h, f⟩ := send_event_frame cfg c m s hc
  refine ⟨s', h, f, ?_⟩
  obtain ⟨sa, hsa⟩ : ∃ sa : State,
      sa = s.set_core c ((s.core_eu c).set_status ((s.core_eu c).status ||| m)) := ⟨_, rfl⟩
  have hca : sa.core_eu c = (s.core_eu c).set_status ((s.core_eu c).status ||| m) := by
    rw [hsa]; simp [State.set_core]
  have h' : Core_event_unit.check_state cfg c sa = some s' := by rw [hsa]; exact h
  rw [check_state_of_wake cfg c sa hc (by rw [hca]; exact hact) (by rw [hca]; exact hst)
    (by rw [hca]; exact land_ne_zero_of_lor _ _ _ hm)] at h'
  obtain ⟨s3, h3, f3⟩ := check_wait_mask_frame cfg c
    (sa.set_core c { sa.core_eu c with state := CORE_STATE_NONE })
  rw [h3] at h'
  simp only [Option.some_bind] at h'
  have hst3 : (s3.core_eu c).state = CORE_STATE_NONE := by
    rcases (f3.core c).state with h | h
    · rw [h]; simp [State.set_core]
    · exact h.1
  split at h'
  · cases h'
    refine ⟨hst3, ?_⟩
    simp [State.is_enqueued, State.event_enqueue]
  · rename_i hq
    cases h'
    exact ⟨hst3, by simpa using hq⟩

/-- An event sent to a core whose clock runs: the bits are latched and the IRQ
line is brought up to date; nothing else changes. -/
theorem send_event_running (cfg : Config) (c m : Nat) (s : State)
    (hact : (s.core_eu c).is_active = true) :
    ∃ s', Event_unit.send_event cfg c m s = some s' ∧
      (s'.core_eu c).status = (s.core_eu c).status ||| m ∧
      (s'.core_eu c).evt_mask = (s.core_eu c).evt_mask ∧
      (s'.core_eu c).state = (s.core_eu c).state ∧
      (∀ j, j ≠ c → s'.core_eu j = s.core_eu j) ∧
      s'.events = s.events ∧ s'.barriers = s.barriers := by
  obtain ⟨sa, hsa⟩ : ∃ sa : State,
      sa = s.set_core c ((s.core_eu c).set_status ((s.core_eu c).status ||| m)) := ⟨_, rfl⟩
  have hca : sa.core_eu c = (s.core_eu c).set_status ((s.core_eu c).status ||| m) := by
    rw [hsa]; simp [State.set_core]
  have hoth : ∀ j, j ≠ c → sa.core_eu j = s.core_eu j := by
    intro j hj; rw [hsa]; simp [State.set_core, Function.update_noteq hj]
  have h : Event_unit.send_event cfg c m s = Core_event_unit.check_state cfg c sa := by
    rw [hsa]; rfl
  rw [h, check_state_of_active cfg c sa (by rw [hca]; exact hact)]
  refine ⟨_, rfl, ?_⟩
  split
  · refine ⟨?_, ?_, ?_, ?_, by rw [hsa]; rfl, by rw [hsa]; rfl⟩
    · simp [State.emit, State.set_core, hca, Core_event_unit.set_status]
    · simp [State.emit, State.set_core, hca, Core_event_unit.set_status]
    · simp [State.emit, State.set_core, hca, Core_event_unit.set_status]
    · intro j hj
      simp [State.emit, State.set_core, Function.update_noteq hj, hoth j hj]
  · refine ⟨by rw [hca]; rfl, by rw [hca]; rfl, by rw [hca]; rfl, hoth, by rw [hsa]; rfl,
      by rw [hsa]; rfl⟩

theorem State.is_enqueued_append_true {s s' : State} {added : List Clock_event}
    (h : s'.events = s.events ++ added) {core : Nat} {kind : Clock_event_kind}
    (hq : s.is_enqueued core kind = true) : s'.is_enqueued core kind = true := by
  unfold State.is_enqueued at hq ⊢
  rw [h, List.any_append, hq, Bool.true_or]

theorem check_barrier_of_ne (cfg : Config) (id : Nat) (s : State)
    (h : (s.barriers id).status ≠ (s.barriers id).core_mask) :
    Barrier_unit.check_barrier cfg id s = some s := by
  unfold Barrier_unit.check_barrier
  dsimp only
  rw [if_neg h]

theorem check_barrier_of_eq (cfg : Config) (id : Nat) (s : State)
    (h : (s.barriers id).status = (s.barriers id).core_mask) :
    Barrier_unit.check_barrier cfg id s =
      send_events cfg ((cfg.cores_in (s.barriers id).target_mask).map
        fun i => (i, shl1 cfg.barrier_event))
        (s.set_barrier id
          { s.barriers id with status := List.replicate (s.barriers id).status.length 0 }) := by
  unfold Barrier_unit.check_barrier
  dsimp only
  rw [if_pos h, trigger_event_eq_send_events]

/-- First arrival of the rendezvous: core 0, running with no masked event, issues
trigger-and-wait on a barrier with participants 0 and 1 and nobody arrived. -/
theorem rendezvous_first (cfg : Config) (s : State) (req0 offset0 : Nat)
    (hregs : cfg.archi.barrier_regs_ok)
    (hid : cfg.archi.EU_BARRIER_AREA_BARRIERID_GET offset0 < cfg.nb_barriers)
    (hoff : u64_sub offset0 (cfg.archi.EU_BARRIER_AREA_OFFSET_GET
      (cfg.archi.EU_BARRIER_AREA_BARRIERID_GET offset0)) = cfg.archi.EU_HW_BARR_TRIGGER_WAIT)
    (hcm : (s.barriers (cfg.archi.EU_BARRIER_AREA_BARRIERID_GET offset0)).core_mask =
      3 :: List.replicate (cfg.mask_words - 1) 0)
    (hst : (s.barriers (cfg.archi.EU_BARRIER_AREA_BARRIERID_GET offset0)).status =
      0 :: List.replicate (cfg.mask_words - 1) 0)
    (hs0 : (s.core_eu 0).state = CORE_STATE_NONE)
    (hp0 : (s.core_eu 0).status &&& (s.core_eu 0).evt_mask = 0) :
    Barrier_unit.req cfg req0 offset0 false ((0 : Nat) : Int) s =
      some (Core_event_unit.put_to_sleep 0 req0 CORE_STATE_WAITING_BARRIER
        ((s.set_barrier (cfg.archi.EU_BARRIER_AREA_BARRIERID_GET offset0)
          { s.barriers (cfg.archi.EU_BARRIER_AREA_BARRIERID_GET offset0) with
            status := 1 :: List.replicate (cfg.mask_words - 1) 0 }).inc_latency req0
          EU_WAKEUP_REQ_LATENCY)) := by
  rw [barrier_req_wait_eq cfg req0 offset0 false 0 s hregs hid hoff,
    if_neg (by rw [hs0]; exact fun h => Event_unit_core_state_e.noConfusion h)]
  have harr : (s.barriers (cfg.archi.EU_BARRIER_AREA_BARRIERID_GET offset0)).arrive 0 =
      { s.barriers (cfg.archi.EU_BARRIER_AREA_BARRIERID_GET offset0) with
        status := 1 :: List.replicate (cfg.mask_words - 1) 0 } := by
    unfold Barrier.arrive
    rw [hst]
    simp [shl1]
  rw [harr]
  rw [check_barrier_of_ne cfg _ _ (by simp [State.set_barrier, hcm])]
  exact wait_event_sleep cfg 0 req0 _ _ hp0

/-- Second arrival of the rendezvous: core 1, running, issues trigger-and-wait
on a barrier with participants and targets 0 and 1, at which core 0 has arrived
and sleeps. -/
theorem rendezvous_second (cfg : Config) (s1 : State) (req1 offset0 : Nat)
    (hregs : cfg.archi.barrier_regs_ok)
    (hid : cfg.archi.EU_BARRIER_AREA_BARRIERID_GET offset0 < cfg.nb_barriers)
    (hoff : u64_sub offset0 (cfg.archi.EU_BARRIER_AREA_OFFSET_GET
      (cfg.archi.EU_BARRIER_AREA_BARRIERID_GET offset0)) = cfg.archi.EU_HW_BARR_TRIGGER_WAIT)
    (hn : 2 ≤ cfg.nb_core)
    (hcm : (s1.barriers (cfg.archi.EU_BARRIER_AREA_BARRIERID_GET offset0)).core_mask =
      3 :: List.replicate (cfg.mask_words - 1) 0)
    (htm : (s1.barriers (cfg.archi.EU_BARRIER_AREA_BARRIERID_GET offset0)).target_mask =
      3 :: List.replicate (cfg.mask_words - 1) 0)
    (hst : (s1.barriers (cfg.archi.EU_BARRIER_AREA_BARRIERID_GET offset0)).status =
      1 :: List.replicate (cfg.mask_words - 1) 0)
    (ha0 : (s1.core_eu 0).is_active = false)
    (hs0 : (s1.core_eu 0).state ≠ CORE_STATE_NONE)
    (he0 : shl1 cfg.barrier_event &&& (s1.core_eu 0).evt_mask ≠ 0)
    (ha1 : (s1.core_eu 1).is_active = true)
    (hs1 : (s1.core_eu 1).state = CORE_STATE_NONE)
    (he1 : shl1 cfg.barrier_event &&& (s1.core_eu 1).evt_mask ≠ 0) :
    ∃ st s2,
      send_events cfg [(0, shl1 cfg.barrier_event), (1, shl1 cfg.barrier_event)]
        (s1.set_barrier (cfg.archi.EU_BARRIER_AREA_BARRIERID_GET offset0)
          { s1.barriers (cfg.archi.EU_BARRIER_AREA_BARRIERID_GET offset0) with
            status := 0 :: List.replicate (cfg.mask_words - 1) 0 }) = some st ∧
      Core_event_unit.wait_event cfg 1 req1 CORE_STATE_WAITING_BARRIER st =
        some (IO_REQ_PENDING, s2) ∧
      Barrier_unit.req cfg req1 offset0 false ((1 : Nat) : Int) s1 = some (IO_REQ_PENDING, s2) ∧
      (s2.barriers (cfg.archi.EU_BARRIER_AREA_BARRIERID_GET offset0)).status =
        0 :: List.replicate (cfg.mask_words - 1) 0 ∧
      (s2.core_eu 0).state = CORE_STATE_NONE ∧
      s2.is_enqueued 0 Clock_event_kind.wakeup_event = true := by
  have harr : (s1.barriers (cfg.archi.EU_BARRIER_AREA_BARRIERID_GET offset0)).arrive 1 =
      { s1.barriers (cfg.archi.EU_BARRIER_AREA_BARRIERID_GET offset0) with
        status := 3 :: List.replicate (cfg.mask_words - 1) 0 } := by
    unfold Barrier.arrive
    rw [hst]
    simp [shl1]
  obtain ⟨sr, hsr⟩ : ∃ sr : State, sr =
      s1.set_barrier (cfg.archi.EU_BARRIER_AREA_BARRIERID_GET offset0)
        { s1.barriers (cfg.archi.EU_BARRIER_AREA_BARRIERID_GET offset0) with
          status := 0 :: List.replicate (cfg.mask_words - 1) 0 } := ⟨_, rfl⟩
  have hreq : Barrier_unit.req cfg req1 offset0 false ((1 : Nat) : Int) s1 =
      (send_events cfg [(0, shl1 cfg.barrier_event), (1, shl1 cfg.barrier_event)] sr).bind
        fun s2 => Core_event_unit.wait_event cfg 1 req1 CORE_STATE_WAITING_BARRIER s2 := by
    rw [barrier_req_wait_eq cfg req1 offset0 false 1 s1 hregs hid hoff,
      if_neg (by rw [hs1]; exact fun h => Event_unit_core_state_e.noConfusion h), harr,
      check_barrier_of_eq cfg _ _ (by simp [State.set_barrier, hcm])]
    have htm' : ((s1.set_barrier (cfg.archi.EU_BARRIER_AREA_BARRIERID_GET offset0)
        { s1.barriers (cfg.archi.EU_BARRIER_AREA_BARRIERID_GET offset0) with
          status := 3 :: List.replicate (cfg.mask_words - 1) 0 }).barriers
        (cfg.archi.EU_BARRIER_AREA_BARRIERID_GET offset0)).target_mask =
        3 :: List.replicate (cfg.mask_words - 1) 0 := by
      simp [State.set_barrier, htm]
    rw [htm', cores_in_three cfg _ hn, hsr]
    congr 2
    simp [State.set_barrier, List.replicate_succ]
  rw [← hsr, hreq]
  have hc0 : sr.core_eu 0 = s1.core_eu 0 := by rw [hsr]; rfl
  have hc1 : sr.core_eu 1 = s1.core_eu 1 := by rw [hsr]; rfl
  obtain ⟨st2, h2, f2, hst2, hq2⟩ := send_event_wakes cfg 0 (shl1 cfg.barrier_event) sr
    (by omega) (by rw [hc0]; exact ha0) (by rw [hc0]; exact hs0) (by rw [hc0]; exact he0)
  have ha1' : (st2.core_eu 1).is_active = true := by
    rw [(f2.core 1).is_active, hc1]; exact ha1
  obtain ⟨st3, h3, hstat3, hmask3, _, hoth3, hev3, hbar3⟩ :=
    send_event_running cfg 1 (shl1 cfg.barrier_event) st2 ha1'
  have hsend : send_events cfg [(0, shl1 cfg.barrier_event), (1, shl1 cfg.barrier_event)] sr =
      some st3 := by
    simp [send_events, List.foldlM_cons, h2, h3]
  have hm3 : (st3.core_eu 1).status &&& (st3.core_eu 1).evt_mask ≠ 0 := by
    rw [hstat3, hmask3, (f2.core 1).evt_mask, hc1]
    exact land_ne_zero_of_lor _ _ _ he1
  obtain ⟨s4, _, f4, h4⟩ := wait_event_present cfg 1 req1 CORE_STATE_WAITING_BARRIER st3 hm3
  obtain ⟨s2, hs2⟩ : ∃ s2 : State, s2 =
      (s4.set_core 1 { s4.core_eu 1 with pending_req := some req1 }).event_enqueue 1
        Clock_event_kind.wakeup_event EU_WAKEUP_LATENCY := ⟨_, rfl⟩
  rw [← hs2] at h4
  have hb2 : s2.barriers = s4.barriers := by rw [hs2]; rfl
  have hc2 : s2.core_eu 0 = s4.core_eu 0 := by
    rw [hs2]; simp [State.event_enqueue, State.set_core]
  have he2 : s2.events = s4.events ++
      [⟨s4.cycles + EU_WAKEUP_LATENCY, 1, Clock_event_kind.wakeup_event⟩] := by
    rw [hs2]; rfl
  refine ⟨st3, s2, hsend, h4, by rw [hsend]; exact h4, ?_, ?_, ?_⟩
  · rw [hb2, f4.barriers]
    show (st3.barriers _).status = _
    rw [hbar3, f2.barriers, hsr]
    simp [State.set_barrier]
  · rw [hc2]
    rcases (f4.core 0).state with h | h
    · rw [h]
      show (st3.core_eu 0).state = _
      rw [hoth3 0 (by decide)]; exact hst2
    · exact h.1
  · obtain ⟨added, hadd, _⟩ := f4.events
    have h3q : (st3.inc_latency req1 EU_WAKEUP_REQ_LATENCY).is_enqueued 0
        Clock_event_kind.wakeup_event = true := by
      show st3.events.any _ = true
      rw [hev3]; exact hq2
    exact State.is_enqueued_append_true he2 (State.is_enqueued_append_true hadd h3q)

/-- C13: barrier rendezvous. A barrier has participant mask and target mask
`0b11` and nobody has arrived; cores 0 and 1 are in no waiting state and have the
barrier event bit in their event mask, core 0 has no masked event latched and
the clock of core 1 runs. The trigger-and-wait of core 0 reports PENDING and
leaves core 0 inactive, in `CORE_STATE_WAITING_BARRIER`, with its request stored
and the status of the barrier at `0b01`. The trigger-and-wait of core 1 that
follows completes the mask (status equal to the participant mask), the status is
reset to all-zero, and the barrier event is sent to core 0 and to core 1, in
this order; core 1 then enters `wait_event`. When the access of core 1 returns
(PENDING), the status of the barrier is all-zero, core 0 has left its waiting
state and its generic wake-up is in the queue. -/
theorem C13_barrier_rendezvous (cfg : Config) (s : State) (req0 req1 offset0 : Nat)
    (hregs : cfg.archi.barrier_regs_ok)
    (hid : cfg.archi.EU_BARRIER_AREA_BARRIERID_GET offset0 < cfg.nb_barriers)
    (hoff : u64_sub offset0 (cfg.archi.EU_BARRIER_AREA_OFFSET_GET
      (cfg.archi.EU_BARRIER_AREA_BARRIERID_GET offset0)) = cfg.archi.EU_HW_BARR_TRIGGER_WAIT)
    (hn : 2 ≤ cfg.nb_core)
    (hcm : (s.barriers (cfg.archi.EU_BARRIER_AREA_BARRIERID_GET offset0)).core_mask =
      3 :: List.replicate (cfg.mask_words - 1) 0)
    (htm : (s.barriers (cfg.archi.EU_BARRIER_AREA_BARRIERID_GET offset0)).target_mask =
      3 :: List.replicate (cfg.mask_words - 1) 0)
    (hst : (s.barriers (cfg.archi.EU_BARRIER_AREA_BARRIERID_GET offset0)).status =
      0 :: List.replicate (cfg.mask_words - 1) 0)
    (hs0 : (s.core_eu 0).state = CORE_STATE_NONE)
    (he0 : shl1 cfg.barrier_event &&& (s.core_eu 0).evt_mask ≠ 0)
    (hp0 : (s.core_eu 0).status &&& (s.core_eu 0).evt_mask = 0)
    (ha1 : (s.core_eu 1).is_active = true)
    (hs1 : (s.core_eu 1).state = CORE_STATE_NONE)
    (he1 : shl1 cfg.barrier_event &&& (s.core_eu 1).evt_mask ≠ 0) :
    ∃ s1 st s2,
      Barrier_unit.req cfg req0 offset0 false ((0 : Nat) : Int) s = some (IO_REQ_PENDING, s1) ∧
      (s1.core_eu 0).is_active = false ∧
      (s1.core_eu 0).state = CORE_STATE_WAITING_BARRIER ∧
      (s1.core_eu 0).pending_req = some req0 ∧
      (s1.barriers (cfg.archi.EU_BARRIER_AREA_BARRIERID_GET offset0)).status =
        1 :: List.replicate (cfg.mask_words - 1) 0 ∧
      ((s1.barriers (cfg.archi.EU_BARRIER_AREA_BARRIERID_GET offset0)).arrive 1).status =
        (s1.barriers (cfg.archi.EU_BARRIER_AREA_BARRIERID_GET offset0)).core_mask ∧
      send_events cfg [(0, shl1 cfg.barrier_event), (1, shl1 cfg.barrier_event)]
        (s1.set_barrier (cfg.archi.EU_BARRIER_AREA_BARRIERID_GET offset0)
          { s1.barriers (cfg.archi.EU_BARRIER_AREA_BARRIERID_GET offset0) with
            status := 0 :: List.replicate (cfg.mask_words - 1) 0 }) = some st ∧
      Core_event_unit.wait_event cfg 1 req1 CORE_STATE_WAITING_BARRIER st =
        some (IO_REQ_PENDING, s2) ∧
      Barrier_unit.req cfg req1 offset0 false ((1 : Nat) : Int) s1 = some (IO_REQ_PENDING, s2) ∧
      (s2.barriers (cfg.archi.EU_BARRIER_AREA_BARRIERID_GET offset0)).status =
        0 :: List.replicate (cfg.mask_words - 1) 0 ∧
      (s2.core_eu 0).state = CORE_STATE_NONE ∧
      s2.is_enqueued 0 Clock_event_kind.wakeup_event = true := by
  have h1 := rendezvous_first cfg s req0 offset0 hregs hid hoff hcm hst hs0 hp0
  obtain ⟨s1, hs1'⟩ : ∃ s1 : State, s1 =
      (Core_event_unit.put_to_sleep 0 req0 CORE_STATE_WAITING_BARRIER
        ((s.set_barrier (cfg.archi.EU_BARRIER_AREA_BARRIERID_GET offset0)
          { s.barriers (cfg.archi.EU_BARRIER_AREA_BARRIERID_GET offset0) with
            status := 1 :: List.replicate (cfg.mask_words - 1) 0 }).inc_latency req0
          EU_WAKEUP_REQ_LATENCY)).2 := ⟨_, rfl⟩
  have h1' : Barrier_unit.req cfg req0 offset0 false ((0 : Nat) : Int) s =
      some (IO_REQ_PENDING, s1) := by rw [h1, hs1']; rfl
  have c0 : s1.core_eu 0 =
      { s.core_eu 0 with
        state := CORE_STATE_WAITING_BARRIER, is_active := false, pending_req := some req0 } := by
    rw [hs1']
    simp [Core_event_unit.put_to_sleep, State.set_core, State.emit, State.inc_latency,
      State.set_barrier]
  have c1 : s1.core_eu 1 = s.core_eu 1 := by
    rw [hs1']
    simp [Core_event_unit.put_to_sleep, State.set_core, State.emit, State.inc_latency,
      State.set_barrier]
  have b1 : s1.barriers (cfg.archi.EU_BARRIER_AREA_BARRIERID_GET offset0) =
      { s.barriers (cfg.archi.EU_BARRIER_AREA_BARRIERID_GET offset0) with
        status := 1 :: List.replicate (cfg.mask_words - 1) 0 } := by
    rw [hs1']
    simp [Core_event_unit.put_to_sleep, State.set_core, State.emit, State.inc_latency,
      State.set_barrier]
  have hcm1 : (s1.barriers (cfg.archi.EU_BARRIER_AREA_BARRIERID_GET offset0)).core_mask =
      3 :: List.replicate (cfg.mask_words - 1) 0 := by rw [b1]; exact hcm
  have hst1 : (s1.barriers (cfg.archi.EU_BARRIER_AREA_BARRIERID_GET offset0)).status =
      1 :: List.replicate (cfg.mask_words - 1) 0 := by rw [b1]
  obtain ⟨st, s2, k1, k2, k3, k4, k5, k6⟩ := rendezvous_second cfg s1 req1 offset0 hregs hid hoff
    hn hcm1 (by rw [b1]; exact htm) hst1 (by rw [c0]) (by rw [c0]; simp)
    (by rw [c0]; exact he0) (by rw [c1]; exact ha1) (by rw [c1]; exact hs1)
    (by rw [c1]; exact he1)
  refine ⟨s1, st, s2, h1', by rw [c0], by rw [c0], by rw [c0], hst1, ?_, k1, k2, k3, k4, k5, k6⟩
  rw [hcm1]
  unfold Barrier.arrive
  rw [hst1]
  simp [shl1]

/-- C13 at a concrete input: cores 0 and 1 of the demo unit meet at barrier 0
(trigger-and-wait is at offset `0xa4` of the barrier). -/
theorem C13_barrier_rendezvous_witness :
    ∃ s1 s2,
      Barrier_unit.req demo_cfg 5 0xa4 false ((0 : Nat) : Int) demo_state_rendezvous =
        some (IO_REQ_PENDING, s1) ∧
      (s1.core_eu 0).is_active = false ∧
      (s1.core_eu 0).state = CORE_STATE_WAITING_BARRIER ∧
      (s1.barriers 0).status = [1, 0, 0, 0, 0, 0, 0, 0] ∧
      Barrier_unit.req demo_cfg 6 0xa4 false ((1 : Nat) : Int) s1 = some (IO_REQ_PENDING, s2) ∧
      (s2.barriers 0).status = [0, 0, 0, 0, 0, 0, 0, 0] ∧
      (s2.core_eu 0).state = CORE_STATE_NONE ∧
      s2.is_enqueued 0 Clock_event_kind.wakeup_event = true := by
  obtain ⟨s1, _, s2, h1, h2, h3, _, h5, _, _, _, h9, h10, h11, h12⟩ :=
    C13_barrier_rendezvous demo_cfg demo_state_rendezvous 5 6 0xa4
      (by unfold Archi.barrier_regs_ok Archi.outside_mask_regs; decide) (by decide) (by decide)
      (by decide) (by decide) (by decide) (by decide) (by decide) (by decide) (by decide)
      (by decide) (by decide) (by decide)
  exact ⟨s1, s2, h1, h2, h3, h5, h9, h10, h11, h12⟩

theorem core_regs_later_ne {a : Archi} (h : a.core_regs.Nodup) :
    a.core_regs.reverse.Pairwise (fun x y => x ≠ y) :=
  List.pairwise_reverse.2 (List.Pairwise.imp (fun hxy => Ne.symm hxy) h)

theorem core_req_mask_read (cfg : Config) (core req : Nat) (s : State)
    (hregs : cfg.archi.core_regs.Nodup) :
    Core_event_unit.req cfg core req cfg.archi.EU_CORE_MASK false s =
      some (IO_REQ_OK, s.set_req_data req (s.core_eu core).evt_mask) := by
  have hp := core_regs_later_ne hregs
  simp only [Archi.core_regs, List.reverse_cons, List.reverse_nil, List.nil_append,
    List.cons_append, List.pairwise_cons, List.mem_cons, List.mem_singleton, forall_eq_or_imp,
    forall_eq, List.not_mem_nil, ne_eq] at hp
  unfold Core_event_unit.req
  simp [hp]

theorem core_req_mask_write (cfg : Config) (core req : Nat) (s : State)
    (hregs : cfg.archi.core_regs.Nodup) :
    Core_event_unit.req cfg core req cfg.archi.EU_CORE_MASK true s =
      (Core_event_unit.check_state cfg core
        (s.set_core core { s.core_eu core with evt_mask := s.req_data req })).bind
        fun s1 => some (IO_REQ_OK, s1) := by
  have hp := core_regs_later_ne hregs
  simp only [Archi.core_regs, List.reverse_cons, List.reverse_nil, List.nil_append,
    List.cons_append, List.pairwise_cons, List.mem_cons, List.mem_singleton, forall_eq_or_imp,
    forall_eq, List.not_mem_nil, ne_eq] at hp
  unfold Core_event_unit.req
  simp [hp]

theorem core_req_mask_and_read (cfg : Config) (core req : Nat) (s : State)
    (hregs : cfg.archi.core_regs.Nodup) :
    Core_event_unit.req cfg core req cfg.archi.EU_CORE_MASK_AND false s =
      some (IO_REQ_INVALID, s) := by
  have hp := core_regs_later_ne hregs
  simp only [Archi.core_regs, List.reverse_cons, List.reverse_nil, List.nil_append,
    List.cons_append, List.pairwise_cons, List.mem_cons, List.mem_singleton, forall_eq_or_imp,
    forall_eq, List.not_mem_nil, ne_eq] at hp
  unfold Core_event_unit.req
  simp [hp]

theorem core_req_mask_and_write (cfg : Config) (core req : Nat) (s : State)
    (hregs : cfg.archi.core_regs.Nodup) :
    Core_event_unit.req cfg core req cfg.archi.EU_CORE_MASK_AND true s =
      (Core_event_unit.check_state cfg core
        (s.set_core core { s.core_eu core with evt_mask := (s.core_eu core).evt_mask &&& u32_not (s.req_data req) })).bind
        fun s1 => some (IO_REQ_OK, s1) := by
  have hp := core_regs_later_ne hregs
  simp only [Archi.core_regs, List.reverse_cons, List.reverse_nil, List.nil_append,
    List.cons_append, List.pairwise_cons, List.mem_cons, List.mem_singleton, forall_eq_or_imp,
    forall_eq, List.not_mem_nil, ne_eq] at hp
  unfold Core_event_unit.req
  simp [hp]

theorem core_req_mask_or_read (cfg : Config) (core req : Nat) (s : State)
    (hregs : cfg.archi.core_regs.Nodup) :
    Core_event_unit.req cfg core req cfg.archi.EU_CORE_MASK_OR false s =
      some (IO_REQ_INVALID, s) := by
  have hp := core_regs_later_ne hregs
  simp only [Archi.core_regs, List.reverse_cons, List.reverse_nil, List.nil_append,
    List.cons_append, List.pairwise_cons, List.mem_cons, List.mem_singleton, forall_eq_or_imp,
    forall_eq, List.not_mem_nil, ne_eq] at hp
  unfold Core_event_unit.req
  simp [hp]

theorem core_req_mask_or_write (cfg : Config) (core req : Nat) (s : State)
    (hregs : cfg.archi.core_regs.Nodup) :
    Core_event_unit.req cfg core req cfg.archi.EU_CORE_MASK_OR true s =
      (Core_event_unit.check_state cfg core
        (s.set_core core { s.core_eu core with evt_mask := (s.core_eu core).evt_mask ||| s.req_data req })).bind
        fun s1 => some (IO_REQ_OK, s1) := by
  have hp := core_regs_later_ne hregs
  simp only [Archi.core_regs, List.reverse_cons, List.reverse_nil, List.nil_append,
    List.cons_append, List.pairwise_cons, List.mem_cons, List.mem_singleton, forall_eq_or_imp,
    forall_eq, List.not_mem_nil, ne_eq] at hp
  unfold Core_event_unit.req
  simp [hp]

theorem core_req_irq_read (cfg : Config) (core req : Nat) (s : State)
    (hregs : cfg.archi.core_regs.Nodup) :
    Core_event_unit.req cfg core req cfg.archi.EU_CORE_MASK_IRQ false s =
      some (IO_REQ_OK, s.set_req_data req (s.core_eu core).irq_mask) := by
  have hp := core_regs_later_ne hregs
  simp only [Archi.core_regs, List.reverse_cons, List.reverse_nil, List.nil_append,
    List.cons_append, List.pairwise_cons, List.mem_cons, List.mem_singleton, forall_eq_or_imp,
    forall_eq, List.not_mem_nil, ne_eq] at hp
  unfold Core_event_unit.req
  simp [hp]

theorem core_req_irq_write (cfg : Config) (core req : Nat) (s : State)
    (hregs : cfg.archi.core_regs.Nodup) :
    Core_event_unit.req cfg core req cfg.archi.EU_CORE_MASK_IRQ true s =
      (Core_event_unit.check_state cfg core
        (s.set_core core { s.core_eu core with irq_mask := s.req_data req })).bind
        fun s1 => some (IO_REQ_OK, s1) := by
  have hp := core_regs_later_ne hregs
  simp only [Archi.core_regs, List.reverse_cons, List.reverse_nil, List.nil_append,
    List.cons_append, List.pairwise_cons, List.mem_cons, List.mem_singleton, forall_eq_or_imp,
    forall_eq, List.not_mem_nil, ne_eq] at hp
  unfold Core_event_unit.req
  simp [hp]

theorem core_req_irq_and_read (cfg : Config) (core req : Nat) (s : State)
    (hregs : cfg.archi.core_regs.Nodup) :
    Core_event_unit.req cfg core req cfg.archi.EU_CORE_MASK_IRQ_AND false s =
      some (IO_REQ_INVALID, s) := by
  have hp := core_regs_later_ne hregs
  simp only [Archi.core_regs, List.reverse_cons, List.reverse_nil, List.nil_append,
    List.cons_append, List.pairwise_cons, List.mem_cons, List.mem_singleton, forall_eq_or_imp,
    forall_eq, List.not_mem_nil, ne_eq] at hp
  unfold Core_event_unit.req
  simp [hp]

theorem core_req_irq_and_write (cfg : Config) (core req : Nat) (s : State)
    (hregs : cfg.archi.core_regs.Nodup) :
    Core_event_unit.req cfg core req cfg.archi.EU_CORE_MASK_IRQ_AND true s =
      (Core_event_unit.check_state cfg core
        (s.set_core core { s.core_eu core with irq_mask := (s.core_eu core).irq_mask &&& u32_not (s.req_data req) })).bind
        fun s1 => some (IO_REQ_OK, s1) := by
  have hp := core_regs_later_ne hregs
  simp only [Archi.core_regs, List.reverse_cons, List.reverse_nil, List.nil_append,
    List.cons_append, List.pairwise_cons, List.mem_cons, List.mem_singleton, forall_eq_or_imp,
    forall_eq, List.not_mem_nil, ne_eq] at hp
  unfold Core_event_unit.req
  simp [hp]

theorem core_req_irq_or_read (cfg : Config) (core req : Nat) (s : State)
    (hregs : cfg.archi.core_regs.Nodup) :
    Core_event_unit.req cfg core req cfg.archi.EU_CORE_MASK_IRQ_OR false s =
      some (IO_REQ_INVALID, s) := by
  have hp := core_regs_later_ne hregs
  simp only [Archi.core_regs, List.reverse_cons, List.reverse_nil, List.nil_append,
    List.cons_append, List.pairwise_cons, List.mem_cons, List.mem_singleton, forall_eq_or_imp,
    forall_eq, List.not_mem_nil, ne_eq] at hp
  unfold Core_event_unit.req
  simp [hp]

theorem core_req_irq_or_write (cfg : Config) (core req : Nat) (s : State)
    (hregs : cfg.archi.core_regs.Nodup) :
    Core_event_unit.req cfg core req cfg.archi.EU_CORE_MASK_IRQ_OR true s =
      (Core_event_unit.check_state cfg core
        (s.set_core core { s.core_eu core with irq_mask := (s.core_eu core).irq_mask ||| s.req_data req })).bind
        fun s1 => some (IO_REQ_OK, s1) := by
  have hp := core_regs_later_ne hregs
  simp only [Archi.core_regs, List.reverse_cons, List.reverse_nil, List.nil_append,
    List.cons_append, List.pairwise_cons, List.mem_cons, List.mem_singleton, forall_eq_or_imp,
    forall_eq, List.not_mem_nil, ne_eq] at hp
  unfold Core_event_unit.req
  simp [hp]

theorem core_req_status_write (cfg : Config) (core req : Nat) (s : State)
    (hregs : cfg.archi.core_regs.Nodup) :
    Core_event_unit.req cfg core req cfg.archi.EU_CORE_STATUS true s =
      some (IO_REQ_INVALID, s) := by
  have hp := core_regs_later_ne hregs
  simp only [Archi.core_regs, List.reverse_cons, List.reverse_nil, List.nil_append,
    List.cons_append, List.pairwise_cons, List.mem_cons, List.mem_singleton, forall_eq_or_imp,
    forall_eq, List.not_mem_nil, ne_eq] at hp
  unfold Core_event_unit.req
  simp [hp]

theorem core_req_buffer_write (cfg : Config) (core req : Nat) (s : State)
    (hregs : cfg.archi.core_regs.Nodup) :
    Core_event_unit.req cfg core req cfg.archi.EU_CORE_BUFFER true s =
      some (IO_REQ_INVALID, s) := by
  have hp := core_regs_later_ne hregs
  simp only [Archi.core_regs, List.reverse_cons, List.reverse_nil, List.nil_append,
    List.cons_append, List.pairwise_cons, List.mem_cons, List.mem_singleton, forall_eq_or_imp,
    forall_eq, List.not_mem_nil, ne_eq] at hp
  unfold Core_event_unit.req
  simp [hp]

theorem core_req_buffer_masked_write (cfg : Config) (core req : Nat) (s : State)
    (hregs : cfg.archi.core_regs.Nodup) :
    Core_event_unit.req cfg core req cfg.archi.EU_CORE_BUFFER_MASKED true s =
      some (IO_REQ_INVALID, s) := by
  have hp := core_regs_later_ne hregs
  simp only [Archi.core_regs, List.reverse_cons, List.reverse_nil, List.nil_append,
    List.cons_append, List.pairwise_cons, List.mem_cons, List.mem_singleton, forall_eq_or_imp,
    forall_eq, List.not_mem_nil, ne_eq] at hp
  unfold Core_event_unit.req
  simp [hp]

theorem core_req_buffer_irq_masked_write (cfg : Config) (core req : Nat) (s : State)
    (hregs : cfg.archi.core_regs.Nodup) :
    Core_event_unit.req cfg core req cfg.archi.EU_CORE_BUFFER_IRQ_MASKED true s =
      some (IO_REQ_INVALID, s) := by
  have hp := core_regs_later_ne hregs
  simp only [Archi.core_regs, List.reverse_cons, List.reverse_nil, List.nil_append,
    List.cons_append, List.pairwise_cons, List.mem_cons, List.mem_singleton, forall_eq_or_imp,
    forall_eq, List.not_mem_nil, ne_eq] at hp
  unfold Core_event_unit.req
  simp [hp]

theorem core_req_buffer_clear_read (cfg : Config) (core req : Nat) (s : State)
    (hregs : cfg.archi.core_regs.Nodup) :
    Core_event_unit.req cfg core req cfg.archi.EU_CORE_BUFFER_CLEAR false s =
      some (IO_REQ_INVALID, s) := by
  have hp := core_regs_later_ne hregs
  simp only [Archi.core_regs, List.reverse_cons, List.reverse_nil, List.nil_append,
    List.cons_append, List.pairwise_cons, List.mem_cons, List.mem_singleton, forall_eq_or_imp,
    forall_eq, List.not_mem_nil, ne_eq] at hp
  unfold Core_event_unit.req
  simp [hp]

theorem core_req_buffer_clear_write (cfg : Config) (core req : Nat) (s : State)
    (hregs : cfg.archi.core_regs.Nodup) :
    Core_event_unit.req cfg core req cfg.archi.EU_CORE_BUFFER_CLEAR true s =
      (Core_event_unit.clear_status cfg core (s.req_data req) s).bind fun s1 =>
        (Core_event_unit.check_state cfg core s1).bind fun s2 => some (IO_REQ_OK, s2) := by
  have hp := core_regs_later_ne hregs
  simp only [Archi.core_regs, List.reverse_cons, List.reverse_nil, List.nil_append,
    List.cons_append, List.pairwise_cons, List.mem_cons, List.mem_singleton, forall_eq_or_imp,
    forall_eq, List.not_mem_nil, ne_eq] at hp
  unfold Core_event_unit.req
  simp [hp]

theorem core_req_wait_write (cfg : Config) (core req : Nat) (s : State)
    (hregs : cfg.archi.core_regs.Nodup) :
    Core_event_unit.req cfg core req cfg.archi.EU_CORE_EVENT_WAIT true s =
      some (IO_REQ_INVALID, s) := by
  have hp := core_regs_later_ne hregs
  simp only [Archi.core_regs, List.reverse_cons, List.reverse_nil, List.nil_append,
    List.cons_append, List.pairwise_cons, List.mem_cons, List.mem_singleton, forall_eq_or_imp,
    forall_eq, List.not_mem_nil, ne_eq] at hp
  unfold Core_event_unit.req
  simp [hp]

/-- An access to the wait-and-clear register, read or write: the source has no
`is_write` test in this branch. -/
theorem core_req_wait_clear_eq (cfg : Config) (core req : Nat) (is_write : Bool) (s : State)
    (hregs : cfg.archi.core_regs.Nodup) :
    Core_event_unit.req cfg core req cfg.archi.EU_CORE_EVENT_WAIT_CLEAR is_write s =
      (Core_event_unit.wait_event cfg core req CORE_STATE_WAITING_EVENT
        (s.set_core core
          { s.core_eu core with clear_evt_mask := (s.core_eu core).evt_mask })).bind fun r =>
        some (r.1, r.2.set_req_data req
          ((r.2.core_eu core).evt_mask &&& (r.2.core_eu core).status)) := by
  have hp := core_regs_later_ne hregs
  simp only [Archi.core_regs, List.reverse_cons, List.reverse_nil, List.nil_append,
    List.cons_append, List.pairwise_cons, List.mem_cons, List.mem_singleton, forall_eq_or_imp,
    forall_eq, List.not_mem_nil, ne_eq] at hp
  unfold Core_event_unit.req
  simp [hp]

/-- The wait primitive always reports `IO_REQ_PENDING`. -/
theorem wait_event_pending (cfg : Config) (core req : Nat) (ws : Event_unit_core_state_e)
    (s : State) (r : io_req_status_e × State)
    (h : Core_event_unit.wait_event cfg core req ws s = some r) : r.1 = IO_REQ_PENDING := by
  by_cases hmask : (s.core_eu core).status &&& (s.core_eu core).evt_mask = 0
  · rw [wait_event_sleep cfg core req ws s hmask] at h
    cases h; rfl
  · obtain ⟨s1, _, _, h'⟩ := wait_event_present cfg core req ws s hmask
    rw [h] at h'
    cases h'; rfl

/-! ## Rejected and accepted writes of the per-core block -/

/-- After the wait primitive the request is the stored request of the core. -/
theorem wait_event_stores (cfg : Config) (core req : Nat) (ws : Event_unit_core_state_e)
    (s : State) (r : io_req_status_e × State)
    (h : Core_event_unit.wait_event cfg core req ws s = some r) :
    (r.2.core_eu core).pending_req = some req := by
  by_cases hmask : (s.core_eu core).status &&& (s.core_eu core).evt_mask = 0
  · rw [wait_event_sleep cfg core req ws s hmask] at h
    cases h
    simp [Core_event_unit.put_to_sleep, State.set_core, State.emit]
  · obtain ⟨s1, _, _, h'⟩ := wait_event_present cfg core req ws s hmask
    rw [h] at h'
    cases h'
    simp [State.event_enqueue, State.set_core]

/-- C23, refuted for the wait-and-clear register: a write to the active-flag,
status, masked-status, IRQ-masked-status or wait register is rejected with
`IO_REQ_INVALID` and changes nothing, but a write to `EU_CORE_EVENT_WAIT_CLEAR`
is executed as a wait-and-clear: it reports `IO_REQ_PENDING` and stores the
write request as the pending request of the core. The branch of
`EU_CORE_EVENT_WAIT_CLEAR` lacks the `if (is_write) return vp::IO_REQ_INVALID`
of the branch of `EU_CORE_EVENT_WAIT`. -/
theorem C23_write_to_wait_clear_accepted (cfg : Config) (core req : Nat) (s : State)
    (hregs : cfg.archi.core_regs.Nodup) :
    Core_event_unit.req cfg core req cfg.archi.EU_CORE_STATUS true s =
      some (IO_REQ_INVALID, s) ∧
    Core_event_unit.req cfg core req cfg.archi.EU_CORE_BUFFER true s =
      some (IO_REQ_INVALID, s) ∧
    Core_event_unit.req cfg core req cfg.archi.EU_CORE_BUFFER_MASKED true s =
      some (IO_REQ_INVALID, s) ∧
    Core_event_unit.req cfg core req cfg.archi.EU_CORE_BUFFER_IRQ_MASKED true s =
      some (IO_REQ_INVALID, s) ∧
    Core_event_unit.req cfg core req cfg.archi.EU_CORE_EVENT_WAIT true s =
      some (IO_REQ_INVALID, s) ∧
    ∃ s', Core_event_unit.req cfg core req cfg.archi.EU_CORE_EVENT_WAIT_CLEAR true s =
        some (IO_REQ_PENDING, s') ∧
      (s'.core_eu core).pending_req = some req := by
  refine ⟨core_req_status_write cfg core req s hregs, core_req_buffer_write cfg core req s hregs,
    core_req_buffer_masked_write cfg core req s hregs,
    core_req_buffer_irq_masked_write cfg core req s hregs,
    core_req_wait_write cfg core req s hregs, ?_⟩
  rw [core_req_wait_clear_eq cfg core req true s hregs]
  obtain ⟨r, hr, _⟩ := wait_event_total cfg core req CORE_STATE_WAITING_EVENT
    (s.set_core core { s.core_eu core with clear_evt_mask := (s.core_eu core).evt_mask })
  have hp := wait_event_pending cfg core req _ _ r hr
  have hs := wait_event_stores cfg core req _ _ r hr
  rw [hr]
  refine ⟨r.2.set_req_data req ((r.2.core_eu core).evt_mask &&& (r.2.core_eu core).status),
    by simp only [Option.some_bind, hp], hs⟩

/-- C23 at a concrete input: core 0 of the demo unit, running with nothing
latched, writes to its wait-and-clear register (offset `0x3c`); the write is
accepted and puts the core to sleep. -/
theorem C23_write_to_wait_clear_accepted_witness :
    ∃ s', Core_event_unit.req demo_cfg 0 7 0x3c true demo_state = some (IO_REQ_PENDING, s') ∧
      (s'.core_eu 0).pending_req = some 7 ∧ (s'.core_eu 0).is_active = false := by
  obtain ⟨s', h, hp⟩ :=
    (C23_write_to_wait_clear_accepted demo_cfg 0 7 demo_state (by decide)).2.2.2.2.2
  refine ⟨s', h, hp, ?_⟩
  have hd : (Core_event_unit.req demo_cfg 0 7 0x3c true demo_state).map
      (fun r => (r.2.core_eu 0).is_active) = some false := by decide
  have h' : Core_event_unit.req demo_cfg 0 7 0x3c true demo_state = some (IO_REQ_PENDING, s') := h
  rw [h'] at hd
  simpa using hd

/-! ## Rejected accesses -/

theorem ret_ok_bind (s : State) (x : Option State) :
    ∀ r : io_req_status_e × State, (x.bind fun s1 => some (IO_REQ_OK, s1)) = some r →
      r.1 = IO_REQ_INVALID → r.2 = s := by
  intro r h hi
  rw [Option.bind_eq_some] at h
  obtain ⟨s1, _, h2⟩ := h
  cases h2
  cases hi

theorem ret_wait_data (cfg : Config) (core req : Nat) (ws : Event_unit_core_state_e)
    (s t : State) :
    ∀ r : io_req_status_e × State,
      ((Core_event_unit.wait_event cfg core req ws t).bind fun r =>
        some (r.1, r.2.set_req_data req
          ((r.2.core_eu core).evt_mask &&& (r.2.core_eu core).status))) = some r →
      r.1 = IO_REQ_INVALID → r.2 = s := by
  intro r h hi
  rw [Option.bind_eq_some] at h
  obtain ⟨r1, h1, h2⟩ := h
  cases h2
  have hp := wait_event_pending cfg core req ws t r1 h1
  simp only at hi
  rw [hp] at hi
  cases hi

theorem ret_wait (cfg : Config) (core req : Nat) (ws : Event_unit_core_state_e)
    (s t : State) :
    ∀ r : io_req_status_e × State,
      Core_event_unit.wait_event cfg core req ws t = some r →
      r.1 = IO_REQ_INVALID → r.2 = s := by
  intro r h hi
  rw [wait_event_pending cfg core req ws t r h] at hi
  cases hi

/-- An access that the register block of a core rejects changes nothing. -/
theorem core_req_invalid (cfg : Config) (core req offset : Nat) (is_write : Bool) (s : State) :
    ∀ r, Core_event_unit.req cfg core req offset is_write s = some r →
      r.1 = IO_REQ_INVALID → r.2 = s := by
  unfold Core_event_unit.req
  dsimp only
  repeat' apply ret_ite
  all_goals first
    | exact ret_some _ _ (fun _ => rfl)
    | exact ret_some _ _ (fun h => by cases h)
    | exact ret_ok_bind s _
    | exact ret_wait_data cfg core req _ s _
    | (intro r h hi
       rw [Option.bind_eq_some] at h
       obtain ⟨s1, _, h2⟩ := h
       rw [Option.bind_eq_some] at h2
       obtain ⟨s2, _, h3⟩ := h2
       cases h3
       cases hi)

/-- An access that the mutex block rejects changes nothing. -/
theorem mutex_req_invalid (cfg : Config) (req offset : Nat) (is_write : Bool) (core : Nat)
    (s : State) :
    ∀ r, Mutex_unit.req cfg req offset is_write core s = some r →
      r.1 = IO_REQ_INVALID → r.2 = s := by
  unfold Mutex_unit.req
  dsimp only
  apply ret_ite
  · exact ret_some _ _ (fun _ => rfl)
  apply ret_ite
  · apply ret_ite
    · exact ret_some _ _ (fun h => by cases h)
    · exact ret_wait cfg core req _ s _
  · intro r h hi
    split at h
    · rw [Option.bind_eq_some] at h
      obtain ⟨s3, _, h4⟩ := h
      cases h4
      cases hi
    · cases h; cases hi

/-- An access that the software event block rejects changes nothing. -/
theorem sw_events_req_invalid (cfg : Config) (req offset : Nat) (is_write : Bool) (core : Int)
    (s : State) :
    ∀ r, Event_unit.sw_events_req cfg req offset is_write core s = some r →
      r.1 = IO_REQ_INVALID → r.2 = s := by
  have kw : ∀ (x : Option State) (f : State → State),
      ∀ r : io_req_status_e × State,
        (x.bind fun s1 =>
          (Core_event_unit.wait_event cfg core.toNat req CORE_STATE_WAITING_EVENT (f s1)).bind
            fun r => some (r.1, r.2.set_req_data req
              ((r.2.core_eu core.toNat).evt_mask &&& (r.2.core_eu core.toNat).status))) =
          some r →
        r.1 = IO_REQ_INVALID → r.2 = s := by
    intro x f r h hi
    rw [Option.bind_eq_some] at h
    obtain ⟨s1, _, h2⟩ := h
    exact ret_wait_data cfg core.toNat req _ s (f s1) r h2 hi
  unfold Event_unit.sw_events_req
  dsimp only
  repeat' apply ret_ite
  all_goals first
    | exact ret_some _ _ (fun _ => rfl)
    | exact ret_ok_bind s _
    | exact kw _ (fun s1 => s1)
    | exact kw _ (fun s1 => s1.set_core core.toNat
        { s1.core_eu core.toNat with clear_evt_mask := (s1.core_eu core.toNat).evt_mask })

/-- An access that the barrier block rejects changes nothing. -/
theorem barrier_req_invalid (cfg : Config) (req offset0 : Nat) (is_write : Bool) (core : Int)
    (s : State) :
    ∀ r, Barrier_unit.req cfg req offset0 is_write core s = some r →
      r.1 = IO_REQ_INVALID → r.2 = s := by
  have kw : ∀ (x : Option State),
      ∀ r : io_req_status_e × State,
        (x.bind fun s2 =>
          Core_event_unit.wait_event cfg core.toNat req CORE_STATE_WAITING_BARRIER s2) = some r →
        r.1 = IO_REQ_INVALID → r.2 = s := by
    intro x r h hi
    rw [Option.bind_eq_some] at h
    obtain ⟨s1, _, h2⟩ := h
    exact ret_wait cfg core.toNat req _ s s1 r h2 hi
  unfold Barrier_unit.req
  dsimp only
  repeat' apply ret_ite
  all_goals first
    | exact ret_some _ _ (fun _ => rfl)
    | exact ret_some _ _ (fun h => by cases h)
    | exact ret_ok_bind s _
    | exact kw _

/-- An access that the pop register rejects changes nothing. -/
theorem ioReq_invalid (cfg : Config) (req : Nat) (is_write : Bool) (s : State) :
    ∀ r, Soc_event_unit.ioReq cfg req is_write s = some r →
      r.1 = IO_REQ_INVALID → r.2 = s := by
  unfold Soc_event_unit.ioReq
  dsimp only
  repeat' apply ret_ite
  all_goals first
    | exact ret_some _ _ (fun _ => rfl)
    | exact ret_some _ _ (fun h => by cases h)
    | exact ret_ok_bind s _

/-- C22: atomicity of rejection. An access on the slave port (`Event_unit::req`)
or on the port of a core (`Event_unit::demux_req`) that returns
`IO_REQ_INVALID` leaves the whole state as it was: cores, mutexes, barriers,
FIFO, scheduled clock events, outputs, and the data word and latency of every
request. -/
theorem C22_invalid_is_atomic (cfg : Config) (core req offset size : Nat) (is_write : Bool)
    (s : State) :
    (∀ s', Event_unit.req cfg req offset size is_write s = some (IO_REQ_INVALID, s') →
      s' = s) ∧
    (∀ s', Event_unit.demux_req cfg core req offset size is_write s =
      some (IO_REQ_INVALID, s') → s' = s) := by
  constructor
  · intro s' h
    exact event_unit_req_cases cfg req offset size is_write s
      (fun r => r.1 = IO_REQ_INVALID → r.2 = s) (fun _ => rfl)
      (fun c off r _ h => core_req_invalid cfg c req off is_write s r h)
      (ioReq_invalid cfg req is_write s)
      (fun off c r h => sw_events_req_invalid cfg req off is_write c s r h)
      (fun off c r h => barrier_req_invalid cfg req off is_write c s r h) _ h rfl
  · intro s' h
    exact demux_req_cases cfg core req offset size is_write s
      (fun r => r.1 = IO_REQ_INVALID → r.2 = s) (fun _ => rfl)
      (fun off r h => core_req_invalid cfg core req off is_write s r h)
      (fun off r h => mutex_req_invalid cfg req off is_write core s r h)
      (fun off r h => sw_events_req_invalid cfg req off is_write core s r h)
      (fun off r h => barrier_req_invalid cfg req off is_write core s r h) _ h rfl

/-- C22 at a concrete input: a read of the clear-bits register of the event mask
(offset `0x04`) through the port of core 0 of the demo unit is rejected and
leaves the state as it was. -/
theorem C22_invalid_is_atomic_witness :
    ∃ s', Event_unit.demux_req demo_cfg 0 7 0x04 4 false demo_state =
        some (IO_REQ_INVALID, s') ∧ s' = demo_state := by
  have hd : (Event_unit.demux_req demo_cfg 0 7 0x04 4 false demo_state).map Prod.fst =
      some IO_REQ_INVALID := by decide
  rw [Option.map_eq_some'] at hd
  obtain ⟨⟨st, s'⟩, h, hst⟩ := hd
  simp only at hst
  subst hst
  exact ⟨s', h, (C22_invalid_is_atomic demo_cfg 0 7 0x04 4 false demo_state).2 s' h⟩

/-- C24: rejection conditions. (a) An access whose size is not 4 is rejected on
the slave port and on the port of a core, whatever its offset. (b) An access to
a mutex id `≥ nb_mutexes` or to a barrier id `≥ nb_barriers` is rejected. (c) A
barrier trigger-self, trigger-and-wait or trigger-wait-clear access with no
originating core (`core == -1`) is rejected, and so is every software event
access with no originating core outside the plain trigger range, in particular
trigger-and-wait and trigger-wait-clear. The slave port hands `core = -1` to the
barrier and software event blocks. In every case the state is unchanged. -/
theorem C24_rejection_conditions (cfg : Config) (core req offset size : Nat) (is_write : Bool)
    (c : Int) (s : State) :
    (size ≠ 4 →
      Event_unit.req cfg req offset size is_write s = some (IO_REQ_INVALID, s) ∧
      Event_unit.demux_req cfg core req offset size is_write s = some (IO_REQ_INVALID, s)) ∧
    (cfg.archi.EU_MUTEX_AREA_MUTEXID_GET offset ≥ cfg.nb_mutexes →
      Mutex_unit.req cfg req offset is_write core s = some (IO_REQ_INVALID, s)) ∧
    (cfg.archi.EU_BARRIER_AREA_BARRIERID_GET offset ≥ cfg.nb_barriers →
      Barrier_unit.req cfg req offset is_write c s = some (IO_REQ_INVALID, s)) ∧
    (cfg.archi.barrier_regs_ok →
      u64_sub offset (cfg.archi.EU_BARRIER_AREA_OFFSET_GET
          (cfg.archi.EU_BARRIER_AREA_BARRIERID_GET offset)) = cfg.archi.EU_HW_BARR_TRIGGER_SELF ∨
        u64_sub offset (cfg.archi.EU_BARRIER_AREA_OFFSET_GET
          (cfg.archi.EU_BARRIER_AREA_BARRIERID_GET offset)) = cfg.archi.EU_HW_BARR_TRIGGER_WAIT ∨
        u64_sub offset (cfg.archi.EU_BARRIER_AREA_OFFSET_GET
          (cfg.archi.EU_BARRIER_AREA_BARRIERID_GET offset)) =
            cfg.archi.EU_HW_BARR_TRIGGER_WAIT_CLEAR →
      Barrier_unit.req cfg req offset is_write (-1) s = some (IO_REQ_INVALID, s)) ∧
    (¬(cfg.archi.EU_CORE_TRIGG_SW_EVENT ≤ offset ∧
        offset < cfg.archi.EU_CORE_TRIGG_SW_EVENT + cfg.archi.EU_CORE_TRIGG_SW_EVENT_SIZE) →
      Event_unit.sw_events_req cfg req offset is_write (-1) s = some (IO_REQ_INVALID, s)) ∧
    (size = 4 →
      ¬(cfg.archi.EU_CORES_AREA_OFFSET ≤ offset ∧
        offset < cfg.archi.EU_CORES_AREA_OFFSET + cfg.archi.EU_CORES_AREA_SIZE) →
      ¬(cfg.archi.EU_SOC_EVENTS_AREA_OFFSET ≤ offset ∧
        offset < cfg.archi.EU_SOC_EVENTS_AREA_OFFSET + cfg.archi.EU_SOC_EVENTS_AREA_SIZE) →
      (cfg.archi.EU_SW_EVENTS_AREA_BASE ≤ offset ∧
          offset < cfg.archi.EU_SW_EVENTS_AREA_BASE + cfg.archi.EU_SW_EVENTS_AREA_SIZE →
        Event_unit.req cfg req offset size is_write s =
          Event_unit.sw_events_req cfg req (u64_sub offset cfg.archi.EU_SW_EVENTS_AREA_BASE)
            is_write (-1) s) ∧
      (¬(cfg.archi.EU_SW_EVENTS_AREA_BASE ≤ offset ∧
          offset < cfg.archi.EU_SW_EVENTS_AREA_BASE + cfg.archi.EU_SW_EVENTS_AREA_SIZE) →
        cfg.archi.EU_BARRIER_AREA_OFFSET ≤ offset ∧
          offset < cfg.archi.EU_BARRIER_AREA_OFFSET + cfg.archi.EU_BARRIER_AREA_SIZE →
        Event_unit.req cfg req offset size is_write s =
          Barrier_unit.req cfg req (u64_sub offset cfg.archi.EU_BARRIER_AREA_OFFSET)
            is_write (-1) s)) := by
  refine ⟨?_, ?_, ?_, ?_, ?_, ?_⟩
  · intro hsz
    constructor
    · unfold Event_unit.req; simp [hsz]
    · unfold Event_unit.demux_req; simp [hsz]
  · intro hid
    unfold Mutex_unit.req
    simp [hid]
  · intro hid
    unfold Barrier_unit.req
    dsimp only
    rw [if_pos hid]
  · intro hregs hoff
    by_cases hid : cfg.archi.EU_BARRIER_AREA_BARRIERID_GET offset ≥ cfg.nb_barriers
    · unfold Barrier_unit.req
      dsimp only
      rw [if_pos hid]
    · obtain ⟨⟨a1, a2, a3, a4, a5⟩, ⟨b1, b2, b3, b4, b5⟩, ⟨c1, c2, c3, c4, c5⟩, n1, n2, n3⟩ := hregs
      unfold Barrier_unit.req
      dsimp only
      rw [if_neg hid]
      rcases hoff with h | h | h
      · rw [h, if_neg a1, if_neg a2, if_neg a3, if_neg a4, if_neg a5, if_pos rfl, if_pos rfl]
      · rw [h, if_neg b1, if_neg b2, if_neg b3, if_neg b4, if_neg b5, if_neg n1, if_pos rfl,
          if_pos rfl]
      · rw [h, if_neg c1, if_neg c2, if_neg c3, if_neg c4, if_neg c5, if_neg n2, if_neg n3,
          if_pos rfl, if_pos rfl]
  · intro hout
    unfold Event_unit.sw_events_req
    dsimp only
    rw [if_neg hout]
    split
    · rw [if_pos (Or.inr (Or.inl rfl))]
    · split
      · rw [if_pos (Or.inr (Or.inl rfl))]
      · rfl
  · intro hsz h1 h2
    constructor
    · intro h3
      unfold Event_unit.req
      dsimp only
      rw [if_neg (by simp [hsz]), if_neg h1, if_neg h2, if_pos h3]
    · intro h3 h4
      unfold Event_unit.req
      dsimp only
      rw [if_neg (by simp [hsz]), if_neg h1, if_neg h2, if_neg h3, if_pos h4]

/-- C24 at a concrete input: on the demo unit, a two-byte access is rejected on
both ports, and a barrier trigger-and-wait (offset `0xa4` of barrier 0) arriving
on the slave port at `0x4a4` is rejected. -/
theorem C24_rejection_conditions_witness :
    Event_unit.req demo_cfg 7 0x00 2 false demo_state = some (IO_REQ_INVALID, demo_state) ∧
    Event_unit.demux_req demo_cfg 0 7 0x00 2 false demo_state =
      some (IO_REQ_INVALID, demo_state) ∧
    Event_unit.req demo_cfg 7 0x4a4 4 false demo_state = some (IO_REQ_INVALID, demo_state) := by
  have h := C24_rejection_conditions demo_cfg 0 7 0x00 2 false (-1) demo_state
  have h' := C24_rejection_conditions demo_cfg 0 7 0x4a4 4 false (-1) demo_state
  have hb := C24_rejection_conditions demo_cfg 0 7 0xa4 4 false (-1) demo_state
  refine ⟨(h.1 (by decide)).1, (h.1 (by decide)).2, ?_⟩
  rw [(h'.2.2.2.2.2 rfl (by decide) (by decide)).2 (by decide) (by decide)]
  exact hb.2.2.2.1 (by unfold Archi.barrier_regs_ok Archi.outside_mask_regs; decide)
    (Or.inr (Or.inl (by decide)))

/-! ## Reset -/

theorem foldl_establishes {α : Type} (get : State → Nat → α) (f : State → Nat → State)
    (P : α → Prop) (hset : ∀ st i, P (get (f st i) i))
    (hkeep : ∀ st i j, j ≠ i → get (f st i) j = get st j) :
    ∀ (l : List Nat) (st : State) (j : Nat), (j ∈ l ∨ P (get st j)) →
      P (get (l.foldl f st) j) := by
  intro l
  induction l with
  | nil =>
    intro st j h
    rcases h with h | h
    · cases h
    · exact h
  | cons i l ih =>
    intro st j h
    rw [List.foldl_cons]
    apply ih
    by_cases hj : j = i
    · right; subst hj; exact hset st j
    · rcases h with h | h
      · left
        rcases List.mem_cons.1 h with h | h
        · exact absurd h hj
        · exact h
      · right; rw [hkeep st i j hj]; exact h

/-- What the reset of the unit does not touch: the stored request and the active
flag of every core, the clock events that are scheduled, the cycle counter, and
the data word and latency of every request. -/
theorem reset_leaves (cfg : Config) (active : Bool) (s : State) :
    (∀ i, ((Event_unit.reset cfg active s).core_eu i).pending_req = (s.core_eu i).pending_req) ∧
    (∀ i, ((Event_unit.reset cfg active s).core_eu i).is_active = (s.core_eu i).is_active) ∧
    (Event_unit.reset cfg active s).events = s.events ∧
    (Event_unit.reset cfg active s).cycles = s.cycles ∧
    (Event_unit.reset cfg active s).req_data = s.req_data ∧
    (Event_unit.reset cfg active s).req_latency = s.req_latency := by
  cases active
  · exact ⟨fun _ => rfl, fun _ => rfl, rfl, rfl, rfl, rfl⟩
  · have hR : ∀ a b c : State,
        ((∀ i, (b.core_eu i).pending_req = (a.core_eu i).pending_req) ∧
          (∀ i, (b.core_eu i).is_active = (a.core_eu i).is_active) ∧
          b.events = a.events ∧ b.cycles = a.cycles ∧ b.req_data = a.req_data ∧
          b.req_latency = a.req_latency) →
        ((∀ i, (c.core_eu i).pending_req = (b.core_eu i).pending_req) ∧
          (∀ i, (c.core_eu i).is_active = (b.core_eu i).is_active) ∧
          c.events = b.events ∧ c.cycles = b.cycles ∧ c.req_data = b.req_data ∧
          c.req_latency = b.req_latency) →
        ((∀ i, (c.core_eu i).pending_req = (a.core_eu i).pending_req) ∧
          (∀ i, (c.core_eu i).is_active = (a.core_eu i).is_active) ∧
          c.events = a.events ∧ c.cycles = a.cycles ∧ c.req_data = a.req_data ∧
          c.req_latency = a.req_latency) := by
      intro a b c h1 h2
      exact ⟨fun i => (h2.1 i).trans (h1.1 i), fun i => (h2.2.1 i).trans (h1.2.1 i),
        h2.2.2.1.trans h1.2.2.1, h2.2.2.2.1.trans h1.2.2.2.1,
        h2.2.2.2.2.1.trans h1.2.2.2.2.1, h2.2.2.2.2.2.trans h1.2.2.2.2.2⟩
    have h1 := foldl_keeps (fun st i => Core_event_unit.reset i st) _
      (fun _ => ⟨fun _ => rfl, fun _ => rfl, rfl, rfl, rfl, rfl⟩) hR (by
        intro st j
        refine ⟨fun i => ?_, fun i => ?_, rfl, rfl, rfl, rfl⟩
        · by_cases hi : i = j
          · subst hi; simp [Core_event_unit.reset, State.emit, State.set_core]
          · simp [Core_event_unit.reset, State.emit, State.set_core, Function.update_noteq hi]
        · by_cases hi : i = j
          · subst hi; simp [Core_event_unit.reset, State.emit, State.set_core]
          · simp [Core_event_unit.reset, State.emit, State.set_core, Function.update_noteq hi])
      (List.range cfg.nb_core) s
    have h2 := foldl_keeps
      (fun st i =>
        st.set_barrier i
          { core_mask := List.replicate (st.barriers i).core_mask.length 0
            status := List.replicate (st.barriers i).status.length 0
            target_mask := List.replicate (st.barriers i).target_mask.length 0 }) _
      (fun _ => ⟨fun _ => rfl, fun _ => rfl, rfl, rfl, rfl, rfl⟩) hR
      (fun _ _ => ⟨fun _ => rfl, fun _ => rfl, rfl, rfl, rfl, rfl⟩)
      (List.range cfg.nb_barriers)
      ((List.range cfg.nb_core).foldl (fun st i => Core_event_unit.reset i st) s)
    have h3 := foldl_keeps (fun st i => st.set_mutex i (st.mutexes i).reset) _
      (fun _ => ⟨fun _ => rfl, fun _ => rfl, rfl, rfl, rfl, rfl⟩) hR
      (fun _ _ => ⟨fun _ => rfl, fun _ => rfl, rfl, rfl, rfl, rfl⟩)
      (List.range cfg.nb_mutexes)
      (Barrier_unit.reset cfg
        ((List.range cfg.nb_core).foldl (fun st i => Core_event_unit.reset i st) s))
    exact hR _ _ _ (hR _ _ _ h1 h2) h3
theorem barrier_reset_core_eu (cfg : Config) (s : State) :
    (Barrier_unit.reset cfg s).core_eu = s.core_eu ∧
    (Barrier_unit.reset cfg s).mutexes = s.mutexes := by
  unfold Barrier_unit.reset
  exact foldl_keeps
    (fun st i =>
      st.set_barrier i
        { core_mask := List.replicate (st.barriers i).core_mask.length 0
          status := List.replicate (st.barriers i).status.length 0
          target_mask := List.replicate (st.barriers i).target_mask.length 0 })
    (fun a b => b.core_eu = a.core_eu ∧ b.mutexes = a.mutexes) (fun _ => ⟨rfl, rfl⟩)
    (fun _ _ _ h1 h2 => ⟨h2.1.trans h1.1, h2.2.trans h1.2⟩) (fun _ _ => ⟨rfl, rfl⟩) _ s

theorem mutex_reset_core_eu (cfg : Config) (s : State) :
    (Mutex_unit.reset cfg s).core_eu = s.core_eu ∧
    (Mutex_unit.reset cfg s).barriers = s.barriers := by
  unfold Mutex_unit.reset
  exact foldl_keeps (fun st i => st.set_mutex i (st.mutexes i).reset)
    (fun a b => b.core_eu = a.core_eu ∧ b.barriers = a.barriers) (fun _ => ⟨rfl, rfl⟩)
    (fun _ _ _ h1 h2 => ⟨h2.1.trans h1.1, h2.2.trans h1.2⟩) (fun _ _ => ⟨rfl, rfl⟩) _ s

/-- C25: reset postcondition. After `Event_unit::reset(true)`, from any state:
every core of the unit has `status`, `evt_mask`, `irq_mask` and
`clear_evt_mask` at 0, `sync_irq` at -1 and is in `CORE_STATE_NONE`; every mutex
of the unit is unlocked with an empty waiting list; the three masks of every
barrier of the unit are all-zero (with the length they had); the FIFO is empty
with head and tail at 0. `Event_unit::reset(false)` changes nothing. -/
theorem C25_reset_postcondition (cfg : Config) (s : State) :
    (∀ i, i < cfg.nb_core →
      ((Event_unit.reset cfg true s).core_eu i).status = 0 ∧
      ((Event_unit.reset cfg true s).core_eu i).evt_mask = 0 ∧
      ((Event_unit.reset cfg true s).core_eu i).irq_mask = 0 ∧
      ((Event_unit.reset cfg true s).core_eu i).clear_evt_mask = 0 ∧
      ((Event_unit.reset cfg true s).core_eu i).sync_irq = -1 ∧
      ((Event_unit.reset cfg true s).core_eu i).state = CORE_STATE_NONE) ∧
    (∀ i, i < cfg.nb_mutexes →
      ((Event_unit.reset cfg true s).mutexes i).locked = false ∧
      ((Event_unit.reset cfg true s).mutexes i).waiting_list = []) ∧
    (∀ i, i < cfg.nb_barriers →
      ((Event_unit.reset cfg true s).barriers i).core_mask =
        List.replicate (s.barriers i).core_mask.length 0 ∧
      ((Event_unit.reset cfg true s).barriers i).status =
        List.replicate (s.barriers i).status.length 0 ∧
      ((Event_unit.reset cfg true s).barriers i).target_mask =
        List.replicate (s.barriers i).target_mask.length 0) ∧
    (Event_unit.reset cfg true s).soc_event_unit.nb_free_events = (cfg.nb_fifo_events : Int) ∧
    (Event_unit.reset cfg true s).soc_event_unit.fifo_event_head = 0 ∧
    (Event_unit.reset cfg true s).soc_event_unit.fifo_event_tail = 0 ∧
    Event_unit.reset cfg false s = s := by
  obtain ⟨s1, hs1⟩ : ∃ s1 : State, s1 =
      (List.range cfg.nb_core).foldl (fun st i => Core_event_unit.reset i st) s := ⟨_, rfl⟩
  have hreset : Event_unit.reset cfg true s =
      Soc_event_unit.reset cfg (Mutex_unit.reset cfg (Barrier_unit.reset cfg s1)) := by
    rw [hs1]; rfl
  have hb1 : s1.barriers = s.barriers := by
    rw [hs1]
    exact foldl_keeps (fun st i => Core_event_unit.reset i st)
      (fun a b => b.barriers = a.barriers) (fun _ => rfl) (fun _ _ _ h1 h2 => h2.trans h1)
      (fun _ _ => rfl) _ s
  refine ⟨?_, ?_, ?_, rfl, rfl, rfl, rfl⟩
  · intro i hi
    have hc : (Event_unit.reset cfg true s).core_eu = s1.core_eu := by
      rw [hreset]
      show (Mutex_unit.reset cfg (Barrier_unit.reset cfg s1)).core_eu = _
      rw [(mutex_reset_core_eu cfg _).1, (barrier_reset_core_eu cfg _).1]
    rw [hc, hs1]
    exact foldl_establishes (fun st j => st.core_eu j) (fun st j => Core_event_unit.reset j st)
      (fun c => c.status = 0 ∧ c.evt_mask = 0 ∧ c.irq_mask = 0 ∧ c.clear_evt_mask = 0 ∧
        c.sync_irq = -1 ∧ c.state = CORE_STATE_NONE)
      (by intro st j; simp [Core_event_unit.reset, State.emit, State.set_core])
      (by
        intro st j k hk
        simp [Core_event_unit.reset, State.emit, State.set_core, Function.update_noteq hk])
      _ s i (Or.inl (List.mem_range.2 hi))
  · intro i hi
    have hm : (Event_unit.reset cfg true s).mutexes =
        (Mutex_unit.reset cfg (Barrier_unit.reset cfg s1)).mutexes := by
      rw [hreset]; rfl
    rw [hm]
    unfold Mutex_unit.reset
    exact foldl_establishes (fun st j => st.mutexes j)
      (fun st j => st.set_mutex j (st.mutexes j).reset)
      (fun m => m.locked = false ∧ m.waiting_list = [])
      (by intro st j; simp [State.set_mutex, Mutex.reset])
      (by intro st j k hk; simp [State.set_mutex, Function.update_noteq hk])
      _ _ i (Or.inl (List.mem_range.2 hi))
  · intro i hi
    have hb : (Event_unit.reset cfg true s).barriers = (Barrier_unit.reset cfg s1).barriers := by
      rw [hreset]
      show (Mutex_unit.reset cfg (Barrier_unit.reset cfg s1)).barriers = _
      rw [(mutex_reset_core_eu cfg _).2]
    rw [hb, ← hb1]
    unfold Barrier_unit.reset
    have hz := foldl_establishes (fun st j => st.barriers j)
      (fun st i =>
        st.set_barrier i
          { core_mask := List.replicate (st.barriers i).core_mask.length 0
            status := List.replicate (st.barriers i).status.length 0
            target_mask := List.replicate (st.barriers i).target_mask.length 0 })
      (fun b => (∀ x ∈ b.core_mask, x = 0) ∧ (∀ x ∈ b.status, x = 0) ∧
        ∀ x ∈ b.target_mask, x = 0)
      (by
        intro st j
        simp only [State.set_barrier, Function.update_same]
        exact ⟨fun x hx => (List.mem_replicate.1 hx).2, fun x hx => (List.mem_replicate.1 hx).2,
          fun x hx => (List.mem_replicate.1 hx).2⟩)
      (by intro st j k hk; simp [State.set_barrier, Function.update_noteq hk])
      (List.range cfg.nb_barriers) s1 i (Or.inl (List.mem_range.2 hi))
    have hl := foldl_keeps
      (fun st i =>
        st.set_barrier i
          { core_mask := List.replicate (st.barriers i).core_mask.length 0
            status := List.replicate (st.barriers i).status.length 0
            target_mask := List.replicate (st.barriers i).target_mask.length 0 })
      (fun a b => ∀ j, (b.barriers j).core_mask.length = (a.barriers j).core_mask.length ∧
        (b.barriers j).status.length = (a.barriers j).status.length ∧
        (b.barriers j).target_mask.length = (a.barriers j).target_mask.length)
      (fun _ _ => ⟨rfl, rfl, rfl⟩)
      (fun _ _ _ h1 h2 j => ⟨(h2 j).1.trans (h1 j).1, (h2 j).2.1.trans (h1 j).2.1,
        (h2 j).2.2.trans (h1 j).2.2⟩)
      (by
        intro st k j
        by_cases hj : j = k
        · subst hj; simp [State.set_barrier]
        · simp [State.set_barrier, Function.update_noteq hj])
      (List.range cfg.nb_barriers) s1 i
    dsimp only at hz hl
    rw [← hl.1, ← hl.2.1, ← hl.2.2]
    exact ⟨List.eq_replicate_iff.2 ⟨rfl, hz.1⟩, List.eq_replicate_iff.2 ⟨rfl, hz.2.1⟩,
      List.eq_replicate_iff.2 ⟨rfl, hz.2.2⟩⟩

/-- C26 fails as stated: on the demo unit after its reset, core 0 reads its wait
register with request 7 and is put to sleep, and the unit is reset. After the
reset the stored request of core 0 is still request 7. -/
theorem C26_counterexample :
    (run demo_cfg [Action.demux_req 0 7 0x38 4 false 0, Action.reset true]
      (Event_unit.reset demo_cfg true demo_state)).map
        (fun s => (s.core_eu 0).pending_req) = some (some 7) := by
  decide

/-- C26, amended: a reset of the unit leaves the stored request of every core as
it was (`Core_event_unit::reset` does not assign `pending_req`, and
`cancel_pending_req` is never called). The unit keeps no trace of the reset in
the core: the generic wake-up handler, run on the state after the reset for a
core with stored request `r`, answers `r`. -/
theorem C26_reset_keeps_pending_request (cfg : Config) (s : State) (core r : Nat)
    (hp : (s.core_eu core).pending_req = some r) :
    (∀ active i,
      ((Event_unit.reset cfg active s).core_eu i).pending_req = (s.core_eu i).pending_req) ∧
    ∃ s', Core_event_unit.wakeup_handler cfg core (Event_unit.reset cfg true s) = some s' ∧
      s'.resps_of core =
        (Event_unit.reset cfg true s).resps_of core ++ [Output.resp core r (s.req_data r)] := by
  obtain ⟨h1, _, _, _, h5, _⟩ := reset_leaves cfg true s
  refine ⟨fun active i => (reset_leaves cfg active s).1 i, ?_⟩
  have hp' : ((Event_unit.reset cfg true s).core_eu core).pending_req = some r := by
    rw [h1]; exact hp
  obtain ⟨s', hf, _, hr⟩ := fire_spec cfg ⟨0, core, Clock_event_kind.wakeup_event⟩
    (Event_unit.reset cfg true s) (fun _ => by rw [hp']; exact Option.some_ne_none r)
  refine ⟨s', hf, ?_⟩
  rw [hr core r hp', if_pos ⟨rfl, rfl⟩, h5]

/-- C26 at a concrete input: the demo unit is reset while core 0 holds request
7; the request is still stored after the reset, and the generic wake-up handler
of core 0 run after the reset answers it. -/
theorem C26_reset_keeps_pending_request_witness :
    ((Event_unit.reset demo_cfg true demo_state_in_flight).core_eu 0).pending_req = some 7 ∧
    ∃ s', Core_event_unit.wakeup_handler demo_cfg 0
        (Event_unit.reset demo_cfg true demo_state_in_flight) = some s' ∧
      s'.resps_of 0 = [Output.resp 0 7 0] := by
  obtain ⟨h1, s', hf, hr⟩ :=
    C26_reset_keeps_pending_request demo_cfg demo_state_in_flight 0 7 (by decide)
  refine ⟨(h1 true 0).trans (by decide), s', hf, ?_⟩
  rw [hr]
  decide

/-! ## Actions, case by case -/

/-- The accesses routed by `Event_unit::req`, with the originating core `-1`
that the slave port hands to the software events and to the barriers. -/
theorem event_unit_req_direct (cfg : Config) (req offset size : Nat) (is_write : Bool)
    (s : State) (P : io_req_status_e × State → Prop)
    (hinv : P (IO_REQ_INVALID, s))
    (hcore : ∀ c off r, c < cfg.nb_core →
      Core_event_unit.req cfg c req off is_write s = some r → P r)
    (hio : ∀ r, Soc_event_unit.ioReq cfg req is_write s = some r → P r)
    (hsw : ∀ off r, Event_unit.sw_events_req cfg req off is_write (-1) s = some r → P r)
    (hbar : ∀ off r, Barrier_unit.req cfg req off is_write (-1) s = some r → P r) :
    ∀ r, Event_unit.req cfg req offset size is_write s = some r → P r := by
  unfold Event_unit.req
  dsimp only
  apply ret_ite
  · exact ret_some _ _ hinv
  apply ret_ite
  · apply ret_ite_cond
    · exact fun _ => ret_some _ _ hinv
    · intro hc r h
      exact hcore _ _ r (Nat.lt_of_not_le hc) h
  apply ret_ite
  · exact hio
  apply ret_ite
  · exact hsw _
  apply ret_ite
  · exact hbar _
  · exact ret_some _ _ hinv

/-- Every action is one of: an access routed to the register block of a core of
the unit, to the mutex block, to the software events, to the barriers or to the
pop register, or rejected by a router; an IRQ acknowledgement or an input event
for a core of the unit; an external event; a reset; a tick. A relation that is
reflexive, transitive, and holds for each of these holds for every step. -/
theorem step_cases (cfg : Config) (P : State → State → Prop)
    (hrefl : ∀ s, P s s) (htrans : ∀ a b c, P a b → P b c → P a c)
    (hdata : ∀ s r d, P s (s.set_req_data r d))
    (hcore : ∀ s c r off w x, c < cfg.nb_core →
      Core_event_unit.req cfg c r off w s = some x → P s x.2)
    (hmut : ∀ s c r off w x, c < cfg.nb_core →
      Mutex_unit.req cfg r off w c s = some x → P s x.2)
    (hsw : ∀ s (c : Int) r off w x, (c = -1 ∨ ∃ n : Nat, c = n ∧ n < cfg.nb_core) →
      Event_unit.sw_events_req cfg r off w c s = some x → P s x.2)
    (hbar : ∀ s (c : Int) r off w x, (c = -1 ∨ ∃ n : Nat, c = n ∧ n < cfg.nb_core) →
      Barrier_unit.req cfg r off w c s = some x → P s x.2)
    (hio : ∀ s r w x, Soc_event_unit.ioReq cfg r w s = some x → P s x.2)
    (hsync : ∀ s ev s', Soc_event_unit.sync cfg ev s = some s' → P s s')
    (hack : ∀ s irq c s', c < cfg.nb_core →
      Core_event_unit.irq_ack_sync cfg irq c s = some s' → P s s')
    (hin : ∀ s id s', id >>> 16 < cfg.nb_core →
      Event_unit.in_event_sync cfg id s = some s' → P s s')
    (hreset : ∀ s active, P s (Event_unit.reset cfg active s))
    (htick : ∀ s s', s.tick cfg = some s' → P s s') :
    ∀ (a : Action) (s s' : State), a.well_formed cfg → a.step cfg s = some s' → P s s' := by
  intro a s s' hwf h
  cases a with
  | req r offset size is_write data =>
    simp only [Action.step, Option.map_eq_some'] at h
    obtain ⟨x, hx, rfl⟩ := h
    refine htrans _ _ _ (hdata s r data) ?_
    exact event_unit_req_direct cfg r offset size is_write (s.set_req_data r data)
      (fun x => P (s.set_req_data r data) x.2) (hrefl _)
      (fun c off x hc hx => hcore _ c r off is_write x hc hx)
      (fun x hx => hio _ r is_write x hx)
      (fun off x hx => hsw _ (-1) r off is_write x (Or.inl rfl) hx)
      (fun off x hx => hbar _ (-1) r off is_write x (Or.inl rfl) hx) x hx
  | demux_req core r offset size is_write data =>
    simp only [Action.step, Option.map_eq_some'] at h
    obtain ⟨x, hx, rfl⟩ := h
    have hc : core < cfg.nb_core := hwf.1
    refine htrans _ _ _ (hdata s r data) ?_
    exact demux_req_cases cfg core r offset size is_write (s.set_req_data r data)
      (fun x => P (s.set_req_data r data) x.2) (hrefl _)
      (fun off x hx => hcore _ core r off is_write x hc hx)
      (fun off x hx => hmut _ core r off is_write x hc hx)
      (fun off x hx => hsw _ core r off is_write x (Or.inr ⟨core, rfl, hc⟩) hx)
      (fun off x hx => hbar _ core r off is_write x (Or.inr ⟨core, rfl, hc⟩) hx) x hx
  | irq_ack_sync irq core => exact hack s irq core s' hwf h
  | in_event_sync id => exact hin s id s' hwf h
  | soc_event event => exact hsync s event s' h
  | reset active =>
    simp only [Action.step, Option.some.injEq] at h
    subst h
    exact hreset s active
  | tick => exact htick s s' h

/-! ## Mutex queue invariant -/

theorem State.mutexes_ok_of_eq (cfg : Config) {s s' : State} (h : s'.mutexes = s.mutexes)
    (k : s.mutexes_ok cfg) : s'.mutexes_ok cfg := by
  unfold State.mutexes_ok at k ⊢
  rw [h]; exact k

/-- Whatever an access to the mutex block returns, it has kept the mutex
invariant. -/
theorem mutex_req_mutexes_ok (cfg : Config) (req offset : Nat) (is_write : Bool) (core : Nat)
    (s : State) :
    ∀ r, Mutex_unit.req cfg req offset is_write core s = some r →
      s.mutexes_ok cfg → r.2.mutexes_ok cfg := by
  have hset : ∀ (m : Mutex),
      (cfg.archi.EU_MUTEX_AREA_MUTEXID_GET offset < cfg.nb_mutexes → s.mutexes_ok cfg →
        m.waiting_list ≠ [] → m.locked = true) →
      s.mutexes_ok cfg →
      (s.set_mutex (cfg.archi.EU_MUTEX_AREA_MUTEXID_GET offset) m).mutexes_ok cfg := by
    intro m hm k id hid hne
    by_cases hj : id = cfg.archi.EU_MUTEX_AREA_MUTEXID_GET offset
    · subst hj
      simp only [State.set_mutex, Function.update_same] at hne ⊢
      exact hm hid k hne
    · simp only [State.set_mutex, Function.update_noteq hj] at hne ⊢
      exact k id hid hne
  unfold Mutex_unit.req
  dsimp only
  apply ret_ite
  · exact ret_some _ _ (fun k => k)
  apply ret_ite
  · apply ret_ite_cond
    · intro _
      exact ret_some _ _ (hset _ (fun _ _ _ => rfl))
    · intro hl r h k
      have hlocked : (s.mutexes (cfg.archi.EU_MUTEX_AREA_MUTEXID_GET offset)).locked = true := by
        simpa using hl
      have kk := wait_event_keeps cfg _ _ _ _ r h
      refine State.mutexes_ok_of_eq cfg kk.mutexes ?_
      exact hset _ (fun _ _ _ => hlocked) k
  · intro r h k
    split at h
    · rename_i i rest hw
      rw [Option.bind_eq_some] at h
      obtain ⟨s3, h3, h4⟩ := h
      cases h4
      have kk := send_event_keeps cfg _ _ _ s3 h3
      refine State.mutexes_ok_of_eq cfg kk.mutexes ?_
      refine hset _ (fun hid k' _ => ?_) k
      exact k' _ hid (by rw [hw]; exact List.cons_ne_nil _ _)
    · rename_i hw
      cases h
      exact hset _ (fun _ _ hne => absurd hw hne) k

theorem reset_mutexes_ok (cfg : Config) (active : Bool) (s : State) (k : s.mutexes_ok cfg) :
    (Event_unit.reset cfg active s).mutexes_ok cfg := by
  cases active
  · exact k
  · intro i hi hne
    exfalso
    apply hne
    have h := foldl_establishes (fun st j => st.mutexes j)
      (fun st j => st.set_mutex j (st.mutexes j).reset)
      (fun m => m.locked = false ∧ m.waiting_list = [])
      (by intro st j; simp [State.set_mutex, Mutex.reset])
      (by intro st j k hk; simp [State.set_mutex, Function.update_noteq hk])
      (List.range cfg.nb_mutexes)
      (Barrier_unit.reset cfg
        ((List.range cfg.nb_core).foldl (fun st i => Core_event_unit.reset i st) s))
      i (Or.inl (List.mem_range.2 hi))
    exact h.2

/-- Every action keeps the mutex invariant. -/
theorem step_mutexes_ok (cfg : Config) (a : Action) (s s' : State) (hwf : a.well_formed cfg)
    (h : a.step cfg s = some s') : s.mutexes_ok cfg → s'.mutexes_ok cfg := by
  refine step_cases cfg (fun a b => a.mutexes_ok cfg → b.mutexes_ok cfg) (fun _ k => k)
    (fun _ _ _ h1 h2 k => h2 (h1 k)) (fun _ _ _ k => k) ?_ ?_ ?_ ?_ ?_ ?_ ?_ ?_ ?_ ?_ a s s' hwf h
  · intro s c r off w x _ hx
    exact State.mutexes_ok_of_eq cfg (core_req_keeps cfg c r off w s x hx).mutexes
  · intro s c r off w x _ hx
    exact mutex_req_mutexes_ok cfg r off w c s x hx
  · intro s c r off w x _ hx
    exact State.mutexes_ok_of_eq cfg (sw_events_req_keeps cfg r off w c s x hx).mutexes
  · intro s c r off w x _ hx
    exact State.mutexes_ok_of_eq cfg (barrier_req_keeps cfg r off w c s x hx).1
  · intro s r w x hx
    exact State.mutexes_ok_of_eq cfg (ioReq_keeps cfg r w s x hx).1
  · intro s ev s' hx
    exact State.mutexes_ok_of_eq cfg (sync_keeps cfg ev s s' hx).1
  · intro s irq c s' _ hx
    exact State.mutexes_ok_of_eq cfg (irq_ack_sync_keeps cfg irq c s s' hx).mutexes
  · intro s id s' _ hx
    exact State.mutexes_ok_of_eq cfg (in_event_sync_keeps cfg id s s' hx).mutexes
  · intro s active
    exact reset_mutexes_ok cfg active s
  · intro s s' hx
    exact State.mutexes_ok_of_eq cfg (tick_keeps cfg s s' hx).mutexes

theorem reachable_mutexes_ok (cfg : Config) (s : State) (h : Reachable cfg s) :
    s.mutexes_ok cfg := by
  induction h with
  | init s0 _ =>
    intro i hi hne
    exfalso
    apply hne
    have h := foldl_establishes (fun st j => st.mutexes j)
      (fun st j => st.set_mutex j (st.mutexes j).reset)
      (fun m => m.locked = false ∧ m.waiting_list = [])
      (by intro st j; simp [State.set_mutex, Mutex.reset])
      (by intro st j k hk; simp [State.set_mutex, Function.update_noteq hk])
      (List.range cfg.nb_mutexes)
      (Barrier_unit.reset cfg
        ((List.range cfg.nb_core).foldl (fun st i => Core_event_unit.reset i st) s0))
      i (Or.inl (List.mem_range.2 hi))
    exact h.2
  | step s1 s2 a _ hwf hstep ih => exact step_mutexes_ok cfg a s1 s2 hwf hstep ih

/-- C30: mutex queue invariant. In every state that the unit reaches from its
reset (by mutex reads, mutex writes, resets, and any other action), a mutex of
the unit with a non-empty waiting list is locked. -/
theorem C30_mutex_queue_invariant (cfg : Config) (s : State) (h : Reachable cfg s) (id : Nat)
    (hid : id < cfg.nb_mutexes) (hq : (s.mutexes id).waiting_list ≠ []) :
    (s.mutexes id).locked = true :=
  reachable_mutexes_ok cfg s h id hid hq

/-- C30 at a concrete input: the demo unit after a reset, a lock of mutex 0 by
core 0 and a lock attempt by core 1, which is queued. -/
theorem C30_mutex_queue_invariant_witness :
    ∃ s, run demo_cfg
        [Action.demux_req 0 5 0xc0 4 false 0, Action.demux_req 1 6 0xc0 4 false 0]
        (Event_unit.reset demo_cfg true demo_state) = some s ∧
      (s.mutexes 0).waiting_list = [1] ∧ (s.mutexes 0).locked = true := by
  have hsome : (run demo_cfg
      [Action.demux_req 0 5 0xc0 4 false 0, Action.demux_req 1 6 0xc0 4 false 0]
      (Event_unit.reset demo_cfg true demo_state)).map
        (fun s => (s.mutexes 0).waiting_list) = some [1] := by decide
  rw [Option.map_eq_some'] at hsome
  obtain ⟨s, hs, hq⟩ := hsome
  have hr : Reachable demo_cfg s := by
    refine reachable_run demo_cfg _ _ s (Reachable.init demo_state demo_state_power_on) ?_ hs
    intro a ha
    simp only [List.mem_cons, List.mem_singleton, List.not_mem_nil, or_false] at ha
    rcases ha with rfl | rfl <;> simp [Action.well_formed, demo_cfg]
  exact ⟨s, hs, hq, C30_mutex_queue_invariant demo_cfg s hr 0 (by decide)
    (by rw [hq]; exact List.cons_ne_nil _ _)⟩

/-! ## Pending-request invariant -/

theorem KeepsRequest.kr_refl (s : State) : KeepsRequest s s :=
  ⟨fun _ h => h, fun _ h => Or.inl h, fun _ h => Or.inl h, fun _ h => Or.inl h⟩

theorem KeepsRequest.kr_trans {a b c : State} (h1 : KeepsRequest a b) (h2 : KeepsRequest b c) :
    KeepsRequest a c := by
  refine ⟨fun i h => h2.pending i (h1.pending i h), ?_, ?_, ?_⟩
  · intro i h
    rcases h2.state i h with h' | h'
    · rcases h1.state i h' with h'' | h''
      · exact Or.inl h''
      · exact Or.inr (h2.pending i h'')
    · exact Or.inr h'
  · intro i h
    rcases h2.active i h with h' | h'
    · rcases h1.active i h' with h'' | h''
      · exact Or.inl h''
      · exact Or.inr (h2.pending i h'')
    · exact Or.inr h'
  · intro e he
    rcases h2.events e he with h' | h' | h' | h'
    · rcases h1.events e h' with h'' | h'' | h'' | h''
      · exact Or.inl h''
      · exact Or.inr (Or.inl h'')
      · exact Or.inr (Or.inr (Or.inl h''))
      · exact Or.inr (Or.inr (Or.inr (h2.pending _ h'')))
    · rcases h1.state _ h' with h'' | h''
      · exact Or.inr (Or.inl h'')
      · exact Or.inr (Or.inr (Or.inr (h2.pending _ h'')))
    · rcases h1.active _ h' with h'' | h''
      · exact Or.inr (Or.inr (Or.inl h''))
      · exact Or.inr (Or.inr (Or.inr (h2.pending _ h'')))
    · exact Or.inr (Or.inr (Or.inr h'))

theorem KeepsRequest.keeps_ok {cfg : Config} {s s' : State} (h : KeepsRequest s s')
    (k : s.pending_ok cfg) : s'.pending_ok cfg := by
  intro i hi hc
  rcases hc with hc | hc | ⟨e, he, hei⟩
  · rcases h.state i hc with h' | h'
    · exact h.pending i (k i hi (Or.inl h'))
    · exact h'
  · rcases h.active i hc with h' | h'
    · exact h.pending i (k i hi (Or.inr (Or.inl h')))
    · exact h'
  · subst hei
    rcases h.events e he with h' | h' | h' | h'
    · exact h.pending _ (k _ hi (Or.inr (Or.inr ⟨e, h', rfl⟩)))
    · exact h.pending _ (k _ hi (Or.inl h'))
    · exact h.pending _ (k _ hi (Or.inr (Or.inl h')))
    · exact h'

theorem KeepsRequest.of_same {s s' : State} (hc : s'.core_eu = s.core_eu)
    (he : s'.events = s.events) : KeepsRequest s s' := by
  refine ⟨?_, ?_, ?_, ?_⟩
  · intro i h; rw [hc]; exact h
  · intro i h; rw [hc] at h; exact Or.inl h
  · intro i h; rw [hc] at h; exact Or.inl h
  · intro e h; rw [he] at h; exact Or.inl h

/-- A change of the fields of one core that stores a request, or that leaves the
stored request alone and neither puts the core in a waiting state nor switches
its clock off. -/
theorem KeepsRequest.kr_set_core (s : State) (i : Nat) (c : Core_event_unit)
    (h : c.pending_req ≠ none ∨
      (c.pending_req = (s.core_eu i).pending_req ∧
        (c.state = (s.core_eu i).state ∨ c.state = CORE_STATE_NONE) ∧
        (c.is_active = (s.core_eu i).is_active ∨ c.is_active = true))) :
    KeepsRequest s (s.set_core i c) := by
  have hi : (s.set_core i c).core_eu i = c := by simp [State.set_core]
  have hj : ∀ j, j ≠ i → (s.set_core i c).core_eu j = s.core_eu j := by
    intro j hj; simp [State.set_core, Function.update_noteq hj]
  refine ⟨?_, ?_, ?_, fun e he => Or.inl he⟩
  · intro j hp
    by_cases hji : j = i
    · subst hji
      rw [hi]
      rcases h with h | h
      · exact h
      · rw [h.1]; exact hp
    · rw [hj j hji]; exact hp
  · intro j hs
    by_cases hji : j = i
    · subst hji
      rw [hi] at hs ⊢
      rcases h with h | h
      · exact Or.inr h
      · rcases h.2.1 with h' | h'
        · exact Or.inl (by rw [← h']; exact hs)
        · exact absurd h' hs
    · rw [hj j hji] at hs; exact Or.inl hs
  · intro j hs
    by_cases hji : j = i
    · subst hji
      rw [hi] at hs ⊢
      rcases h with h | h
      · exact Or.inr h
      · rcases h.2.2 with h' | h'
        · exact Or.inl (by rw [← h']; exact hs)
        · rw [h'] at hs; exact absurd hs (by decide)
    · rw [hj j hji] at hs; exact Or.inl hs

theorem KeepsRequest.kr_enqueue (s : State) (core : Nat) (kind : Clock_event_kind) (l : Nat)
    (h : (s.core_eu core).state ≠ CORE_STATE_NONE ∨ (s.core_eu core).is_active = false ∨
      (s.core_eu core).pending_req ≠ none) :
    KeepsRequest s (s.event_enqueue core kind l) := by
  refine ⟨fun _ h => h, fun _ h => Or.inl h, fun _ h => Or.inl h, ?_⟩
  intro e he
  simp only [State.event_enqueue, List.mem_append, List.mem_singleton] at he
  rcases he with he | he
  · exact Or.inl he
  · subst he
    exact Or.inr h

theorem Frame.keeps_request {m : Nat} {s s' : State} (h : Frame m s s') : KeepsRequest s s' := by
  refine ⟨?_, ?_, ?_, ?_⟩
  · intro i hp; rw [(h.core i).pending_req]; exact hp
  · intro i hs
    rcases (h.core i).state with h' | h'
    · exact Or.inl (by rw [← h']; exact hs)
    · exact absurd h'.1 hs
  · intro i hs
    rw [(h.core i).is_active] at hs
    exact Or.inl hs
  · intro e he
    obtain ⟨added, hadd, hp⟩ := h.events
    rw [hadd, List.mem_append] at he
    rcases he with he | he
    · exact Or.inl he
    · exact Or.inr (Or.inr (Or.inl (hp e he).2.1))

theorem HFrame.hkeeps_request {s s' : State} (h : HFrame s s') : KeepsRequest s s' := by
  refine ⟨?_, ?_, ?_, ?_⟩
  · intro i hp; rw [h.pending_req]; exact hp
  · intro i hs; rw [h.state] at hs; exact Or.inl hs
  · intro i hs
    by_cases ha : (s.core_eu i).is_active = true
    · rw [h.is_active i ha] at hs; exact absurd hs (by decide)
    · exact Or.inl (by simpa using ha)
  · intro e he; rw [h.events] at he; exact Or.inl he

theorem frame_of_total {m : Nat} {s : State} {x : Option State}
    (h : ∃ s', x = some s' ∧ Frame m s s') : ∀ s1, x = some s1 → Frame m s s1 := by
  intro s1 h1
  obtain ⟨s', h', f⟩ := h
  rw [h1] at h'
  cases h'
  exact f

/-- The wait primitive keeps the stored requests in the sense of
`KeepsRequest`. -/
theorem wait_event_keeps_request (cfg : Config) (core req : Nat) (ws : Event_unit_core_state_e)
    (s : State) (r : io_req_status_e × State)
    (h : Core_event_unit.wait_event cfg core req ws s = some r) : KeepsRequest s r.2 := by
  have h0 : KeepsRequest s (s.inc_latency req EU_WAKEUP_REQ_LATENCY) :=
    KeepsRequest.of_same rfl rfl
  by_cases hmask : (s.core_eu core).status &&& (s.core_eu core).evt_mask = 0
  · rw [wait_event_sleep cfg core req ws s hmask] at h
    cases h
    refine h0.kr_trans ?_
    unfold Core_event_unit.put_to_sleep
    dsimp only
    obtain ⟨t, ht⟩ : ∃ t : State, t = s.inc_latency req EU_WAKEUP_REQ_LATENCY := ⟨_, rfl⟩
    rw [← ht]
    have key : ((t.set_core core
        { t.core_eu core with state := ws, is_active := false }).emit
          (Output.clock_sync core false)).set_core core
        { ((t.set_core core { t.core_eu core with state := ws, is_active := false }).emit
            (Output.clock_sync core false)).core_eu core with pending_req := some req } =
        (t.set_core core
          { t.core_eu core with state := ws, is_active := false, pending_req := some req }).emit
          (Output.clock_sync core false) := by
      simp [State.set_core, State.emit]
    rw [key]
    exact (KeepsRequest.kr_set_core t core _ (Or.inl (by simp))).kr_trans
      (KeepsRequest.of_same rfl rfl)
  · obtain ⟨s1, _, f, h'⟩ := wait_event_present cfg core req ws s hmask
    rw [h] at h'
    cases h'
    refine (h0.kr_trans f.keeps_request).kr_trans ?_
    refine (KeepsRequest.kr_set_core s1 core { s1.core_eu core with pending_req := some req }
      (Or.inl (by simp))).kr_trans ?_
    exact KeepsRequest.kr_enqueue _ core _ _ (Or.inr (Or.inr (by simp [State.set_core])))

theorem KeepsRequest.kr_then_enqueue {s s3 : State} (h : KeepsRequest s s3) (core : Nat)
    (kind : Clock_event_kind) (l : Nat)
    (hk : (s.core_eu core).state ≠ CORE_STATE_NONE ∨ (s.core_eu core).is_active = false ∨
      (s3.core_eu core).pending_req ≠ none) :
    KeepsRequest s (s3.event_enqueue core kind l) := by
  refine ⟨h.pending, h.state, h.active, ?_⟩
  intro e he
  simp only [State.event_enqueue, List.mem_append, List.mem_singleton] at he
  rcases he with he | he
  · exact h.events e he
  · subst he
    exact Or.inr hk

section keeps_request

variable (cfg : Config) (cs : Nat → State → Option State)

theorem send_event_with_kr (hcs : ∀ j st st', cs j st = some st' → KeepsRequest st st')
    (j m : Nat) (s s' : State) (h : send_event_with cs j m s = some s') : KeepsRequest s s' :=
  (KeepsRequest.kr_set_core s j ((s.core_eu j).set_status ((s.core_eu j).status ||| m))
    (Or.inr ⟨rfl, Or.inl rfl, Or.inl rfl⟩)).kr_trans (hcs j _ s' h)

theorem trigger_event_with_kr (hcs : ∀ j st st', cs j st = some st' → KeepsRequest st st')
    (m : Nat) (core_mask : List Nat) (s s' : State)
    (h : trigger_event_with cs cfg m core_mask s = some s') : KeepsRequest s s' := by
  unfold trigger_event_with at h
  refine option_foldlM_keeps _ KeepsRequest KeepsRequest.kr_refl
    (fun _ _ _ => KeepsRequest.kr_trans) _ ?_ s s' h
  intro j _ st st' hst
  split at hst
  · exact send_event_with_kr cs hcs j m st st' hst
  · cases hst; exact KeepsRequest.kr_refl st

theorem soc_check_state_with_kr (hcs : ∀ j st st', cs j st = some st' → KeepsRequest st st')
    (s s' : State) (h : Soc_event_unit.check_state_with cs cfg s = some s') :
    KeepsRequest s s' := by
  unfold Soc_event_unit.check_state_with at h
  split at h
  · exact trigger_event_with_kr cfg cs hcs _ _ s s' h
  · cases h; exact KeepsRequest.kr_refl s

theorem clear_status_with_kr (hcs : ∀ j st st', cs j st = some st' → KeepsRequest st st')
    (core mask : Nat) (s s' : State) (h : clear_status_with cs cfg core mask s = some s') :
    KeepsRequest s s' :=
  (KeepsRequest.kr_set_core s core
    { s.core_eu core with status := (s.core_eu core).status &&& u32_not mask }
    (Or.inr ⟨rfl, Or.inl rfl, Or.inl rfl⟩)).kr_trans (soc_check_state_with_kr cfg cs hcs _ s' h)

theorem check_wait_mask_with_kr (hcs : ∀ j st st', cs j st = some st' → KeepsRequest st st')
    (core : Nat) (s s' : State) (h : check_wait_mask_with cs cfg core s = some s') :
    KeepsRequest s s' := by
  unfold check_wait_mask_with at h
  split at h
  · rw [Option.bind_eq_some] at h
    obtain ⟨s1, h1, h2⟩ := h
    cases h2
    exact (clear_status_with_kr cfg cs hcs core _ s s1 h1).kr_trans
      (KeepsRequest.kr_set_core s1 core { s1.core_eu core with clear_evt_mask := 0 }
        (Or.inr ⟨rfl, Or.inl rfl, Or.inl rfl⟩))
  · cases h; exact KeepsRequest.kr_refl s

theorem check_state_body_kr (hcs : ∀ j st st', cs j st = some st' → KeepsRequest st st')
    (core : Nat) (s s' : State) (h : check_state_body cs cfg core s = some s') :
    KeepsRequest s s' := by
  unfold check_state_body at h
  dsimp only at h
  by_cases hact : (s.core_eu core).is_active = true
  · rw [if_pos hact] at h
    split at h <;> cases h
    · exact (KeepsRequest.kr_set_core s core
        { s.core_eu core with sync_irq := (s.core_eu core).pending_irq }
        (Or.inr ⟨rfl, Or.inl rfl, Or.inl rfl⟩)).kr_trans (KeepsRequest.of_same rfl rfl)
    · exact KeepsRequest.kr_refl s
  · have hact' : (s.core_eu core).is_active = false := by simpa using hact
    rw [if_neg hact] at h
    split at h
    · split at h <;> cases h
      · exact (KeepsRequest.kr_enqueue s core Clock_event_kind.irq_wakeup_event EU_WAKEUP_LATENCY
          (Or.inr (Or.inl hact'))).kr_trans
          (KeepsRequest.kr_set_core _ core _ (Or.inr ⟨rfl, Or.inl rfl, Or.inl rfl⟩))
      · exact KeepsRequest.kr_refl s
    · split at h
      · cases h; exact KeepsRequest.kr_refl s
      · split at h
        · rw [Option.bind_eq_some] at h
          obtain ⟨s3, h3, h4⟩ := h
          have k := (KeepsRequest.kr_set_core s core
            { s.core_eu core with state := CORE_STATE_NONE }
            (Or.inr ⟨rfl, Or.inr rfl, Or.inl rfl⟩)).kr_trans
            (check_wait_mask_with_kr cfg cs hcs core _ s3 h3)
          split at h4 <;> cases h4
          · exact k.kr_then_enqueue core _ _ (Or.inr (Or.inl hact'))
          · exact k
        · cases h; exact KeepsRequest.kr_refl s

end keeps_request

theorem check_state_fuel_kr (cfg : Config) : ∀ (fuel core : Nat) (s s' : State),
    check_state_fuel cfg fuel core s = some s' → KeepsRequest s s' := by
  intro fuel
  induction fuel with
  | zero => intro core s s' h; cases h
  | succ n ih =>
    intro core s s' h
    exact check_state_body_kr cfg (check_state_fuel cfg n) (fun j => ih j) core s s' h

/-- Whatever the re-check of a core returns, it has kept the stored requests. -/
theorem check_state_kr (cfg : Config) (core : Nat) (s s' : State)
    (h : Core_event_unit.check_state cfg core s = some s') : KeepsRequest s s' :=
  check_state_fuel_kr cfg _ core s s' h

theorem send_event_kr (cfg : Config) (core m : Nat) (s s' : State)
    (h : Event_unit.send_event cfg core m s = some s') : KeepsRequest s s' :=
  send_event_with_kr _ (check_state_kr cfg) core m s s' h

theorem trigger_event_kr (cfg : Config) (m : Nat) (core_mask : List Nat) (s s' : State)
    (h : Event_unit.trigger_event cfg m core_mask s = some s') : KeepsRequest s s' :=
  trigger_event_with_kr cfg _ (check_state_kr cfg) m core_mask s s' h

theorem soc_check_state_kr (cfg : Config) (s s' : State)
    (h : Soc_event_unit.check_state cfg s = some s') : KeepsRequest s s' :=
  soc_check_state_with_kr cfg _ (check_state_kr cfg) s s' h

theorem clear_status_kr (cfg : Config) (core m : Nat) (s s' : State)
    (h : Core_event_unit.clear_status cfg core m s = some s') : KeepsRequest s s' :=
  clear_status_with_kr cfg _ (check_state_kr cfg) core m s s' h

theorem send_event_all_kr (cfg : Config) (m : Nat) (s s' : State)
    (h : Event_unit.send_event_all cfg m s = some s') : KeepsRequest s s' :=
  option_foldlM_keeps _ KeepsRequest KeepsRequest.kr_refl (fun _ _ _ => KeepsRequest.kr_trans) _
    (fun j _ st st' hst => send_event_kr cfg j m st st' hst) s s' h

theorem kr_bind_ok (s t : State) (x : Option State) (st : io_req_status_e)
    (ht : KeepsRequest s t) (hx : ∀ s1, x = some s1 → KeepsRequest t s1) :
    ∀ r : io_req_status_e × State, (x.bind fun s1 => some (st, s1)) = some r →
      KeepsRequest s r.2 :=
  ret_bind (KeepsRequest s) _ _ _ (fun a ha => ht.kr_trans (hx a ha)) (fun _ ha => ret_some _ _ ha)

theorem kr_wait_data (cfg : Config) (core req : Nat) (ws : Event_unit_core_state_e)
    (s t : State) (ht : KeepsRequest s t) :
    ∀ r : io_req_status_e × State,
      ((Core_event_unit.wait_event cfg core req ws t).bind fun r =>
        some (r.1, r.2.set_req_data req
          ((r.2.core_eu core).evt_mask &&& (r.2.core_eu core).status))) = some r →
      KeepsRequest s r.2 := by
  refine ret_bind (fun r => KeepsRequest s r.2) _ _ _
    (fun a ha => ht.kr_trans (wait_event_keeps_request cfg core req ws t a ha)) ?_
  intro a k
  exact ret_some _ _ (k.kr_trans (KeepsRequest.of_same rfl rfl))

theorem kr_mask (s : State) (core : Nat) (c : Core_event_unit)
    (h1 : c.pending_req = (s.core_eu core).pending_req) (h2 : c.state = (s.core_eu core).state)
    (h3 : c.is_active = (s.core_eu core).is_active) : KeepsRequest s (s.set_core core c) :=
  KeepsRequest.kr_set_core s core c (Or.inr ⟨h1, Or.inl h2, Or.inl h3⟩)

theorem kr_mask_of (s t : State) (hc : t.core_eu = s.core_eu) (he : t.events = s.events)
    (core : Nat) (c : Core_event_unit)
    (h1 : c.pending_req = (t.core_eu core).pending_req) (h2 : c.state = (t.core_eu core).state)
    (h3 : c.is_active = (t.core_eu core).is_active) : KeepsRequest s (t.set_core core c) :=
  (KeepsRequest.of_same hc he).kr_trans (kr_mask t core c h1 h2 h3)

/-- Whatever an access to the register block of a core returns, it has kept the
stored requests. -/
theorem core_req_keeps_request (cfg : Config) (core req offset : Nat) (is_write : Bool)
    (s : State) :
    ∀ r, Core_event_unit.req cfg core req offset is_write s = some r → KeepsRequest s r.2 := by
  unfold Core_event_unit.req
  dsimp only
  repeat' apply ret_ite
  all_goals first
    | exact ret_some _ _ (KeepsRequest.of_same rfl rfl)
    | exact kr_bind_ok s _ _ _ (kr_mask s core _ (by rfl) (by rfl) (by rfl))
        (fun s1 => check_state_kr cfg core _ s1)
    | exact kr_wait_data cfg core req _ s _ (KeepsRequest.kr_refl s)
    | exact kr_wait_data cfg core req _ s _ (kr_mask s core _ (by rfl) (by rfl) (by rfl))
    | exact ret_bind (KeepsRequest s) _ _ _ (clear_status_kr cfg core _ s)
        (fun a ha => kr_bind_ok s a _ _ ha (fun s1 => check_state_kr cfg core _ s1))

/-- Whatever an access to the mutex block returns, it has kept the stored
requests. -/
theorem mutex_req_keeps_request (cfg : Config) (req offset : Nat) (is_write : Bool) (core : Nat)
    (s : State) :
    ∀ r, Mutex_unit.req cfg req offset is_write core s = some r → KeepsRequest s r.2 := by
  unfold Mutex_unit.req
  dsimp only
  apply ret_ite
  · exact ret_some _ _ (KeepsRequest.kr_refl s)
  apply ret_ite
  · apply ret_ite
    · exact ret_some _ _ (KeepsRequest.of_same rfl rfl)
    · intro r h
      refine KeepsRequest.kr_trans ?_ (wait_event_keeps_request cfg _ _ _ _ r h)
      exact kr_mask_of s _ (by rfl) (by rfl) core _ (by rfl) (by rfl) (by rfl)
  · intro r h
    split at h
    · rw [Option.bind_eq_some] at h
      obtain ⟨s3, h3, h4⟩ := h
      cases h4
      exact (KeepsRequest.of_same (by rfl) (by rfl)).kr_trans (send_event_kr cfg _ _ _ s3 h3)
    · cases h; exact KeepsRequest.of_same rfl rfl

/-- Whatever an access to the software event block returns, it has kept the
stored requests. -/
theorem sw_events_req_keeps_request (cfg : Config) (req offset : Nat) (is_write : Bool)
    (core : Int) (s : State) :
    ∀ r, Event_unit.sw_events_req cfg req offset is_write core s = some r →
      KeepsRequest s r.2 := by
  unfold Event_unit.sw_events_req
  dsimp only
  repeat' apply ret_ite
  all_goals first
    | exact ret_some _ _ (KeepsRequest.of_same rfl rfl)
    | exact ret_bind (KeepsRequest s) _ _ _ (send_event_all_kr cfg _ s)
        (fun a ha => ret_some _ _ ha)
    | exact ret_bind (KeepsRequest s) _ _ _ (send_event_all_kr cfg _ s)
        (fun a ha => kr_wait_data cfg _ req _ s a ha)
    | exact ret_bind (KeepsRequest s) _ _ _ (send_event_all_kr cfg _ s)
        (fun a ha => kr_wait_data cfg _ req _ s _
          (ha.kr_trans (kr_mask a _ _ (by rfl) (by rfl) (by rfl))))

theorem check_barrier_kr (cfg : Config) (id : Nat) (s s' : State)
    (h : Barrier_unit.check_barrier cfg id s = some s') : KeepsRequest s s' := by
  unfold Barrier_unit.check_barrier at h
  dsimp only at h
  split at h
  · exact (KeepsRequest.of_same (by rfl) (by rfl)).kr_trans (trigger_event_kr cfg _ _ _ s' h)
  · cases h; exact KeepsRequest.kr_refl s

/-- Whatever an access to the barrier block returns, it has kept the stored
requests. -/
theorem barrier_req_keeps_request (cfg : Config) (req offset0 : Nat) (is_write : Bool)
    (core : Int) (s : State) :
    ∀ r, Barrier_unit.req cfg req offset0 is_write core s = some r → KeepsRequest s r.2 := by
  have kb : ∀ (t : State) (st : io_req_status_e), KeepsRequest s t →
      ∀ r, ((Barrier_unit.check_barrier cfg (cfg.archi.EU_BARRIER_AREA_BARRIERID_GET offset0)
        t).bind fun s1 => some (st, s1)) = some r → KeepsRequest s r.2 := by
    intro t st ht
    exact kr_bind_ok s t _ st ht (fun s1 => check_barrier_kr cfg _ t s1)
  have kw : ∀ (t : State), KeepsRequest s t →
      ∀ r, ((Barrier_unit.check_barrier cfg (cfg.archi.EU_BARRIER_AREA_BARRIERID_GET offset0)
        t).bind fun s2 =>
          Core_event_unit.wait_event cfg core.toNat req CORE_STATE_WAITING_BARRIER s2) = some r →
      KeepsRequest s r.2 := by
    intro t ht
    refine ret_bind (KeepsRequest s) _ _ _
      (fun a ha => ht.kr_trans (check_barrier_kr cfg _ t a ha)) ?_
    intro a ha r hr
    exact ha.kr_trans (wait_event_keeps_request cfg _ _ _ a r hr)
  have hsel : ∀ (p : Prop) [Decidable p] (t : State), KeepsRequest s t →
      KeepsRequest s (if p then s else t) := by
    intro p _ t ht
    split
    · exact KeepsRequest.kr_refl s
    · exact ht
  unfold Barrier_unit.req
  dsimp only
  repeat' apply ret_ite
  all_goals first
    | exact ret_some _ _ (KeepsRequest.of_same rfl rfl)
    | exact kb _ _ (KeepsRequest.of_same (by rfl) (by rfl))
    | exact kw _ (hsel _ _ (KeepsRequest.of_same (by rfl) (by rfl)))
    | exact kw _ ((hsel _ _ (KeepsRequest.of_same (by rfl) (by rfl))).kr_trans
        (kr_mask _ _ _ (by rfl) (by rfl) (by rfl)))

theorem ioReq_keeps_request (cfg : Config) (req : Nat) (is_write : Bool) (s : State) :
    ∀ r, Soc_event_unit.ioReq cfg req is_write s = some r → KeepsRequest s r.2 := by
  unfold Soc_event_unit.ioReq
  dsimp only
  repeat' apply ret_ite
  all_goals first
    | exact ret_some _ _ (KeepsRequest.of_same rfl rfl)
    | exact kr_bind_ok s _ _ _ (KeepsRequest.of_same (by rfl) (by rfl))
        (fun s1 => trigger_event_kr cfg _ _ _ s1)

theorem sync_keeps_request (cfg : Config) (event : Int) (s s' : State)
    (h : Soc_event_unit.sync cfg event s = some s') : KeepsRequest s s' := by
  unfold Soc_event_unit.sync at h
  dsimp only at h
  split at h
  · cases h; exact KeepsRequest.kr_refl s
  · exact (KeepsRequest.of_same (by rfl) (by rfl)).kr_trans (soc_check_state_kr cfg _ s' h)

theorem irq_ack_sync_keeps_request (cfg : Config) (irq core : Nat) (s s' : State)
    (h : Core_event_unit.irq_ack_sync cfg irq core s = some s') : KeepsRequest s s' := by
  unfold Core_event_unit.irq_ack_sync at h
  rw [Option.bind_eq_some] at h
  obtain ⟨s1, h1, h2⟩ := h
  exact ((clear_status_kr cfg core _ s s1 h1).kr_trans
    (kr_mask s1 core _ (by rfl) (by rfl) (by rfl))).kr_trans (check_state_kr cfg core _ s' h2)

theorem in_event_sync_keeps_request (cfg : Config) (id : Nat) (s s' : State)
    (h : Event_unit.in_event_sync cfg id s = some s') : KeepsRequest s s' :=
  (kr_mask s _ _ (by rfl) (by rfl) (by rfl)).kr_trans (check_state_kr cfg _ _ s' h)

theorem kr_wake (s : State) (core : Nat) (o : Output) :
    KeepsRequest s ((s.set_core core { s.core_eu core with is_active := true }).emit o) :=
  (KeepsRequest.kr_set_core s core { s.core_eu core with is_active := true }
    (Or.inr ⟨rfl, Or.inl rfl, Or.inr rfl⟩)).kr_trans (KeepsRequest.of_same rfl rfl)

theorem fire_keeps_request (cfg : Config) (e : Clock_event) (s s' : State)
    (h : e.fire cfg s = some s') : KeepsRequest s s' := by
  unfold Clock_event.fire at h
  split at h
  · unfold Core_event_unit.wakeup_handler at h
    dsimp only at h
    rw [Option.bind_eq_some] at h
    obtain ⟨s2, h2, h3⟩ := h
    unfold Core_event_unit.check_pending_req at h2
    split at h2
    · cases h2
      refine KeepsRequest.kr_trans ?_ (check_state_kr cfg _ _ s' h3)
      exact (kr_wake s e.core (Output.clock_sync e.core true)).kr_trans
        (KeepsRequest.of_same (by rfl) (by rfl))
    · cases h2
  · unfold Core_event_unit.irq_wakeup_handler at h
    dsimp only at h
    refine KeepsRequest.kr_trans ?_ (check_state_kr cfg _ _ s' h)
    exact kr_wake s e.core (Output.clock_sync e.core true)

theorem tick_keeps_request (cfg : Config) (s s' : State) (h : s.tick cfg = some s') :
    KeepsRequest s s' := by
  unfold State.tick at h
  dsimp only at h
  refine KeepsRequest.kr_trans ?_
    (option_foldlM_keeps _ KeepsRequest KeepsRequest.kr_refl (fun _ _ _ => KeepsRequest.kr_trans)
      _ (fun e _ st st' hst => fire_keeps_request cfg e st st' hst) _ s' h)
  refine ⟨fun _ hp => hp, fun _ hs => Or.inl hs, fun _ hs => Or.inl hs, ?_⟩
  intro e he
  exact Or.inl (List.mem_of_mem_filter he)

theorem reset_keeps_request (cfg : Config) (active : Bool) (s : State) :
    KeepsRequest s (Event_unit.reset cfg active s) := by
  cases active
  · exact KeepsRequest.kr_refl s
  · have h1 := foldl_keeps (fun st i => Core_event_unit.reset i st) KeepsRequest
      KeepsRequest.kr_refl (fun _ _ _ => KeepsRequest.kr_trans)
      (fun st j => (KeepsRequest.kr_set_core st j
        { st.core_eu j with
          status := 0, evt_mask := 0, irq_mask := 0, clear_evt_mask := 0, sync_irq := -1,
          state := CORE_STATE_NONE }
        (Or.inr ⟨rfl, Or.inr rfl, Or.inl rfl⟩)).kr_trans (KeepsRequest.of_same rfl rfl))
      (List.range cfg.nb_core) s
    have h2 := foldl_keeps
      (fun st i =>
        st.set_barrier i
          { core_mask := List.replicate (st.barriers i).core_mask.length 0
            status := List.replicate (st.barriers i).status.length 0
            target_mask := List.replicate (st.barriers i).target_mask.length 0 }) KeepsRequest
      KeepsRequest.kr_refl (fun _ _ _ => KeepsRequest.kr_trans)
      (fun _ _ => KeepsRequest.of_same rfl rfl)
      (List.range cfg.nb_barriers)
      ((List.range cfg.nb_core).foldl (fun st i => Core_event_unit.reset i st) s)
    have h3 := foldl_keeps (fun st i => st.set_mutex i (st.mutexes i).reset) KeepsRequest
      KeepsRequest.kr_refl (fun _ _ _ => KeepsRequest.kr_trans)
      (fun _ _ => KeepsRequest.of_same rfl rfl)
      (List.range cfg.nb_mutexes)
      (Barrier_unit.reset cfg
        ((List.range cfg.nb_core).foldl (fun st i => Core_event_unit.reset i st) s))
    exact ((h1.kr_trans h2).kr_trans h3).kr_trans (KeepsRequest.of_same rfl rfl)

/-- Every step of a well-formed action keeps the pending-request invariant. -/
theorem step_pending_ok (cfg : Config) (a : Action) (s s' : State) (hwf : a.well_formed cfg)
    (h : a.step cfg s = some s') (k : s.pending_ok cfg) : s'.pending_ok cfg :=
  (step_cases cfg KeepsRequest KeepsRequest.kr_refl (fun _ _ _ => KeepsRequest.kr_trans)
    (fun _ _ _ => KeepsRequest.of_same rfl rfl)
    (fun s c r off w x _ hx => core_req_keeps_request cfg c r off w s x hx)
    (fun s c r off w x _ hx => mutex_req_keeps_request cfg r off w c s x hx)
    (fun s c r off w x _ hx => sw_events_req_keeps_request cfg r off w c s x hx)
    (fun s c r off w x _ hx => barrier_req_keeps_request cfg r off w c s x hx)
    (fun s r w x hx => ioReq_keeps_request cfg r w s x hx)
    (fun s ev s' hs => sync_keeps_request cfg ev s s' hs)
    (fun s irq c s' _ hs => irq_ack_sync_keeps_request cfg irq c s s' hs)
    (fun s id s' _ hs => in_event_sync_keeps_request cfg id s s' hs)
    (fun s active => reset_keeps_request cfg active s)
    (fun s s' hs => tick_keeps_request cfg s s' hs) a s s' hwf h).keeps_ok k

theorem reachable_pending_ok (cfg : Config) (s : State) (h : Reachable cfg s) :
    s.pending_ok cfg := by
  induction h with
  | init s0 hp =>
    obtain ⟨_, ha, he, _⟩ := reset_leaves cfg true s0
    have hs : ∀ st : State, (Soc_event_unit.reset cfg (Mutex_unit.reset cfg
        (Barrier_unit.reset cfg st))).core_eu = st.core_eu := by
      intro st
      show (Mutex_unit.reset cfg (Barrier_unit.reset cfg st)).core_eu = _
      rw [(mutex_reset_core_eu cfg _).1, (barrier_reset_core_eu cfg _).1]
    intro i hi hc
    exfalso
    rcases hc with hc | hc | ⟨e, hm, _⟩
    · apply hc
      show ((Soc_event_unit.reset cfg (Mutex_unit.reset cfg (Barrier_unit.reset cfg
        ((List.range cfg.nb_core).foldl (fun st i => Core_event_unit.reset i st) s0)))).core_eu
          i).state = CORE_STATE_NONE
      rw [hs]
      exact foldl_establishes (fun st j => st.core_eu j) (fun st j => Core_event_unit.reset j st)
        (fun c => c.state = CORE_STATE_NONE)
        (by intro st j; simp [Core_event_unit.reset, State.emit, State.set_core])
        (by
          intro st j k hk
          simp [Core_event_unit.reset, State.emit, State.set_core, Function.update_noteq hk])
        _ s0 i (Or.inl (List.mem_range.2 hi))
    · rw [ha, hp.2.1 i] at hc
      exact absurd hc (by decide)
    · rw [he, hp.1] at hm
      exact absurd hm (List.not_mem_nil e)
  | step s1 s2 a _ hwf hstep ih => exact step_pending_ok cfg a s1 s2 hwf hstep ih

/-- C21 fails as stated: on the demo unit after its reset, core 0 enables event
0 and reads its wait register with request 7, event 0 arrives, and two ticks
later the generic wake-up fires and answers request 7. No new wait is issued.
In the state reached, core 0 is in `CORE_STATE_NONE` with its clock running and
no clock event is scheduled, and the stored request of core 0 is still request
7: `check_pending_req` answers the request without clearing `pending_req`. -/
theorem C21_counterexample :
    (run demo_cfg
      [Action.demux_req 0 5 0x00 4 true 1, Action.demux_req 0 7 0x38 4 false 0,
        Action.in_event_sync 0, Action.tick, Action.tick]
      (Event_unit.reset demo_cfg true demo_state)).map
        (fun s => ((s.core_eu 0).pending_req, (s.core_eu 0).state, (s.core_eu 0).is_active)) =
      some (some 7, CORE_STATE_NONE, true) ∧
    (run demo_cfg
      [Action.demux_req 0 5 0x00 4 true 1, Action.demux_req 0 7 0x38 4 false 0,
        Action.in_event_sync 0, Action.tick, Action.tick]
      (Event_unit.reset demo_cfg true demo_state)).map
        (fun s => (s.events, s.resps_of 0)) =
      some ([], [Output.resp 0 7 0]) := by
  decide

/-- C21, amended: in every state that the unit reaches from its reset, for every
core of the unit, if the core is not in `CORE_STATE_NONE`, or its clock is off,
or a clock event (generic or IRQ wake-up) is scheduled for it, then the core
holds a stored request. The converse does not hold: a stored request is never
cleared. -/
theorem C21_pending_request_invariant (cfg : Config) (s : State) (h : Reachable cfg s) (i : Nat)
    (hi : i < cfg.nb_core)
    (hw : (s.core_eu i).state ≠ CORE_STATE_NONE ∨ (s.core_eu i).is_active = false ∨
      ∃ e ∈ s.events, e.core = i) :
    (s.core_eu i).pending_req ≠ none :=
  reachable_pending_ok cfg s h i hi hw

/-- C21 at a concrete input: the demo unit after its reset and a read of the
wait register by core 0 with request 7 and an empty event mask; core 0 is
waiting and request 7 is stored. -/
theorem C21_pending_request_invariant_witness :
    ∃ s, run demo_cfg [Action.demux_req 0 7 0x38 4 false 0]
        (Event_unit.reset demo_cfg true demo_state) = some s ∧
      (s.core_eu 0).state = CORE_STATE_WAITING_EVENT ∧ (s.core_eu 0).pending_req ≠ none := by
  have hsome : (run demo_cfg [Action.demux_req 0 7 0x38 4 false 0]
      (Event_unit.reset demo_cfg true demo_state)).map
        (fun s => (s.core_eu 0).state) = some CORE_STATE_WAITING_EVENT := by decide
  rw [Option.map_eq_some'] at hsome
  obtain ⟨s, hs, hq⟩ := hsome
  have hr : Reachable demo_cfg s := by
    refine reachable_run demo_cfg _ _ s (Reachable.init demo_state demo_state_power_on) ?_ hs
    intro a ha
    simp only [List.mem_singleton] at ha
    subst ha
    simp [Action.well_formed, demo_cfg]
  exact ⟨s, hs, hq, C21_pending_request_invariant demo_cfg s hr 0 (by decide)
    (Or.inl (by rw [hq]; decide))⟩

/-- The re-check of a core of the unit returns and keeps the two masks of every
core; it keeps the status of the re-checked core when that core's clock runs,
or it is in `CORE_STATE_NONE`, or it has no deferred clear. -/
theorem check_state_masks (cfg : Config) (core : Nat) (s : State) (hcore : core < cfg.nb_core) :
    ∃ s', Core_event_unit.check_state cfg core s = some s' ∧
      (∀ i, (s'.core_eu i).evt_mask = (s.core_eu i).evt_mask ∧
        (s'.core_eu i).irq_mask = (s.core_eu i).irq_mask) ∧
      ((s.core_eu core).is_active = true ∨ (s.core_eu core).state = CORE_STATE_NONE ∨
          (s.core_eu core).clear_evt_mask = 0 →
        (s'.core_eu core).status = (s.core_eu core).status) := by
  obtain ⟨s', h, f⟩ := check_state_frame cfg core s hcore
  refine ⟨s', h, fun i => ⟨(f.core i).evt_mask, (f.core i).irq_mask⟩, ?_⟩
  intro hq
  rw [check_state_unfold cfg core s hcore] at h
  unfold check_state_body at h
  dsimp only at h
  by_cases hact : (s.core_eu core).is_active = true
  · rw [if_pos hact] at h
    split at h <;> cases h
    · simp [State.set_core, State.emit]
    · rfl
  · rw [if_neg hact] at h
    split at h
    · split at h <;> cases h
      · simp [State.set_core, State.event_enqueue]
      · rfl
    · split at h
      · cases h; rfl
      · rename_i hne
        have hclr : (s.core_eu core).clear_evt_mask = 0 := by
          rcases hq with hq | hq | hq
          · exact absurd hq hact
          · exact absurd hq (hne)
          · exact hq
        split at h
        · unfold check_wait_mask_with at h
          rw [if_neg (by simp [State.set_core, hclr])] at h
          simp only [Option.some_bind] at h
          split at h <;> cases h
          · simp [State.set_core, State.event_enqueue]
          · simp [State.set_core]
        · cases h; rfl

/-- C28 fails as stated: on the demo unit after its reset, core 0 enables event
0 and reads its wait-and-clear register with request 7, so that it sleeps with
the deferred clear mask 1. Through the slave port the event mask of core 0 is
written to 0, event 0 arrives (status 1, no wake-up), and the event mask is
written back to 1: the re-check that follows this write wakes the core and
applies the deferred clear, so the write changes the status of core 0 from 1 to
0. -/
theorem C28_counterexample :
    (run demo_cfg
      [Action.demux_req 0 5 0x00 4 true 1, Action.demux_req 0 7 0x3c 4 false 0,
        Action.req 6 0x00 4 true 0, Action.in_event_sync 0]
      (Event_unit.reset demo_cfg true demo_state)).map
        (fun s => ((s.core_eu 0).status, (s.core_eu 0).evt_mask)) = some (1, 0) ∧
    (run demo_cfg
      [Action.demux_req 0 5 0x00 4 true 1, Action.demux_req 0 7 0x3c 4 false 0,
        Action.req 6 0x00 4 true 0, Action.in_event_sync 0, Action.req 6 0x00 4 true 1]
      (Event_unit.reset demo_cfg true demo_state)).map
        (fun s => ((s.core_eu 0).status, (s.core_eu 0).evt_mask)) = some (0, 1) := by
  decide

theorem mask_write_spec (cfg : Config) (core : Nat) (s : State) (hcore : core < cfg.nb_core)
    (c : Core_event_unit) (hs : c.status = (s.core_eu core).status)
    (ha : c.is_active = (s.core_eu core).is_active) (hst : c.state = (s.core_eu core).state)
    (hcl : c.clear_evt_mask = (s.core_eu core).clear_evt_mask) :
    ∃ s', ((Core_event_unit.check_state cfg core (s.set_core core c)).bind
        fun s1 => some (IO_REQ_OK, s1)) = some (IO_REQ_OK, s') ∧
      (s'.core_eu core).evt_mask = c.evt_mask ∧ (s'.core_eu core).irq_mask = c.irq_mask ∧
      ((s.core_eu core).is_active = true ∨ (s.core_eu core).state = CORE_STATE_NONE ∨
          (s.core_eu core).clear_evt_mask = 0 →
        (s'.core_eu core).status = (s.core_eu core).status) := by
  obtain ⟨s', h, hm, hq⟩ := check_state_masks cfg core (s.set_core core c) hcore
  have hc : (s.set_core core c).core_eu core = c := by simp [State.set_core]
  rw [hc] at hq
  have hm' := hm core
  rw [hc] at hm'
  refine ⟨s', by rw [h]; rfl, hm'.1, hm'.2, ?_⟩
  intro k
  rw [ha, hst, hcl] at hq
  rw [hq k, hs]

/-- C28, amended: for a core of the unit with prior event mask `e`, IRQ mask `i`
and data word `d` (the buffer of the request), a write to the event-mask
register returns OK with `evt_mask = d`, a write to the OR register returns OK
with `evt_mask = e | d`, a write to the AND register returns OK with
`evt_mask = e & ~d`, each leaving `irq_mask` as it was, and a read of the
event-mask register returns OK with `e` in the buffer of the request and no
other change; the IRQ-mask registers behave the same on `irq_mask`. The write
leaves the status of the core as it was when the clock of the core runs, or the
core is in `CORE_STATE_NONE`, or the core has no deferred clear. -/
theorem C28_mask_registers (cfg : Config) (core req : Nat) (s : State)
    (hcore : core < cfg.nb_core) (hregs : cfg.archi.core_regs.Nodup) :
    Core_event_unit.req cfg core req cfg.archi.EU_CORE_MASK false s =
      some (IO_REQ_OK, s.set_req_data req (s.core_eu core).evt_mask) ∧
    Core_event_unit.req cfg core req cfg.archi.EU_CORE_MASK_IRQ false s =
      some (IO_REQ_OK, s.set_req_data req (s.core_eu core).irq_mask) ∧
    (∃ s', Core_event_unit.req cfg core req cfg.archi.EU_CORE_MASK true s =
        some (IO_REQ_OK, s') ∧
      (s'.core_eu core).evt_mask = s.req_data req ∧
      (s'.core_eu core).irq_mask = (s.core_eu core).irq_mask ∧
      ((s.core_eu core).is_active = true ∨ (s.core_eu core).state = CORE_STATE_NONE ∨
          (s.core_eu core).clear_evt_mask = 0 →
        (s'.core_eu core).status = (s.core_eu core).status)) ∧
    (∃ s', Core_event_unit.req cfg core req cfg.archi.EU_CORE_MASK_OR true s =
        some (IO_REQ_OK, s') ∧
      (s'.core_eu core).evt_mask = (s.core_eu core).evt_mask ||| s.req_data req ∧
      (s'.core_eu core).irq_mask = (s.core_eu core).irq_mask ∧
      ((s.core_eu core).is_active = true ∨ (s.core_eu core).state = CORE_STATE_NONE ∨
          (s.core_eu core).clear_evt_mask = 0 →
        (s'.core_eu core).status = (s.core_eu core).status)) ∧
    (∃ s', Core_event_unit.req cfg core req cfg.archi.EU_CORE_MASK_AND true s =
        some (IO_REQ_OK, s') ∧
      (s'.core_eu core).evt_mask = (s.core_eu core).evt_mask &&& u32_not (s.req_data req) ∧
      (s'.core_eu core).irq_mask = (s.core_eu core).irq_mask ∧
      ((s.core_eu core).is_active = true ∨ (s.core_eu core).state = CORE_STATE_NONE ∨
          (s.core_eu core).clear_evt_mask = 0 →
        (s'.core_eu core).status = (s.core_eu core).status)) ∧
    (∃ s', Core_event_unit.req cfg core req cfg.archi.EU_CORE_MASK_IRQ true s =
        some (IO_REQ_OK, s') ∧
      (s'.core_eu core).irq_mask = s.req_data req ∧
      (s'.core_eu core).evt_mask = (s.core_eu core).evt_mask ∧
      ((s.core_eu core).is_active = true ∨ (s.core_eu core).state = CORE_STATE_NONE ∨
          (s.core_eu core).clear_evt_mask = 0 →
        (s'.core_eu core).status = (s.core_eu core).status)) ∧
    (∃ s', Core_event_unit.req cfg core req cfg.archi.EU_CORE_MASK_IRQ_OR true s =
        some (IO_REQ_OK, s') ∧
      (s'.core_eu core).irq_mask = (s.core_eu core).irq_mask ||| s.req_data req ∧
      (s'.core_eu core).evt_mask = (s.core_eu core).evt_mask ∧
      ((s.core_eu core).is_active = true ∨ (s.core_eu core).state = CORE_STATE_NONE ∨
          (s.core_eu core).clear_evt_mask = 0 →
        (s'.core_eu core).status = (s.core_eu core).status)) ∧
    (∃ s', Core_event_unit.req cfg core req cfg.archi.EU_CORE_MASK_IRQ_AND true s =
        some (IO_REQ_OK, s') ∧
      (s'.core_eu core).irq_mask = (s.core_eu core).irq_mask &&& u32_not (s.req_data req) ∧
      (s'.core_eu core).evt_mask = (s.core_eu core).evt_mask ∧
      ((s.core_eu core).is_active = true ∨ (s.core_eu core).state = CORE_STATE_NONE ∨
          (s.core_eu core).clear_evt_mask = 0 →
        (s'.core_eu core).status = (s.core_eu core).status)) := by
  refine ⟨core_req_mask_read cfg core req s hregs, core_req_irq_read cfg core req s hregs,
    ?_, ?_, ?_, ?_, ?_, ?_⟩
  · rw [core_req_mask_write cfg core req s hregs]
    obtain ⟨s', h, h1, h2, h3⟩ := mask_write_spec cfg core s hcore
      { s.core_eu core with evt_mask := s.req_data req } rfl rfl rfl rfl
    exact ⟨s', h, h1, h2, h3⟩
  · rw [core_req_mask_or_write cfg core req s hregs]
    obtain ⟨s', h, h1, h2, h3⟩ := mask_write_spec cfg core s hcore
      { s.core_eu core with evt_mask := (s.core_eu core).evt_mask ||| s.req_data req }
      rfl rfl rfl rfl
    exact ⟨s', h, h1, h2, h3⟩
  · rw [core_req_mask_and_write cfg core req s hregs]
    obtain ⟨s', h, h1, h2, h3⟩ := mask_write_spec cfg core s hcore
      { s.core_eu core with evt_mask := (s.core_eu core).evt_mask &&& u32_not (s.req_data req) }
      rfl rfl rfl rfl
    exact ⟨s', h, h1, h2, h3⟩
  · rw [core_req_irq_write cfg core req s hregs]
    obtain ⟨s', h, h1, h2, h3⟩ := mask_write_spec cfg core s hcore
      { s.core_eu core with irq_mask := s.req_data req } rfl rfl rfl rfl
    exact ⟨s', h, h2, h1, h3⟩
  · rw [core_req_irq_or_write cfg core req s hregs]
    obtain ⟨s', h, h1, h2, h3⟩ := mask_write_spec cfg core s hcore
      { s.core_eu core with irq_mask := (s.core_eu core).irq_mask ||| s.req_data req }
      rfl rfl rfl rfl
    exact ⟨s', h, h2, h1, h3⟩
  · rw [core_req_irq_and_write cfg core req s hregs]
    obtain ⟨s', h, h1, h2, h3⟩ := mask_write_spec cfg core s hcore
      { s.core_eu core with irq_mask := (s.core_eu core).irq_mask &&& u32_not (s.req_data req) }
      rfl rfl rfl rfl
    exact ⟨s', h, h2, h1, h3⟩

/-- C28 at a concrete input: core 0 of the demo unit, running with event bit 0
in its mask and latched in its status, writes 6 to its OR register (offset
`0x08`): the event mask becomes 7, the IRQ mask stays 0 and the status stays
1. -/
theorem C28_mask_registers_witness :
    ∃ s', Core_event_unit.req demo_cfg 0 5 0x08 true (demo_state_event.set_req_data 5 6) =
        some (IO_REQ_OK, s') ∧
      (s'.core_eu 0).evt_mask = 7 ∧ (s'.core_eu 0).irq_mask = 0 ∧ (s'.core_eu 0).status = 1 := by
  obtain ⟨s', h, h1, h2, h3⟩ :=
    (C28_mask_registers demo_cfg 0 5 (demo_state_event.set_req_data 5 6) (by decide)
      (by decide)).2.2.2.1
  exact ⟨s', h, h1.trans (by decide), h2.trans (by decide), (h3 (Or.inl (by decide))).trans
    (by decide)⟩

theorem KeepsStatus.ks_refl (i : Nat) (s : State) : KeepsStatus i s s :=
  ⟨fun h => h, fun _ _ h => h⟩

theorem KeepsStatus.ks_trans {i : Nat} {a b c : State} (h1 : KeepsStatus i a b)
    (h2 : KeepsStatus i b c) : KeepsStatus i a c :=
  ⟨fun h => h2.quiet (h1.quiet h), fun h b hb => h2.bits (h1.quiet h) b (h1.bits h b hb)⟩

theorem KeepsStatus.ks_of_same {i : Nat} {s s' : State} (h : s'.core_eu = s.core_eu) :
    KeepsStatus i s s' :=
  ⟨fun k => by rw [h]; exact k, fun _ b hb => by rw [h]; exact hb⟩

theorem KeepsStatus.ks_vacuous {i : Nat} {s : State} (s' : State)
    (h : ¬((s.core_eu i).is_active = true ∨ (s.core_eu i).state = CORE_STATE_NONE)) :
    KeepsStatus i s s' :=
  ⟨fun k => absurd k h, fun k => absurd k h⟩

/-- A change of the fields of one core that keeps it quiet and clears no bit of
its status. -/
theorem KeepsStatus.ks_set_core (i : Nat) (s : State) (j : Nat) (c : Core_event_unit)
    (hq : j = i → ((s.core_eu j).is_active = true ∨ (s.core_eu j).state = CORE_STATE_NONE) →
      (c.is_active = true ∨ c.state = CORE_STATE_NONE) ∧
      ∀ b, (s.core_eu j).status.testBit b = true → c.status.testBit b = true) :
    KeepsStatus i s (s.set_core j c) := by
  by_cases hji : i = j
  · subst hji
    have hc : (s.set_core i c).core_eu i = c := by simp [State.set_core]
    exact ⟨fun k => by rw [hc]; exact (hq rfl k).1, fun k b hb => by rw [hc]; exact (hq rfl k).2 b hb⟩
  · have hc : (s.set_core j c).core_eu i = s.core_eu i := by
      simp [State.set_core, Function.update_noteq hji]
    exact ⟨fun k => by rw [hc]; exact k, fun _ b hb => by rw [hc]; exact hb⟩

section keeps_status

variable (cfg : Config) (cs : Nat → State → Option State) (i : Nat)

theorem send_event_with_ks (hcs : ∀ j st st', cs j st = some st' → KeepsStatus i st st')
    (j m : Nat) (s s' : State) (h : send_event_with cs j m s = some s') : KeepsStatus i s s' := by
  refine (KeepsStatus.ks_set_core i s j
    ((s.core_eu j).set_status ((s.core_eu j).status ||| m)) ?_).ks_trans (hcs j _ s' h)
  intro _ k
  refine ⟨k, fun b hb => ?_⟩
  simp [Core_event_unit.set_status, Nat.testBit_or, hb]

theorem trigger_event_with_ks (hcs : ∀ j st st', cs j st = some st' → KeepsStatus i st st')
    (m : Nat) (core_mask : List Nat) (s s' : State)
    (h : trigger_event_with cs cfg m core_mask s = some s') : KeepsStatus i s s' := by
  unfold trigger_event_with at h
  refine option_foldlM_keeps _ (KeepsStatus i) (KeepsStatus.ks_refl i)
    (fun _ _ _ => KeepsStatus.ks_trans) _ ?_ s s' h
  intro j _ st st' hst
  split at hst
  · exact send_event_with_ks cs i hcs j m st st' hst
  · cases hst; exact KeepsStatus.ks_refl i st

theorem soc_check_state_with_ks (hcs : ∀ j st st', cs j st = some st' → KeepsStatus i st st')
    (s s' : State) (h : Soc_event_unit.check_state_with cs cfg s = some s') :
    KeepsStatus i s s' := by
  unfold Soc_event_unit.check_state_with at h
  split at h
  · exact trigger_event_with_ks cfg cs i hcs _ _ s s' h
  · cases h; exact KeepsStatus.ks_refl i s

theorem check_wait_mask_with_ks (hcs : ∀ j st st', cs j st = some st' → KeepsStatus i st st')
    (core : Nat) (hne : core ≠ i) (s s' : State)
    (h : check_wait_mask_with cs cfg core s = some s') : KeepsStatus i s s' := by
  unfold check_wait_mask_with at h
  split at h
  · rw [Option.bind_eq_some] at h
    obtain ⟨s1, h1, h2⟩ := h
    cases h2
    unfold clear_status_with at h1
    dsimp only at h1
    exact ((KeepsStatus.ks_set_core i s core _ (fun hc => absurd hc hne)).ks_trans
      (soc_check_state_with_ks cfg cs i hcs _ s1 h1)).ks_trans
      (KeepsStatus.ks_set_core i s1 core _ (fun hc => absurd hc hne))
  · cases h; exact KeepsStatus.ks_refl i s

theorem check_state_body_ks (hcs : ∀ j st st', cs j st = some st' → KeepsStatus i st st')
    (core : Nat) (s s' : State) (h : check_state_body cs cfg core s = some s') :
    KeepsStatus i s s' := by
  unfold check_state_body at h
  dsimp only at h
  by_cases hact : (s.core_eu core).is_active = true
  · rw [if_pos hact] at h
    split at h <;> cases h
    · exact (KeepsStatus.ks_set_core i s core
        { s.core_eu core with sync_irq := (s.core_eu core).pending_irq }
        (fun _ k => ⟨k, fun _ hb => hb⟩)).ks_trans (KeepsStatus.ks_of_same rfl)
    · exact KeepsStatus.ks_refl i s
  · rw [if_neg hact] at h
    split at h
    · split at h <;> cases h
      · have e1 : KeepsStatus i s (s.event_enqueue core Clock_event_kind.irq_wakeup_event
            EU_WAKEUP_LATENCY) := KeepsStatus.ks_of_same rfl
        exact e1.ks_trans
          (KeepsStatus.ks_set_core i _ core
            { (s.event_enqueue core Clock_event_kind.irq_wakeup_event
                EU_WAKEUP_LATENCY).core_eu core with sync_irq := -1 }
            (fun _ k => ⟨k, fun _ hb => hb⟩))
      · exact KeepsStatus.ks_refl i s
    · split at h
      · cases h; exact KeepsStatus.ks_refl i s
      · rename_i hst
        split at h
        · by_cases hci : core = i
          · subst hci
            refine KeepsStatus.ks_vacuous s' ?_
            rintro (k | k)
            · exact hact k
            · exact hst k
          · rw [Option.bind_eq_some] at h
            obtain ⟨s3, h3, h4⟩ := h
            have k := (KeepsStatus.ks_set_core i s core
              { s.core_eu core with state := CORE_STATE_NONE }
              (fun hc => absurd hc hci)).ks_trans
              (check_wait_mask_with_ks cfg cs i hcs core hci _ s3 h3)
            split at h4 <;> cases h4
            · exact k.ks_trans (KeepsStatus.ks_of_same rfl)
            · exact k
        · cases h; exact KeepsStatus.ks_refl i s

end keeps_status

theorem check_state_fuel_ks (cfg : Config) (i : Nat) : ∀ (fuel core : Nat) (s s' : State),
    check_state_fuel cfg fuel core s = some s' → KeepsStatus i s s' := by
  intro fuel
  induction fuel with
  | zero => intro core s s' h; cases h
  | succ n ih =>
    intro core s s' h
    exact check_state_body_ks cfg (check_state_fuel cfg n) i (fun j => ih j) core s s' h

/-- Whatever the FIFO broadcast returns, it has kept a quiet core quiet and has
cleared no bit of its status. -/
theorem soc_check_state_ks (cfg : Config) (i : Nat) (s s' : State)
    (h : Soc_event_unit.check_state cfg s = some s') : KeepsStatus i s s' :=
  soc_check_state_with_ks cfg _ i (check_state_fuel_ks cfg i _) s s' h

theorem shl1_testBit_eq (n b : Nat) (h : (shl1 n).testBit b = true) : b = n := by
  unfold shl1 at h
  rw [Nat.testBit_mod_two_pow] at h
  simp only [Nat.shiftLeft_eq, one_mul, Nat.testBit_two_pow, Bool.and_eq_true,
    decide_eq_true_eq] at h
  exact h.2.symm

/-- The clear of status bits of a quiet core of the unit (its clock runs, or it
is in `CORE_STATE_NONE`) returns; the core stays quiet, and its status is the
cleared status, with the FIFO event bit set again when a FIFO event is
configured and the FIFO is not empty. -/
theorem clear_status_quiet (cfg : Config) (core m : Nat) (s : State) (hcore : core < cfg.nb_core)
    (hq : (s.core_eu core).is_active = true ∨ (s.core_eu core).state = CORE_STATE_NONE)
    (hfifo : cfg.fifo_soc_event = -1 ∨
      (0 ≤ cfg.fifo_soc_event ∧ cfg.fifo_soc_event < 32 ∧ cfg.nb_core ≤ 32 * cfg.mask_words)) :
    ∃ s', Core_event_unit.clear_status cfg core m s = some s' ∧
      Frame cfg.fifo_mask
        (s.set_core core { s.core_eu core with status := (s.core_eu core).status &&& u32_not m })
        s' ∧
      ((s'.core_eu core).is_active = true ∨ (s'.core_eu core).state = CORE_STATE_NONE) ∧
      (s'.core_eu core).status =
        if cfg.fifo_soc_event ≠ -1 ∧
            s.soc_event_unit.nb_free_events ≠ (cfg.nb_fifo_events : Int) then
          ((s.core_eu core).status &&& u32_not m) ||| shl1 cfg.fifo_soc_event.toNat
        else (s.core_eu core).status &&& u32_not m := by
  obtain ⟨s1, hs1⟩ : ∃ s1 : State, s1 =
      s.set_core core { s.core_eu core with status := (s.core_eu core).status &&& u32_not m } :=
    ⟨_, rfl⟩
  have hc1 : s1.core_eu core =
      { s.core_eu core with status := (s.core_eu core).status &&& u32_not m } := by
    rw [hs1]; simp [State.set_core]
  have hsoc : s1.soc_event_unit = s.soc_event_unit := by rw [hs1]; rfl
  have hq1 : (s1.core_eu core).is_active = true ∨ (s1.core_eu core).state = CORE_STATE_NONE := by
    rw [hc1]; exact hq
  have hcl : Core_event_unit.clear_status cfg core m s = Soc_event_unit.check_state cfg s1 := by
    rw [hs1]; rfl
  obtain ⟨s', h, f⟩ := soc_check_state_frame cfg s1
  have ks := soc_check_state_ks cfg core s1 s' h
  rw [← hs1]
  refine ⟨s', by rw [hcl]; exact h, f, ks.quiet hq1, ?_⟩
  by_cases hb : cfg.fifo_soc_event ≠ -1 ∧
      s.soc_event_unit.nb_free_events ≠ (cfg.nb_fifo_events : Int)
  · rw [if_pos hb]
    rcases hfifo with hf | ⟨hf0, hf32, hcov⟩
    · exact absurd hf hb.1
    have hb1 : cfg.fifo_soc_event ≠ -1 ∧
        s1.soc_event_unit.nb_free_events ≠ (cfg.nb_fifo_events : Int) := by
      rw [hsoc]; exact hb
    have ht : Event_unit.trigger_event cfg (shl1 cfg.fifo_soc_event.toNat)
        (List.replicate cfg.mask_words (2 ^ 32 - 1)) s1 = some s' := by
      have h' := h
      unfold Soc_event_unit.check_state Soc_event_unit.check_state_with at h'
      rw [if_pos hb1] at h'
      exact h'
    have hset := fifo_broadcast_sets cfg hf0 hf32 hcov s1 s' hb1.2 ht core hcore
    have hfm : cfg.fifo_mask = shl1 cfg.fifo_soc_event.toNat := by
      unfold Config.fifo_mask; rw [if_neg hb.1]
    apply Nat.eq_of_testBit_eq
    intro b
    rw [Bool.eq_iff_iff]
    constructor
    · intro hbit
      rcases (f.core core).status b hbit with h1 | h1
      · rw [hc1] at h1
        simp only [Nat.testBit_or, Bool.or_eq_true]
        exact Or.inl h1
      · rw [hfm] at h1
        simp only [Nat.testBit_or, Bool.or_eq_true]
        exact Or.inr h1
    · intro hbit
      simp only [Nat.testBit_or, Bool.or_eq_true] at hbit
      rcases hbit with h1 | h1
      · exact ks.bits hq1 b (by rw [hc1]; exact h1)
      · rw [shl1_testBit_eq _ b h1]; exact hset
  · rw [if_neg hb]
    have hb1 : ¬(cfg.fifo_soc_event ≠ -1 ∧
        s1.soc_event_unit.nb_free_events ≠ (cfg.nb_fifo_events : Int)) := by
      rw [hsoc]; exact hb
    have h' := h
    unfold Soc_event_unit.check_state Soc_event_unit.check_state_with at h'
    rw [if_neg hb1] at h'
    cases h'
    rw [hc1]

/-- C27 fails as stated: core 0 of the demo unit, awake with status 9 (bit 0 and
the FIFO event bit 3) while the FIFO is full, writes 9 to its clear-status
register (offset `0x28`). The write returns OK, and the status is 8 and not
`9 & ~9 = 0`: `clear_status` re-broadcasts the FIFO event after the clear. -/
theorem C27_counterexample :
    (Core_event_unit.req demo_cfg 0 5 0x28 true (demo_state_fifo_latched.set_req_data 5 9)).map
      (fun r => (r.1, (r.2.core_eu 0).status)) = some (IO_REQ_OK, 8) ∧
    ((demo_state_fifo_latched.set_req_data 5 9).core_eu 0).status &&& u32_not 9 = 0 := by
  decide

/-- C27, amended: a read of the clear-status register of a core returns INVALID
and changes nothing. A write of `m` (the buffer of the request) by a core of
the unit with prior status `s` returns OK, and every bit of the status
afterwards is a bit of `s & ~m` or the FIFO event bit. When the clock of the
core runs or the core is in `CORE_STATE_NONE`, and a FIFO event, if configured,
is below 32 with all cores covered by the broadcast mask, the status afterwards
is exactly `s & ~m` if no FIFO event is configured or the FIFO is empty, and
`(s & ~m) | (1 << fifo_soc_event)` otherwise. -/
theorem C27_clear_status_register (cfg : Config) (core req : Nat) (s : State)
    (hcore : core < cfg.nb_core) (hregs : cfg.archi.core_regs.Nodup) :
    Core_event_unit.req cfg core req cfg.archi.EU_CORE_BUFFER_CLEAR false s =
      some (IO_REQ_INVALID, s) ∧
    ∃ s', Core_event_unit.req cfg core req cfg.archi.EU_CORE_BUFFER_CLEAR true s =
        some (IO_REQ_OK, s') ∧
      (∀ b, (s'.core_eu core).status.testBit b = true →
        ((s.core_eu core).status &&& u32_not (s.req_data req)).testBit b = true ∨
          cfg.fifo_mask.testBit b = true) ∧
      ((s.core_eu core).is_active = true ∨ (s.core_eu core).state = CORE_STATE_NONE →
        cfg.fifo_soc_event = -1 ∨
          (0 ≤ cfg.fifo_soc_event ∧ cfg.fifo_soc_event < 32 ∧
            cfg.nb_core ≤ 32 * cfg.mask_words) →
        (s'.core_eu core).status =
          if cfg.fifo_soc_event ≠ -1 ∧
              s.soc_event_unit.nb_free_events ≠ (cfg.nb_fifo_events : Int) then
            ((s.core_eu core).status &&& u32_not (s.req_data req)) |||
              shl1 cfg.fifo_soc_event.toNat
          else (s.core_eu core).status &&& u32_not (s.req_data req)) := by
  refine ⟨core_req_buffer_clear_read cfg core req s hregs, ?_⟩
  rw [core_req_buffer_clear_write cfg core req s hregs]
  obtain ⟨s1, hs1⟩ : ∃ s1 : State, s1 = s.set_core core
      { s.core_eu core with
        status := (s.core_eu core).status &&& u32_not (s.req_data req) } := ⟨_, rfl⟩
  have hc1 : s1.core_eu core =
      { s.core_eu core with
        status := (s.core_eu core).status &&& u32_not (s.req_data req) } := by
    rw [hs1]; simp [State.set_core]
  have hcl : Core_event_unit.clear_status cfg core (s.req_data req) s =
      Soc_event_unit.check_state cfg s1 := by
    rw [hs1]; rfl
  obtain ⟨s2, h2, f2⟩ := soc_check_state_frame cfg s1
  obtain ⟨s3, h3, f3⟩ := check_state_frame cfg core s2 hcore
  refine ⟨s3, by rw [hcl, h2, Option.some_bind, h3, Option.some_bind], ?_, ?_⟩
  · intro b hb
    rcases (f3.core core).status b hb with h | h
    · rcases (f2.core core).status b h with h' | h'
      · rw [hc1] at h'; exact Or.inl h'
      · exact Or.inr h'
    · exact Or.inr h
  · intro hq hfifo
    obtain ⟨s2', h2', _, hq2, hst2⟩ := clear_status_quiet cfg core (s.req_data req) s hcore hq hfifo
    rw [hcl, h2] at h2'
    cases h2'
    obtain ⟨s3', h3', _, hst3⟩ := check_state_masks cfg core s2 hcore
    rw [h3] at h3'
    cases h3'
    rw [hst3 (hq2.elim Or.inl (fun k => Or.inr (Or.inl k))), hst2]

/-- C27 at a concrete input: core 0 of the demo unit, awake with status 9 while
the FIFO is full, writes 8 to its clear-status register; the FIFO event bit 3 is
set again and the status is 9. -/
theorem C27_clear_status_register_witness :
    ∃ s', Core_event_unit.req demo_cfg 0 5 0x28 true (demo_state_fifo_latched.set_req_data 5 8) =
        some (IO_REQ_OK, s') ∧ (s'.core_eu 0).status = 9 := by
  obtain ⟨s', h, _, hq⟩ :=
    (C27_clear_status_register demo_cfg 0 5 (demo_state_fifo_latched.set_req_data 5 8)
      (by decide) (by decide)).2
  exact ⟨s', h, (hq (Or.inl (by decide)) (Or.inr (by decide))).trans (by decide)⟩

theorem wakeups_of_enqueue (s : State) (core : Nat) :
    (s.event_enqueue core Clock_event_kind.wakeup_event EU_WAKEUP_LATENCY).wakeups_of core =
      s.wakeups_of core ++ [⟨s.cycles + EU_WAKEUP_LATENCY, core, Clock_event_kind.wakeup_event⟩] := by
  simp [State.wakeups_of, State.event_enqueue, List.filter_append]

/-- C29 fails as stated: core 0 of the demo unit sleeps in a wait-and-clear on
the FIFO event (status 8, event mask 8, deferred clear mask 8) while the FIFO is
full. The re-check wakes the core, but its status afterwards is 8 and not
`8 & ~8 = 0`: the clear re-broadcasts the FIFO event. -/
theorem C29_counterexample :
    (Core_event_unit.check_state demo_cfg 0 demo_state_fifo_wait).map
      (fun s => ((s.core_eu 0).status, (s.core_eu 0).state, (s.core_eu 0).clear_evt_mask)) =
        some (8, CORE_STATE_NONE, 0) ∧
    (demo_state_fifo_wait.core_eu 0).status &&&
      u32_not (demo_state_fifo_wait.core_eu 0).clear_evt_mask = 0 := by
  decide

/-- C29, amended: for an inactive core of the unit in a waiting state with
`status & evt_mask != 0` (a FIFO event, if configured, being below 32 with all
cores covered by the broadcast mask), the re-check returns with the core in
`CORE_STATE_NONE`, still inactive, `clear_evt_mask = 0`, and the generic wake-up
scheduled two cycles later if none was scheduled (the scheduled wake-ups are
unchanged otherwise). The status afterwards is the prior status if
`clear_evt_mask` was 0; otherwise it is `status & ~clear_evt_mask` if no FIFO
event is configured or the FIFO is empty, and
`(status & ~clear_evt_mask) | (1 << fifo_soc_event)` if the FIFO is not
empty. -/
theorem C29_clear_on_wake (cfg : Config) (core : Nat) (s : State) (hcore : core < cfg.nb_core)
    (hact : (s.core_eu core).is_active = false)
    (hst : (s.core_eu core).state ≠ CORE_STATE_NONE)
    (hev : (s.core_eu core).status &&& (s.core_eu core).evt_mask ≠ 0)
    (hfifo : cfg.fifo_soc_event = -1 ∨
      (0 ≤ cfg.fifo_soc_event ∧ cfg.fifo_soc_event < 32 ∧ cfg.nb_core ≤ 32 * cfg.mask_words)) :
    ∃ s', Core_event_unit.check_state cfg core s = some s' ∧
      (s'.core_eu core).state = CORE_STATE_NONE ∧
      (s'.core_eu core).is_active = false ∧
      (s'.core_eu core).clear_evt_mask = 0 ∧
      (s'.core_eu core).status =
        (if (s.core_eu core).clear_evt_mask = 0 then (s.core_eu core).status
        else if cfg.fifo_soc_event ≠ -1 ∧
            s.soc_event_unit.nb_free_events ≠ (cfg.nb_fifo_events : Int) then
          ((s.core_eu core).status &&& u32_not (s.core_eu core).clear_evt_mask) |||
            shl1 cfg.fifo_soc_event.toNat
        else (s.core_eu core).status &&& u32_not (s.core_eu core).clear_evt_mask) ∧
      s'.wakeups_of core =
        if s.wakeups_of core = [] then
          [⟨s.cycles + EU_WAKEUP_LATENCY, core, Clock_event_kind.wakeup_event⟩]
        else s.wakeups_of core := by
  rw [check_state_of_wake cfg core s hcore hact hst hev]
  obtain ⟨s1, hs1⟩ : ∃ s1 : State, s1 =
      s.set_core core { s.core_eu core with state := CORE_STATE_NONE } := ⟨_, rfl⟩
  rw [← hs1]
  have hc1 : s1.core_eu core = { s.core_eu core with state := CORE_STATE_NONE } := by
    rw [hs1]; simp [State.set_core]
  have hev1 : s1.events = s.events := by rw [hs1]; rfl
  have hcy1 : s1.cycles = s.cycles := by rw [hs1]; rfl
  have hsoc1 : s1.soc_event_unit = s.soc_event_unit := by rw [hs1]; rfl
  -- the state after the deferred clear
  have key : ∃ s3, Core_event_unit.check_wait_mask cfg core s1 = some s3 ∧
      (s3.core_eu core).state = CORE_STATE_NONE ∧ (s3.core_eu core).is_active = false ∧
      (s3.core_eu core).clear_evt_mask = 0 ∧
      (s3.core_eu core).status =
        (if (s.core_eu core).clear_evt_mask = 0 then (s.core_eu core).status
        else if cfg.fifo_soc_event ≠ -1 ∧
            s.soc_event_unit.nb_free_events ≠ (cfg.nb_fifo_events : Int) then
          ((s.core_eu core).status &&& u32_not (s.core_eu core).clear_evt_mask) |||
            shl1 cfg.fifo_soc_event.toNat
        else (s.core_eu core).status &&& u32_not (s.core_eu core).clear_evt_mask) ∧
      s3.wakeups_of core = s.wakeups_of core ∧ s3.cycles = s.cycles := by
    unfold Core_event_unit.check_wait_mask check_wait_mask_with
    by_cases hclr : (s.core_eu core).clear_evt_mask = 0
    · rw [if_neg (by rw [hc1]; simpa using hclr), if_pos hclr]
      refine ⟨s1, rfl, by rw [hc1], by rw [hc1]; exact hact, by rw [hc1]; exact hclr,
        by rw [hc1], ?_, hcy1⟩
      unfold State.wakeups_of
      rw [hev1]
    · rw [if_pos (by rw [hc1]; simpa using hclr), if_neg hclr]
      obtain ⟨s2, h2, f2, _, hst2⟩ := clear_status_quiet cfg core (s1.core_eu core).clear_evt_mask
        s1 hcore (Or.inr (by rw [hc1])) hfifo
      have h2' : clear_status_with (Core_event_unit.check_state cfg) cfg core
          (s1.core_eu core).clear_evt_mask s1 = some s2 := h2
      rw [h2', Option.some_bind]
      have hc3 : (s2.set_core core { s2.core_eu core with clear_evt_mask := 0 }).core_eu core =
          { s2.core_eu core with clear_evt_mask := 0 } := by simp [State.set_core]
      have hf := f2.core core
      have hb1 : (s1.set_core core
          { s1.core_eu core with
            status := (s1.core_eu core).status &&&
              u32_not (s1.core_eu core).clear_evt_mask }).core_eu core =
          { s1.core_eu core with
            status := (s1.core_eu core).status &&&
              u32_not (s1.core_eu core).clear_evt_mask } := by simp [State.set_core]
      rw [hb1] at hf
      refine ⟨_, rfl, ?_, ?_, ?_, ?_, ?_, ?_⟩
      · rw [hc3]
        rcases hf.state with h | h
        · rw [hc1] at h; exact h
        · exact h.1
      · rw [hc3]
        have := hf.is_active
        rw [hc1] at this
        exact this.trans hact
      · rw [hc3]
      · rw [hc3]
        show (s2.core_eu core).status = _
        rw [hst2, hsoc1, hc1]
      · have hw := f2.wakeups_of_eq core (by rw [hb1, hc1])
        have e1 : (s2.set_core core { s2.core_eu core with clear_evt_mask := 0 }).wakeups_of core =
            s2.wakeups_of core := rfl
        rw [e1, hw]
        unfold State.wakeups_of
        show s1.events.filter _ = _
        rw [hev1]
      · show s2.cycles = s.cycles
        rw [f2.cycles]
        exact hcy1
  obtain ⟨s3, h3, k1, k2, k3, k4, k5, k6⟩ := key
  rw [h3, Option.some_bind]
  by_cases hw : s.wakeups_of core = []
  · rw [if_pos ((State.is_enqueued_wakeup_iff s3 core).2 (by rw [k5]; exact hw)), if_pos hw]
    refine ⟨_, rfl, k1, k2, k3, k4, ?_⟩
    rw [wakeups_of_enqueue, k5, hw, k6, List.nil_append]
  · have hne : ¬ s3.is_enqueued core Clock_event_kind.wakeup_event = false := by
      rw [State.is_enqueued_wakeup_iff, k5]; exact hw
    rw [if_neg hne, if_neg hw]
    exact ⟨s3, rfl, k1, k2, k3, k4, k5⟩

/-- C29 at a concrete input: core 0 of the demo unit, asleep in a wait with
request 7, event mask 1 and event bit 0 latched, is re-checked. -/
theorem C29_clear_on_wake_witness :
    ∃ s', Core_event_unit.check_state demo_cfg 0
        (demo_state_suspended.set_core 0
          { demo_state_suspended.core_eu 0 with status := 3, clear_evt_mask := 1 }) = some s' ∧
      (s'.core_eu 0).state = CORE_STATE_NONE ∧ (s'.core_eu 0).status = 2 ∧
      s'.wakeups_of 0 = [⟨2, 0, Clock_event_kind.wakeup_event⟩] := by
  obtain ⟨s', h, h1, _, _, h4, h5⟩ := C29_clear_on_wake demo_cfg 0
    (demo_state_suspended.set_core 0
      { demo_state_suspended.core_eu 0 with status := 3, clear_evt_mask := 1 })
    (by decide) (by decide) (by decide) (by decide) (Or.inr (by decide))
  exact ⟨s', h, h1, h4.trans (by decide), h5.trans (by decide)⟩

theorem check_state_fuel_mono_le (cfg : Config) (n m : Nat) (h : n ≤ m) (core : Nat)
    (s x : State) (hx : check_state_fuel cfg n core s = some x) :
    check_state_fuel cfg m core s = some x := by
  induction m, h using Nat.le_induction with
  | base => exact hx
  | succ k _ ih => exact check_state_fuel_mono cfg k core s x ih

/-- The cascade does not add waiting cores. -/
theorem Frame.nb_waiting_le {m : Nat} {s s' : State} (cfg : Config) (h : Frame m s s') :
    s'.nb_waiting cfg ≤ s.nb_waiting cfg := by
  unfold State.nb_waiting
  apply List.countP_mono_left
  intro j _ hj
  simp only [ne_eq, decide_not, Bool.not_eq_true', decide_eq_false_iff_not] at hj ⊢
  rcases (h.core j).state with h' | h'
  · rw [← h']; exact hj
  · exact absurd h'.1 hj

/-- A re-check at nesting depth one, in which `check_state` cannot be called
again, returns unless the core is inactive, in a waiting state, with a masked
event latched and a deferred clear armed. -/
theorem check_state_fuel_one (cfg : Config) (core : Nat) (s : State)
    (h : (s.core_eu core).is_active = true ∨ (s.core_eu core).state = CORE_STATE_NONE ∨
      (s.core_eu core).status &&& (s.core_eu core).evt_mask = 0 ∨
      (s.core_eu core).clear_evt_mask = 0) :
    ∃ s', check_state_fuel cfg 1 core s = some s' := by
  show ∃ s', check_state_body (check_state_fuel cfg 0) cfg core s = some s'
  unfold check_state_body
  dsimp only
  by_cases hact : (s.core_eu core).is_active = true
  · rw [if_pos hact]
    split <;> exact ⟨_, rfl⟩
  · rw [if_neg hact]
    split
    · split <;> exact ⟨_, rfl⟩
    · split
      · exact ⟨_, rfl⟩
      · rename_i hst
        split
        · rename_i hev
          have hclr : (s.core_eu core).clear_evt_mask = 0 := by
            rcases h with h | h | h | h
            · exact absurd h hact
            · exact absurd h hst
            · exact absurd h hev
            · exact h
          unfold check_wait_mask_with
          rw [if_neg (by simp [State.set_core, hclr])]
          simp only [Option.some_bind]
          split <;> exact ⟨_, rfl⟩
        · exact ⟨_, rfl⟩

/-- C31: termination of the re-check cascade. In every state, the re-check of a
core of the unit returns at every nesting bound larger than the number of cores
that are in a waiting state, with the result of `Core_event_unit::check_state`
(which satisfies the recursive equation of the source), and it does not add
waiting cores; a re-check makes no nested call unless its core is inactive, in
a waiting state, with a masked event latched and a deferred clear armed. The
other members of the chain, `clear_status`, `Soc_event_unit::check_state`,
`trigger_event`, `send_event` and `check_wait_mask`, return as well. -/
theorem C31_cascade_terminates (cfg : Config) (s : State) :
    (∀ core fuel, core < cfg.nb_core → s.nb_waiting cfg < fuel →
      ∃ s', check_state_fuel cfg fuel core s = some s' ∧
        Core_event_unit.check_state cfg core s = some s' ∧
        s'.nb_waiting cfg ≤ s.nb_waiting cfg) ∧
    (∀ core, core < cfg.nb_core →
      Core_event_unit.check_state cfg core s =
        check_state_body (Core_event_unit.check_state cfg) cfg core s) ∧
    (∀ core, (s.core_eu core).is_active = true ∨ (s.core_eu core).state = CORE_STATE_NONE ∨
        (s.core_eu core).status &&& (s.core_eu core).evt_mask = 0 ∨
        (s.core_eu core).clear_evt_mask = 0 →
      ∃ s', check_state_fuel cfg 1 core s = some s') ∧
    (∀ core mask, ∃ s', Core_event_unit.clear_status cfg core mask s = some s') ∧
    (∃ s', Soc_event_unit.check_state cfg s = some s') ∧
    (∀ mask core_mask, ∃ s', Event_unit.trigger_event cfg mask core_mask s = some s') ∧
    (∀ core mask, core < cfg.nb_core → ∃ s', Event_unit.send_event cfg core mask s = some s') ∧
    (∀ core, ∃ s', Core_event_unit.check_wait_mask cfg core s = some s') := by
  refine ⟨?_, fun core hcore => check_state_unfold cfg core s hcore,
    fun core h => check_state_fuel_one cfg core s h, ?_, ?_, ?_, ?_, ?_⟩
  · intro core fuel hcore hfuel
    obtain ⟨s', h, f⟩ := check_state_fuel_frame cfg fuel
      ((List.range cfg.nb_core).filter
        (fun j => decide ((s.core_eu j).state ≠ CORE_STATE_NONE))).toFinset
      (by
        refine lt_of_le_of_lt (List.toFinset_card_le _) ?_
        rw [← List.countP_eq_length_filter]
        exact hfuel)
      core s hcore
      (by
        intro j hj hne
        rw [List.mem_toFinset, List.mem_filter]
        exact ⟨List.mem_range.2 hj, by simpa using hne⟩)
    obtain ⟨s'', h', _⟩ := check_state_frame cfg core s hcore
    refine ⟨s', h, ?_, f.nb_waiting_le cfg⟩
    rw [h']
    have h'' : check_state_fuel cfg (cfg.nb_core + 1) core s = some s'' := h'
    rcases Nat.le_total fuel (cfg.nb_core + 1) with hle | hle
    · have := check_state_fuel_mono_le cfg _ _ hle core s s' h
      rw [h''] at this
      exact this
    · have := check_state_fuel_mono_le cfg _ _ hle core s s'' h''
      rw [h] at this
      exact this.symm
  · intro core mask
    obtain ⟨s', h, _⟩ := clear_status_frame cfg core mask s
    exact ⟨s', h⟩
  · obtain ⟨s', h, _⟩ := soc_check_state_frame cfg s
    exact ⟨s', h⟩
  · intro mask core_mask
    obtain ⟨s', h, _⟩ := trigger_event_frame cfg mask core_mask s
    exact ⟨s', h⟩
  · intro core mask hcore
    obtain ⟨s', h, _⟩ := send_event_frame cfg core mask s hcore
    exact ⟨s', h⟩
  · intro core
    obtain ⟨s', h, _⟩ := check_wait_mask_frame cfg core s
    exact ⟨s', h⟩

/-- C31 at a concrete input: core 0 of the demo unit sleeps in a wait-and-clear
on the FIFO event with a full FIFO, the only waiting core. Its re-check nests one
level (the clear re-broadcasts the FIFO event): it returns at nesting bound 2,
with the result of `Core_event_unit::check_state`, and not at bound 1. -/
theorem C31_cascade_terminates_witness :
    (∃ s', check_state_fuel demo_cfg 2 0 demo_state_fifo_wait = some s' ∧
      Core_event_unit.check_state demo_cfg 0 demo_state_fifo_wait = some s') ∧
    (check_state_fuel demo_cfg 1 0 demo_state_fifo_wait).isSome = false := by
  obtain ⟨s', h1, h2, _⟩ :=
    (C31_cascade_terminates demo_cfg demo_state_fifo_wait).1 0 2 (by decide) (by decide)
  exact ⟨⟨s', h1, h2⟩, by decide⟩

theorem KeepsSleep.sl_refl (s : State) : KeepsSleep s s := fun h => h

theorem KeepsSleep.sl_trans {a b c : State} (h1 : KeepsSleep a b) (h2 : KeepsSleep b c) :
    KeepsSleep a c := fun h => h2 (h1 h)

theorem KeepsSleep.sl_of_same {s s' : State} (h : s'.core_eu = s.core_eu) : KeepsSleep s s' := by
  intro k i
  unfold State.sleep_ok_at
  rw [h]
  exact k i

theorem State.sleep_ok_at_set_ne (s : State) (j : Nat) (c : Core_event_unit) (i : Nat)
    (hij : i ≠ j) (h : s.sleep_ok_at i) : (s.set_core j c).sleep_ok_at i := by
  unfold State.sleep_ok_at at h ⊢
  simpa [State.set_core, Function.update_noteq hij] using h

theorem State.sleep_ok_at_set_self (s : State) (j : Nat) (c : Core_event_unit)
    (h : c.is_active = false → c.state ≠ CORE_STATE_NONE → c.status &&& c.evt_mask = 0) :
    (s.set_core j c).sleep_ok_at j := by
  unfold State.sleep_ok_at
  simpa [State.set_core] using h

/-- A change of the fields of one core after which that core has not missed an
event. -/
theorem KeepsSleep.sl_set_core (s : State) (j : Nat) (c : Core_event_unit)
    (h : s.sleep_ok_at j →
      c.is_active = false → c.state ≠ CORE_STATE_NONE → c.status &&& c.evt_mask = 0) :
    KeepsSleep s (s.set_core j c) := by
  intro k i
  by_cases hij : i = j
  · subst hij; exact State.sleep_ok_at_set_self s i c (h (k i))
  · exact State.sleep_ok_at_set_ne s j c i hij (k i)

theorem land_shrink (st x e : Nat) (h : st &&& e = 0) : (st &&& x) &&& e = 0 := by
  apply Nat.eq_of_testBit_eq
  intro b
  have hb := congrArg (fun n => n.testBit b) h
  simp only [Nat.testBit_and, Nat.zero_testBit] at hb ⊢
  cases h1 : st.testBit b <;> cases h2 : e.testBit b <;> simp_all

section keeps_sleep

variable (cfg : Config) (cs : Nat → State → Option State)

theorem send_event_with_sok
    (hcs : ∀ j st st', cs j st = some st' → (∀ i, i ≠ j → st.sleep_ok_at i) → st'.sleep_ok)
    (j m : Nat) (s s' : State) (h : send_event_with cs j m s = some s') : KeepsSleep s s' := by
  intro k
  exact hcs j _ s' h (fun i hij => State.sleep_ok_at_set_ne s j _ i hij (k i))

theorem trigger_event_with_sok
    (hcs : ∀ j st st', cs j st = some st' → (∀ i, i ≠ j → st.sleep_ok_at i) → st'.sleep_ok)
    (m : Nat) (core_mask : List Nat) (s s' : State)
    (h : trigger_event_with cs cfg m core_mask s = some s') : KeepsSleep s s' := by
  unfold trigger_event_with at h
  refine option_foldlM_keeps _ KeepsSleep KeepsSleep.sl_refl
    (fun _ _ _ => KeepsSleep.sl_trans) _ ?_ s s' h
  intro j _ st st' hst
  split at hst
  · exact send_event_with_sok cs hcs j m st st' hst
  · cases hst; exact KeepsSleep.sl_refl st

theorem soc_check_state_with_sok
    (hcs : ∀ j st st', cs j st = some st' → (∀ i, i ≠ j → st.sleep_ok_at i) → st'.sleep_ok)
    (s s' : State) (h : Soc_event_unit.check_state_with cs cfg s = some s') :
    KeepsSleep s s' := by
  unfold Soc_event_unit.check_state_with at h
  split at h
  · exact trigger_event_with_sok cfg cs hcs _ _ s s' h
  · cases h; exact KeepsSleep.sl_refl s

theorem clear_status_with_sok
    (hcs : ∀ j st st', cs j st = some st' → (∀ i, i ≠ j → st.sleep_ok_at i) → st'.sleep_ok)
    (core mask : Nat) (s s' : State) (h : clear_status_with cs cfg core mask s = some s') :
    KeepsSleep s s' := by
  refine KeepsSleep.sl_trans (KeepsSleep.sl_set_core s core
    { s.core_eu core with status := (s.core_eu core).status &&& u32_not mask } ?_)
    (soc_check_state_with_sok cfg cs hcs _ s' h)
  intro k ha hs
  exact land_shrink _ _ _ (k ha hs)

theorem check_wait_mask_with_sok
    (hcs : ∀ j st st', cs j st = some st' → (∀ i, i ≠ j → st.sleep_ok_at i) → st'.sleep_ok)
    (core : Nat) (s s' : State) (h : check_wait_mask_with cs cfg core s = some s') :
    KeepsSleep s s' := by
  unfold check_wait_mask_with at h
  split at h
  · rw [Option.bind_eq_some] at h
    obtain ⟨s1, h1, h2⟩ := h
    cases h2
    exact (clear_status_with_sok cfg cs hcs core _ s s1 h1).sl_trans
      (KeepsSleep.sl_set_core s1 core { s1.core_eu core with clear_evt_mask := 0 }
        (fun k => k))
  · cases h; exact KeepsSleep.sl_refl s

theorem check_state_body_sok
    (hcs : ∀ j st st', cs j st = some st' → (∀ i, i ≠ j → st.sleep_ok_at i) → st'.sleep_ok)
    (core : Nat) (s s' : State) (h : check_state_body cs cfg core s = some s')
    (k : ∀ i, i ≠ core → s.sleep_ok_at i) : s'.sleep_ok := by
  have hall : s.sleep_ok_at core → s.sleep_ok := by
    intro kc i
    by_cases hi : i = core
    · subst hi; exact kc
    · exact k i hi
  unfold check_state_body at h
  dsimp only at h
  by_cases hact : (s.core_eu core).is_active = true
  · have kc : s.sleep_ok_at core := fun ha => by rw [hact] at ha; exact absurd ha (by decide)
    rw [if_pos hact] at h
    split at h <;> cases h
    · exact (KeepsSleep.sl_set_core s core
        { s.core_eu core with sync_irq := (s.core_eu core).pending_irq } (fun k => k)).sl_trans
        (KeepsSleep.sl_of_same rfl) (hall kc)
    · exact hall kc
  · rw [if_neg hact] at h
    split at h
    · rename_i hirq
      have kc : s.sleep_ok_at core := fun _ _ => hirq.2
      split at h <;> cases h
      · have e1 : KeepsSleep s (s.event_enqueue core Clock_event_kind.irq_wakeup_event
            EU_WAKEUP_LATENCY) := KeepsSleep.sl_of_same rfl
        exact (e1.sl_trans (KeepsSleep.sl_set_core _ core
          { (s.event_enqueue core Clock_event_kind.irq_wakeup_event
              EU_WAKEUP_LATENCY).core_eu core with sync_irq := -1 } (fun k => k))) (hall kc)
      · exact hall kc
    · split at h
      · rename_i hnone
        cases h
        exact hall (fun _ hs => absurd hnone hs)
      · split at h
        · rw [Option.bind_eq_some] at h
          obtain ⟨s3, h3, h4⟩ := h
          have k1 : (s.set_core core { s.core_eu core with state := CORE_STATE_NONE }).sleep_ok := by
            intro i
            by_cases hi : i = core
            · subst hi
              exact State.sleep_ok_at_set_self s i _ (fun _ hs => absurd rfl hs)
            · exact State.sleep_ok_at_set_ne s core _ i hi (k i hi)
          have k3 := check_wait_mask_with_sok cfg cs hcs core _ s3 h3 k1
          split at h4 <;> cases h4
          · exact KeepsSleep.sl_of_same (s := s3) rfl k3
          · exact k3
        · rename_i hev
          cases h
          exact hall (fun _ _ => by simpa using hev)

end keeps_sleep

theorem check_state_fuel_sok (cfg : Config) : ∀ (fuel core : Nat) (s s' : State),
    check_state_fuel cfg fuel core s = some s' → (∀ i, i ≠ core → s.sleep_ok_at i) →
    s'.sleep_ok := by
  intro fuel
  induction fuel with
  | zero => intro core s s' h; cases h
  | succ n ih =>
    intro core s s' h
    exact check_state_body_sok cfg (check_state_fuel cfg n) (fun j => ih j) core s s' h

/-- Whatever the re-check of a core returns, no core has missed an event
afterwards, provided no other core had before. -/
theorem check_state_sok (cfg : Config) (core : Nat) (s s' : State)
    (h : Core_event_unit.check_state cfg core s = some s')
    (k : ∀ i, i ≠ core → s.sleep_ok_at i) : s'.sleep_ok :=
  check_state_fuel_sok cfg _ core s s' h k

theorem check_state_keeps_sleep (cfg : Config) (core : Nat) (s s' : State)
    (h : Core_event_unit.check_state cfg core s = some s') : KeepsSleep s s' :=
  fun k => check_state_sok cfg core s s' h (fun i _ => k i)

/-- A change of the fields of one core followed by its re-check. -/
theorem set_check_sok (cfg : Config) (core : Nat) (c : Core_event_unit) (s s' : State)
    (h : Core_event_unit.check_state cfg core (s.set_core core c) = some s') :
    KeepsSleep s s' :=
  fun k => check_state_sok cfg core _ s' h
    (fun i hi => State.sleep_ok_at_set_ne s core c i hi (k i))

theorem send_event_sok (cfg : Config) (core m : Nat) (s s' : State)
    (h : Event_unit.send_event cfg core m s = some s') : KeepsSleep s s' :=
  send_event_with_sok _ (check_state_sok cfg) core m s s' h

theorem trigger_event_sok (cfg : Config) (m : Nat) (core_mask : List Nat) (s s' : State)
    (h : Event_unit.trigger_event cfg m core_mask s = some s') : KeepsSleep s s' :=
  trigger_event_with_sok cfg _ (check_state_sok cfg) m core_mask s s' h

theorem soc_check_state_sok (cfg : Config) (s s' : State)
    (h : Soc_event_unit.check_state cfg s = some s') : KeepsSleep s s' :=
  soc_check_state_with_sok cfg _ (check_state_sok cfg) s s' h

theorem clear_status_sok (cfg : Config) (core m : Nat) (s s' : State)
    (h : Core_event_unit.clear_status cfg core m s = some s') : KeepsSleep s s' :=
  clear_status_with_sok cfg _ (check_state_sok cfg) core m s s' h

theorem check_wait_mask_sok (cfg : Config) (core : Nat) (s s' : State)
    (h : Core_event_unit.check_wait_mask cfg core s = some s') : KeepsSleep s s' :=
  check_wait_mask_with_sok cfg _ (check_state_sok cfg) core s s' h

theorem send_event_all_sok (cfg : Config) (m : Nat) (s s' : State)
    (h : Event_unit.send_event_all cfg m s = some s') : KeepsSleep s s' :=
  option_foldlM_keeps _ KeepsSleep KeepsSleep.sl_refl (fun _ _ _ => KeepsSleep.sl_trans) _
    (fun j _ st st' hst => send_event_sok cfg j m st st' hst) s s' h

/-- The wait primitive lets no core miss an event. -/
theorem wait_event_sok (cfg : Config) (core req : Nat) (ws : Event_unit_core_state_e)
    (s : State) (r : io_req_status_e × State)
    (h : Core_event_unit.wait_event cfg core req ws s = some r) : KeepsSleep s r.2 := by
  have h0 : KeepsSleep s (s.inc_latency req EU_WAKEUP_REQ_LATENCY) := KeepsSleep.sl_of_same rfl
  unfold Core_event_unit.wait_event at h
  dsimp only at h
  split at h
  · rw [Option.bind_eq_some] at h
    obtain ⟨s1, h1, h2⟩ := h
    cases h2
    refine (h0.sl_trans (check_wait_mask_sok cfg core _ s1 h1)).sl_trans ?_
    exact (KeepsSleep.sl_set_core s1 core { s1.core_eu core with pending_req := some req }
      (fun k => k)).sl_trans (KeepsSleep.sl_of_same rfl)
  · rename_i hmask
    cases h
    refine h0.sl_trans ?_
    unfold Core_event_unit.put_to_sleep
    dsimp only
    obtain ⟨t, ht⟩ : ∃ t : State, t = s.inc_latency req EU_WAKEUP_REQ_LATENCY := ⟨_, rfl⟩
    rw [← ht] at hmask ⊢
    have key : ((t.set_core core
        { t.core_eu core with state := ws, is_active := false }).emit
          (Output.clock_sync core false)).set_core core
        { ((t.set_core core { t.core_eu core with state := ws, is_active := false }).emit
            (Output.clock_sync core false)).core_eu core with pending_req := some req } =
        (t.set_core core
          { t.core_eu core with state := ws, is_active := false, pending_req := some req }).emit
          (Output.clock_sync core false) := by
      simp [State.set_core, State.emit]
    rw [key]
    refine (KeepsSleep.sl_set_core t core
      { t.core_eu core with state := ws, is_active := false, pending_req := some req }
      ?_).sl_trans (KeepsSleep.sl_of_same rfl)
    intro _ _ _
    show (t.core_eu core).status &&& (t.core_eu core).evt_mask = 0
    rw [Nat.land_comm]
    simpa using hmask

theorem sl_bind_ok (s t : State) (x : Option State) (st : io_req_status_e)
    (ht : KeepsSleep s t) (hx : ∀ s1, x = some s1 → KeepsSleep t s1) :
    ∀ r : io_req_status_e × State, (x.bind fun s1 => some (st, s1)) = some r →
      KeepsSleep s r.2 :=
  ret_bind (KeepsSleep s) _ _ _ (fun a ha => ht.sl_trans (hx a ha)) (fun _ ha => ret_some _ _ ha)

theorem sl_wait_data (cfg : Config) (core req : Nat) (ws : Event_unit_core_state_e)
    (s t : State) (ht : KeepsSleep s t) :
    ∀ r : io_req_status_e × State,
      ((Core_event_unit.wait_event cfg core req ws t).bind fun r =>
        some (r.1, r.2.set_req_data req
          ((r.2.core_eu core).evt_mask &&& (r.2.core_eu core).status))) = some r →
      KeepsSleep s r.2 := by
  refine ret_bind (fun r => KeepsSleep s r.2) _ _ _
    (fun a ha => ht.sl_trans (wait_event_sok cfg core req ws t a ha)) ?_
  intro a k
  exact ret_some _ _ (k.sl_trans (KeepsSleep.sl_of_same rfl))

/-- A change of fields of a core other than its status, event mask, state and
active flag. -/
theorem sl_mask (s : State) (core : Nat) (c : Core_event_unit)
    (h1 : c.status = (s.core_eu core).status) (h2 : c.evt_mask = (s.core_eu core).evt_mask)
    (h3 : c.state = (s.core_eu core).state)
    (h4 : c.is_active = (s.core_eu core).is_active) : KeepsSleep s (s.set_core core c) := by
  refine KeepsSleep.sl_set_core s core c ?_
  unfold State.sleep_ok_at
  rw [h1, h2, h3, h4]
  exact fun k => k

theorem sl_mask_of (s t : State) (hc : t.core_eu = s.core_eu) (core : Nat) (c : Core_event_unit)
    (h1 : c.status = (t.core_eu core).status) (h2 : c.evt_mask = (t.core_eu core).evt_mask)
    (h3 : c.state = (t.core_eu core).state)
    (h4 : c.is_active = (t.core_eu core).is_active) : KeepsSleep s (t.set_core core c) :=
  (KeepsSleep.sl_of_same hc).sl_trans (sl_mask t core c h1 h2 h3 h4)

theorem sl_set_check (cfg : Config) (core : Nat) (c : Core_event_unit) (s : State)
    (st : io_req_status_e) :
    ∀ r : io_req_status_e × State,
      ((Core_event_unit.check_state cfg core (s.set_core core c)).bind
        fun s1 => some (st, s1)) = some r → KeepsSleep s r.2 :=
  ret_bind (KeepsSleep s) _ _ _ (fun a ha => set_check_sok cfg core c s a ha)
    (fun _ ha => ret_some _ _ ha)

/-- Whatever an access to the register block of a core returns, no core has
missed an event afterwards. -/
theorem core_req_sok (cfg : Config) (core req offset : Nat) (is_write : Bool) (s : State) :
    ∀ r, Core_event_unit.req cfg core req offset is_write s = some r → KeepsSleep s r.2 := by
  unfold Core_event_unit.req
  dsimp only
  repeat' apply ret_ite
  all_goals first
    | exact ret_some _ _ (KeepsSleep.sl_of_same rfl)
    | exact sl_set_check cfg core _ s _
    | exact sl_wait_data cfg core req _ s _ (KeepsSleep.sl_refl s)
    | exact sl_wait_data cfg core req _ s _
        (sl_mask s core _ (by rfl) (by rfl) (by rfl) (by rfl))
    | exact ret_bind (KeepsSleep s) _ _ _ (clear_status_sok cfg core _ s)
        (fun a ha => sl_bind_ok s a _ _ ha (fun s1 => check_state_keeps_sleep cfg core _ s1))

/-- Whatever an access to the mutex block returns, no core has missed an event
afterwards. -/
theorem mutex_req_sok (cfg : Config) (req offset : Nat) (is_write : Bool) (core : Nat)
    (s : State) :
    ∀ r, Mutex_unit.req cfg req offset is_write core s = some r → KeepsSleep s r.2 := by
  unfold Mutex_unit.req
  dsimp only
  apply ret_ite
  · exact ret_some _ _ (KeepsSleep.sl_refl s)
  apply ret_ite
  · apply ret_ite
    · exact ret_some _ _ (KeepsSleep.sl_of_same rfl)
    · intro r h
      refine KeepsSleep.sl_trans ?_ (wait_event_sok cfg _ _ _ _ r h)
      exact sl_mask_of s _ (by rfl) core _ (by rfl) (by rfl) (by rfl) (by rfl)
  · intro r h
    split at h
    · rw [Option.bind_eq_some] at h
      obtain ⟨s3, h3, h4⟩ := h
      cases h4
      exact (KeepsSleep.sl_of_same (by rfl)).sl_trans (send_event_sok cfg _ _ _ s3 h3)
    · cases h; exact KeepsSleep.sl_of_same rfl

/-- Whatever an access to the software event block returns, no core has missed
an event afterwards. -/
theorem sw_events_req_sok (cfg : Config) (req offset : Nat) (is_write : Bool)
    (core : Int) (s : State) :
    ∀ r, Event_unit.sw_events_req cfg req offset is_write core s = some r →
      KeepsSleep s r.2 := by
  unfold Event_unit.sw_events_req
  dsimp only
  repeat' apply ret_ite
  all_goals first
    | exact ret_some _ _ (KeepsSleep.sl_of_same rfl)
    | exact ret_bind (KeepsSleep s) _ _ _ (send_event_all_sok cfg _ s)
        (fun a ha => ret_some _ _ ha)
    | exact ret_bind (KeepsSleep s) _ _ _ (send_event_all_sok cfg _ s)
        (fun a ha => sl_wait_data cfg _ req _ s a ha)
    | exact ret_bind (KeepsSleep s) _ _ _ (send_event_all_sok cfg _ s)
        (fun a ha => sl_wait_data cfg _ req _ s _
          (ha.sl_trans (sl_mask a _ _ (by rfl) (by rfl) (by rfl) (by rfl))))

theorem check_barrier_sok (cfg : Config) (id : Nat) (s s' : State)
    (h : Barrier_unit.check_barrier cfg id s = some s') : KeepsSleep s s' := by
  unfold Barrier_unit.check_barrier at h
  dsimp only at h
  split at h
  · exact (KeepsSleep.sl_of_same (by rfl)).sl_trans (trigger_event_sok cfg _ _ _ s' h)
  · cases h; exact KeepsSleep.sl_refl s

/-- Whatever an access to the barrier block returns, no core has missed an event
afterwards. -/
theorem barrier_req_sok (cfg : Config) (req offset0 : Nat) (is_write : Bool)
    (core : Int) (s : State) :
    ∀ r, Barrier_unit.req cfg req offset0 is_write core s = some r → KeepsSleep s r.2 := by
  have kb : ∀ (t : State) (st : io_req_status_e), KeepsSleep s t →
      ∀ r, ((Barrier_unit.check_barrier cfg (cfg.archi.EU_BARRIER_AREA_BARRIERID_GET offset0)
        t).bind fun s1 => some (st, s1)) = some r → KeepsSleep s r.2 := by
    intro t st ht
    exact sl_bind_ok s t _ st ht (fun s1 => check_barrier_sok cfg _ t s1)
  have kw : ∀ (t : State), KeepsSleep s t →
      ∀ r, ((Barrier_unit.check_barrier cfg (cfg.archi.EU_BARRIER_AREA_BARRIERID_GET offset0)
        t).bind fun s2 =>
          Core_event_unit.wait_event cfg core.toNat req CORE_STATE_WAITING_BARRIER s2) = some r →
      KeepsSleep s r.2 := by
    intro t ht
    refine ret_bind (KeepsSleep s) _ _ _
      (fun a ha => ht.sl_trans (check_barrier_sok cfg _ t a ha)) ?_
    intro a ha r hr
    exact ha.sl_trans (wait_event_sok cfg _ _ _ a r hr)
  have hsel : ∀ (p : Prop) [Decidable p] (t : State), KeepsSleep s t →
      KeepsSleep s (if p then s else t) := by
    intro p _ t ht
    split
    · exact KeepsSleep.sl_refl s
    · exact ht
  unfold Barrier_unit.req
  dsimp only
  repeat' apply ret_ite
  all_goals first
    | exact ret_some _ _ (KeepsSleep.sl_of_same rfl)
    | exact kb _ _ (KeepsSleep.sl_of_same (by rfl))
    | exact kw _ (hsel _ _ (KeepsSleep.sl_of_same (by rfl)))
    | exact kw _ ((hsel _ _ (KeepsSleep.sl_of_same (by rfl))).sl_trans
        (sl_mask _ _ _ (by rfl) (by rfl) (by rfl) (by rfl)))

theorem ioReq_sok (cfg : Config) (req : Nat) (is_write : Bool) (s : State) :
    ∀ r, Soc_event_unit.ioReq cfg req is_write s = some r → KeepsSleep s r.2 := by
  unfold Soc_event_unit.ioReq
  dsimp only
  repeat' apply ret_ite
  all_goals first
    | exact ret_some _ _ (KeepsSleep.sl_of_same rfl)
    | exact sl_bind_ok s _ _ _ (KeepsSleep.sl_of_same (by rfl))
        (fun s1 => trigger_event_sok cfg _ _ _ s1)

theorem sync_sok (cfg : Config) (event : Int) (s s' : State)
    (h : Soc_event_unit.sync cfg event s = some s') : KeepsSleep s s' := by
  unfold Soc_event_unit.sync at h
  dsimp only at h
  split at h
  · cases h; exact KeepsSleep.sl_refl s
  · exact (KeepsSleep.sl_of_same (by rfl)).sl_trans (soc_check_state_sok cfg _ s' h)

theorem irq_ack_sync_sok (cfg : Config) (irq core : Nat) (s s' : State)
    (h : Core_event_unit.irq_ack_sync cfg irq core s = some s') : KeepsSleep s s' := by
  unfold Core_event_unit.irq_ack_sync at h
  rw [Option.bind_eq_some] at h
  obtain ⟨s1, h1, h2⟩ := h
  exact (clear_status_sok cfg core _ s s1 h1).sl_trans (set_check_sok cfg core _ s1 s' h2)

theorem in_event_sync_sok (cfg : Config) (id : Nat) (s s' : State)
    (h : Event_unit.in_event_sync cfg id s = some s') : KeepsSleep s s' :=
  set_check_sok cfg _ _ s s' h

theorem fire_sok (cfg : Config) (e : Clock_event) (s s' : State)
    (h : e.fire cfg s = some s') : KeepsSleep s s' := by
  have hw : ∀ o : Output, KeepsSleep s
      ((s.set_core e.core { s.core_eu e.core with is_active := true }).emit o) := by
    intro o
    exact (KeepsSleep.sl_set_core s e.core { s.core_eu e.core with is_active := true }
      (fun _ ha => absurd ha (by simp))).sl_trans (KeepsSleep.sl_of_same rfl)
  unfold Clock_event.fire at h
  split at h
  · unfold Core_event_unit.wakeup_handler at h
    dsimp only at h
    rw [Option.bind_eq_some] at h
    obtain ⟨s2, h2, h3⟩ := h
    unfold Core_event_unit.check_pending_req at h2
    split at h2
    · cases h2
      refine KeepsSleep.sl_trans ?_ (check_state_keeps_sleep cfg _ _ s' h3)
      exact (hw (Output.clock_sync e.core true)).sl_trans (KeepsSleep.sl_of_same (by rfl))
    · cases h2
  · unfold Core_event_unit.irq_wakeup_handler at h
    dsimp only at h
    refine KeepsSleep.sl_trans ?_ (check_state_keeps_sleep cfg _ _ s' h)
    exact hw (Output.clock_sync e.core true)

theorem tick_sok (cfg : Config) (s s' : State) (h : s.tick cfg = some s') :
    KeepsSleep s s' := by
  unfold State.tick at h
  dsimp only at h
  refine KeepsSleep.sl_trans ?_
    (option_foldlM_keeps _ KeepsSleep KeepsSleep.sl_refl (fun _ _ _ => KeepsSleep.sl_trans)
      _ (fun e _ st st' hst => fire_sok cfg e st st' hst) _ s' h)
  exact KeepsSleep.sl_of_same rfl

theorem reset_sok (cfg : Config) (active : Bool) (s : State) :
    KeepsSleep s (Event_unit.reset cfg active s) := by
  cases active
  · exact KeepsSleep.sl_refl s
  · have h1 := foldl_keeps (fun st i => Core_event_unit.reset i st) KeepsSleep
      KeepsSleep.sl_refl (fun _ _ _ => KeepsSleep.sl_trans)
      (fun st j => (KeepsSleep.sl_set_core st j
        { st.core_eu j with
          status := 0, evt_mask := 0, irq_mask := 0, clear_evt_mask := 0, sync_irq := -1,
          state := CORE_STATE_NONE }
        (fun _ _ hs => absurd rfl hs)).sl_trans (KeepsSleep.sl_of_same rfl))
      (List.range cfg.nb_core) s
    have h2 := foldl_keeps
      (fun st i =>
        st.set_barrier i
          { core_mask := List.replicate (st.barriers i).core_mask.length 0
            status := List.replicate (st.barriers i).status.length 0
            target_mask := List.replicate (st.barriers i).target_mask.length 0 }) KeepsSleep
      KeepsSleep.sl_refl (fun _ _ _ => KeepsSleep.sl_trans)
      (fun _ _ => KeepsSleep.sl_of_same rfl)
      (List.range cfg.nb_barriers)
      ((List.range cfg.nb_core).foldl (fun st i => Core_event_unit.reset i st) s)
    have h3 := foldl_keeps (fun st i => st.set_mutex i (st.mutexes i).reset) KeepsSleep
      KeepsSleep.sl_refl (fun _ _ _ => KeepsSleep.sl_trans)
      (fun _ _ => KeepsSleep.sl_of_same rfl)
      (List.range cfg.nb_mutexes)
      (Barrier_unit.reset cfg
        ((List.range cfg.nb_core).foldl (fun st i => Core_event_unit.reset i st) s))
    exact ((h1.sl_trans h2).sl_trans h3).sl_trans (KeepsSleep.sl_of_same rfl)

/-- Every step of a well-formed action lets no core miss an event. -/
theorem step_sleep_ok (cfg : Config) (a : Action) (s s' : State) (hwf : a.well_formed cfg)
    (h : a.step cfg s = some s') (k : s.sleep_ok) : s'.sleep_ok :=
  step_cases cfg KeepsSleep KeepsSleep.sl_refl (fun _ _ _ => KeepsSleep.sl_trans)
    (fun _ _ _ => KeepsSleep.sl_of_same rfl)
    (fun s c r off w x _ hx => core_req_sok cfg c r off w s x hx)
    (fun s c r off w x _ hx => mutex_req_sok cfg r off w c s x hx)
    (fun s c r off w x _ hx => sw_events_req_sok cfg r off w c s x hx)
    (fun s c r off w x _ hx => barrier_req_sok cfg r off w c s x hx)
    (fun s r w x hx => ioReq_sok cfg r w s x hx)
    (fun s ev s' hs => sync_sok cfg ev s s' hs)
    (fun s irq c s' _ hs => irq_ack_sync_sok cfg irq c s s' hs)
    (fun s id s' _ hs => in_event_sync_sok cfg id s s' hs)
    (fun s active => reset_sok cfg active s)
    (fun s s' hs => tick_sok cfg s s' hs) a s s' hwf h k

/-- In every state that the unit reaches from its reset, a core asleep in a
waiting state has no masked event latched. -/
theorem reachable_sleep_ok (cfg : Config) (s : State) (h : Reachable cfg s) : s.sleep_ok := by
  induction h with
  | init s0 hp =>
    obtain ⟨_, ha, _⟩ := reset_leaves cfg true s0
    intro i hact
    rw [ha, hp.2.1 i] at hact
    exact absurd hact (by decide)
  | step s1 s2 a _ hwf hstep ih => exact step_sleep_ok cfg a s1 s2 hwf hstep ih

/-- C2: for every core and every state with `status & evt_mask != 0`, a read of
the wait register does not put the core to sleep: the access returns, the active
flag is unchanged, no clock-gate output is driven (the only outputs of the
access are IRQ line updates), and the latency of the request grows by exactly 6
(`EU_WAKEUP_REQ_LATENCY`); in every state that the unit reaches from its reset
the wait state is unchanged as well (`reachable_sleep_ok`: a core asleep in a
waiting state has no masked event latched, so the reading core is awake or in
`CORE_STATE_NONE`). -/
theorem C2_wait_with_event_does_not_suspend (cfg : Config) (core req : Nat) (s : State)
    (hregs : cfg.archi.core_regs.Nodup)
    (hmask : (s.core_eu core).status &&& (s.core_eu core).evt_mask ≠ 0) :
    ∃ r s', Core_event_unit.req cfg core req cfg.archi.EU_CORE_EVENT_WAIT false s = some (r, s') ∧
      (s'.core_eu core).is_active = (s.core_eu core).is_active ∧
      (∃ added, s'.out = s.out ++ added ∧ ∀ c v, Output.clock_sync c v ∉ added) ∧
      s'.req_latency req = s.req_latency req + 6 ∧
      (Reachable cfg s → (s'.core_eu core).state = (s.core_eu core).state) := by
  obtain ⟨r, s', h1, h2, h3, h4, h5⟩ := wait_with_event_spec cfg core req s hregs hmask
  refine ⟨r, s', h1, h2, h3, h4, fun hr => h5 ?_⟩
  have k := reachable_sleep_ok cfg s hr core
  by_cases hact : (s.core_eu core).is_active = true
  · exact Or.inl hact
  · by_cases hst : (s.core_eu core).state = CORE_STATE_NONE
    · exact Or.inr hst
    · exact absurd (k (by simpa using hact) hst) hmask

/-- C2 at a concrete input: on the demo unit after its reset, core 0 enables
event 0 and event 0 arrives; core 0, running with `status = evt_mask = 1`, then
reads its wait register with request 7. -/
theorem C2_wait_with_event_does_not_suspend_witness :
    ∃ s, run demo_cfg [Action.demux_req 0 5 0x00 4 true 1, Action.in_event_sync 0]
        (Event_unit.reset demo_cfg true demo_state) = some s ∧
      ∃ r s', Core_event_unit.req demo_cfg 0 7 demo_cfg.archi.EU_CORE_EVENT_WAIT false s =
          some (r, s') ∧
        (s'.core_eu 0).is_active = (s.core_eu 0).is_active ∧
        (∃ added, s'.out = s.out ++ added ∧ ∀ c v, Output.clock_sync c v ∉ added) ∧
        s'.req_latency 7 = s.req_latency 7 + 6 ∧
        (s'.core_eu 0).state = (s.core_eu 0).state := by
  have hsome : (run demo_cfg [Action.demux_req 0 5 0x00 4 true 1, Action.in_event_sync 0]
      (Event_unit.reset demo_cfg true demo_state)).map
        (fun s => (s.core_eu 0).status &&& (s.core_eu 0).evt_mask) = some 1 := by decide
  rw [Option.map_eq_some'] at hsome
  obtain ⟨s, hs, hq⟩ := hsome
  have hr : Reachable demo_cfg s := by
    refine reachable_run demo_cfg _ _ s (Reachable.init demo_state demo_state_power_on) ?_ hs
    intro a ha
    simp only [List.mem_cons, List.mem_singleton, List.not_mem_nil, or_false] at ha
    rcases ha with rfl | rfl <;> simp [Action.well_formed, demo_cfg]
  obtain ⟨r, s', h1, h2, h3, h4, h5⟩ :=
    C2_wait_with_event_does_not_suspend demo_cfg 0 7 s (by decide) (by rw [hq]; decide)
  exact ⟨s, hs, r, s', h1, h2, h3, h4, h5 hr⟩

/-- C4 fails as stated, on two runs of the demo unit from its reset. First run:
core 0 enables event 0, event 0 arrives, and core 0 reads its wait register with
request 7 (the generic wake-up is enqueued for cycle 2); the slave port clears
the status of core 0 and reads the wait register of core 0 with request 8, which
puts the core to sleep with `status & evt_mask == 0` while that wake-up is still
enqueued. After one tick event 0 arrives at cycle 1: no wake-up is added, and
the tick to cycle 2 answers request 8, one cycle after the event and not two.
Second run: core 0 enables event 0 and IRQ 1 and reads its wait register with
request 7, which puts it to sleep; event 1 arrives and the IRQ wake-up restarts
the clock of the core at cycle 2, the core staying in its waiting state; event 0
then arrives at cycle 2: no wake-up is enqueued, and at cycle 4 request 7 has
not been answered. -/
theorem C4_counterexample :
    (run demo_cfg
      [Action.demux_req 0 5 0x00 4 true 1, Action.in_event_sync 0,
        Action.demux_req 0 7 0x38 4 false 0, Action.req 6 0x28 4 true 1,
        Action.req 8 0x38 4 false 0, Action.tick]
      (Event_unit.reset demo_cfg true demo_state)).map
        (fun s => ((s.core_eu 0).is_active, (s.core_eu 0).state,
          (s.core_eu 0).status &&& (s.core_eu 0).evt_mask, (s.core_eu 0).pending_req)) =
      some (false, CORE_STATE_WAITING_EVENT, 0, some 8) ∧
    (run demo_cfg
      [Action.demux_req 0 5 0x00 4 true 1, Action.in_event_sync 0,
        Action.demux_req 0 7 0x38 4 false 0, Action.req 6 0x28 4 true 1,
        Action.req 8 0x38 4 false 0, Action.tick, Action.in_event_sync 0]
      (Event_unit.reset demo_cfg true demo_state)).map
        (fun s => (s.cycles, s.wakeups_of 0, s.resps_of 0)) =
      some (1, [⟨2, 0, Clock_event_kind.wakeup_event⟩], []) ∧
    (run demo_cfg
      [Action.demux_req 0 5 0x00 4 true 1, Action.in_event_sync 0,
        Action.demux_req 0 7 0x38 4 false 0, Action.req 6 0x28 4 true 1,
        Action.req 8 0x38 4 false 0, Action.tick, Action.in_event_sync 0, Action.tick]
      (Event_unit.reset demo_cfg true demo_state)).map
        (fun s => (s.cycles, s.wakeups_of 0, s.resps_of 0)) =
      some (2, [], [Output.resp 0 8 0]) ∧
    (run demo_cfg
      [Action.demux_req 0 5 0x00 4 true 1, Action.demux_req 0 5 0x0c 4 true 2,
        Action.demux_req 0 7 0x38 4 false 0, Action.in_event_sync 1, Action.tick, Action.tick]
      (Event_unit.reset demo_cfg true demo_state)).map
        (fun s => ((s.core_eu 0).is_active, (s.core_eu 0).state,
          (s.core_eu 0).status &&& (s.core_eu 0).evt_mask, (s.core_eu 0).pending_req)) =
      some (true, CORE_STATE_WAITING_EVENT, 0, some 7) ∧
    (run demo_cfg
      [Action.demux_req 0 5 0x00 4 true 1, Action.demux_req 0 5 0x0c 4 true 2,
        Action.demux_req 0 7 0x38 4 false 0, Action.in_event_sync 1, Action.tick, Action.tick,
        Action.in_event_sync 0]
      (Event_unit.reset demo_cfg true demo_state)).map
        (fun s => (s.cycles, (s.core_eu 0).status &&& (s.core_eu 0).evt_mask, s.events)) =
      some (2, 1, []) ∧
    (run demo_cfg
      [Action.demux_req 0 5 0x00 4 true 1, Action.demux_req 0 5 0x0c 4 true 2,
        Action.demux_req 0 7 0x38 4 false 0, Action.in_event_sync 1, Action.tick, Action.tick,
        Action.in_event_sync 0, Action.tick, Action.tick]
      (Event_unit.reset demo_cfg true demo_state)).map
        (fun s => (s.cycles, (s.core_eu 0).pending_req, s.resps_of 0)) =
      some (4, some 7, []) := by
  refine ⟨?_, ?_, ?_, ?_, ?_, ?_⟩ <;> decide!

end EventUnit
